import Mathlib

/-!
Verification development for the r2pickledec pickle decompiler
(src/pickle_dec.c, src/dump.c).

The C code builds a shared, possibly cyclic object graph through pointers.
We embed it with an explicit heap: objects (`PyObj`) and operation records
(`PyOper`) live in lists indexed by `Nat` ids, and every C pointer becomes
an id.  Machine integers (`ut64`, `st64`) become `Nat`/`Int`; the sentinel
`UT64_MAX` is the number 2^64 - 1.  C functions returning `bool` while
mutating state in place become functions returning `Bool × State` (the
state at return time, also on failure, since the caller keeps using it).
Graph recursions that terminate in C by generation marking or that may
not terminate at all are given a fuel parameter; `none` means the C code
did not return (ran forever or crashed), `some (b, st)` means it returned
`b` in state `st`.

The opcode byte values and the `PyOp` constants come from the pickle
protocol (the repository headers `pyobjutil.h`, `dump.h`, `json_dump.h`
are not part of src/); the byte sequences given in the specification
(e.g. `]\x94h\x00a.` = EMPTY_LIST MEMOIZE BINGET APPEND STOP) fix them.
-/

/-- `UT64_MAX`, the "unset" sentinel used for `memo_id`. -/
def UT64MAX : Nat := 2 ^ 64 - 1

/-- Object variants, from the `PyType` enum (header missing from src/;
variant set read off the switches in pickle_dec.c and dump.c). -/
inductive PyType where
  | PY_NOT_RIGHT
  | PY_NONE
  | PY_BOOL
  | PY_INT
  | PY_FLOAT
  | PY_STR
  | PY_TUPLE
  | PY_LIST
  | PY_SET
  | PY_FROZEN_SET
  | PY_DICT
  | PY_FUNC
  | PY_WHAT
  | PY_SPLIT
deriving DecidableEq, Repr, Inhabited

open PyType

/-- Operation codes recorded on a `What`.  exec_op passes the raw opcode
byte as the `PyOp` for REDUCE/BUILD/NEWOBJ, so these constants must equal
the opcode bytes; `OP_FAKE_INIT` is a distinct value outside the byte
range (header missing from src/, value irrelevant beyond distinctness). -/
abbrev PyOp := Nat

def OP_FAKE_INIT : PyOp := 256

-- opcode bytes (pickle protocol)
def OP_MARK : Nat := 0x28
def OP_EMPTY_TUPLE : Nat := 0x29
def OP_STOP : Nat := 0x2e
def OP_POP : Nat := 0x30
def OP_POP_MARK : Nat := 0x31
def OP_DUP : Nat := 0x32
def OP_BINBYTES : Nat := 0x42
def OP_SHORT_BINBYTES : Nat := 0x43
def OP_FLOAT : Nat := 0x46
def OP_BINFLOAT : Nat := 0x47
def OP_INT : Nat := 0x49
def OP_BININT : Nat := 0x4a
def OP_BININT1 : Nat := 0x4b
def OP_LONG : Nat := 0x4c
def OP_BININT2 : Nat := 0x4d
def OP_NONE : Nat := 0x4e
def OP_PERSID : Nat := 0x50
def OP_BINPERSID : Nat := 0x51
def OP_REDUCE : Nat := 0x52
def OP_STRING : Nat := 0x53
def OP_BINSTRING : Nat := 0x54
def OP_SHORT_BINSTRING : Nat := 0x55
def OP_UNICODE : Nat := 0x56
def OP_BINUNICODE : Nat := 0x58
def OP_EMPTY_LIST : Nat := 0x5d
def OP_APPEND : Nat := 0x61
def OP_BUILD : Nat := 0x62
def OP_GLOBAL : Nat := 0x63
def OP_DICT : Nat := 0x64
def OP_APPENDS : Nat := 0x65
def OP_GET : Nat := 0x67
def OP_BINGET : Nat := 0x68
def OP_INST : Nat := 0x69
def OP_LONG_BINGET : Nat := 0x6a
def OP_LIST : Nat := 0x6c
def OP_OBJ : Nat := 0x6f
def OP_PUT : Nat := 0x70
def OP_BINPUT : Nat := 0x71
def OP_LONG_BINPUT : Nat := 0x72
def OP_SETITEM : Nat := 0x73
def OP_TUPLE : Nat := 0x74
def OP_SETITEMS : Nat := 0x75
def OP_EMPTY_DICT : Nat := 0x7d
def OP_PROTO : Nat := 0x80
def OP_NEWOBJ : Nat := 0x81
def OP_EXT1 : Nat := 0x82
def OP_EXT2 : Nat := 0x83
def OP_EXT4 : Nat := 0x84
def OP_TUPLE1 : Nat := 0x85
def OP_TUPLE2 : Nat := 0x86
def OP_TUPLE3 : Nat := 0x87
def OP_NEWTRUE : Nat := 0x88
def OP_NEWFALSE : Nat := 0x89
def OP_LONG1 : Nat := 0x8a
def OP_LONG4 : Nat := 0x8b
def OP_SHORT_BINUNICODE : Nat := 0x8c
def OP_BINUNICODE8 : Nat := 0x8d
def OP_BINBYTES8 : Nat := 0x8e
def OP_EMPTY_SET : Nat := 0x8f
def OP_ADDITEMS : Nat := 0x90
def OP_FROZENSET : Nat := 0x91
def OP_NEWOBJ_EX : Nat := 0x92
def OP_STACK_GLOBAL : Nat := 0x93
def OP_MEMOIZE : Nat := 0x94
def OP_FRAME : Nat := 0x95
def OP_BYTEARRAY8 : Nat := 0x96
def OP_NEXT_BUFFER : Nat := 0x97
def OP_READONLY_BUFFER : Nat := 0x98

/-- A reconstructed object (struct `PyObj`; the union payload becomes a
set of fields, only the one selected by `type` is meaningful).  Pointers
to objects are object ids, pointers to opers are oper ids. -/
structure PyObj where
  type : PyType := PY_NOT_RIGHT
  offset : Nat := 0
  memo_id : Nat := UT64MAX
  refcnt : Int := 0
  varname : Option String := none
  recurse : Nat := 0
  py_bool : Bool := false
  py_int : Int := 0
  py_float : Rat := 0
  py_str : String := ""
  py_iter : List Nat := []
  py_what : List Nat := []
  func_module : Nat := 0
  func_name : Nat := 0
  reduce : Option Nat := none
deriving DecidableEq, Repr, Inhabited

/-- One operation record of a `What` (struct `PyOper`). -/
structure PyOper where
  op : PyOp := 0
  offset : Nat := 0
  refcnt : Int := 0
  stack : List Nat := []
deriving DecidableEq, Repr, Inhabited

/-- The machine state (struct `PMState`), plus the two heaps holding the
objects and opers that C kept behind pointers.  The memo is an
association list (radare's `ht_up` with `update` = replace-or-insert);
values may be null (`none`), since `memo_put` stores whatever
`obj_stack_peek` returned. -/
structure PMState where
  objs : List PyObj := []
  opers : List PyOper := []
  stack : List Nat := []
  metastack : List (List Nat) := []
  popstack : List Nat := []
  memo : List (Nat × Option Nat) := []
  offset : Nat := 0
  start : Nat := 0
  ver : Int := 0
  recurse : Nat := 0
  verbose : Bool := false
  break_on_stop : Bool := false
deriving DecidableEq, Repr, Inhabited

/-- Read an object from a heap of objects (dereference an object id). -/
def getO (objs : List PyObj) (i : Nat) : PyObj := objs.getD i default

/-- Dereference an object id in a machine state. -/
def getObj (s : PMState) (i : Nat) : PyObj := getO s.objs i

/-- Write through an object id. -/
def setObj (s : PMState) (i : Nat) (o : PyObj) : PMState :=
  { s with objs := s.objs.set i o }

/-- Dereference an oper id. -/
def getOper (s : PMState) (p : Nat) : PyOper := s.opers.getD p default

/-- Write through an oper id. -/
def setOper (s : PMState) (p : Nat) (o : PyOper) : PMState :=
  { s with opers := s.opers.set p o }

/-- Allocate a fresh object, returning its id. -/
def allocObj (s : PMState) (o : PyObj) : Nat × PMState :=
  (s.objs.length, { s with objs := s.objs ++ [o] })

/-- Allocate a fresh oper, returning its id. -/
def allocOper (s : PMState) (o : PyOper) : Nat × PMState :=
  (s.opers.length, { s with opers := s.opers ++ [o] })

/-- `py_obj_free`: decrement the reference count and free at zero.  The
memory release itself is not modelled (heap entries are never removed);
only the refcount write is kept, since nothing in the code branches on a
freed object's contents afterwards on a successful path. -/
def py_obj_free (s : PMState) (i : Nat) : PMState :=
  setObj s i { getObj s i with refcnt := (getObj s i).refcnt - 1 }

/-- `pyop_free` (refcount part, as for `py_obj_free`). -/
def pyop_free (s : PMState) (p : Nat) : PMState :=
  setOper s p { getOper s p with refcnt := (getOper s p).refcnt - 1 }

/-- `py_obj_new`. -/
def py_obj_new (s : PMState) (t : PyType) : Nat × PMState :=
  allocObj s { type := t, offset := s.offset, memo_id := UT64MAX }

/-- `obj_stack_peek`: return the id on top of a stack; with `dup` the
refcount of that object is incremented. -/
def obj_stack_peek (s : PMState) (stk : List Nat) (dup : Bool) :
    Option Nat × PMState :=
  match stk.getLast? with
  | none => (none, s)
  | some i =>
    if dup then
      (some i, setObj s i { getObj s i with refcnt := (getObj s i).refcnt + 1 })
    else (some i, s)

/-- `py_oper_new` (the alloc failure branch is not reachable in the
model, so the result is always an id). -/
def py_oper_new (s : PMState) (op : PyOp) : Nat × PMState :=
  allocOper s { op := op, offset := s.offset }

/-- `py_what_new`: build a `What` whose first oper is `FAKE_INIT` holding
exactly the pre-upgrade object. -/
def py_what_new (s : PMState) (obj : Nat) : Nat × PMState :=
  let (wat, s) := py_obj_new s PY_WHAT
  let (pop, s) := allocOper s { op := OP_FAKE_INIT, offset := s.offset, stack := [obj] }
  let s := setObj s wat { getObj s wat with py_what := [pop] }
  (wat, s)

/-- The memo (`ht_up`) `update` operation: replace the value under an
existing key, else insert. -/
def memoUpdate (m : List (Nat × Option Nat)) (k : Nat) (v : Option Nat) :
    List (Nat × Option Nat) :=
  match m with
  | [] => [(k, v)]
  | (k', v') :: rest =>
    if k' = k then (k, v) :: rest else (k', v') :: memoUpdate rest k v

/-- The memo (`ht_up`) `find` operation.  A slot holding a null value and
a missing slot both yield `none`, exactly as `ht_up_find` returns `NULL`
in both cases. -/
def memoFind (m : List (Nat × Option Nat)) (k : Nat) : Option Nat :=
  match m with
  | [] => none
  | (k', v') :: rest => if k' = k then v' else memoFind rest k

/-- `stack_top_to_what`: turn the object at the top of the given stack
into a `PY_WHAT` (in place) if it is not already one.  Returns the id of
the `What`, the updated stack, and the state. -/
def stack_top_to_what (s : PMState) (stk : List Nat) :
    Option Nat × List Nat × PMState :=
  match stk.getLast? with
  | none => (none, stk, s)
  | some top =>
    if (getObj s top).type = PY_WHAT then (some top, stk, s)
    else
      match py_what_new s top with
      | (wat, s) => (some wat, stk.dropLast ++ [wat], s)

/-- `py_what_addop_stack`: record a mark-bounded operation: the whole
current stack becomes the oper's argument list, the previous stack is
restored, and the oper is appended to the `What` at its top. -/
def py_what_addop_stack (s : PMState) (op : PyOp) : Bool × PMState :=
  match s.metastack.getLast? with
  | none => (false, s)
  | some oldstack =>
    match py_oper_new { s with metastack := s.metastack.dropLast } op with
    | (pop, s) =>
      match stack_top_to_what s oldstack with
      | (none, _, s) => (false, pyop_free s pop)
      | (some obj, oldstack', s) =>
        let s := setObj s obj
          { getObj s obj with py_what := (getObj s obj).py_what ++ [pop] }
        let s := setOper s pop { getOper s pop with stack := s.stack }
        (true, { s with stack := oldstack' })

/-- `list_pop_n`: pop `n` elements off the main stack, keeping their
original order; requires more than `n` elements (an element must remain
below). -/
def list_pop_n (s : PMState) (n : Nat) : Option (List Nat) × PMState :=
  if s.stack.length > n then
    (some (s.stack.drop (s.stack.length - n)),
     { s with stack := s.stack.take (s.stack.length - n) })
  else (none, s)

/-- The unconditional tail of `itter_add_split`: append `split` to the
already-trimmed iterable `it` and take a reference on the split. -/
def itter_add_split_core (s : PMState) (c : Nat) (it : List Nat)
    (split : Nat) : Bool × PMState :=
  let s := setObj s c { getObj s c with py_iter := it ++ [split] }
  let s := setObj s split
    { getObj s split with refcnt := (getObj s split).refcnt + 1 }
  (true, s)

/-- `itter_add_split`: append `split` to the container's iterable; a
trailing `PY_SPLIT` element is popped (and freed) first, so two splits
never stand at the end together. -/
def itter_add_split (s : PMState) (c : Nat) (split : Nat) : Bool × PMState :=
  match (getObj s c).py_iter.getLast? with
  | some lastid =>
    if (getObj s lastid).type = PY_SPLIT then
      itter_add_split_core (py_obj_free s lastid) c
        (getObj s c).py_iter.dropLast split
    else itter_add_split_core s c (getObj s c).py_iter split
  | none => itter_add_split_core s c (getObj s c).py_iter split

/-- `split_iter_recures`: run `add_splits` (passed as `f`, the recursive
call at one less fuel) over all elements of an iterable. -/
def split_iter_recures (f : PMState → Nat → Nat → Option (Bool × PMState))
    (s : PMState) (l : List Nat) (split : Nat) : Option (Bool × PMState) :=
  match l with
  | [] => some (true, s)
  | o :: rest =>
    match f s o split with
    | none => none
    | some (false, s) => some (false, s)
    | some (true, s) => split_iter_recures f s rest split

/-- `split_what_recures`: run `add_splits` over every element of every
oper's argument stack of a `What`. -/
def split_what_recures (f : PMState → Nat → Nat → Option (Bool × PMState))
    (s : PMState) (pops : List Nat) (split : Nat) : Option (Bool × PMState) :=
  match pops with
  | [] => some (true, s)
  | p :: rest =>
    match split_iter_recures f s (getOper s p).stack split with
    | none => none
    | some (false, s) => some (false, s)
    | some (true, s) => split_what_recures f s rest split

/-- The body of `add_splits`, parameterized by the recursive call.
Generation marking (`recurse`) skips previously seen objects; tuples are
only recursed into (modifying one would produce a `PY_WHAT`), mutable
containers additionally receive the split at their end. -/
def add_splits_marked (f : PMState → Nat → Nat → Option (Bool × PMState))
    (s : PMState) (obj split : Nat) : Option (Bool × PMState) :=
  match (getObj s obj).type with
  | PY_NOT_RIGHT | PY_INT | PY_STR | PY_BOOL | PY_NONE | PY_FLOAT
  | PY_FUNC | PY_SPLIT => some (true, s)
  | PY_LIST | PY_FROZEN_SET | PY_SET | PY_DICT | PY_TUPLE =>
    match split_iter_recures f s (getObj s obj).py_iter split with
    | none => none
    | some (false, s) => some (false, s)
    | some (true, s) =>
      if (getObj s obj).type = PY_TUPLE then some (true, s)
      else some (itter_add_split s obj split)
  | PY_WHAT => split_what_recures f s (getObj s obj).py_what split

def add_splits_body (f : PMState → Nat → Nat → Option (Bool × PMState))
    (s : PMState) (obj split : Nat) : Option (Bool × PMState) :=
  if (getObj s obj).recurse = s.recurse then some (true, s)
  else
    add_splits_marked f
      (setObj s obj { getObj s obj with recurse := s.recurse }) obj split

/-- `add_splits`, with fuel standing in for the call stack; `none` means
the fuel ran out before the traversal returned. -/
def add_splits : Nat → PMState → Nat → Nat → Option (Bool × PMState)
  | 0, _, _, _ => none
  | fuel + 1, s, obj, split => add_splits_body (add_splits fuel) s obj split

/-- A fuel bound sufficient for one `add_splits` pass: one call per
object plus one call per edge of the object graph, with margin. -/
def splitPassFuel (s : PMState) : Nat :=
  2 + s.objs.length + (s.objs.map (fun o => o.py_iter.length)).sum
    + (s.opers.map (fun p => p.stack.length)).sum

/-- `split_reduce`: create a `PY_SPLIT` referencing the new REDUCE oper,
bump the generation counter and thread the split through everything
reachable from the last argument (the args tuple). -/
def split_reduce (s : PMState) (pop : Nat) : Option (Bool × PMState) :=
  let (split, s) := py_obj_new s PY_SPLIT
  match (getOper s pop).stack.getLast? with
  | none => some (false, s)
  | some obj =>
    let s := setObj s split { getObj s split with reduce := some pop }
    let s := setOper s pop
      { getOper s pop with refcnt := (getOper s pop).refcnt + 1 }
    let s := { s with recurse := s.recurse + 1 }
    match add_splits (splitPassFuel s) s obj split with
    | none => none
    | some (ret, s) => some (ret, py_obj_free s split)

/-- `py_what_addop`: pop `argc` arguments, upgrade the new stack top to a
`What`, and append an oper holding the arguments; a REDUCE additionally
runs the split pass. -/
def py_what_addop (s : PMState) (argc : Nat) (op : PyOp) :
    Option (Bool × PMState) :=
  if argc = 0 then some (false, s)
  else
    match py_oper_new s op with
    | (pop, s) =>
      match list_pop_n s argc with
      | (args?, s) =>
        match stack_top_to_what s s.stack with
        | (obj?, stack', s) =>
          match args?, obj? with
          | some args, some obj =>
            let s := { s with stack := stack' }
            let s := setObj s obj
              { getObj s obj with py_what := (getObj s obj).py_what ++ [pop] }
            let s := setOper s pop { getOper s pop with stack := args }
            if op = OP_REDUCE then split_reduce s pop
            else some (true, s)
          | args?, _ =>
            let s := { s with stack := stack' }
            let s2 := match args? with
              | some args => { s with stack := s.stack ++ args }
              | none => s
            some (false, pyop_free s2 pop)

/-- `memo_put`: peek the stack top (incrementing its refcount) and store
it — possibly a null — under `loc`.  Negative `loc` fails. -/
def memo_put (s : PMState) (loc : Int) : Bool × PMState :=
  if 0 ≤ loc then
    let (obj?, s) := obj_stack_peek s s.stack true
    (true, { s with memo := memoUpdate s.memo loc.toNat obj? })
  else (false, s)

/-- `op_memorize`: store the top under the next free memo index. -/
def op_memorize (s : PMState) : Bool × PMState :=
  memo_put s s.memo.length

/-- `memo_get`: push the object stored under `loc` and increment its
refcount; fails on a negative index, a missing slot, or a null slot. -/
def memo_get (s : PMState) (loc : Int) : Bool × PMState :=
  if 0 ≤ loc then
    match memoFind s.memo loc.toNat with
    | some obj =>
      let s := { s with stack := s.stack ++ [obj] }
      (true, setObj s obj
        { getObj s obj with refcnt := (getObj s obj).refcnt + 1 })
    | none => (false, s)
  else (false, s)

/-- `op_dup`. -/
def op_dup (s : PMState) : Bool × PMState :=
  match s.stack.getLast? with
  | some obj =>
    let s := { s with stack := s.stack ++ [obj] }
    (true, setObj s obj
      { getObj s obj with refcnt := (getObj s obj).refcnt + 1 })
  | none => (false, s)

/-- `pytype_has_depth`.  Modelled from the spec: pyobjutil.c is missing
from src/; §4.A says it is true for iterable variants plus `What` and
`Split`. -/
def pytype_has_depth (t : PyType) : Bool :=
  match t with
  | PY_TUPLE | PY_LIST | PY_SET | PY_FROZEN_SET | PY_DICT
  | PY_WHAT | PY_SPLIT => true
  | _ => false

/-- `py_iter_new`. -/
def py_iter_new (s : PMState) (t : PyType) : Option Nat × PMState :=
  if pytype_has_depth t then
    let (obj, s) := py_obj_new s t
    (some obj, s)
  else (none, s)

/-- `py_iter_append_mark`: shove everything since the last MARK into the
iterable and restore the previous stack.  A dict requires the segment to
have even length. -/
def py_iter_append_mark (s : PMState) : Option Nat → PyType → Bool × PMState
  | none, _ => (false, s)
  | some obj, t =>
    if (getObj s obj).type = t then
      if t = PY_DICT ∧ s.stack.length % 2 = 1 then (false, s)
      else
        match s.metastack.getLast? with
        | none => (false, s)
        | some prev =>
          let s := { s with metastack := s.metastack.dropLast }
          let s := setObj s obj
            { getObj s obj with py_iter := (getObj s obj).py_iter ++ s.stack }
          (true, { s with stack := prev })
    else (false, s)

/-- `op_newbool`. -/
def op_newbool (s : PMState) (b : Bool) : Bool × PMState :=
  let (obj, s) := py_obj_new s PY_BOOL
  let s := setObj s obj { getObj s obj with py_bool := b }
  (true, { s with stack := s.stack ++ [obj] })

/-- `iter_to_mark`. -/
def iter_to_mark (s : PMState) (t : PyType) : Option Nat × PMState :=
  match py_iter_new s t with
  | (none, s) => (none, s)
  | (some obj, s) =>
    match py_iter_append_mark s (some obj) t with
    | (true, s) => (some obj, s)
    | (false, s) => (none, py_obj_free s obj)

/-- `op_type_create_append`. -/
def op_type_create_append (s : PMState) (t : PyType) : Bool × PMState :=
  match iter_to_mark s t with
  | (some obj, s) => (true, { s with stack := s.stack ++ [obj] })
  | (none, s) => (false, s)

/-- The pop-and-prepend loop of `op_iter_n`; on success the new iterable
is pushed. -/
def op_iter_n_loop (obj : Nat) : Nat → PMState → Bool × PMState
  | 0, s => (true, { s with stack := s.stack ++ [obj] })
  | n + 1, s =>
    match s.stack.getLast? with
    | none => (false, s)
    | some o =>
      let s := { s with stack := s.stack.dropLast }
      let s := setObj s obj
        { getObj s obj with py_iter := o :: (getObj s obj).py_iter }
      op_iter_n_loop obj n s

/-- `op_iter_n`: build a fixed-arity iterable from the top `n` elements
(in original order). -/
def op_iter_n (s : PMState) (n : Nat) (t : PyType) : Bool × PMState :=
  if n > 3 then (false, s)
  else
    match py_iter_new s t with
    | (none, s) => (false, s)
    | (some obj, s) => op_iter_n_loop obj n s

/-- `stack_n_expected_type`: check the type of the element `argc`
positions below the top. -/
def stack_n_expected_type (s : PMState) (objl : List Nat) (argc : Nat)
    (t : PyType) : Bool :=
  match (objl.reverse.drop argc).head? with
  | some obj => (getObj s obj).type = t
  | none => false

/-- `push_to_stack_iter`. -/
def push_to_stack_iter (s : PMState) (t : PyType) (obj : Nat) :
    Bool × PMState :=
  match s.stack.getLast? with
  | some iterobj =>
    if (getObj s iterobj).type = t then
      (true, setObj s iterobj
        { getObj s iterobj with py_iter := (getObj s iterobj).py_iter ++ [obj] })
    else (false, s)
  | none => (false, s)

/-- `op_append`: append into a real list, else record an APPEND oper on
an upgraded `What`. -/
def op_append (s : PMState) : Option (Bool × PMState) :=
  if s.stack.length ≥ 2 then
    if ¬ stack_n_expected_type s s.stack 1 PY_LIST then
      py_what_addop s 1 OP_APPEND
    else
      match s.stack.getLast? with
      | none => some (false, s)
      | some obj =>
        match push_to_stack_iter { s with stack := s.stack.dropLast }
            PY_LIST obj with
        | (true, s) => some (true, s)
        | (false, s) => some (false, { s with stack := s.stack ++ [obj] })
  else some (false, s)

/-- `op_appends` (also used by ADDITEMS): drain the mark segment into the
matching iterable below the mark, else record the op on a `What`. -/
def op_appends (s : PMState) (op : PyOp) (t : PyType) :
    Option (Bool × PMState) :=
  match s.metastack.getLast? with
  | none => some (false, s)
  | some prev_stack =>
    match prev_stack.getLast? with
    | none => some (false, s)
    | some obj =>
      if (getObj s obj).type ≠ t then some (py_what_addop_stack s op)
      else some (py_iter_append_mark s (some obj) t)

/-- `op_setitem`: push key and value together onto a dict's flat
iterable, else record a SETITEM oper on an upgraded `What`. -/
def op_setitem (s : PMState) : Option (Bool × PMState) :=
  if s.stack.length ≥ 3 then
    if ¬ stack_n_expected_type s s.stack 2 PY_DICT then
      py_what_addop s 2 OP_SETITEM
    else
      match s.stack.getLast? with
      | none => some (false, s)
      | some value =>
        match s.stack.dropLast.getLast? with
        | none =>
          some (false, py_obj_free { s with stack := s.stack.dropLast } value)
        | some key =>
          match s.stack.dropLast.dropLast.getLast? with
          | none =>
            some (false, py_obj_free (py_obj_free
              { s with stack := s.stack.dropLast.dropLast } key) value)
          | some obj =>
            if (getObj s obj).type = PY_DICT then
              some (true, setObj { s with stack := s.stack.dropLast.dropLast }
                obj { getObj s obj with
                  py_iter := (getObj s obj).py_iter ++ [key, value] })
            else
              some (false, py_obj_free (py_obj_free
                { s with stack := s.stack.dropLast.dropLast } key) value)
  else some (false, s)

/-- `op_setitems`. -/
def op_setitems (s : PMState) : Option (Bool × PMState) :=
  match s.metastack.getLast? with
  | none => some (false, s)
  | some prev_stack =>
    match prev_stack.getLast? with
    | none => some (false, s)
    | some obj =>
      if (getObj s obj).type = PY_DICT then
        some (py_iter_append_mark s (some obj) PY_DICT)
      else some (py_what_addop_stack s OP_SETITEMS)

/-- A decoded operation as delivered by the external disassembler
(§6.1): opcode byte, immediate value, mnemonic string.  `fval` is the
result of the libc `sscanf` float parse of the mnemonic and `big` the
large-string payload re-read through host I/O (§6.2) — both external
collaborators, so their results ride on the decoded op. -/
structure DecodedOp where
  code : Nat
  val : Int := 0
  mnemonic : String := ""
  fval : Option Rat := none
  big : Option String := none
  size : Nat := 1
deriving DecidableEq, Repr, Inhabited

/-- The search step of `op_str_arg`: find the first occurrence of
`space`-`quote` and return what follows (strstr + 2). -/
def afterSpaceQuote : List Char → Option (List Char)
  | [] => none
  | ' ' :: '"' :: rest => some rest
  | _ :: rest => afterSpaceQuote rest

/-- `op_str_arg`: extract the quoted payload of a mnemonic: everything
after the first ` "`, with the final quote removed. -/
def op_str_arg (mnemonic : String) : Option String :=
  match afterSpaceQuote mnemonic.data with
  | none => none
  | some cs => if cs.length > 0 then some (String.mk cs.dropLast) else none

/-- `get_big_str`: the re-read escaped payload when the disassembler
supplied a large-string pointer, else the mnemonic's quoted payload. -/
def get_big_str (op : DecodedOp) : Option String :=
  match op.big with
  | some str => some str
  | none => op_str_arg op.mnemonic

/-- `push_str`. -/
def push_str (s : PMState) (op : DecodedOp) : Bool × PMState :=
  let str? := get_big_str op
  let (obj, s) := py_obj_new s PY_STR
  match str? with
  | some str =>
    let s := setObj s obj { getObj s obj with py_str := str }
    (true, { s with stack := s.stack ++ [obj] })
  | none => (false, py_obj_free s obj)

/-- `op_none`. -/
def op_none (s : PMState) : Bool × PMState :=
  let (obj, s) := py_obj_new s PY_NONE
  (true, { s with stack := s.stack ++ [obj] })

/-- `push_int_type`. -/
def push_int_type (s : PMState) (op : DecodedOp) : Bool × PMState :=
  let (obj, s) := py_obj_new s PY_INT
  let s := setObj s obj { getObj s obj with py_int := op.val }
  (true, { s with stack := s.stack ++ [obj] })

/-- `op_float` (both quoted and binary forms; the parse itself is the
external `sscanf`, whose result arrives as `op.fval`). -/
def op_float (s : PMState) (op : DecodedOp) : Bool × PMState :=
  let (obj, s) := py_obj_new s PY_FLOAT
  match op.fval with
  | some q =>
    let s := setObj s obj { getObj s obj with py_float := q }
    (true, { s with stack := s.stack ++ [obj] })
  | none => (false, py_obj_free s obj)

/-- `op_mark`: push the current stack onto the metastack and start a
fresh one. -/
def op_mark (s : PMState) : Bool × PMState :=
  (true, { s with metastack := s.metastack ++ [s.stack], stack := [] })

/-- `op_pop`. -/
def op_pop (s : PMState) : Bool × PMState :=
  match s.stack.getLast? with
  | some obj =>
    (true, { s with stack := s.stack.dropLast, popstack := s.popstack ++ [obj] })
  | none => (false, s)

/-- `op_pop_mark`. -/
def op_pop_mark (s : PMState) : Bool × PMState :=
  match s.metastack.getLast? with
  | some prev =>
    (true, { s with popstack := s.popstack ++ s.stack,
                    stack := prev, metastack := s.metastack.dropLast })
  | none => (false, s)

/-- Split a character list at every occurrence of `sep` (the
`r_str_split` word structure). -/
def wordsBy (sep : Char) : List Char → List (List Char)
  | [] => [[]]
  | c :: rest =>
    match wordsBy sep rest with
    | [] => [[c]]
    | h :: t => if c = sep then [] :: h :: t else (c :: h) :: t

/-- `split_module_str`: parse the mnemonic payload `"module name"` into
two fresh `PY_STR` objects; requires exactly two words and a non-empty
name. -/
def split_module_str (s : PMState) (op : DecodedOp) :
    (Option Nat × Option Nat) × PMState :=
  match op_str_arg op.mnemonic with
  | none => ((none, none), s)
  | some str =>
    match wordsBy ' ' str.data with
    | [m, n] =>
      let (mid, s) := py_obj_new s PY_STR
      let s := setObj s mid { getObj s mid with py_str := String.mk m }
      if n.length > 0 then
        let (nid, s) := py_obj_new s PY_STR
        let s := setObj s nid { getObj s nid with py_str := String.mk n }
        ((some mid, some nid), s)
      else ((some mid, none), s)
    | _ => ((none, none), s)

/-- `glob_obj`. -/
def glob_obj (s : PMState) (op : DecodedOp) : Option Nat × PMState :=
  match split_module_str (py_obj_new s PY_FUNC).2 op with
  | ((some m, some n), s2) =>
    (some (py_obj_new s PY_FUNC).1, setObj s2 (py_obj_new s PY_FUNC).1
      { getObj s2 (py_obj_new s PY_FUNC).1 with
        func_module := m, func_name := n })
  | ((_, _), s2) => (none, py_obj_free s2 (py_obj_new s PY_FUNC).1)

/-- `op_global`. -/
def op_global (s : PMState) (op : DecodedOp) : Bool × PMState :=
  match glob_obj s op with
  | (some obj, s) => (true, { s with stack := s.stack ++ [obj] })
  | (none, s) => (false, s)

/-- `op_stack_global`: name and module are popped off the stack. -/
def op_stack_global (s : PMState) : Bool × PMState :=
  if s.stack.length ≥ 2 then
    match (py_obj_new s PY_FUNC).2.stack.getLast? with
    | none => (false, (py_obj_new s PY_FUNC).2)
    | some nm =>
      match (py_obj_new s PY_FUNC).2.stack.dropLast.getLast? with
      | none => (false, { (py_obj_new s PY_FUNC).2 with
          stack := (py_obj_new s PY_FUNC).2.stack.dropLast })
      | some md =>
        let s2 := setObj { (py_obj_new s PY_FUNC).2 with
            stack := (py_obj_new s PY_FUNC).2.stack.dropLast.dropLast }
          (py_obj_new s PY_FUNC).1
          { getObj { (py_obj_new s PY_FUNC).2 with
              stack := (py_obj_new s PY_FUNC).2.stack.dropLast.dropLast }
            (py_obj_new s PY_FUNC).1 with func_name := nm, func_module := md }
        (true, { s2 with stack := s2.stack ++ [(py_obj_new s PY_FUNC).1] })
  else (false, s)

/-- `insantiate` [sic]: push class and argument list back and run the
REDUCE-style recording with op INST or OBJ. -/
def insantiate (s : PMState) (op : DecodedOp) (cls? args? : Option Nat) :
    Option (Bool × PMState) :=
  match cls?, args? with
  | some cls, some args =>
    py_what_addop { s with stack := s.stack ++ [cls, args] } 1
      (if op.mnemonic = "obj" then OP_OBJ else OP_INST)
  | cls?, args? =>
    let s := match args? with | some a => py_obj_free s a | none => s
    let s := match cls? with | some c => py_obj_free s c | none => s
    some (false, s)

/-- `op_inst`. -/
def op_inst (s : PMState) (op : DecodedOp) : Option (Bool × PMState) :=
  match glob_obj s op with
  | (cls?, s) =>
    match iter_to_mark s PY_LIST with
    | (args?, s) => insantiate s op cls? args?

/-- `op_obj`: the class is the bottom of the mark segment. -/
def op_obj (s : PMState) (op : DecodedOp) : Option (Bool × PMState) :=
  match s.stack.head? with
  | some cls =>
    match iter_to_mark { s with stack := s.stack.tail } PY_LIST with
    | (args?, s) => insantiate s op (some cls) args?
  | none =>
    match iter_to_mark s PY_LIST with
    | (args?, s) => insantiate s op none args?

/-- `exec_op`: the big per-opcode dispatch. -/
def exec_op (s : PMState) (op : DecodedOp) : Option (Bool × PMState) :=
  if op.code = OP_PROTO then
    if s.start ≠ s.offset then some (true, s)
    else some (true, { s with ver := op.val })
  else if op.code = OP_FRAME then some (true, s)
  else if op.code = OP_STOP then some (true, s)
  else if op.code = OP_MARK then some (op_mark s)
  else if op.code = OP_POP then some (op_pop s)
  else if op.code = OP_POP_MARK then some (op_pop_mark s)
  else if op.code = OP_NONE then some (op_none s)
  else if op.code = OP_BININT ∨ op.code = OP_BININT1 ∨ op.code = OP_BININT2
      ∨ op.code = OP_LONG1 ∨ op.code = OP_LONG4 then
    some (push_int_type s op)
  else if op.code = OP_FLOAT then some (op_float s op)
  else if op.code = OP_BINFLOAT then some (op_float s op)
  else if op.code = OP_STRING ∨ op.code = OP_UNICODE ∨ op.code = OP_BINUNICODE8
      ∨ op.code = OP_BINBYTES8 ∨ op.code = OP_BYTEARRAY8 ∨ op.code = OP_BINSTRING
      ∨ op.code = OP_BINUNICODE ∨ op.code = OP_BINBYTES ∨ op.code = OP_SHORT_BINBYTES
      ∨ op.code = OP_SHORT_BINSTRING ∨ op.code = OP_SHORT_BINUNICODE then
    some (push_str s op)
  else if op.code = OP_OBJ then op_obj s op
  else if op.code = OP_INST then op_inst s op
  else if op.code = OP_GLOBAL then some (op_global s op)
  else if op.code = OP_STACK_GLOBAL then some (op_stack_global s)
  else if op.code = OP_NEWOBJ ∨ op.code = OP_BUILD ∨ op.code = OP_REDUCE then
    py_what_addop s 1 op.code
  else if op.code = OP_TUPLE then some (op_type_create_append s PY_TUPLE)
  else if op.code = OP_EMPTY_TUPLE then some (op_iter_n s 0 PY_TUPLE)
  else if op.code = OP_TUPLE1 then some (op_iter_n s 1 PY_TUPLE)
  else if op.code = OP_TUPLE2 then some (op_iter_n s 2 PY_TUPLE)
  else if op.code = OP_TUPLE3 then some (op_iter_n s 3 PY_TUPLE)
  else if op.code = OP_EMPTY_LIST then some (op_iter_n s 0 PY_LIST)
  else if op.code = OP_APPEND then op_append s
  else if op.code = OP_APPENDS then op_appends s OP_APPEND PY_LIST
  else if op.code = OP_LIST then some (op_type_create_append s PY_LIST)
  else if op.code = OP_EMPTY_DICT then some (op_iter_n s 0 PY_DICT)
  else if op.code = OP_SETITEM then op_setitem s
  else if op.code = OP_SETITEMS then op_setitems s
  else if op.code = OP_DICT then some (op_type_create_append s PY_DICT)
  else if op.code = OP_NEWTRUE then some (op_newbool s true)
  else if op.code = OP_NEWFALSE then some (op_newbool s false)
  else if op.code = OP_FROZENSET then some (op_type_create_append s PY_FROZEN_SET)
  else if op.code = OP_EMPTY_SET then some (op_iter_n s 0 PY_SET)
  else if op.code = OP_ADDITEMS then op_appends s OP_ADDITEMS PY_SET
  else if op.code = OP_MEMOIZE then some (op_memorize s)
  else if op.code = OP_LONG_BINPUT ∨ op.code = OP_BINPUT then some (memo_put s op.val)
  else if op.code = OP_LONG_BINGET ∨ op.code = OP_BINGET then some (memo_get s op.val)
  else if op.code = OP_DUP then some (op_dup s)
  else some (false, s)

/-- `empty_memo`: drop the memo table, shallow-freeing each stored
object. -/
def empty_memo (s : PMState) : PMState :=
  let s := s.memo.foldl
    (fun s kv => match kv.2 with | some i => py_obj_free s i | none => s) s
  { s with memo := [] }

/-- The loop of `run_pvm`: execute decoded ops until the list (the byte
range) ends, a STOP is seen with `break_on_stop`, or a handler fails.
On success the memo is dropped. -/
def run_pvm : List DecodedOp → PMState → Option (Bool × PMState)
  | [], s => some (true, empty_memo s)
  | op :: rest, s =>
    if s.break_on_stop ∧ op.code = OP_STOP then some (true, empty_memo s)
    else
      match exec_op s op with
      | none => none
      | some (false, s) => some (false, s)
      | some (true, s) => run_pvm rest { s with offset := s.offset + op.size }

/-- The machine state produced by `init_machine_state` (with the arch
check already passed): empty stacks and memo, offsets at the command
offset (0 in the model). -/
def init_state (verbose : Bool) : PMState :=
  { offset := 0, start := 0, verbose := verbose }

/-- Interpret a decoded stream the way the `pdP` command does
(`break_on_stop` set). -/
def interp (ops : List DecodedOp) : Option (Bool × PMState) :=
  run_pvm ops { init_state false with break_on_stop := true }

/-!  ## The pseudocode renderer (dump.c)

Console output is modelled as a list of `Chunk`s: each `printer_append`
or piece of a `printer_appendf` becomes one chunk whose concatenation is
the printed text.  A chunk carries a tag recording whether the code
emitted it as the start of an assignment (`<name> = `), as a use of a
variable name, or as plain text — the tags add nothing to the text, they
only let theorems speak about "a name emitted as a reference". -/

inductive Tag where
  | assign (n : String)
  | ref (n : String)
  | text
deriving DecidableEq, Repr

structure Chunk where
  tag : Tag
  s : String
deriving DecidableEq, Repr

instance : Inhabited Chunk := ⟨⟨Tag.text, ""⟩⟩

def textC (str : String) : Chunk := ⟨Tag.text, str⟩
def assignC (n : String) : Chunk := ⟨Tag.assign n, n ++ " = "⟩
def refC (n : String) : Chunk := ⟨Tag.ref n, n⟩

def chunksLen (l : List Chunk) : Nat := (l.map (fun c => c.s.length)).sum
def chunksText (l : List Chunk) : String := String.join (l.map (fun c => c.s))

/-- The renderer bookkeeping (struct `PrintInfo`; the fields are those
used by dump.c).  `out` is the current buffer (`none` = NULL),
`outstack` the stack of suspended buffers. -/
structure PrintInfo where
  out : Option (List Chunk) := none
  outstack : List (Option (List Chunk)) := []
  first : Bool := false
  ret : Bool := false
  varid : Nat := 0
  verbose : Bool := false
  stack : Bool := true
deriving DecidableEq, Repr, Inhabited

/-- Render-time state: the two heaps (the renderer writes `varname`
fields), the `PrintInfo`, and the console text accumulated by
`r_cons_printf`. -/
structure RSt where
  objs : List PyObj := []
  opers : List PyOper := []
  nfo : PrintInfo := {}
  console : List Chunk := []
deriving DecidableEq, Repr, Inhabited

def getRO (st : RSt) (i : Nat) : PyObj := getO st.objs i

def setRO (st : RSt) (i : Nat) (o : PyObj) : RSt :=
  { st with objs := st.objs.set i o }

def getROper (st : RSt) (p : Nat) : PyOper := st.opers.getD p default

/-- `printer_getout`: the current buffer, created empty if NULL. -/
def printer_getout (st : RSt) : List Chunk × RSt :=
  match st.nfo.out with
  | some b => (b, st)
  | none => ([], { st with nfo := { st.nfo with out := some [] } })

/-- `printer_append` / one piece of a `printer_appendf` (append never
fails in the model: allocation failure is the only C failure mode). -/
def printer_append (st : RSt) (c : Chunk) : RSt :=
  let (b, st) := printer_getout st
  { st with nfo := { st.nfo with out := some (b ++ [c]) } }

def printer_appends (st : RSt) (cs : List Chunk) : RSt :=
  cs.foldl printer_append st

/-- `printer_drain`: move the buffer's contents (if any) to the console;
a NULL buffer is left alone. -/
def printer_drain (st : RSt) : RSt :=
  match st.nfo.out with
  | none => st
  | some b =>
    if chunksLen b > 0 then
      { st with console := st.console ++ b,
                nfo := { st.nfo with out := some [] } }
    else st

/-- `printer_drain_free`. -/
def printer_drain_free (st : RSt) : RSt :=
  let st := printer_drain st
  { st with nfo := { st.nfo with out := none } }

/-- Lowercase hexadecimal of a `Nat` (`%"PFMT64x"`). -/
def hexStr (n : Nat) : String := String.mk (Nat.toDigits 16 n)

/-- `obj_varname`: on first need assign `var_<memo_id>` when `memo_id`
is non-zero (the C test is plain truthiness of the `ut64` field),
otherwise `var_<varid++>`; cache the name on the object. -/
def obj_varname (st : RSt) (i : Nat) : String × RSt :=
  match (getRO st i).varname with
  | some v => (v, st)
  | none =>
    let (num, st) :=
      if (getRO st i).memo_id ≠ 0 then ((getRO st i).memo_id, st)
      else (st.nfo.varid, { st with nfo := { st.nfo with varid := st.nfo.varid + 1 } })
    let v := "var_" ++ hexStr num
    (v, setRO st i { getRO st i with varname := some v })

/-- `var_pre_print`: 0 = caller goes on to emit the value, 1 = a name
(or nothing) was printed instead and the caller is done.  (-1, the
allocation failure, cannot occur in the model.) -/
def var_pre_print (st : RSt) (i : Nat) : Int × RSt :=
  if st.nfo.ret then
    let st := printer_append st (textC "return ")
    match (getRO st i).varname with
    | some v => (1, printer_appends st [refC v, textC "\n"])
    | none => (0, st)
  else if st.nfo.first then
    match (getRO st i).varname with
    | some v =>
      if st.nfo.verbose then
        (1, printer_append st (textC ("# " ++ v ++ " previously declared\n")))
      else (1, st)
    | none =>
      let (v, st) := obj_varname st i
      (0, printer_append st (assignC v))
  else
    match (getRO st i).varname with
    | some v => (1, printer_append st (refC v))
    | none => (0, st)

/-- `newline`: statement terminator, only at statement level. -/
def newlineIf (st : RSt) : RSt :=
  if st.nfo.first ∨ st.nfo.ret then printer_append st (textC "\n") else st

def boolText (b : Bool) : String := if b then "True" else "False"

/-- `%d` applied to the `st64` `py_int`: the varargs read the low 32
bits as a signed int. -/
def intText (i : Int) : String := toString ((i + 2 ^ 31) % 2 ^ 32 - 2 ^ 31)

/-- Stands in for the libc `%lf` formatting (external). -/
def floatText (q : Rat) : String := toString q

/-- The text of `dump_func`.  The C passes the `PyObj` pointers
themselves to `%s` (undefined behavior); modelled from the spec §4.D as
`__import__("<module>").<name>` with the two string payloads. -/
def dump_func_text (st : RSt) (i : Nat) : String :=
  "__import__(\"" ++ (getRO st (getRO st i).func_module).py_str ++ "\")."
    ++ (getRO st (getRO st i).func_name).py_str

/-- The recursive-call type threaded through the renderer bodies:
`dump_obj` at one less fuel. -/
abbrev DumpF := RSt → Nat → Option (Bool × RSt)

/-- `dump_bool`. -/
def dump_bool (st : RSt) (i : Nat) : Option (Bool × RSt) :=
  let (o, st) := var_pre_print st i
  if o < 0 then some (false, st)
  else if o ≠ 0 then some (true, st)
  else
    let st := printer_append st (textC (boolText (getRO st i).py_bool))
    some (true, newlineIf st)

/-- `dump_int`. -/
def dump_int (st : RSt) (i : Nat) : Option (Bool × RSt) :=
  let (o, st) := var_pre_print st i
  if o < 0 then some (false, st)
  else if o ≠ 0 then some (true, st)
  else
    let st := printer_append st (textC (intText (getRO st i).py_int))
    some (true, newlineIf st)

/-- `dump_str` (the raw bytes, unquoted). -/
def dump_str (st : RSt) (i : Nat) : Option (Bool × RSt) :=
  let (o, st) := var_pre_print st i
  if o < 0 then some (false, st)
  else if o ≠ 0 then some (true, st)
  else
    let st := printer_append st (textC (getRO st i).py_str)
    some (true, newlineIf st)

/-- `dump_float`. -/
def dump_float (st : RSt) (i : Nat) : Option (Bool × RSt) :=
  let (o, st) := var_pre_print st i
  if o < 0 then some (false, st)
  else if o ≠ 0 then some (true, st)
  else
    let st := printer_append st (textC (floatText (getRO st i).py_float))
    some (true, newlineIf st)

/-- `dump_none`. -/
def dump_none (st : RSt) (i : Nat) : Option (Bool × RSt) :=
  let (o, st) := var_pre_print st i
  if o < 0 then some (false, st)
  else if o ≠ 0 then some (true, st)
  else
    let st := printer_append st (textC "None")
    some (true, newlineIf st)

/-- `dump_func`. -/
def dump_func (st : RSt) (i : Nat) : Option (Bool × RSt) :=
  let (o, st) := var_pre_print st i
  if o < 0 then some (false, st)
  else if o ≠ 0 then some (true, st)
  else
    let st := printer_append st (textC (dump_func_text st i))
    some (true, newlineIf st)

/-- The element loop of `dump_iter`: `", "` after every element but the
last; stop at the first failure. -/
def dump_iter_loop (f : DumpF) (st : RSt) : List Nat → Option (Bool × RSt)
  | [] => some (true, st)
  | [x] => f st x
  | x :: y :: rest =>
    match f st x with
    | none => none
    | some (false, st) => some (false, st)
    | some (true, st) =>
      dump_iter_loop f (printer_append st (textC ", ")) (y :: rest)

/-- `dump_iter`: elements are emitted inline (`first`/`ret` saved and
cleared). -/
def dump_iter (f : DumpF) (st : RSt) (i : Nat) : Option (Bool × RSt) :=
  let ff := st.nfo.first
  let rr := st.nfo.ret
  let st := { st with nfo := { st.nfo with first := false, ret := false } }
  match dump_iter_loop f st (getRO st i).py_iter with
  | none => none
  | some (b, st) =>
    some (b, { st with nfo := { st.nfo with first := ff, ret := rr } })

/-- `dump_tuple`.  As in C, the closing delimiter and newline are still
appended when an inner dump failed (`ret &= ...` does not short-circuit). -/
def dump_tuple (f : DumpF) (st : RSt) (i : Nat) : Option (Bool × RSt) :=
  let (o, st) := var_pre_print st i
  if o < 0 then some (false, st)
  else if o ≠ 0 then some (true, st)
  else
    let st := printer_append st (textC "(")
    match dump_iter f st i with
    | none => none
    | some (b, st) =>
      let st := printer_append st (textC ")")
      some (b, newlineIf st)

/-- `dump_list`. -/
def dump_list (f : DumpF) (st : RSt) (i : Nat) : Option (Bool × RSt) :=
  let (o, st) := var_pre_print st i
  if o < 0 then some (false, st)
  else if o ≠ 0 then some (true, st)
  else
    let st := printer_append st (textC "[")
    match dump_iter f st i with
    | none => none
    | some (b, st) =>
      let st := printer_append st (textC "]")
      some (b, newlineIf st)

/-- The element loop of `dump_iter_dict`: `": "` after a key (even a
dangling last one), `", "` after a value that is not last. -/
def dump_iter_dict_loop (f : DumpF) (st : RSt) (onkey : Bool) :
    List Nat → Option (Bool × RSt)
  | [] => some (true, st)
  | x :: rest =>
    match f st x with
    | none => none
    | some (false, st) => some (false, st)
    | some (true, st) =>
      let st :=
        if onkey then printer_append st (textC ": ")
        else if rest ≠ [] then printer_append st (textC ", ")
        else st
      dump_iter_dict_loop f st (!onkey) rest

/-- `dump_iter_dict`. -/
def dump_iter_dict (f : DumpF) (st : RSt) (i : Nat) : Option (Bool × RSt) :=
  let ff := st.nfo.first
  let rr := st.nfo.ret
  let st := { st with nfo := { st.nfo with first := false, ret := false } }
  match dump_iter_dict_loop f st true (getRO st i).py_iter with
  | none => none
  | some (b, st) =>
    some (b, { st with nfo := { st.nfo with first := ff, ret := rr } })

/-- `dump_dict`. -/
def dump_dict (f : DumpF) (st : RSt) (i : Nat) : Option (Bool × RSt) :=
  let (o, st) := var_pre_print st i
  if o < 0 then some (false, st)
  else if o ≠ 0 then some (true, st)
  else
    let st := printer_append st (textC "\x7b")
    match dump_iter_dict f st i with
    | none => none
    | some (b, st) =>
      let st := printer_append st (textC "\x7d")
      some (b, newlineIf st)

/-- `dump_oper_init`: `<name> = <the FAKE_INIT argument>`.  An empty
argument stack would make the C dereference NULL (`none` here). -/
def dump_oper_init (f : DumpF) (st : RSt) (p : Nat) (vn : String) :
    Option (Bool × RSt) :=
  let st := printer_append st (assignC vn)
  match (getROper st p).stack.getLast? with
  | none => none
  | some arg =>
    match f st arg with
    | none => none
    | some (false, st) => some (false, st)
    | some (true, st) => some (true, printer_append st (textC "\n"))

/-- `dump_oper_reduce`: `<name> = <name>` followed by the rendered args
tuple — the tuple's own parentheses serve as the call's; a non-tuple
argument only logs and emits nothing (the function still reports
success). -/
def dump_oper_reduce (f : DumpF) (st : RSt) (p : Nat) (vn : String) :
    Option (Bool × RSt) :=
  match (getROper st p).stack.getLast? with
  | none => none
  | some args =>
    if (getRO st args).type ≠ PY_TUPLE then some (true, st)
    else
      let st := printer_appends st [assignC vn, refC vn]
      match f st args with
      | none => none
      | some (false, st) => some (false, st)
      | some (true, st) => some (true, printer_append st (textC "\n"))

/-- `dump_oper_newobj`: `<name> = <name>.__new__(<name>, *<args>)`. -/
def dump_oper_newobj (f : DumpF) (st : RSt) (p : Nat) (vn : String) :
    Option (Bool × RSt) :=
  match (getROper st p).stack.getLast? with
  | none => none
  | some args =>
    if (getRO st args).type ≠ PY_TUPLE then some (true, st)
    else
      let st := printer_appends st
        [assignC vn, refC vn, textC ".__new__(", refC vn, textC ", *"]
      match f st args with
      | none => none
      | some (false, st) => some (false, st)
      | some (true, st) => some (true, printer_append st (textC ")\n"))

/-- `dump_oper`: only FAKE_INIT, REDUCE and NEWOBJ are implemented; any
other recorded op is a renderer failure. -/
def dump_oper (f : DumpF) (st : RSt) (p : Nat) (vn : String) :
    Option (Bool × RSt) :=
  let op := (getROper st p).op
  if op = OP_FAKE_INIT then dump_oper_init f st p vn
  else if op = OP_REDUCE then dump_oper_reduce f st p vn
  else if op = OP_NEWOBJ then dump_oper_newobj f st p vn
  else some (false, st)

/-- `prepend_obj`: suspend the current buffer, emit the object's
declaration as a fresh statement, drain it to the console, then resume
and emit just the name. -/
def prepend_obj (f : DumpF) (st : RSt) (i : Nat) : Option (Bool × RSt) :=
  if st.nfo.first then some (false, st)
  else
    let rr := st.nfo.ret
    let st := { st with nfo :=
      { st.nfo with outstack := st.nfo.outstack ++ [st.nfo.out],
                    first := true, ret := false, out := none } }
    match f st i with
    | none => none
    | some (b, st) =>
      let st := printer_drain_free st
      let restored := (st.nfo.outstack.getLast?).getD none
      let st := { st with nfo :=
        { st.nfo with out := restored, outstack := st.nfo.outstack.dropLast,
                      first := false, ret := rr } }
      if b then
        match (getRO st i).varname with
        | some v => some (true, printer_append st (refC v))
        | none => none
      else some (false, st)

/-- The oper loop of `dump_what`. -/
def dump_opers_loop (f : DumpF) (st : RSt) (vn : String) :
    List Nat → Option (Bool × RSt)
  | [] => some (true, st)
  | p :: rest =>
    match dump_oper f st p vn with
    | none => none
    | some (false, st) => some (false, st)
    | some (true, st) => dump_opers_loop f st vn rest

/-- The tail of `dump_what_main` after the oper loop: restore the flags,
emit the `return` line if requested, and glue the parked buffer `pre`
back onto a non-empty statement buffer (an empty one drops `pre`, as in
the C). -/
def dump_what_glue (pre : List Chunk) (vn : String) (rr : Bool)
    (retb : Bool) (st : RSt) : Option (Bool × RSt) :=
  let st := { st with nfo := { st.nfo with first := true, ret := rr } }
  if retb then
    let st := if st.nfo.ret then
        printer_appends st [textC "return ", refC vn, textC "\n"]
      else st
    match st.nfo.out with
    | some b =>
      if chunksLen b > 0 then
        some (true, { st with nfo := { st.nfo with out := some (pre ++ b) } })
      else some (true, st)
    | none => some (true, st)
  else some (false, st)

/-- The main path of `dump_what`: name the object, park the current
buffer as `pre`, emit the oper statements into a fresh buffer, then glue
that buffer onto `pre`. -/
def dump_what_main (f : DumpF) (st : RSt) (i : Nat) : Option (Bool × RSt) :=
  match obj_varname st i with
  | (vn, st) =>
    match printer_getout st with
    | (pre, st) =>
      let rr := st.nfo.ret
      let st := { st with nfo := { st.nfo with out := none, ret := false, first := false } }
      match dump_opers_loop f st vn (getRO st i).py_what with
      | none => none
      | some (retb, st) => dump_what_glue pre vn rr retb st

/-- `dump_what`.  Inline: a named `What` is just its name, an unnamed
one is hoisted through `prepend_obj`.  At statement level a named `What`
under `ret` emits `return return <name>` (both appends of the C run);
otherwise the oper history is emitted. -/
def dump_what (f : DumpF) (st : RSt) (i : Nat) : Option (Bool × RSt) :=
  if ¬ st.nfo.first then
    match (getRO st i).varname with
    | some v => some (true, printer_append st (refC v))
    | none => prepend_obj f st i
  else
    match (getRO st i).varname with
    | some v =>
      if st.nfo.ret then
        let st := printer_append st (textC "return ")
        some (true, printer_appends st [textC "return ", refC v, textC "\n"])
      else dump_what_main f st i
    | none => dump_what_main f st i

/-- The dispatch body of `dump_obj`; sets, frozen sets and splits are
unhandled ("Can't handle type"). -/
def dump_obj_body (f : DumpF) (st : RSt) (i : Nat) : Option (Bool × RSt) :=
  match (getRO st i).type with
  | PY_BOOL => dump_bool st i
  | PY_INT => dump_int st i
  | PY_STR => dump_str st i
  | PY_FLOAT => dump_float st i
  | PY_NONE => dump_none st i
  | PY_TUPLE => dump_tuple f st i
  | PY_LIST => dump_list f st i
  | PY_DICT => dump_dict f st i
  | PY_FUNC => dump_func st i
  | PY_WHAT => dump_what f st i
  | _ => some (false, st)

/-- `dump_obj`, with fuel standing in for the C call stack; `none` means
the recursion never returned (or dereferenced NULL). -/
def dump_obj : Nat → RSt → Nat → Option (Bool × RSt)
  | 0, _, _ => none
  | fuel + 1, st, i => dump_obj_body (dump_obj fuel) st i

/-- The element loop of `dump_stack`: per element a `## ` comment, a
drain, `first` set (and `ret` on the top element), the dump, a drain. -/
def dump_stack_loop (fuel : Nat) (st : RSt) (n : String) :
    List Nat → Nat → Option (Bool × RSt)
  | [], _ => some (true, st)
  | i :: rest, len =>
    let len := len - 1
    let st := printer_append st (textC ("## " ++ n ++ "[" ++ toString len ++ "] "
      ++ (if len = 0 then "TOP" else "") ++ "\n"))
    let st := printer_drain st
    let rr := if len = 0 then true else st.nfo.ret
    let st := { st with nfo := { st.nfo with first := true, ret := rr } }
    match dump_obj fuel st i with
    | none => none
    | some (false, st) => some (false, st)
    | some (true, st) => dump_stack_loop fuel (printer_drain st) n rest len

/-- `dump_stack`. -/
def dump_stack (fuel : Nat) (st : RSt) (stack : List Nat) (n : String) :
    Option (Bool × RSt) :=
  let len := stack.length
  let st := if len = 0 then
      printer_append st (textC ("## stack " ++ n ++ " empty\n"))
    else st
  let st := printer_append st
    (textC ("## Stack " ++ n ++ " start, len " ++ toString len ++ "\n"))
  dump_stack_loop fuel st n stack len

/-- `dump_machine`: force `verbose` ("temp for debuging" in the C),
allocate the outstack, dump the VM stack if selected, and flush. -/
def dump_machine (fuel : Nat) (pvm : PMState) (nfo : PrintInfo) :
    Option (Bool × RSt) :=
  let nfo := { nfo with verbose := true, outstack := [] }
  let st : RSt := { objs := pvm.objs, opers := pvm.opers, nfo := nfo, console := [] }
  if st.nfo.stack then
    match dump_stack fuel st pvm.stack "VM" with
    | none => none
    | some (b, st) => some (b, printer_drain_free st)
  else some (true, printer_drain_free st)

/-- Modelled from the spec: `print_info_init` is declared in the missing
dump.h and defined outside src/.  §4.D gives the fields: fresh buffers,
`first`/`ret` cleared, `varid` starting at 0 (scenario 4 names the first
anonymous object `var_0`), `verbose` from `anal.verbose`, the VM stack
selected for dumping. -/
def print_info_init (verbose : Bool) : PrintInfo :=
  { out := none, outstack := [], first := false, ret := false,
    varid := 0, verbose := verbose, stack := true }

/-- Interpret and then render, the way the pseudocode branch of the
`pdP` command does (the machine state is rendered whether or not the run
finished, and `recurse` is bumped first). -/
def renderRun (fuel : Nat) (ops : List DecodedOp) (verbose : Bool) :
    Option (Bool × RSt) :=
  match interp ops with
  | none => none
  | some (_, s) =>
    let s := { s with recurse := s.recurse + 1 }
    dump_machine fuel s (print_info_init verbose)

/-- The console text of an interpret-and-render run. -/
def renderText (fuel : Nat) (ops : List DecodedOp) : Option String :=
  (renderRun fuel ops false).map (fun r => chunksText r.2.console)

/-- The help text printed for `pdP?`.  The exact formatting is radare's
`r_core_cmd_help` (external); only the printed rows come from the code's
`help_msg`. -/
def helpText : String :=
  "Usage: pdP[j] Decompile python pickle\n"
    ++ "pdP Decompile python pickle until STOP, eof or bad opcode\n"
    ++ "pdPj JSON output\n"

/-- Modelled from the spec: json_dump.c is missing from src/; §4.E
describes the JSON renderer.  Only the fact that `dump_json` prints
something whose success `pickle_dec` ignores matters to the claims. -/
def json_dump_state (_ : PMState) : String := "\x7b\x7d"

/-- The `pickle_dec` command entry point.  Inputs that do not begin with
`pdP` are not consumed (result 0); everything else is handled (result
1): help for `?`, otherwise arch check, interpreter run, and JSON or
pseudocode dump — all failures only log.  The second component is the
console text printed. -/
def pickle_dec (archOk : Bool) (verboseCfg : Bool) (input : String)
    (ops : List DecodedOp) (fuel : Nat) : Option (Int × String) :=
  if ¬ ("pdP".data.isPrefixOf input.data) then some (0, "")
  else if (input.data.drop 3).contains '?' then some (1, helpText)
  else if archOk then
    match interp ops with
    | none => none
    | some (_, s) =>
      if (input.data.drop 3).contains 'j' then some (1, json_dump_state s)
      else
        match dump_machine fuel { s with recurse := s.recurse + 1 }
            (print_info_init verboseCfg) with
        | none => none
        | some (_, st) => some (1, chunksText st.console)
  else some (1, "")

/-! ## Basic list lemmas -/

theorem getD_set_self {α : Type} : ∀ (l : List α) (i : Nat) (a d : α),
    i < l.length → (l.set i a).getD i d = a := by
  intro l
  induction l with
  | nil => intro i a d h; simp at h
  | cons x xs ih =>
    intro i a d h
    cases i with
    | zero => rfl
    | succ j => exact ih j a d (Nat.lt_of_succ_lt_succ h)

theorem getD_set_ne {α : Type} : ∀ (l : List α) (i j : Nat) (a d : α),
    i ≠ j → (l.set i a).getD j d = l.getD j d := by
  intro l
  induction l with
  | nil => intro i j a d _; cases i <;> rfl
  | cons x xs ih =>
    intro i j a d hne
    cases i with
    | zero =>
      cases j with
      | zero => exact absurd rfl hne
      | succ k => rfl
    | succ i' =>
      cases j with
      | zero => rfl
      | succ k => exact ih i' k a d (fun h => hne (by rw [h]))

theorem getD_append_left {α : Type} : ∀ (l m : List α) (i : Nat) (d : α),
    i < l.length → (l ++ m).getD i d = l.getD i d := by
  intro l
  induction l with
  | nil => intro m i d h; simp at h
  | cons x xs ih =>
    intro m i d h
    cases i with
    | zero => rfl
    | succ j => exact ih m j d (Nat.lt_of_succ_lt_succ h)

/-! ## Claim C4 -/

/-- Both runs of "render the same final machine state twice". -/
def c4RenderTwice (fuel : Nat) (pvm : PMState) (nfo : PrintInfo) :
    Option String × Option String :=
  ((dump_machine fuel pvm nfo).map (fun r => chunksText r.2.console),
   (dump_machine fuel pvm nfo).map (fun r => chunksText r.2.console))

/-- C4: running the pseudocode renderer twice on the same final machine
state produces identical output both times.  In this pure embedding the
renderer is a function of the machine state and the `PrintInfo` alone —
no hidden input (clock, addresses, hash order) reaches the output — so
two runs from the same state are two applications of `dump_machine` to
the same arguments and their console texts coincide definitionally. -/
theorem claim_C4_renderer_deterministic (fuel : Nat) (pvm : PMState)
    (nfo : PrintInfo) :
    (c4RenderTwice fuel pvm nfo).1 = (c4RenderTwice fuel pvm nfo).2 := rfl

/-! ## Claim C9 -/

/-- C9 counterexample: with the architecture not set to pickle and input
`pdP`, no rendering output is produced at all, yet `pickle_dec` still
returns 1 (the command reports success/handled).  The claim "exit status
is success exactly when rendering produced some output" is therefore
false on a configuration error. -/
theorem claim_C9_counterexample :
    pickle_dec false false "pdP" [] 10 = some (1, "") := by decide

/-- C9 (amended): `pickle_dec` returns 1 for every input beginning with
`pdP` — help, configuration errors, decode/handler failures and render
failures included — and 0 exactly for inputs that do not begin with
`pdP`.  The return value reports only whether the command was consumed,
not whether rendering produced output. -/
theorem claim_C9_amended (archOk verboseCfg : Bool) (input : String)
    (ops : List DecodedOp) (fuel : Nat) (r : Int × String)
    (h : pickle_dec archOk verboseCfg input ops fuel = some r) :
    r.1 = if "pdP".data.isPrefixOf input.data then 1 else 0 := by
  unfold pickle_dec at h
  by_cases hp : "pdP".data.isPrefixOf input.data
  · rw [if_pos hp]
    rw [if_neg (fun hc => hc hp)] at h
    split at h
    · injection h with h2; subst h2; rfl
    · split at h
      · -- arch ok: the interpreter match
        split at h
        · exact Option.noConfusion h
        · split at h
          · injection h with h2; subst h2; rfl
          · split at h
            · exact Option.noConfusion h
            · injection h with h2; subst h2; rfl
      · injection h with h2; subst h2; rfl
  · rw [if_neg hp]
    rw [if_pos (fun hc => absurd hc hp)] at h
    injection h with h2; subst h2; rfl

/-- Witness for C9 (amended) at a concrete run. -/
theorem claim_C9_amended_witness :
    ((pickle_dec true false "pdP" [] 10).getD (0, "")).1
      = if "pdP".data.isPrefixOf "pdP".data then 1 else 0 :=
  claim_C9_amended true false "pdP" [] 10 _ (by rfl)

/-! ## Claim C10 -/

/-- C10: a `BINGET`/`LONG_BINGET` whose immediate is negative, or whose
slot holds nothing, fails and leaves the state (in particular the main
stack) unchanged; when the slot holds an object, that object is pushed
on top of the stack and its refcount is incremented. -/
theorem claim_C10_memo_get (s : PMState) (loc : Int) :
    ((loc < 0 ∨ memoFind s.memo loc.toNat = none) →
      memo_get s loc = (false, s)) ∧
    (∀ i, 0 ≤ loc → memoFind s.memo loc.toNat = some i →
      i < s.objs.length →
      (memo_get s loc).1 = true ∧
      (memo_get s loc).2.stack = s.stack ++ [i] ∧
      (getObj (memo_get s loc).2 i).refcnt = (getObj s i).refcnt + 1) := by
  constructor
  · rintro (hneg | hnone)
    · unfold memo_get
      rw [if_neg (by omega)]
    · unfold memo_get
      by_cases h0 : (0 : Int) ≤ loc
      · rw [if_pos h0, hnone]
      · rw [if_neg h0]
  · intro i h0 hfind hlt
    have hgs : ∀ (o : PyObj),
        getObj (setObj { s with stack := s.stack ++ [i] } i o) i = o := by
      intro o
      unfold getObj setObj getO
      exact getD_set_self _ _ _ _ hlt
    unfold memo_get
    rw [if_pos h0, hfind]
    exact ⟨rfl, rfl, by rw [hgs]; rfl⟩

/-- A concrete store for the C10 witness: one object, memoized at slot 0. -/
def c10S : PMState :=
  { objs := [{ type := PY_NONE }], memo := [(0, some 0)], stack := [0] }

/-- Witness for C10 at slot 0 (hit) and at -1 (negative index). -/
theorem claim_C10_memo_get_witness :
    (memo_get c10S (-1) = (false, c10S)) ∧
    ((memo_get c10S 0).1 = true ∧
     (memo_get c10S 0).2.stack = c10S.stack ++ [0] ∧
     (getObj (memo_get c10S 0).2 0).refcnt = (getObj c10S 0).refcnt + 1) :=
  ⟨(claim_C10_memo_get c10S (-1)).1 (Or.inl (by decide)),
   (claim_C10_memo_get c10S 0).2 0 (by decide) (by decide) (by decide)⟩

/-! ## Claim C2 -/

/-- `]\x94N.`: empty list, MEMOIZE (slot 0), NONE, STOP — the list is
memoized and, not being the stack top, is declared with a name. -/
def c2ops : List DecodedOp :=
  [ { code := OP_EMPTY_LIST }, { code := OP_MEMOIZE },
    { code := OP_NONE }, { code := OP_STOP } ]

def c2s0 : PMState := { init_state false with break_on_stop := true }

def c2s1 : PMState :=
  ((exec_op c2s0 { code := OP_EMPTY_LIST }).getD default).2

def c2s2 : PMState :=
  ((exec_op { c2s1 with offset := c2s1.offset + 1 }
      { code := OP_MEMOIZE }).getD default).2

/-- C2 evaluated at the failing input: after EMPTY_LIST; MEMOIZE the
list (object 0) sits in memo slot 0, yet its `memo_id` field still holds
the unset sentinel `UT64_MAX` — `memo_put` never records the slot.
Rendering `]\x94N.` therefore names the memoized list
`var_ffffffffffffffff` (the sentinel printed in hex by `obj_varname`,
whose test `memo_id ≠ 0` is satisfied by the sentinel), not `var_0` as
the claim requires. -/
theorem claim_C2_failing_eval :
    memoFind c2s2.memo 0 = some 0 ∧
    (getObj c2s2 0).memo_id = UT64MAX ∧
    renderText 100 c2ops =
      some ("## Stack VM start, len 2\n## VM[1] \nvar_ffffffffffffffff = []\n"
        ++ "## VM[0] TOP\nreturn None\n") := by
  refine ⟨by decide, by decide, ?_⟩
  decide

/-! ## Claim C7 -/

/-- `N(}tR.`-style stream: NONE, MARK, EMPTY_DICT, TUPLE, REDUCE, STOP.
The REDUCE's argument tuple contains an (empty) dict, so the split pass
appends a `Split` to the dict's flat iterable. -/
def c7ops : List DecodedOp :=
  [ { code := OP_NONE }, { code := OP_MARK }, { code := OP_EMPTY_DICT },
    { code := OP_TUPLE }, { code := OP_REDUCE, mnemonic := "reduce" },
    { code := OP_STOP } ]

def c7S : PMState := ((interp c7ops).getD default).2

/-- C7 counterexample: after the REDUCE split pass the dict (object 1)
has a flat iterable of odd length 1 — its only element is the `Split`
marker — refuting "every Dict object's flat key/value sequence has even
length at every point of execution". -/
theorem claim_C7_counterexample :
    interp c7ops = some (true, c7S) ∧
    (getObj c7S 1).type = PY_DICT ∧
    (getObj c7S 1).py_iter.length % 2 = 1 ∧
    (getObj c7S ((getObj c7S 1).py_iter.getD 0 0)).type = PY_SPLIT := by
  refine ⟨rfl, by decide, by decide, by decide⟩

/-! ## Claim C8 -/

/-- NONE, MARK, EMPTY_TUPLE, TUPLE, REDUCE, STOP: the argument tuple of
the REDUCE contains an inner (empty) tuple. -/
def c8ops : List DecodedOp :=
  [ { code := OP_NONE }, { code := OP_MARK }, { code := OP_EMPTY_TUPLE },
    { code := OP_TUPLE }, { code := OP_REDUCE, mnemonic := "reduce" },
    { code := OP_STOP } ]

def c8S : PMState := ((interp c8ops).getD default).2

/-- C8 counterexample: object 1 is a tuple — a container — reachable
directly inside the REDUCE's argument tuple (object 2), and after the
split pass it does not end with a `Split`: its iterable is empty.  The
split pass deliberately only recurses through tuples ("attempting to
modify will result in PY_WHAT"), so "every container reachable inside
the argument tuple ends with exactly one Split" is false for tuples. -/
theorem claim_C8_counterexample :
    interp c8ops = some (true, c8S) ∧
    (getOper c8S 0).op = OP_REDUCE ∧
    (getOper c8S 0).stack = [2] ∧
    (getObj c8S 2).py_iter = [1] ∧
    (getObj c8S 1).type = PY_TUPLE ∧
    (getObj c8S 1).py_iter = [] := by
  refine ⟨rfl, by decide, by decide, by decide, by decide, by decide⟩

/-! ## Claim C3 (counterexample) -/

/-- Substring test on character lists (does `pat` occur inside `l`?). -/
def hasSub (pat : List Char) : List Char → Bool
  | [] => pat.isEmpty
  | l@(_ :: rest) => pat.isPrefixOf l || hasSub pat rest

/-- `N(V1+1\ntR.`-style stream: NONE, MARK, UNICODE "1+1", TUPLE,
REDUCE, STOP — a `What` whose history ends in a REDUCE record. -/
def c3ops : List DecodedOp :=
  [ { code := OP_NONE }, { code := OP_MARK },
    { code := OP_UNICODE, mnemonic := "unicode \"1+1\"" },
    { code := OP_TUPLE }, { code := OP_REDUCE, mnemonic := "reduce" },
    { code := OP_STOP } ]

def c3S : PMState := ((interp c3ops).getD default).2

/-- The console text rendered for `c3ops`. -/
def c3out : String :=
  "## Stack VM start, len 1\n## VM[0] TOP\n"
    ++ "var_ffffffffffffffff = None\n"
    ++ "var_ffffffffffffffff = var_ffffffffffffffff(1+1)\n"
    ++ "return var_ffffffffffffffff\n"

/-- C3 counterexample: the rendered `What` (object 3, history
`[FAKE_INIT, REDUCE]`) produces the REDUCE statement
`var_ffffffffffffffff = var_ffffffffffffffff(1+1)` — the name, ` = `,
the name again, and then directly the rendered argument tuple, whose own
parentheses act as the call's.  The two-character sequence `(*` required
by the claim occurs nowhere in the output. -/
theorem claim_C3_counterexample :
    interp c3ops = some (true, c3S) ∧
    (getObj c3S 3).type = PY_WHAT ∧
    (getOper c3S ((getObj c3S 3).py_what.getD 1 99)).op = OP_REDUCE ∧
    renderText 100 c3ops = some c3out ∧
    hasSub "(*".data c3out.data = false := by
  refine ⟨rfl, by decide, by decide, by decide, by decide⟩

/-! ## Claim C1 -/

theorem printer_append_objs (st : RSt) (c : Chunk) :
    (printer_append st c).objs = st.objs := by
  unfold printer_append printer_getout
  cases st.nfo.out <;> rfl

theorem printer_append_first (st : RSt) (c : Chunk) :
    (printer_append st c).nfo.first = st.nfo.first := by
  unfold printer_append printer_getout
  cases st.nfo.out <;> rfl

theorem printer_append_ret (st : RSt) (c : Chunk) :
    (printer_append st c).nfo.ret = st.nfo.ret := by
  unfold printer_append printer_getout
  cases st.nfo.out <;> rfl

theorem getRO_printer_append (st : RSt) (c : Chunk) (i : Nat) :
    getRO (printer_append st c) i = getRO st i := by
  unfold getRO
  rw [printer_append_objs]

/-- If the single element of the iterable is dumped as `none`, so is the
whole `dump_iter`. -/
theorem dump_iter_self (f : DumpF) (st : RSt) (i : Nat)
    (hI : (getRO st i).py_iter = [i])
    (hf : f { st with nfo := { st.nfo with first := false, ret := false } } i
      = none) :
    dump_iter f st i = none := by
  show (match dump_iter_loop f
      { st with nfo := { st.nfo with first := false, ret := false } }
      ((getRO { st with nfo :=
        { st.nfo with first := false, ret := false } } i).py_iter) with
    | none => (none : Option (Bool × RSt))
    | some (b, st2) => some (b, { st2 with nfo :=
        { st2.nfo with first := st.nfo.first, ret := st.nfo.ret } })) = none
  rw [show (getRO { st with nfo :=
      { st.nfo with first := false, ret := false } } i).py_iter = [i] from hI]
  rw [show dump_iter_loop f
      { st with nfo := { st.nfo with first := false, ret := false } } [i]
      = f { st with nfo := { st.nfo with first := false, ret := false } } i
    from rfl]
  rw [hf]

/-- The heart of C1: inline-dumping a list that contains itself and has
no cached name never returns, whatever the fuel — `dump_list` recurses
straight back into the same object. -/
theorem dump_obj_list_self_inline : ∀ (fuel : Nat) (st : RSt) (i : Nat),
    (getRO st i).type = PY_LIST → (getRO st i).py_iter = [i] →
    (getRO st i).varname = none →
    st.nfo.first = false → st.nfo.ret = false →
    dump_obj fuel st i = none := by
  intro fuel
  induction fuel with
  | zero => intro st i _ _ _ _ _; rfl
  | succ n ih =>
    intro st i hT hI hV hF hR
    show dump_obj_body (dump_obj n) st i = none
    have hpre : var_pre_print st i = (0, st) := by
      simp only [var_pre_print, hR, hF, hV]
      simp
    have hd : dump_iter (dump_obj n) (printer_append st (textC "[")) i
        = none := by
      apply dump_iter_self
      · rw [getRO_printer_append]; exact hI
      · apply ih
        · show (getRO (printer_append st (textC "[")) i).type = PY_LIST
          rw [getRO_printer_append]; exact hT
        · show (getRO (printer_append st (textC "[")) i).py_iter = [i]
          rw [getRO_printer_append]; exact hI
        · show (getRO (printer_append st (textC "[")) i).varname = none
          rw [getRO_printer_append]; exact hV
        · rfl
        · rfl
    simp only [dump_obj_body, hT]
    simp only [dump_list, hpre]
    norm_num
    simp only [hd]

/-- The top-of-stack variant (`first` and `ret` both set): the
`return `-prefixed dump of the self-referential list also never
returns. -/
theorem dump_obj_list_self_top : ∀ (fuel : Nat) (st : RSt) (i : Nat),
    (getRO st i).type = PY_LIST → (getRO st i).py_iter = [i] →
    (getRO st i).varname = none →
    st.nfo.first = true → st.nfo.ret = true →
    dump_obj fuel st i = none := by
  intro fuel st i hT hI hV hF hR
  cases fuel with
  | zero => rfl
  | succ n =>
    show dump_obj_body (dump_obj n) st i = none
    have hpre : var_pre_print st i
        = (0, printer_append st (textC "return ")) := by
      simp only [var_pre_print, hR]
      rw [show (getRO (printer_append st (textC "return ")) i).varname = none
        from by rw [getRO_printer_append]; exact hV]
      simp
    have hd : dump_iter (dump_obj n)
        (printer_append (printer_append st (textC "return ")) (textC "[")) i
        = none := by
      apply dump_iter_self
      · rw [getRO_printer_append, getRO_printer_append]; exact hI
      · apply dump_obj_list_self_inline
        · show (getRO (printer_append (printer_append st (textC "return "))
            (textC "[")) i).type = PY_LIST
          rw [getRO_printer_append, getRO_printer_append]; exact hT
        · show (getRO (printer_append (printer_append st (textC "return "))
            (textC "[")) i).py_iter = [i]
          rw [getRO_printer_append, getRO_printer_append]; exact hI
        · show (getRO (printer_append (printer_append st (textC "return "))
            (textC "[")) i).varname = none
          rw [getRO_printer_append, getRO_printer_append]; exact hV
        · rfl
        · rfl
    simp only [dump_obj_body, hT]
    simp only [dump_list, hpre]
    norm_num
    simp only [hd]

/-- `]\x94h\x00a.`: EMPTY_LIST, MEMOIZE, BINGET 0, APPEND, STOP — the
dup/memo + append self-reference pattern. -/
def c1ops : List DecodedOp :=
  [ { code := OP_EMPTY_LIST }, { code := OP_MEMOIZE },
    { code := OP_BINGET, val := 0 }, { code := OP_APPEND },
    { code := OP_STOP } ]

def c1S : PMState := ((interp c1ops).getD default).2

/-- The render state `dump_machine` builds for the final state of
`c1ops`. -/
def c1St0 : RSt :=
  { objs := c1S.objs, opers := c1S.opers,
    nfo := { print_info_init false with verbose := true, outstack := [] },
    console := [] }

/-- One stack-element step of `dump_stack_loop`: comment, drain, set
`first` (and `ret` on the top element). -/
def stackElemState (st : RSt) (n : String) (len : Nat) : RSt :=
  let st := printer_append st (textC ("## " ++ n ++ "[" ++ toString len ++ "] "
    ++ (if len = 0 then "TOP" else "") ++ "\n"))
  let st := printer_drain st
  let rr := if len = 0 then true else st.nfo.ret
  { st with nfo := { st.nfo with first := true, ret := rr } }

def c1St1 : RSt := printer_append c1St0 (textC ("## Stack VM start, len 1\n"))

theorem dump_stack_loop_one (fuel : Nat) (st : RSt) (n : String) (i : Nat)
    (h : dump_obj fuel (stackElemState st n 0) i = none) :
    dump_stack_loop fuel st n [i] 1 = none := by
  show (match dump_obj fuel (stackElemState st n 0) i with
        | none => (none : Option (Bool × RSt))
        | some (false, st2) => some (false, st2)
        | some (true, st2) => dump_stack_loop fuel (printer_drain st2) n [] 0)
      = none
  rw [h]

/-- C1: on the pickle `]\x94h\x00a.` the interpreter builds a list that
contains itself (a plain `PY_LIST`, since `APPEND` onto a real list does
not create a `What`), the renderer has no cycle detection and no
`APPEND` case in `dump_oper`, and `dump_list` recurses into the object
forever: for every fuel the render diverges — it never produces the
output `var_0 = []\nvar_0.append(var_0)\nreturn var_0\n` the claim
requires (nor any other). -/
theorem claim_C1_diverges : ∀ fuel : Nat, renderText fuel c1ops = none := by
  intro fuel
  have h0 : dump_obj fuel (stackElemState c1St1 "VM" 0) 0 = none := by
    apply dump_obj_list_self_top
    · decide
    · decide
    · decide
    · decide
    · decide
  have h1 : dump_stack_loop fuel c1St1 "VM" [0] 1 = none :=
    dump_stack_loop_one fuel c1St1 "VM" 0 h0
  have h2 : dump_stack fuel c1St0 [0] "VM" = none := by
    show dump_stack_loop fuel c1St1 "VM" [0] 1 = none
    exact h1
  have h3 : renderRun fuel c1ops false = none := by
    show (match dump_stack fuel c1St0 [0] "VM" with
          | none => (none : Option (Bool × RSt))
          | some (b, st) => some (b, printer_drain_free st)) = none
    rw [h2]
  unfold renderText
  rw [h3]
  rfl

/-! ## Heap access lemmas -/

theorem getD_of_le {α : Type} : ∀ (l : List α) (i : Nat) (d : α),
    l.length ≤ i → l.getD i d = d := by
  intro l
  induction l with
  | nil => intro i d _; cases i <;> rfl
  | cons x xs ih =>
    intro i d h
    cases i with
    | zero => simp at h
    | succ j => exact ih j d (Nat.le_of_succ_le_succ h)

theorem getD_append_length {α : Type} : ∀ (l : List α) (a d : α),
    (l ++ [a]).getD l.length d = a := by
  intro l
  induction l with
  | nil => intro a d; rfl
  | cons x xs ih => intro a d; exact ih a d

theorem length_set {α : Type} (l : List α) (i : Nat) (a : α) :
    (l.set i a).length = l.length := List.length_set l i a

theorem getObj_setObj_self {s : PMState} {i : Nat} (o : PyObj)
    (h : i < s.objs.length) : getObj (setObj s i o) i = o :=
  getD_set_self _ _ _ _ h

theorem getObj_setObj_ne {s : PMState} {i j : Nat} (o : PyObj)
    (h : i ≠ j) : getObj (setObj s i o) j = getObj s j :=
  getD_set_ne _ _ _ _ _ h

theorem getObj_le {s : PMState} {i : Nat} (h : s.objs.length ≤ i) :
    getObj s i = default := getD_of_le _ _ _ h

theorem getOper_setOper_self {s : PMState} {p : Nat} (o : PyOper)
    (h : p < s.opers.length) : getOper (setOper s p o) p = o :=
  getD_set_self _ _ _ _ h

theorem getOper_setOper_ne {s : PMState} {p q : Nat} (o : PyOper)
    (h : p ≠ q) : getOper (setOper s p o) q = getOper s q :=
  getD_set_ne _ _ _ _ _ h

theorem getOper_le {s : PMState} {p : Nat} (h : s.opers.length ≤ p) :
    getOper s p = default := getD_of_le _ _ _ h

/-! ## Interpreter invariants -/

/-- The head of a `What`'s oper list (0 when empty, never relevant). -/
def whatHead (s : PMState) (i : Nat) : Nat := (getObj s i).py_what.headD 0

/-- C6's invariant: every `What`'s oper list starts with a valid
`FAKE_INIT` oper holding exactly one argument. -/
def whatInv (s : PMState) : Prop :=
  ∀ i, i < s.objs.length → (getObj s i).type = PY_WHAT →
    (getObj s i).py_what ≠ [] ∧
    whatHead s i < s.opers.length ∧
    (getOper s (whatHead s i)).op = OP_FAKE_INIT ∧
    (getOper s (whatHead s i)).stack.length = 1

/-- Number of non-`Split` elements of a flat iterable. -/
def countKV (objs : List PyObj) (l : List Nat) : Nat :=
  (l.filter (fun j => (getO objs j).type ≠ PY_SPLIT)).length

/-- C7's (amended) invariant: every dict's flat iterable holds an even
number of key/value (non-`Split`) elements. -/
def dictInv (s : PMState) : Prop :=
  ∀ i, i < s.objs.length → (getObj s i).type = PY_DICT →
    countKV s.objs (getObj s i).py_iter % 2 = 0

/-- A valid machine-stack entry: in range and not a `Split` (splits are
only ever threaded into container iterables). -/
def okId (s : PMState) (i : Nat) : Prop :=
  i < s.objs.length ∧ (getObj s i).type ≠ PY_SPLIT

/-- All four machine-state id containers hold valid non-split ids. -/
def stacksInv (s : PMState) : Prop :=
  (∀ i ∈ s.stack, okId s i) ∧
  (∀ l ∈ s.metastack, ∀ i ∈ l, okId s i) ∧
  (∀ i ∈ s.popstack, okId s i) ∧
  (∀ kv ∈ s.memo, ∀ i, kv.2 = some i → okId s i)

/-- Heap-internal ids are in range. -/
def heapIdsInv (s : PMState) : Prop :=
  (∀ j, j < s.objs.length → ∀ i ∈ (getObj s j).py_iter, i < s.objs.length) ∧
  (∀ j, j < s.objs.length → ∀ p ∈ (getObj s j).py_what, p < s.opers.length) ∧
  (∀ q, q < s.opers.length → ∀ i ∈ (getOper s q).stack, i < s.objs.length)

/-- Generation marks never exceed the state's generation counter. -/
def recurseInv (s : PMState) : Prop :=
  ∀ i, i < s.objs.length → (getObj s i).recurse ≤ s.recurse

/-- The interpreter never writes `varname` or `memo_id`. -/
def freshInv (s : PMState) : Prop :=
  ∀ i, i < s.objs.length →
    (getObj s i).varname = none ∧ (getObj s i).memo_id = UT64MAX

/-- No two adjacent `Split`s in an iterable. -/
def noAdjSplit (objs : List PyObj) : List Nat → Prop
  | [] => True
  | [_] => True
  | a :: b :: rest =>
    ¬((getO objs a).type = PY_SPLIT ∧ (getO objs b).type = PY_SPLIT) ∧
    noAdjSplit objs (b :: rest)

def adjInv (s : PMState) : Prop :=
  ∀ j, j < s.objs.length → noAdjSplit s.objs (getObj s j).py_iter

/-- The combined interpreter invariant. -/
def StateWF (s : PMState) : Prop :=
  whatInv s ∧ dictInv s ∧ stacksInv s ∧ heapIdsInv s ∧ recurseInv s ∧
  freshInv s ∧ adjInv s

/-! ## Preservation machinery -/

/-- Pointwise type agreement transfers `countKV`. -/
theorem countKV_eq {objs objs' : List PyObj} (l : List Nat)
    (h : ∀ j ∈ l, (getO objs' j).type = (getO objs j).type) :
    countKV objs' l = countKV objs l := by
  unfold countKV
  congr 1
  apply List.filter_congr
  intro j hj
  simp only [h j hj]

/-- Pointwise type agreement transfers `noAdjSplit`. -/
theorem noAdjSplit_eq {objs objs' : List PyObj} (l : List Nat)
    (h : ∀ j ∈ l, (getO objs' j).type = (getO objs j).type) :
    noAdjSplit objs l ↔ noAdjSplit objs' l := by
  induction l with
  | nil => exact Iff.rfl
  | cons x xs ih =>
    cases xs with
    | nil => exact Iff.rfl
    | cons y ys =>
      unfold noAdjSplit
      rw [h x (List.mem_cons_self x _),
          h y (List.mem_cons_of_mem x (List.mem_cons_self y _)),
          ih (fun j hj => h j (List.mem_cons_of_mem x hj))]

/-- A type-, name-, memo-, `py_what`-preserving object write (refcount,
recurse mark, or iterable update) keeps the whole invariant, provided
the recurse mark stays bounded and the new iterable is well formed. -/
theorem StateWF_setObj {s : PMState} (h : StateWF s) (i : Nat) (o : PyObj)
    (hlt : i < s.objs.length)
    (htype : o.type = (getObj s i).type)
    (hvar : o.varname = (getObj s i).varname)
    (hmemo : o.memo_id = (getObj s i).memo_id)
    (hwhat : o.py_what = (getObj s i).py_what)
    (hrec : o.recurse ≤ s.recurse)
    (hiter1 : ∀ x ∈ o.py_iter, x < s.objs.length)
    (hiter2 : (getObj s i).type = PY_DICT → countKV s.objs o.py_iter % 2 = 0)
    (hiter3 : noAdjSplit s.objs o.py_iter) :
    StateWF (setObj s i o) := by
  obtain ⟨hW, hD, hS, hH, hR, hF, hA⟩ := h
  have hlen : (setObj s i o).objs.length = s.objs.length := length_set _ _ _
  have holen : (setObj s i o).opers.length = s.opers.length := rfl
  have hty : ∀ j, (getObj (setObj s i o) j).type = (getObj s j).type := by
    intro j
    by_cases hij : i = j
    · subst hij; rw [getObj_setObj_self o hlt, htype]
    · rw [getObj_setObj_ne o hij]
  have hop : ∀ q, getOper (setObj s i o) q = getOper s q := fun _ => rfl
  have hwh : ∀ j, (getObj (setObj s i o) j).py_what = (getObj s j).py_what := by
    intro j
    by_cases hij : i = j
    · subst hij; rw [getObj_setObj_self o hlt, hwhat]
    · rw [getObj_setObj_ne o hij]
  have hit : ∀ j, (getObj (setObj s i o) j).py_iter = (getObj s j).py_iter
      ∨ (i = j ∧ (getObj (setObj s i o) j).py_iter = o.py_iter) := by
    intro j
    by_cases hij : i = j
    · subst hij; right; exact ⟨rfl, by rw [getObj_setObj_self o hlt]⟩
    · left; rw [getObj_setObj_ne o hij]
  refine ⟨?_, ?_, ?_, ?_, ?_, ?_, ?_⟩
  · intro j hj hjW
    rw [hlen] at hj
    rw [hty j] at hjW
    obtain ⟨h1, h2, h3, h4⟩ := hW j hj hjW
    unfold whatHead
    rw [hwh j]
    exact ⟨h1, h2, h3, h4⟩
  · intro j hj hjD
    rw [hlen] at hj
    rw [hty j] at hjD
    have hcnt : ∀ l, countKV (setObj s i o).objs l = countKV s.objs l :=
      fun l => countKV_eq l (fun x _ => hty x)
    rcases hit j with hsame | ⟨hij, hnew⟩
    · rw [hsame, hcnt]; exact hD j hj hjD
    · rw [hnew, hcnt]; exact hiter2 (hij ▸ hjD)
  · obtain ⟨s1, s2, s3, s4⟩ := hS
    have hok : ∀ x, okId s x → okId (setObj s i o) x := by
      intro x ⟨hx1, hx2⟩
      exact ⟨by rw [hlen]; exact hx1, by rw [hty x]; exact hx2⟩
    exact ⟨fun x hx => hok x (s1 x hx),
           fun l hl x hx => hok x (s2 l hl x hx),
           fun x hx => hok x (s3 x hx),
           fun kv hkv x hx => hok x (s4 kv hkv x hx)⟩
  · obtain ⟨h1, h2, h3⟩ := hH
    refine ⟨?_, ?_, ?_⟩
    · intro j hj x hx
      rw [hlen] at hj ⊢
      rcases hit j with hsame | ⟨hij, hnew⟩
      · rw [hsame] at hx; exact h1 j hj x hx
      · rw [hnew] at hx; exact hiter1 x hx
    · intro j hj p hp
      rw [hlen] at hj
      rw [hwh j] at hp
      exact h2 j hj p hp
    · intro q hq x hx
      rw [hlen]
      exact h3 q hq x hx
  · intro j hj
    rw [hlen] at hj
    by_cases hij : i = j
    · subst hij; rw [getObj_setObj_self o hlt]; exact hrec
    · rw [getObj_setObj_ne o hij]; exact hR j hj
  · intro j hj
    rw [hlen] at hj
    by_cases hij : i = j
    · subst hij
      rw [getObj_setObj_self o hlt, hvar, hmemo]
      exact hF i hj
    · rw [getObj_setObj_ne o hij]; exact hF j hj
  · intro j hj
    rw [hlen] at hj
    have hadj : ∀ l, noAdjSplit s.objs l ↔ noAdjSplit (setObj s i o).objs l :=
      fun l => noAdjSplit_eq l (fun x _ => hty x)
    rcases hit j with hsame | ⟨hij, hnew⟩
    · rw [hsame, ← hadj]; exact hA j hj
    · rw [hnew, ← hadj]; exact hiter3

theorem getObj_alloc_lt {s : PMState} {o : PyObj} {j : Nat}
    (h : j < s.objs.length) : getObj (allocObj s o).2 j = getObj s j :=
  getD_append_left _ _ _ _ h

theorem getObj_alloc_new {s : PMState} {o : PyObj} :
    getObj (allocObj s o).2 s.objs.length = o :=
  getD_append_length _ _ _

theorem getObj_allocOper {s : PMState} {o : PyOper} {j : Nat} :
    getObj (allocOper s o).2 j = getObj s j := rfl

theorem getOper_allocObj {s : PMState} {o : PyObj} {q : Nat} :
    getOper (allocObj s o).2 q = getOper s q := rfl

theorem getOper_alloc_lt {s : PMState} {o : PyOper} {q : Nat}
    (h : q < s.opers.length) : getOper (allocOper s o).2 q = getOper s q :=
  getD_append_left _ _ _ _ h

theorem getOper_alloc_new {s : PMState} {o : PyOper} :
    getOper (allocOper s o).2 s.opers.length = o :=
  getD_append_length _ _ _

/-- Changing only the machine-state fields (stacks, memo, counters)
keeps the invariant, when the new containers hold valid ids and the
generation counter does not decrease. -/
theorem StateWF_nonheap {s : PMState} (h : StateWF s)
    (stk : List Nat) (mstk : List (List Nat)) (pstk : List Nat)
    (mem : List (Nat × Option Nat)) (off st0 : Nat) (v : Int)
    (rec2 : Nat) (vb bos : Bool)
    (hstk : ∀ i ∈ stk, okId s i)
    (hmstk : ∀ l ∈ mstk, ∀ i ∈ l, okId s i)
    (hpstk : ∀ i ∈ pstk, okId s i)
    (hmem : ∀ kv ∈ mem, ∀ i, kv.2 = some i → okId s i)
    (hrec : s.recurse ≤ rec2) :
    StateWF { s with stack := stk, metastack := mstk, popstack := pstk,
                     memo := mem, offset := off, start := st0, ver := v,
                     recurse := rec2, verbose := vb, break_on_stop := bos } := by
  obtain ⟨hW, hD, hS, hH, hR, hF, hA⟩ := h
  exact ⟨fun i hi hw => hW i hi hw,
         fun i hi hd => hD i hi hd,
         ⟨hstk, hmstk, hpstk, hmem⟩,
         hH,
         fun i hi => Nat.le_trans (hR i hi) hrec,
         hF,
         hA⟩

/-- Allocating a fresh non-`What` object keeps the invariant. -/
theorem StateWF_allocObj {s : PMState} (h : StateWF s) (o : PyObj)
    (ht : o.type ≠ PY_WHAT)
    (hd : o.type = PY_DICT → countKV s.objs o.py_iter % 2 = 0)
    (hi : ∀ x ∈ o.py_iter, x < s.objs.length)
    (hw : o.py_what = [])
    (hr : o.recurse ≤ s.recurse)
    (hv : o.varname = none) (hm : o.memo_id = UT64MAX)
    (ha : noAdjSplit s.objs o.py_iter) :
    StateWF (allocObj s o).2 := by
  obtain ⟨hW, hD, hS, hH, hR, hF, hA⟩ := h
  have hlen : (allocObj s o).2.objs.length = s.objs.length + 1 := by
    show (s.objs ++ [o]).length = s.objs.length + 1
    simp
  have hcase : ∀ j, j < (allocObj s o).2.objs.length →
      (j < s.objs.length ∧ getObj (allocObj s o).2 j = getObj s j) ∨
      (j = s.objs.length ∧ getObj (allocObj s o).2 j = o) := by
    intro j hj
    rw [hlen] at hj
    by_cases hc : j < s.objs.length
    · exact Or.inl ⟨hc, getObj_alloc_lt hc⟩
    · have : j = s.objs.length := by omega
      subst this
      exact Or.inr ⟨rfl, getObj_alloc_new⟩
  have hty : ∀ j ∈ o.py_iter, (getO (allocObj s o).2.objs j).type
      = (getO s.objs j).type := by
    intro j hj
    show (getObj (allocObj s o).2 j).type = (getObj s j).type
    rw [getObj_alloc_lt (hi j hj)]
  refine ⟨?_, ?_, ?_, ?_, ?_, ?_, ?_⟩
  · intro j hj hjW
    rcases hcase j hj with ⟨hc, he⟩ | ⟨hc, he⟩
    · rw [he] at hjW ⊢
      unfold whatHead
      rw [he]
      rw [show getOper (allocObj s o).2 = getOper s from rfl]
      exact hW j hc hjW
    · rw [he] at hjW
      exact absurd hjW ht
  · intro j hj hjD
    rcases hcase j hj with ⟨hc, he⟩ | ⟨hc, he⟩
    · rw [he] at hjD ⊢
      have := hD j hc hjD
      rwa [countKV_eq (getObj s j).py_iter (fun x hx => by
        show (getObj (allocObj s o).2 x).type = (getObj s x).type
        rw [getObj_alloc_lt ((hH.1) j hc x hx)])]
    · rw [he] at hjD ⊢
      rw [countKV_eq o.py_iter hty]
      exact hd hjD
  · obtain ⟨s1, s2, s3, s4⟩ := hS
    have hok : ∀ x, okId s x → okId (allocObj s o).2 x := by
      intro x ⟨hx1, hx2⟩
      refine ⟨by rw [hlen]; omega, ?_⟩
      rw [getObj_alloc_lt hx1]; exact hx2
    exact ⟨fun x hx => hok x (s1 x hx),
           fun l hl x hx => hok x (s2 l hl x hx),
           fun x hx => hok x (s3 x hx),
           fun kv hkv x hx => hok x (s4 kv hkv x hx)⟩
  · obtain ⟨h1, h2, h3⟩ := hH
    refine ⟨?_, ?_, ?_⟩
    · intro j hj x hx
      rw [hlen]
      rcases hcase j hj with ⟨hc, he⟩ | ⟨hc, he⟩
      · rw [he] at hx
        exact Nat.lt_succ_of_lt (h1 j hc x hx)
      · rw [he] at hx
        exact Nat.lt_succ_of_lt (hi x hx)
    · intro j hj p hp
      rcases hcase j hj with ⟨hc, he⟩ | ⟨hc, he⟩
      · rw [he] at hp
        exact h2 j hc p hp
      · rw [he, hw] at hp
        cases hp
    · intro q hq x hx
      rw [hlen]
      exact Nat.lt_succ_of_lt (h3 q hq x hx)
  · intro j hj
    rcases hcase j hj with ⟨hc, he⟩ | ⟨hc, he⟩
    · rw [he]
      exact hR j hc
    · rw [he]
      exact hr
  · intro j hj
    rcases hcase j hj with ⟨hc, he⟩ | ⟨hc, he⟩
    · rw [he]; exact hF j hc
    · rw [he]; exact ⟨hv, hm⟩
  · intro j hj
    rcases hcase j hj with ⟨hc, he⟩ | ⟨hc, he⟩
    · rw [he, ← noAdjSplit_eq (getObj s j).py_iter (fun x hx => by
        show (getObj (allocObj s o).2 x).type = (getObj s x).type
        rw [getObj_alloc_lt ((hH.1) j hc x hx)])]
      exact hA j hc
    · rw [he, ← noAdjSplit_eq o.py_iter hty]
      exact ha

/-- Allocating a fresh oper whose argument ids are in range keeps the
invariant. -/
theorem StateWF_allocOper {s : PMState} (h : StateWF s) (o : PyOper)
    (hi : ∀ x ∈ o.stack, x < s.objs.length) :
    StateWF (allocOper s o).2 := by
  obtain ⟨hW, hD, hS, hH, hR, hF, hA⟩ := h
  have hlen : (allocOper s o).2.opers.length = s.opers.length + 1 := by
    show (s.opers ++ [o]).length = s.opers.length + 1
    simp
  refine ⟨?_, hD, hS, ?_, hR, hF, hA⟩
  · intro j hj hjW
    obtain ⟨h1, h2, h3, h4⟩ := hW j hj hjW
    refine ⟨h1, ?_, ?_, ?_⟩
    · rw [hlen]; exact Nat.lt_succ_of_lt h2
    · show (getOper (allocOper s o).2 (whatHead s j)).op = OP_FAKE_INIT
      rw [getOper_alloc_lt h2]; exact h3
    · show (getOper (allocOper s o).2 (whatHead s j)).stack.length = 1
      rw [getOper_alloc_lt h2]; exact h4
  · obtain ⟨h1, h2, h3⟩ := hH
    refine ⟨h1, ?_, ?_⟩
    · intro j hj p hp
      rw [hlen]
      exact Nat.lt_succ_of_lt (h2 j hj p hp)
    · intro q hq x hx
      rw [hlen] at hq
      by_cases hc : q < s.opers.length
      · rw [getOper_alloc_lt hc] at hx
        exact h3 q hc x hx
      · have : q = s.opers.length := by omega
        subst this
        rw [getOper_alloc_new] at hx
        exact hi x hx

/-- A refcount-only oper write keeps the invariant. -/
theorem StateWF_setOper_ref {s : PMState} (h : StateWF s) (p : Nat) (r : Int) :
    StateWF (setOper s p { getOper s p with refcnt := r }) := by
  obtain ⟨hW, hD, hS, hH, hR, hF, hA⟩ := h
  have hlen : (setOper s p { getOper s p with refcnt := r }).opers.length
      = s.opers.length := length_set _ _ _
  have hsame : ∀ q, (getOper (setOper s p { getOper s p with refcnt := r }) q).op
      = (getOper s q).op ∧
      (getOper (setOper s p { getOper s p with refcnt := r }) q).stack
      = (getOper s q).stack := by
    intro q
    by_cases hpq : p = q
    · subst hpq
      by_cases hlt : p < s.opers.length
      · refine ⟨?_, ?_⟩ <;> rw [getOper_setOper_self _ hlt]
      · have he : s.opers.set p { getOper s p with refcnt := r } = s.opers :=
          List.set_eq_of_length_le (by omega)
        have he2 : setOper s p { getOper s p with refcnt := r }
            = { s with opers := s.opers } := by
          unfold setOper
          rw [he]
        rw [he2]
        exact ⟨rfl, rfl⟩
    · rw [getOper_setOper_ne _ hpq]; exact ⟨rfl, rfl⟩
  refine ⟨?_, hD, hS, ?_, hR, hF, hA⟩
  · intro j hj hjW
    obtain ⟨h1, h2, h3, h4⟩ := hW j hj hjW
    refine ⟨h1, by rw [hlen]; exact h2, ?_, ?_⟩
    · exact ((hsame (whatHead s j)).1).trans h3
    · exact (congrArg List.length (hsame (whatHead s j)).2).trans h4
  · obtain ⟨h1, h2, h3⟩ := hH
    refine ⟨h1, fun j hj p2 hp => by rw [hlen]; exact h2 j hj p2 hp, ?_⟩
    · intro q hq x hx
      rw [hlen] at hq
      rw [(hsame q).2] at hx
      exact h3 q hq x hx

/-- Setting the argument stack of an oper that is not a `FAKE_INIT`
keeps the invariant when the new ids are in range. -/
theorem StateWF_setOper_stack {s : PMState} (h : StateWF s) (p : Nat)
    (args : List Nat)
    (hnf : (getOper s p).op ≠ OP_FAKE_INIT)
    (hargs : ∀ x ∈ args, x < s.objs.length) :
    StateWF (setOper s p { getOper s p with stack := args }) := by
  obtain ⟨hW, hD, hS, hH, hR, hF, hA⟩ := h
  have hlen : (setOper s p { getOper s p with stack := args }).opers.length
      = s.opers.length := length_set _ _ _
  have hop : ∀ q, (getOper (setOper s p { getOper s p with stack := args }) q).op
      = (getOper s q).op := by
    intro q
    by_cases hpq : p = q
    · subst hpq
      by_cases hlt : p < s.opers.length
      · rw [getOper_setOper_self _ hlt]
      · have he : s.opers.set p { getOper s p with stack := args } = s.opers :=
          List.set_eq_of_length_le (by omega)
        have he2 : setOper s p { getOper s p with stack := args }
            = { s with opers := s.opers } := by
          unfold setOper
          rw [he]
        rw [he2]
    · rw [getOper_setOper_ne _ hpq]
  have hstk : ∀ q, q ≠ p →
      (getOper (setOper s p { getOper s p with stack := args }) q).stack
      = (getOper s q).stack := by
    intro q hq
    rw [getOper_setOper_ne _ (fun hpe => hq hpe.symm)]
  refine ⟨?_, hD, hS, ?_, hR, hF, hA⟩
  · intro j hj hjW
    obtain ⟨h1, h2, h3, h4⟩ := hW j hj hjW
    have hne : whatHead s j ≠ p := by
      intro he
      rw [he] at h3
      exact hnf h3
    refine ⟨h1, by rw [hlen]; exact h2, ?_, ?_⟩
    · exact (hop (whatHead s j)).trans h3
    · exact (congrArg List.length (hstk (whatHead s j) hne)).trans h4
  · obtain ⟨h1, h2, h3⟩ := hH
    refine ⟨h1, fun j hj p2 hp => by rw [hlen]; exact h2 j hj p2 hp, ?_⟩
    · intro q hq x hx
      rw [hlen] at hq
      by_cases hpq : q = p
      · subst hpq
        by_cases hlt : q < s.opers.length
        · rw [getOper_setOper_self _ hlt] at hx
          exact hargs x hx
        · omega
      · rw [hstk q hpq] at hx
        exact h3 q hq x hx

/-! ## Per-handler preservation -/

theorem okId_mem_stack {s : PMState} (h : StateWF s) {i : Nat}
    (hi : i ∈ s.stack) : okId s i := h.2.2.1.1 i hi

theorem mem_dropLast {α : Type} {l : List α} {x : α}
    (h : x ∈ l.dropLast) : x ∈ l := List.dropLast_subset l h

theorem mem_getLast? {α : Type} : ∀ {l : List α} {x : α},
    l.getLast? = some x → x ∈ l := by
  intro l
  induction l with
  | nil => intro x h; cases h
  | cons a as ih =>
    intro x h
    cases as with
    | nil =>
      rw [List.getLast?_singleton] at h
      rw [List.mem_singleton]
      exact (Option.some.inj h).symm
    | cons b bs =>
      rw [List.getLast?_cons_cons] at h
      exact List.mem_cons_of_mem a (ih h)

theorem StateWF_py_obj_free {s : PMState} (h : StateWF s) (i : Nat) :
    StateWF (py_obj_free s i) := by
  by_cases hlt : i < s.objs.length
  · refine StateWF_setObj h i _ hlt rfl rfl rfl rfl ?_ ?_ ?_ ?_
    · exact h.2.2.2.2.1 i hlt
    · exact h.2.2.2.1.1 i hlt
    · intro hd; exact h.2.1 i hlt hd
    · exact h.2.2.2.2.2.2 i hlt
  · have he : s.objs.set i { getObj s i with refcnt := (getObj s i).refcnt - 1 }
        = s.objs := List.set_eq_of_length_le (by omega)
    have he2 : py_obj_free s i = { s with objs := s.objs } := by
      unfold py_obj_free setObj
      rw [he]
    rw [he2]
    exact h

theorem StateWF_pyop_free {s : PMState} (h : StateWF s) (p : Nat) :
    StateWF (pyop_free s p) := StateWF_setOper_ref h p _

theorem StateWF_foldl_free {s : PMState} (h : StateWF s)
    (l : List (Nat × Option Nat)) :
    StateWF (l.foldl (fun s kv =>
      match kv.2 with | some i => py_obj_free s i | none => s) s) := by
  induction l generalizing s with
  | nil => exact h
  | cons kv rest ih =>
    cases hk : kv.2 with
    | none => simpa [hk] using ih h
    | some i =>
      simp only [List.foldl_cons, hk]
      exact ih (StateWF_py_obj_free h i)

theorem StateWF_empty_memo {s : PMState} (h : StateWF s) :
    StateWF (empty_memo s) := by
  unfold empty_memo
  have h2 := StateWF_foldl_free h s.memo
  set s2 := s.memo.foldl (fun s kv =>
    match kv.2 with | some i => py_obj_free s i | none => s) s with hs2
  exact StateWF_nonheap h2 s2.stack s2.metastack s2.popstack []
    s2.offset s2.start s2.ver s2.recurse s2.verbose s2.break_on_stop
    h2.2.2.1.1 h2.2.2.1.2.1 h2.2.2.1.2.2.1 (by intro kv hkv; cases hkv)
    (Nat.le_refl _)

theorem StateWF_op_mark {s : PMState} (h : StateWF s) :
    StateWF (op_mark s).2 := by
  refine StateWF_nonheap h [] (s.metastack ++ [s.stack]) s.popstack s.memo
    s.offset s.start s.ver s.recurse s.verbose s.break_on_stop
    (by intro i hi; cases hi) ?_ h.2.2.1.2.2.1 h.2.2.1.2.2.2 (Nat.le_refl _)
  intro l hl i hi
  rcases List.mem_append.mp hl with hl | hl
  · exact h.2.2.1.2.1 l hl i hi
  · rw [List.mem_singleton.mp hl] at hi
    exact h.2.2.1.1 i hi

theorem StateWF_op_pop {s : PMState} (h : StateWF s) :
    StateWF (op_pop s).2 := by
  unfold op_pop
  cases hl : s.stack.getLast? with
  | none => exact h
  | some obj =>
    refine StateWF_nonheap h s.stack.dropLast s.metastack
      (s.popstack ++ [obj]) s.memo s.offset s.start s.ver s.recurse
      s.verbose s.break_on_stop
      (fun i hi => h.2.2.1.1 i (mem_dropLast hi)) h.2.2.1.2.1 ?_
      h.2.2.1.2.2.2 (Nat.le_refl _)
    intro i hi
    rcases List.mem_append.mp hi with hi | hi
    · exact h.2.2.1.2.2.1 i hi
    · rw [List.mem_singleton.mp hi]
      exact h.2.2.1.1 obj (mem_getLast? hl)

theorem StateWF_op_pop_mark {s : PMState} (h : StateWF s) :
    StateWF (op_pop_mark s).2 := by
  unfold op_pop_mark
  cases hl : s.metastack.getLast? with
  | none => exact h
  | some prev =>
    refine StateWF_nonheap h prev s.metastack.dropLast
      (s.popstack ++ s.stack) s.memo s.offset s.start s.ver s.recurse
      s.verbose s.break_on_stop
      (fun i hi => h.2.2.1.2.1 prev (mem_getLast? hl) i hi)
      (fun l hll i hi => h.2.2.1.2.1 l (mem_dropLast hll) i hi) ?_
      h.2.2.1.2.2.2 (Nat.le_refl _)
    intro i hi
    rcases List.mem_append.mp hi with hi | hi
    · exact h.2.2.1.2.2.1 i hi
    · exact h.2.2.1.1 i hi

/-- A refcount-only object write keeps the invariant. -/
theorem StateWF_set_refcnt {s : PMState} (h : StateWF s) (i : Nat) (r : Int) :
    StateWF (setObj s i { getObj s i with refcnt := r }) := by
  by_cases hlt : i < s.objs.length
  · refine StateWF_setObj h i _ hlt rfl rfl rfl rfl ?_ ?_ ?_ ?_
    · exact h.2.2.2.2.1 i hlt
    · exact h.2.2.2.1.1 i hlt
    · intro hd; exact h.2.1 i hlt hd
    · exact h.2.2.2.2.2.2 i hlt
  · have he : s.objs.set i { getObj s i with refcnt := r }
        = s.objs := List.set_eq_of_length_le (by omega)
    have he2 : setObj s i { getObj s i with refcnt := r }
        = { s with objs := s.objs } := by
      unfold setObj
      rw [he]
    rw [he2]
    exact h

/-- Allocate a fresh non-`What`, non-`Split` object and push it: the
scalar-pusher shape. -/
theorem StateWF_alloc_push {s : PMState} (h : StateWF s) (o : PyObj)
    (ht : o.type ≠ PY_WHAT) (hsp : o.type ≠ PY_SPLIT)
    (hd : o.type = PY_DICT → countKV s.objs o.py_iter % 2 = 0)
    (hi : ∀ x ∈ o.py_iter, x < s.objs.length)
    (hw : o.py_what = []) (hr : o.recurse ≤ s.recurse)
    (hv : o.varname = none) (hm : o.memo_id = UT64MAX)
    (ha : noAdjSplit s.objs o.py_iter) :
    StateWF { (allocObj s o).2 with
      stack := (allocObj s o).2.stack ++ [s.objs.length] } := by
  have h1 := StateWF_allocObj h o ht hd hi hw hr hv hm ha
  refine StateWF_nonheap h1 _ _ _ _ _ _ _ _ _ _ ?_ h1.2.2.1.2.1
    h1.2.2.1.2.2.1 h1.2.2.1.2.2.2 (Nat.le_refl _)
  intro i hi2
  rcases List.mem_append.mp hi2 with hi2 | hi2
  · exact h1.2.2.1.1 i hi2
  · rw [List.mem_singleton.mp hi2]
    refine ⟨?_, ?_⟩
    · show s.objs.length < (s.objs ++ [o]).length
      simp
    · show (getObj (allocObj s o).2 s.objs.length).type ≠ PY_SPLIT
      rw [getObj_alloc_new]
      exact hsp

/-- Rewrite only payload fields of an existing object, then push it. -/
theorem StateWF_set_payload_push {s1 : PMState} (h1 : StateWF s1) (i : Nat)
    (hlt : i < s1.objs.length) (o2 : PyObj)
    (htype : o2.type = (getObj s1 i).type)
    (hvar : o2.varname = (getObj s1 i).varname)
    (hmemo : o2.memo_id = (getObj s1 i).memo_id)
    (hwhat : o2.py_what = (getObj s1 i).py_what)
    (hiterEq : o2.py_iter = (getObj s1 i).py_iter)
    (hrec : o2.recurse = (getObj s1 i).recurse)
    (hsp : o2.type ≠ PY_SPLIT) :
    StateWF { setObj s1 i o2 with stack := (setObj s1 i o2).stack ++ [i] } := by
  have h2 : StateWF (setObj s1 i o2) := by
    refine StateWF_setObj h1 i o2 hlt htype hvar hmemo hwhat ?_ ?_ ?_ ?_
    · rw [hrec]; exact h1.2.2.2.2.1 i hlt
    · rw [hiterEq]; exact h1.2.2.2.1.1 i hlt
    · rw [hiterEq]; intro hd; exact h1.2.1 i hlt hd
    · rw [hiterEq]; exact h1.2.2.2.2.2.2 i hlt
  refine StateWF_nonheap h2 _ _ _ _ _ _ _ _ _ _ ?_ h2.2.2.1.2.1
    h2.2.2.1.2.2.1 h2.2.2.1.2.2.2 (Nat.le_refl _)
  intro x hx
  rcases List.mem_append.mp hx with hx | hx
  · exact h2.2.2.1.1 x hx
  · rw [List.mem_singleton.mp hx]
    refine ⟨?_, ?_⟩
    · show i < (s1.objs.set i o2).length
      rw [length_set]
      exact hlt
    · rw [getObj_setObj_self o2 hlt]
      exact hsp

theorem StateWF_op_none {s : PMState} (h : StateWF s) :
    StateWF (op_none s).2 := by
  refine StateWF_alloc_push h
    { type := PY_NONE, offset := s.offset, memo_id := UT64MAX }
    (by intro hc; cases hc) (by intro hc; cases hc) (by intro hc; cases hc)
    (by intro x hx; cases hx) rfl (Nat.zero_le _) rfl rfl trivial

theorem StateWF_push_int_type {s : PMState} (h : StateWF s) (op : DecodedOp) :
    StateWF (push_int_type s op).2 := by
  have h1 := StateWF_allocObj h
    { type := PY_INT, offset := s.offset, memo_id := UT64MAX }
    (by intro hc; cases hc) (by intro hc; cases hc)
    (by intro x hx; cases hx) rfl (Nat.zero_le _) rfl rfl trivial
  have hlt : s.objs.length < (allocObj s
      { type := PY_INT, offset := s.offset, memo_id := UT64MAX }).2.objs.length := by
    show s.objs.length < (s.objs ++ [_]).length
    simp
  refine StateWF_set_payload_push h1 s.objs.length hlt _ rfl rfl rfl rfl rfl rfl ?_
  show ((s.objs ++ [_]).getD s.objs.length default).type ≠ PY_SPLIT
  rw [getD_append_length]
  intro hc; cases hc

theorem StateWF_op_newbool {s : PMState} (h : StateWF s) (b : Bool) :
    StateWF (op_newbool s b).2 := by
  have h1 := StateWF_allocObj h
    { type := PY_BOOL, offset := s.offset, memo_id := UT64MAX }
    (by intro hc; cases hc) (by intro hc; cases hc)
    (by intro x hx; cases hx) rfl (Nat.zero_le _) rfl rfl trivial
  have hlt : s.objs.length < (allocObj s
      { type := PY_BOOL, offset := s.offset, memo_id := UT64MAX }).2.objs.length := by
    show s.objs.length < (s.objs ++ [_]).length
    simp
  refine StateWF_set_payload_push h1 s.objs.length hlt _ rfl rfl rfl rfl rfl rfl ?_
  show ((s.objs ++ [_]).getD s.objs.length default).type ≠ PY_SPLIT
  rw [getD_append_length]
  intro hc; cases hc

theorem StateWF_op_float {s : PMState} (h : StateWF s) (op : DecodedOp) :
    StateWF (op_float s op).2 := by
  have h1 := StateWF_allocObj h
    { type := PY_FLOAT, offset := s.offset, memo_id := UT64MAX }
    (by intro hc; cases hc) (by intro hc; cases hc)
    (by intro x hx; cases hx) rfl (Nat.zero_le _) rfl rfl trivial
  have hlt : s.objs.length < (allocObj s
      { type := PY_FLOAT, offset := s.offset, memo_id := UT64MAX }).2.objs.length := by
    show s.objs.length < (s.objs ++ [_]).length
    simp
  unfold op_float
  cases op.fval with
  | some q =>
    refine StateWF_set_payload_push h1 s.objs.length hlt _ rfl rfl rfl rfl rfl rfl ?_
    show ((s.objs ++ [_]).getD s.objs.length default).type ≠ PY_SPLIT
    rw [getD_append_length]
    intro hc; cases hc
  | none => exact StateWF_py_obj_free h1 _

theorem StateWF_push_str {s : PMState} (h : StateWF s) (op : DecodedOp) :
    StateWF (push_str s op).2 := by
  have h1 := StateWF_allocObj h
    { type := PY_STR, offset := s.offset, memo_id := UT64MAX }
    (by intro hc; cases hc) (by intro hc; cases hc)
    (by intro x hx; cases hx) rfl (Nat.zero_le _) rfl rfl trivial
  have hlt : s.objs.length < (allocObj s
      { type := PY_STR, offset := s.offset, memo_id := UT64MAX }).2.objs.length := by
    show s.objs.length < (s.objs ++ [_]).length
    simp
  unfold push_str
  cases get_big_str op with
  | some str =>
    refine StateWF_set_payload_push h1 s.objs.length hlt _ rfl rfl rfl rfl rfl rfl ?_
    show ((s.objs ++ [_]).getD s.objs.length default).type ≠ PY_SPLIT
    rw [getD_append_length]
    intro hc; cases hc
  | none => exact StateWF_py_obj_free h1 _

theorem StateWF_op_dup {s : PMState} (h : StateWF s) :
    StateWF (op_dup s).2 := by
  unfold op_dup
  cases hl : s.stack.getLast? with
  | none => exact h
  | some obj =>
    have hok := okId_mem_stack h (mem_getLast? hl)
    have h2 : StateWF { s with stack := s.stack ++ [obj] } := by
      refine StateWF_nonheap h _ _ _ _ _ _ _ _ _ _ ?_ h.2.2.1.2.1
        h.2.2.1.2.2.1 h.2.2.1.2.2.2 (Nat.le_refl _)
      intro x hx
      rcases List.mem_append.mp hx with hx | hx
      · exact h.2.2.1.1 x hx
      · rw [List.mem_singleton.mp hx]; exact hok
    exact StateWF_set_refcnt h2 obj _

theorem memoUpdate_mem : ∀ (m : List (Nat × Option Nat)) (k : Nat)
    (v : Option Nat) (kv : Nat × Option Nat),
    kv ∈ memoUpdate m k v → kv ∈ m ∨ kv = (k, v) := by
  intro m
  induction m with
  | nil =>
    intro k v kv hkv
    rcases List.mem_singleton.mp hkv with h
    exact Or.inr h
  | cons kv0 rest ih =>
    intro k v kv hkv
    unfold memoUpdate at hkv
    by_cases hk : kv0.1 = k
    · rw [if_pos hk] at hkv
      rcases List.mem_cons.mp hkv with h | h
      · exact Or.inr h
      · exact Or.inl (List.mem_cons_of_mem _ h)
    · rw [if_neg hk] at hkv
      rcases List.mem_cons.mp hkv with h | h
      · exact Or.inl (by rw [h]; exact List.mem_cons_self _ _)
      · rcases ih k v kv h with h2 | h2
        · exact Or.inl (List.mem_cons_of_mem _ h2)
        · exact Or.inr h2

theorem memoFind_mem : ∀ (m : List (Nat × Option Nat)) (k i : Nat),
    memoFind m k = some i → ∃ kv ∈ m, kv.2 = some i := by
  intro m
  induction m with
  | nil => intro k i h; cases h
  | cons kv0 rest ih =>
    intro k i h
    unfold memoFind at h
    by_cases hk : kv0.1 = k
    · rw [if_pos hk] at h
      exact ⟨kv0, List.mem_cons_self _ _, h⟩
    · rw [if_neg hk] at h
      obtain ⟨kv, hmem, hv⟩ := ih k i h
      exact ⟨kv, List.mem_cons_of_mem _ hmem, hv⟩

theorem StateWF_memo_put {s : PMState} (h : StateWF s) (loc : Int) :
    StateWF (memo_put s loc).2 := by
  unfold memo_put
  by_cases h0 : 0 ≤ loc
  · rw [if_pos h0]
    unfold obj_stack_peek
    cases hl : s.stack.getLast? with
    | none =>
      refine StateWF_nonheap h _ _ _ _ _ _ _ _ _ _ h.2.2.1.1 h.2.2.1.2.1
        h.2.2.1.2.2.1 ?_ (Nat.le_refl _)
      intro kv hkv i hi
      rcases memoUpdate_mem _ _ _ _ hkv with hkv | hkv
      · exact h.2.2.1.2.2.2 kv hkv i hi
      · rw [hkv] at hi; cases hi
    | some obj =>
      have hok := okId_mem_stack h (mem_getLast? hl)
      have h2 := StateWF_set_refcnt h obj ((getObj s obj).refcnt + 1)
      refine StateWF_nonheap h2 _ _ _ _ _ _ _ _ _ _ h2.2.2.1.1 h2.2.2.1.2.1
        h2.2.2.1.2.2.1 ?_ (Nat.le_refl _)
      intro kv hkv i hi
      rcases memoUpdate_mem _ _ _ _ hkv with hkv | hkv
      · exact h2.2.2.1.2.2.2 kv hkv i hi
      · rw [hkv] at hi
        cases hi
        refine ⟨?_, ?_⟩
        · show obj < (s.objs.set obj _).length
          rw [length_set]
          exact hok.1
        · rw [getObj_setObj_self _ hok.1]
          exact hok.2
  · rw [if_neg h0]
    exact h

theorem StateWF_op_memorize {s : PMState} (h : StateWF s) :
    StateWF (op_memorize s).2 := StateWF_memo_put h _

theorem StateWF_memo_get {s : PMState} (h : StateWF s) (loc : Int) :
    StateWF (memo_get s loc).2 := by
  unfold memo_get
  by_cases h0 : 0 ≤ loc
  · rw [if_pos h0]
    cases hf : memoFind s.memo loc.toNat with
    | none => exact h
    | some obj =>
      obtain ⟨kv, hmem, hv⟩ := memoFind_mem _ _ _ hf
      have hok := h.2.2.1.2.2.2 kv hmem obj hv
      have h2 : StateWF { s with stack := s.stack ++ [obj] } := by
        refine StateWF_nonheap h _ _ _ _ _ _ _ _ _ _ ?_ h.2.2.1.2.1
          h.2.2.1.2.2.1 h.2.2.1.2.2.2 (Nat.le_refl _)
        intro x hx
        rcases List.mem_append.mp hx with hx | hx
        · exact h.2.2.1.1 x hx
        · rw [List.mem_singleton.mp hx]; exact hok
      exact StateWF_set_refcnt h2 obj _
  · rw [if_neg h0]
    exact h

/-! ### Split and parity bookkeeping on flat iterables -/

theorem noAdjSplit_cons {objs : List PyObj} {a : Nat} {l : List Nat}
    (ha : (getO objs a).type ≠ PY_SPLIT) (h : noAdjSplit objs l) :
    noAdjSplit objs (a :: l) := by
  cases l with
  | nil => trivial
  | cons b rest => exact ⟨fun hc => ha hc.1, h⟩

theorem noAdjSplit_of_nosplit {objs : List PyObj} :
    ∀ (l : List Nat), (∀ x ∈ l, (getO objs x).type ≠ PY_SPLIT) →
    noAdjSplit objs l := by
  intro l
  induction l with
  | nil => intro _; trivial
  | cons a rest ih =>
    intro h
    exact noAdjSplit_cons (h a (List.mem_cons_self a _))
      (ih (fun x hx => h x (List.mem_cons_of_mem a hx)))

theorem noAdjSplit_append {objs : List PyObj} :
    ∀ (l1 l2 : List Nat), noAdjSplit objs l1 →
    (∀ x ∈ l2, (getO objs x).type ≠ PY_SPLIT) →
    noAdjSplit objs (l1 ++ l2) := by
  intro l1
  induction l1 with
  | nil => intro l2 _ h2; exact noAdjSplit_of_nosplit l2 h2
  | cons a rest ih =>
    intro l2 h1 h2
    cases rest with
    | nil =>
      show noAdjSplit objs (a :: l2)
      cases l2 with
      | nil => trivial
      | cons b l2x =>
        exact ⟨fun hc => h2 b (List.mem_cons_self b _) hc.2,
          noAdjSplit_of_nosplit (b :: l2x) h2⟩
    | cons c rest2 =>
      exact ⟨h1.1, ih l2 h1.2 h2⟩

theorem dropLast_append_getLast? {α : Type} : ∀ {l : List α} {x : α},
    l.getLast? = some x → l = l.dropLast ++ [x] := by
  intro l
  induction l with
  | nil => intro x h; cases h
  | cons a as ih =>
    intro x h
    cases as with
    | nil =>
      rw [List.getLast?_singleton] at h
      rw [Option.some.inj h]
      rfl
    | cons b bs =>
      rw [List.getLast?_cons_cons] at h
      have h2 := ih h
      calc a :: b :: bs = a :: ((b :: bs).dropLast ++ [x]) := by rw [← h2]
        _ = (a :: b :: bs).dropLast ++ [x] := rfl

theorem noAdjSplit_last_two {objs : List PyObj} :
    ∀ {l : List Nat} {x y : Nat}, noAdjSplit objs l →
    l.getLast? = some x → l.dropLast.getLast? = some y →
    ¬((getO objs y).type = PY_SPLIT ∧ (getO objs x).type = PY_SPLIT) := by
  intro l
  induction l with
  | nil => intro x y _ hx _; cases hx
  | cons a as ih =>
    intro x y h hx hy
    cases as with
    | nil => cases hy
    | cons b bs =>
      cases bs with
      | nil =>
        rw [List.getLast?_cons_cons, List.getLast?_singleton] at hx
        rw [show (a :: b :: ([] : List Nat)).dropLast = [a] from rfl,
            List.getLast?_singleton] at hy
        obtain rfl := Option.some.inj hx
        obtain rfl := Option.some.inj hy
        exact h.1
      | cons c cs =>
        rw [List.getLast?_cons_cons] at hx
        have hy2 : (b :: c :: cs).dropLast.getLast? = some y := by
          rw [show (a :: b :: c :: cs).dropLast = a :: b :: (c :: cs).dropLast
              from rfl, List.getLast?_cons_cons] at hy
          exact hy
        exact ih h.2 hx hy2

theorem countKV_append {objs : List PyObj} (l1 l2 : List Nat) :
    countKV objs (l1 ++ l2) = countKV objs l1 + countKV objs l2 := by
  unfold countKV
  rw [List.filter_append, List.length_append]

theorem countKV_all {objs : List PyObj} (l : List Nat)
    (h : ∀ x ∈ l, (getO objs x).type ≠ PY_SPLIT) :
    countKV objs l = l.length := by
  unfold countKV
  rw [List.filter_eq_self.mpr (fun a ha => decide_eq_true (h a ha))]

theorem countKV_split {objs : List PyObj} (x : Nat)
    (h : (getO objs x).type = PY_SPLIT) : countKV objs [x] = 0 := by
  unfold countKV
  simp [h]

theorem countKV_dropLast_split {objs : List PyObj} {l : List Nat} {x : Nat}
    (hl : l.getLast? = some x) (h : (getO objs x).type = PY_SPLIT) :
    countKV objs l.dropLast = countKV objs l := by
  conv_rhs => rw [dropLast_append_getLast? hl]
  rw [countKV_append, countKV_split x h]
  rfl

theorem set_append_length {α : Type} : ∀ (l : List α) (a b : α),
    (l ++ [a]).set l.length b = l ++ [b] := by
  intro l
  induction l with
  | nil => intro a b; rfl
  | cons x xs ih =>
    intro a b
    show x :: (xs ++ [a]).set xs.length b = x :: (xs ++ [b])
    rw [ih]

theorem setObj_objs_length (s : PMState) (i : Nat) (o : PyObj) :
    (setObj s i o).objs.length = s.objs.length := length_set _ _ _

/-- A type-preserving object write keeps every id valid. -/
theorem okId_setObj {s : PMState} {i : Nat} {o : PyObj}
    (ht : o.type = (getObj s i).type) :
    ∀ x, okId s x → okId (setObj s i o) x := by
  intro x hx
  obtain ⟨hx1, hx2⟩ := hx
  refine ⟨by rw [setObj_objs_length]; exact hx1, ?_⟩
  by_cases hix : i = x
  · subst hix
    by_cases hlt : i < s.objs.length
    · rw [getObj_setObj_self o hlt, ht]; exact hx2
    · have he : s.objs.set i o = s.objs := List.set_eq_of_length_le (by omega)
      have he2 : setObj s i o = { s with objs := s.objs } := by
        unfold setObj
        rw [he]
      rw [he2]
      exact hx2
  · rw [getObj_setObj_ne o hix]; exact hx2

/-- `py_obj_free` changes at most a refcount. -/
theorem getObj_free_eq {s : PMState} (i x : Nat) :
    ∃ r2, getObj (py_obj_free s i) x = { getObj s x with refcnt := r2 } := by
  by_cases hix : i = x
  · subst hix
    by_cases hlt : i < s.objs.length
    · exact ⟨(getObj s i).refcnt - 1, getObj_setObj_self _ hlt⟩
    · refine ⟨(getObj s i).refcnt, ?_⟩
      have he : s.objs.set i { getObj s i with refcnt := (getObj s i).refcnt - 1 }
          = s.objs := List.set_eq_of_length_le (by omega)
      have he2 : py_obj_free s i = { s with objs := s.objs } := by
        unfold py_obj_free setObj
        rw [he]
      rw [he2]
  · refine ⟨(getObj s x).refcnt, ?_⟩
    show getObj (setObj s i { getObj s i with refcnt := (getObj s i).refcnt - 1 }) x = _
    rw [getObj_setObj_ne _ hix]

/-! ### Container handler preservation -/

/-- The success branch of `py_iter_append_mark`. -/
theorem StateWF_iter_append_mark_core {s : PMState} (h : StateWF s)
    (obj : Nat) (prev : List Nat) (hlt : obj < s.objs.length)
    (hm : prev ∈ s.metastack)
    (hev : (getObj s obj).type = PY_DICT → s.stack.length % 2 = 0) :
    StateWF { setObj { s with metastack := s.metastack.dropLast } obj
        { getObj s obj with py_iter := (getObj s obj).py_iter ++ s.stack }
      with stack := prev } ∧
    (∀ x, okId s x → okId { setObj { s with metastack := s.metastack.dropLast }
      obj { getObj s obj with py_iter := (getObj s obj).py_iter ++ s.stack }
      with stack := prev } x) := by
  have h1 : StateWF { s with metastack := s.metastack.dropLast } :=
    StateWF_nonheap h _ _ _ _ _ _ _ _ _ _ h.2.2.1.1
      (fun l hl x hx => h.2.2.1.2.1 l (mem_dropLast hl) x hx)
      h.2.2.1.2.2.1 h.2.2.1.2.2.2 (Nat.le_refl _)
  have h2 : StateWF (setObj { s with metastack := s.metastack.dropLast } obj
      { getObj s obj with py_iter := (getObj s obj).py_iter ++ s.stack }) := by
    refine StateWF_setObj h1 obj _ hlt rfl rfl rfl rfl ?_ ?_ ?_ ?_
    · exact h.2.2.2.2.1 obj hlt
    · intro x hx
      have hx2 : x ∈ (getObj s obj).py_iter ++ s.stack := hx
      rcases List.mem_append.mp hx2 with hx3 | hx3
      · exact h.2.2.2.1.1 obj hlt x hx3
      · exact (h.2.2.1.1 x hx3).1
    · intro hd
      show countKV s.objs ((getObj s obj).py_iter ++ s.stack) % 2 = 0
      rw [countKV_append,
          countKV_all s.stack (fun x hx => (h.2.2.1.1 x hx).2)]
      have he := h.2.1 obj hlt hd
      have hev2 := hev hd
      omega
    · show noAdjSplit s.objs ((getObj s obj).py_iter ++ s.stack)
      exact noAdjSplit_append _ _ (h.2.2.2.2.2.2 obj hlt)
        (fun x hx => (h.2.2.1.1 x hx).2)
  have hok : ∀ x, okId s x → okId (setObj { s with
      metastack := s.metastack.dropLast } obj
      { getObj s obj with py_iter := (getObj s obj).py_iter ++ s.stack }) x := by
    intro x hx
    refine okId_setObj ?_ x hx
    rfl
  refine ⟨?_, hok⟩
  refine StateWF_nonheap h2 prev _ _ _ _ _ _ _ _ _ ?_ h2.2.2.1.2.1
    h2.2.2.1.2.2.1 h2.2.2.1.2.2.2 (Nat.le_refl _)
  intro x hx
  exact hok x (h.2.2.1.2.1 prev hm x hx)

theorem StateWF_py_iter_append_mark {s : PMState} (h : StateWF s)
    (obj? : Option Nat) (t : PyType)
    (hok : ∀ o, obj? = some o → o < s.objs.length) :
    StateWF (py_iter_append_mark s obj? t).2 ∧
    (∀ x, okId s x → okId (py_iter_append_mark s obj? t).2 x) := by
  cases obj? with
  | none => exact ⟨h, fun x hx => hx⟩
  | some obj =>
    have hlt := hok obj rfl
    simp only [py_iter_append_mark]
    by_cases ht : (getObj s obj).type = t
    · rw [if_pos ht]
      by_cases hodd : t = PY_DICT ∧ s.stack.length % 2 = 1
      · rw [if_pos hodd]; exact ⟨h, fun x hx => hx⟩
      · rw [if_neg hodd]
        cases hm : s.metastack.getLast? with
        | none => exact ⟨h, fun x hx => hx⟩
        | some prev =>
          refine StateWF_iter_append_mark_core h obj prev hlt (mem_getLast? hm) ?_
          intro hd
          have hd2 : t = PY_DICT := by rw [← ht]; exact hd
          have hne : ¬ s.stack.length % 2 = 1 := fun hc => hodd ⟨hd2, hc⟩
          omega
    · rw [if_neg ht]
      exact ⟨h, fun x hx => hx⟩

theorem StateWF_py_iter_new {s : PMState} (h : StateWF s) (t : PyType)
    (ht : t ≠ PY_WHAT) :
    StateWF (py_iter_new s t).2 := by
  unfold py_iter_new
  by_cases hd : pytype_has_depth t = true
  · rw [if_pos hd]
    exact StateWF_allocObj h _ ht (fun _ => rfl)
      (fun x hx => absurd hx (List.not_mem_nil x))
      rfl (Nat.zero_le _) rfl rfl trivial
  · rw [if_neg hd]
    exact h

theorem py_iter_new_bound {s : PMState} {t : PyType} {obj : Nat} {s2 : PMState}
    (he : py_iter_new s t = (some obj, s2)) :
    obj < s2.objs.length ∧
    getObj s2 obj = { type := t, offset := s.offset, memo_id := UT64MAX } := by
  unfold py_iter_new at he
  by_cases hd : pytype_has_depth t = true
  · rw [if_pos hd] at he
    have he2 : ((some s.objs.length : Option Nat),
        (allocObj s { type := t, offset := s.offset, memo_id := UT64MAX }).2)
        = (some obj, s2) := he
    injection he2 with ha hb
    injection ha with ha
    subst ha
    subst hb
    refine ⟨?_, getObj_alloc_new⟩
    show s.objs.length < (s.objs ++ [_]).length
    simp
  · rw [if_neg hd] at he
    injection he with ha _
    cases ha

theorem okId_allocObj {s : PMState} (o : PyObj) :
    ∀ x, okId s x → okId (allocObj s o).2 x := by
  intro x hx
  obtain ⟨hx1, hx2⟩ := hx
  refine ⟨?_, ?_⟩
  · show x < (s.objs ++ [o]).length
    rw [List.length_append]
    omega
  · rw [getObj_alloc_lt hx1]
    exact hx2

theorem okId_py_obj_free {s : PMState} (i : Nat) :
    ∀ x, okId s x → okId (py_obj_free s i) x := by
  intro x hx
  refine okId_setObj ?_ x hx
  rfl

theorem okId_py_iter_new {s : PMState} (t : PyType) :
    ∀ x, okId s x → okId (py_iter_new s t).2 x := by
  intro x hx
  unfold py_iter_new
  by_cases hd : pytype_has_depth t = true
  · rw [if_pos hd]
    exact okId_allocObj _ x hx
  · rw [if_neg hd]
    exact hx

theorem StateWF_iter_to_mark {s : PMState} (h : StateWF s) (t : PyType)
    (ht : t ≠ PY_WHAT) (hsp : t ≠ PY_SPLIT) :
    StateWF (iter_to_mark s t).2 ∧
    (∀ o, (iter_to_mark s t).1 = some o → okId (iter_to_mark s t).2 o) ∧
    (∀ x, okId s x → okId (iter_to_mark s t).2 x) := by
  unfold iter_to_mark
  split
  · rename_i s2 heq
    have hw := StateWF_py_iter_new h t ht
    rw [heq] at hw
    refine ⟨hw, ?_, ?_⟩
    · intro o ho
      cases ho
    · intro x hx
      have h3 := okId_py_iter_new t x hx
      rw [heq] at h3
      exact h3
  · rename_i obj s2 heq
    have hw := StateWF_py_iter_new h t ht
    rw [heq] at hw
    have hw2 : StateWF s2 := hw
    have htr2 : ∀ x, okId s x → okId s2 x := by
      intro x hx
      have h3 := okId_py_iter_new t x hx
      rw [heq] at h3
      exact h3
    obtain ⟨hb, hg⟩ := py_iter_new_bound heq
    have hko : okId s2 obj := ⟨hb, by rw [hg]; exact hsp⟩
    obtain ⟨hIA, hIT⟩ := StateWF_py_iter_append_mark hw2 (some obj) t
      (fun o ho => by rw [← Option.some.inj ho]; exact hb)
    split
    · rename_i s3 heq2
      rw [heq2] at hIA hIT
      refine ⟨hIA, ?_, ?_⟩
      · intro o ho
        rw [← Option.some.inj ho]
        exact hIT obj hko
      · intro x hx
        exact hIT x (htr2 x hx)
    · rename_i s3 heq2
      rw [heq2] at hIA hIT
      refine ⟨StateWF_py_obj_free hIA obj, ?_, ?_⟩
      · intro o ho
        cases ho
      · intro x hx
        exact okId_py_obj_free obj x (hIT x (htr2 x hx))

theorem StateWF_op_type_create_append {s : PMState} (h : StateWF s)
    (t : PyType) (ht : t ≠ PY_WHAT) (hsp : t ≠ PY_SPLIT) :
    StateWF (op_type_create_append s t).2 := by
  obtain ⟨h1, h2, _⟩ := StateWF_iter_to_mark h t ht hsp
  unfold op_type_create_append
  split
  · rename_i obj s2 heq
    rw [heq] at h1 h2
    refine StateWF_nonheap h1 _ _ _ _ _ _ _ _ _ _ ?_ h1.2.2.1.2.1
      h1.2.2.1.2.2.1 h1.2.2.1.2.2.2 (Nat.le_refl _)
    intro x hx
    rcases List.mem_append.mp hx with hx | hx
    · exact h1.2.2.1.1 x hx
    · rw [List.mem_singleton.mp hx]
      exact h2 obj rfl
  · rename_i s2 heq
    rw [heq] at h1
    exact h1

theorem StateWF_op_iter_n_loop {obj : Nat} : ∀ (n : Nat) (s : PMState),
    StateWF s → obj < s.objs.length →
    (getObj s obj).type ≠ PY_DICT → (getObj s obj).type ≠ PY_SPLIT →
    StateWF (op_iter_n_loop obj n s).2 := by
  intro n
  induction n with
  | zero =>
    intro s h hlt hnd hns
    refine StateWF_nonheap h _ _ _ _ _ _ _ _ _ _ ?_ h.2.2.1.2.1
      h.2.2.1.2.2.1 h.2.2.1.2.2.2 (Nat.le_refl _)
    intro x hx
    rcases List.mem_append.mp hx with hx | hx
    · exact h.2.2.1.1 x hx
    · rw [List.mem_singleton.mp hx]; exact ⟨hlt, hns⟩
  | succ n ih =>
    intro s h hlt hnd hns
    unfold op_iter_n_loop
    cases hl : s.stack.getLast? with
    | none => exact h
    | some o =>
      have hok := okId_mem_stack h (mem_getLast? hl)
      have h1 : StateWF { s with stack := s.stack.dropLast } :=
        StateWF_nonheap h _ _ _ _ _ _ _ _ _ _
          (fun x hx => h.2.2.1.1 x (mem_dropLast hx)) h.2.2.1.2.1
          h.2.2.1.2.2.1 h.2.2.1.2.2.2 (Nat.le_refl _)
      have h2 : StateWF (setObj { s with stack := s.stack.dropLast } obj
          { getObj s obj with py_iter := o :: (getObj s obj).py_iter }) := by
        refine StateWF_setObj h1 obj _ hlt rfl rfl rfl rfl ?_ ?_ ?_ ?_
        · exact h.2.2.2.2.1 obj hlt
        · intro x hx
          have hx2 : x ∈ o :: (getObj s obj).py_iter := hx
          rcases List.mem_cons.mp hx2 with hx3 | hx3
          · rw [hx3]; exact hok.1
          · exact h.2.2.2.1.1 obj hlt x hx3
        · intro hd; exact absurd hd hnd
        · show noAdjSplit s.objs (o :: (getObj s obj).py_iter)
          exact noAdjSplit_cons hok.2 (h.2.2.2.2.2.2 obj hlt)
      have hlt1 : obj < ({ s with stack := s.stack.dropLast } : PMState).objs.length := hlt
      exact ih _ h2
        (by rw [setObj_objs_length]; exact hlt)
        (by rw [getObj_setObj_self _ hlt1]; exact hnd)
        (by rw [getObj_setObj_self _ hlt1]; exact hns)

theorem StateWF_op_iter_n {s : PMState} (h : StateWF s) (n : Nat) (t : PyType)
    (ht : t ≠ PY_WHAT) (hsp : t ≠ PY_SPLIT) (hnd : t ≠ PY_DICT) :
    StateWF (op_iter_n s n t).2 := by
  unfold op_iter_n
  by_cases h3 : n > 3
  · rw [if_pos h3]; exact h
  · rw [if_neg h3]
    split
    · rename_i s2 heq
      have hw := StateWF_py_iter_new h t ht
      rw [heq] at hw
      exact hw
    · rename_i obj s2 heq
      have hw := StateWF_py_iter_new h t ht
      rw [heq] at hw
      obtain ⟨hb, hg⟩ := py_iter_new_bound heq
      refine StateWF_op_iter_n_loop n _ hw hb ?_ ?_
      · rw [hg]; exact hnd
      · rw [hg]; exact hsp

theorem StateWF_push_to_stack_iter {s : PMState} (h : StateWF s) (t : PyType)
    (obj : Nat) (hobj : okId s obj) (hnd : t ≠ PY_DICT) :
    StateWF (push_to_stack_iter s t obj).2 ∧
    (∀ x, okId s x → okId (push_to_stack_iter s t obj).2 x) := by
  unfold push_to_stack_iter
  split
  · rename_i iterobj hl
    have hok := okId_mem_stack h (mem_getLast? hl)
    by_cases ht : (getObj s iterobj).type = t
    · rw [if_pos ht]
      refine ⟨StateWF_setObj h iterobj _ hok.1 rfl rfl rfl rfl ?_ ?_ ?_ ?_, ?_⟩
      · exact h.2.2.2.2.1 iterobj hok.1
      · intro x hx
        have hx2 : x ∈ (getObj s iterobj).py_iter ++ [obj] := hx
        rcases List.mem_append.mp hx2 with hx3 | hx3
        · exact h.2.2.2.1.1 iterobj hok.1 x hx3
        · rw [List.mem_singleton.mp hx3]; exact hobj.1
      · intro hd
        rw [ht] at hd
        exact absurd hd hnd
      · show noAdjSplit s.objs ((getObj s iterobj).py_iter ++ [obj])
        exact noAdjSplit_append _ _ (h.2.2.2.2.2.2 iterobj hok.1)
          (fun x hx => by rw [List.mem_singleton.mp hx]; exact hobj.2)
      · intro x hx
        refine okId_setObj ?_ x hx
        rfl
    · rw [if_neg ht]
      exact ⟨h, fun x hx => hx⟩
  · exact ⟨h, fun x hx => hx⟩

/-! ### What-upgrade machinery preservation -/

/-- The fresh `What` object as laid out by `py_what_new`. -/
def whatObj (s : PMState) : PyObj :=
  { type := PY_WHAT, offset := s.offset, memo_id := UT64MAX,
    py_what := [s.opers.length] }

/-- The `FAKE_INIT` oper as laid out by `py_what_new`. -/
def fakeInitOper (s : PMState) (obj : Nat) : PyOper :=
  { op := OP_FAKE_INIT, offset := s.offset, stack := [obj] }

/-- The state produced by `py_what_new`, in explicit form. -/
def pwnState (s : PMState) (obj : Nat) : PMState :=
  { s with objs := s.objs ++ [whatObj s],
           opers := s.opers ++ [fakeInitOper s obj] }

/-- The intermediate state of `py_what_new` after both allocations. -/
def pwnMid (s : PMState) (obj : Nat) : PMState :=
  { s with objs := s.objs ++ [{ type := PY_WHAT, offset := s.offset, memo_id := UT64MAX }],
           opers := s.opers ++ [fakeInitOper s obj] }

theorem py_what_new_eq (s : PMState) (obj : Nat) :
    (py_what_new s obj).2 = pwnState s obj := by
  have hg : getObj (pwnMid s obj) s.objs.length
      = { type := PY_WHAT, offset := s.offset, memo_id := UT64MAX } :=
    getD_append_length _ _ _
  calc (py_what_new s obj).2
      = setObj (pwnMid s obj) s.objs.length
          { getObj (pwnMid s obj) s.objs.length with py_what := [s.opers.length] } := rfl
    _ = { s with
          objs := (s.objs ++ [({ type := PY_WHAT, offset := s.offset, memo_id := UT64MAX } : PyObj)]).set s.objs.length { type := PY_WHAT, offset := s.offset, memo_id := UT64MAX, py_what := [s.opers.length] },
          opers := s.opers ++ [fakeInitOper s obj] } := by rw [hg]; rfl
    _ = pwnState s obj := by
          unfold pwnState whatObj
          rw [set_append_length]

theorem getObj_pwn_lt {s : PMState} {obj j : Nat} (hj : j < s.objs.length) :
    getObj (pwnState s obj) j = getObj s j := getD_append_left _ _ _ _ hj

theorem getObj_pwn_new {s : PMState} {obj : Nat} :
    getObj (pwnState s obj) s.objs.length = whatObj s := getD_append_length _ _ _

theorem getOper_pwn_lt {s : PMState} {obj q : Nat} (hq : q < s.opers.length) :
    getOper (pwnState s obj) q = getOper s q := getD_append_left _ _ _ _ hq

theorem getOper_pwn_new {s : PMState} {obj : Nat} :
    getOper (pwnState s obj) s.opers.length = fakeInitOper s obj :=
  getD_append_length _ _ _

theorem pwn_objs_length (s : PMState) (obj : Nat) :
    (pwnState s obj).objs.length = s.objs.length + 1 := by
  show (s.objs ++ [whatObj s]).length = _
  simp

theorem pwn_opers_length (s : PMState) (obj : Nat) :
    (pwnState s obj).opers.length = s.opers.length + 1 := by
  show (s.opers ++ [fakeInitOper s obj]).length = _
  simp

theorem okId_pwn {s : PMState} {obj : Nat} :
    ∀ x, okId s x → okId (pwnState s obj) x := by
  intro x hx
  obtain ⟨hx1, hx2⟩ := hx
  refine ⟨by rw [pwn_objs_length]; omega, ?_⟩
  rw [getObj_pwn_lt hx1]
  exact hx2

theorem StateWF_pwn {s : PMState} (h : StateWF s) {obj : Nat}
    (hobj : obj < s.objs.length) : StateWF (pwnState s obj) := by
  obtain ⟨hW, hD, hS, hH, hR, hF, hA⟩ := h
  have hcase : ∀ j, j < (pwnState s obj).objs.length →
      (j < s.objs.length ∧ getObj (pwnState s obj) j = getObj s j) ∨
      (j = s.objs.length ∧ getObj (pwnState s obj) j = whatObj s) := by
    intro j hj
    rw [pwn_objs_length] at hj
    by_cases hc : j < s.objs.length
    · exact Or.inl ⟨hc, getObj_pwn_lt hc⟩
    · have hje : j = s.objs.length := by omega
      subst hje
      exact Or.inr ⟨rfl, getObj_pwn_new⟩
  have htym : ∀ j, j < s.objs.length → ∀ x ∈ (getObj s j).py_iter,
      (getO (pwnState s obj).objs x).type = (getO s.objs x).type := by
    intro j hj x hx
    show (getObj (pwnState s obj) x).type = (getObj s x).type
    rw [getObj_pwn_lt (hH.1 j hj x hx)]
  refine ⟨?_, ?_, ?_, ?_, ?_, ?_, ?_⟩
  · intro j hj hjW
    rcases hcase j hj with ⟨hc, he⟩ | ⟨hc, he⟩
    · rw [he] at hjW
      obtain ⟨h1, h2, h3, h4⟩ := hW j hc hjW
      unfold whatHead
      rw [he]
      refine ⟨h1, ?_, ?_, ?_⟩
      · rw [pwn_opers_length]; exact Nat.lt_succ_of_lt h2
      · show (getOper (pwnState s obj) (whatHead s j)).op = OP_FAKE_INIT
        rw [getOper_pwn_lt h2]; exact h3
      · show (getOper (pwnState s obj) (whatHead s j)).stack.length = 1
        rw [getOper_pwn_lt h2]; exact h4
    · subst hc
      unfold whatHead
      rw [he]
      refine ⟨List.cons_ne_nil _ _, ?_, ?_, ?_⟩
      · show s.opers.length < (pwnState s obj).opers.length
        rw [pwn_opers_length]
        exact Nat.lt_succ_self _
      · show (getOper (pwnState s obj) s.opers.length).op = OP_FAKE_INIT
        rw [getOper_pwn_new]
        rfl
      · show (getOper (pwnState s obj) s.opers.length).stack.length = 1
        rw [getOper_pwn_new]
        rfl
  · intro j hj hjD
    rcases hcase j hj with ⟨hc, he⟩ | ⟨hc, he⟩
    · rw [he] at hjD ⊢
      have := hD j hc hjD
      rwa [countKV_eq (getObj s j).py_iter (htym j hc)]
    · rw [he] at hjD
      exact PyType.noConfusion hjD
  · obtain ⟨s1, s2, s3, s4⟩ := hS
    exact ⟨fun x hx => okId_pwn x (s1 x hx),
           fun l hl x hx => okId_pwn x (s2 l hl x hx),
           fun x hx => okId_pwn x (s3 x hx),
           fun kv hkv x hx => okId_pwn x (s4 kv hkv x hx)⟩
  · obtain ⟨h1, h2, h3⟩ := hH
    refine ⟨?_, ?_, ?_⟩
    · intro j hj x hx
      rw [pwn_objs_length]
      rcases hcase j hj with ⟨hc, he⟩ | ⟨hc, he⟩
      · rw [he] at hx; exact Nat.lt_succ_of_lt (h1 j hc x hx)
      · rw [he] at hx
        exact absurd (hx : x ∈ ([] : List Nat)) (List.not_mem_nil x)
    · intro j hj p hp
      rw [pwn_opers_length]
      rcases hcase j hj with ⟨hc, he⟩ | ⟨hc, he⟩
      · rw [he] at hp; exact Nat.lt_succ_of_lt (h2 j hc p hp)
      · rw [he] at hp
        rw [List.mem_singleton.mp (hp : p ∈ [s.opers.length])]
        exact Nat.lt_succ_self _
    · intro q hq x hx
      rw [pwn_objs_length]
      rw [pwn_opers_length] at hq
      by_cases hc : q < s.opers.length
      · rw [getOper_pwn_lt hc] at hx
        exact Nat.lt_succ_of_lt (h3 q hc x hx)
      · have hqe : q = s.opers.length := by omega
        subst hqe
        rw [getOper_pwn_new] at hx
        rw [List.mem_singleton.mp (hx : x ∈ [obj])]
        exact Nat.lt_succ_of_lt hobj
  · intro j hj
    rcases hcase j hj with ⟨hc, he⟩ | ⟨hc, he⟩
    · rw [he]; exact hR j hc
    · rw [he]; exact Nat.zero_le _
  · intro j hj
    rcases hcase j hj with ⟨hc, he⟩ | ⟨hc, he⟩
    · rw [he]; exact hF j hc
    · rw [he]; exact ⟨rfl, rfl⟩
  · intro j hj
    rcases hcase j hj with ⟨hc, he⟩ | ⟨hc, he⟩
    · rw [he, ← noAdjSplit_eq (getObj s j).py_iter (htym j hc)]
      exact hA j hc
    · rw [he]
      trivial

theorem StateWF_py_what_new {s : PMState} (h : StateWF s) {obj : Nat}
    (hobj : obj < s.objs.length) :
    StateWF (py_what_new s obj).2 := by
  rw [py_what_new_eq]
  exact StateWF_pwn h hobj

theorem headD_append_ne {α : Type} {l : List α} (x d : α) (h : l ≠ []) :
    (l ++ [x]).headD d = l.headD d := by
  cases l with
  | nil => exact absurd rfl h
  | cons a as => rfl

/-- A write that may change the object's history, provided the head of a
`What`'s history is unchanged and the new history ids are in range. -/
theorem StateWF_setObj_what {s : PMState} (h : StateWF s) (i : Nat) (o : PyObj)
    (hlt : i < s.objs.length)
    (htype : o.type = (getObj s i).type)
    (hvar : o.varname = (getObj s i).varname)
    (hmemo : o.memo_id = (getObj s i).memo_id)
    (hiter : o.py_iter = (getObj s i).py_iter)
    (hrec : o.recurse ≤ s.recurse)
    (hwh1 : ∀ p ∈ o.py_what, p < s.opers.length)
    (hwh2 : (getObj s i).type = PY_WHAT →
      o.py_what.headD 0 = (getObj s i).py_what.headD 0 ∧ o.py_what ≠ []) :
    StateWF (setObj s i o) := by
  obtain ⟨hW, hD, hS, hH, hR, hF, hA⟩ := h
  have hlen : (setObj s i o).objs.length = s.objs.length := length_set _ _ _
  have hty : ∀ j, (getObj (setObj s i o) j).type = (getObj s j).type := by
    intro j
    by_cases hij : i = j
    · subst hij; rw [getObj_setObj_self o hlt, htype]
    · rw [getObj_setObj_ne o hij]
  have hit : ∀ j, (getObj (setObj s i o) j).py_iter = (getObj s j).py_iter := by
    intro j
    by_cases hij : i = j
    · subst hij; rw [getObj_setObj_self o hlt, hiter]
    · rw [getObj_setObj_ne o hij]
  have hwh : ∀ j, (getObj (setObj s i o) j).py_what = (getObj s j).py_what ∨
      (j = i ∧ (getObj (setObj s i o) j).py_what = o.py_what) := by
    intro j
    by_cases hij : i = j
    · subst hij; right; exact ⟨rfl, by rw [getObj_setObj_self o hlt]⟩
    · left; rw [getObj_setObj_ne o hij]
  refine ⟨?_, ?_, ?_, ?_, ?_, ?_, ?_⟩
  · intro j hj hjW
    rw [hlen] at hj
    rw [hty j] at hjW
    obtain ⟨h1, h2, h3, h4⟩ := hW j hj hjW
    unfold whatHead
    rcases hwh j with hsame | ⟨hij, hnew⟩
    · rw [hsame]
      exact ⟨h1, h2, h3, h4⟩
    · subst hij
      obtain ⟨hh1, hh2⟩ := hwh2 hjW
      rw [hnew, hh1]
      exact ⟨hh2, h2, h3, h4⟩
  · intro j hj hjD
    rw [hlen] at hj
    rw [hty j] at hjD
    have hcnt : ∀ l, countKV (setObj s i o).objs l = countKV s.objs l :=
      fun l => countKV_eq l (fun x _ => hty x)
    rw [hit j, hcnt]
    exact hD j hj hjD
  · obtain ⟨s1, s2, s3, s4⟩ := hS
    have hok : ∀ x, okId s x → okId (setObj s i o) x := by
      intro x hx
      obtain ⟨hx1, hx2⟩ := hx
      exact ⟨by rw [hlen]; exact hx1, by rw [hty x]; exact hx2⟩
    exact ⟨fun x hx => hok x (s1 x hx), fun l hl x hx => hok x (s2 l hl x hx),
           fun x hx => hok x (s3 x hx), fun kv hkv x hx => hok x (s4 kv hkv x hx)⟩
  · obtain ⟨h1, h2, h3⟩ := hH
    refine ⟨?_, ?_, ?_⟩
    · intro j hj x hx
      rw [hlen] at hj ⊢
      rw [hit j] at hx
      exact h1 j hj x hx
    · intro j hj p hp
      rw [hlen] at hj
      rcases hwh j with hsame | ⟨hij, hnew⟩
      · rw [hsame] at hp; exact h2 j hj p hp
      · rw [hnew] at hp; exact hwh1 p hp
    · intro q hq x hx
      rw [hlen]
      exact h3 q hq x hx
  · intro j hj
    rw [hlen] at hj
    by_cases hij : i = j
    · subst hij; rw [getObj_setObj_self o hlt]; exact hrec
    · rw [getObj_setObj_ne o hij]; exact hR j hj
  · intro j hj
    rw [hlen] at hj
    by_cases hij : i = j
    · subst hij; rw [getObj_setObj_self o hlt, hvar, hmemo]; exact hF i hj
    · rw [getObj_setObj_ne o hij]; exact hF j hj
  · intro j hj
    rw [hlen] at hj
    have hadj : ∀ l, noAdjSplit s.objs l ↔ noAdjSplit (setObj s i o).objs l :=
      fun l => noAdjSplit_eq l (fun x _ => hty x)
    rw [hit j, ← hadj]
    exact hA j hj

theorem StateWF_what_append_pop {s : PMState} (h : StateWF s) (i pop : Nat)
    (hlt : i < s.objs.length) (hpop : pop < s.opers.length) :
    StateWF (setObj s i
      { getObj s i with py_what := (getObj s i).py_what ++ [pop] }) := by
  refine StateWF_setObj_what h i _ hlt rfl rfl rfl rfl (h.2.2.2.2.1 i hlt) ?_ ?_
  · intro p hp
    have hp2 : p ∈ (getObj s i).py_what ++ [pop] := hp
    rcases List.mem_append.mp hp2 with h3 | h3
    · exact h.2.2.2.1.2.1 i hlt p h3
    · rw [List.mem_singleton.mp h3]; exact hpop
  · intro hw
    obtain ⟨h1, h2, h3, h4⟩ := h.1 i hlt hw
    constructor
    · show ((getObj s i).py_what ++ [pop]).headD 0 = (getObj s i).py_what.headD 0
      exact headD_append_ne _ _ h1
    · show (getObj s i).py_what ++ [pop] ≠ []
      intro hc
      exact List.cons_ne_nil pop [] (List.append_eq_nil.mp hc).2

/-- Master facts for `stack_top_to_what`: the invariant holds afterwards,
the returned stack and `What` id are valid, old opers are untouched, and
valid ids stay valid. -/
theorem StateWF_stack_top_to_what {s : PMState} (h : StateWF s)
    (stk : List Nat) (hstk : ∀ i ∈ stk, okId s i) :
    StateWF (stack_top_to_what s stk).2.2 ∧
    (∀ i ∈ (stack_top_to_what s stk).2.1, okId (stack_top_to_what s stk).2.2 i) ∧
    (∀ o, (stack_top_to_what s stk).1 = some o →
      o < (stack_top_to_what s stk).2.2.objs.length ∧
      (getObj (stack_top_to_what s stk).2.2 o).type = PY_WHAT) ∧
    (s.opers.length ≤ (stack_top_to_what s stk).2.2.opers.length ∧
     ∀ q, q < s.opers.length →
       getOper (stack_top_to_what s stk).2.2 q = getOper s q) ∧
    (∀ x, okId s x → okId (stack_top_to_what s stk).2.2 x) ∧
    (stack_top_to_what s stk).2.2.stack = s.stack ∧
    (stack_top_to_what s stk).2.2.metastack = s.metastack := by
  unfold stack_top_to_what
  split
  · refine ⟨h, fun i hi => hstk i hi, ?_,
      ⟨Nat.le_refl _, fun q _ => rfl⟩, fun x hx => hx, rfl, rfl⟩
    intro o ho
    cases ho
  · rename_i top hl
    by_cases hw : (getObj s top).type = PY_WHAT
    · rw [if_pos hw]
      refine ⟨h, fun i hi => hstk i hi, ?_,
        ⟨Nat.le_refl _, fun q _ => rfl⟩, fun x hx => hx, rfl, rfl⟩
      intro o ho
      rw [← Option.some.inj ho]
      exact ⟨(hstk top (mem_getLast? hl)).1, hw⟩
    · rw [if_neg hw]
      split
      rename_i wat s2 heq
      have hw1 : s.objs.length = wat := congrArg Prod.fst heq
      have hs2 : s2 = pwnState s top :=
        (congrArg Prod.snd heq).symm.trans (py_what_new_eq s top)
      subst hw1
      subst hs2
      refine ⟨StateWF_pwn h (hstk top (mem_getLast? hl)).1, ?_, ?_, ?_, ?_, rfl, rfl⟩
      · intro i hi
        rcases List.mem_append.mp hi with hi | hi
        · exact okId_pwn i (hstk i (mem_dropLast hi))
        · rw [List.mem_singleton.mp hi]
          refine ⟨by rw [pwn_objs_length]; exact Nat.lt_succ_self _, ?_⟩
          rw [getObj_pwn_new]
          intro hc
          exact PyType.noConfusion hc
      · intro o ho
        rw [← Option.some.inj ho]
        refine ⟨by rw [pwn_objs_length]; exact Nat.lt_succ_self _, ?_⟩
        rw [getObj_pwn_new]
        rfl
      · refine ⟨?_, ?_⟩
        · rw [pwn_opers_length]; exact Nat.le_succ _
        · intro q hq
          exact getOper_pwn_lt hq
      · exact fun x hx => okId_pwn x hx

theorem StateWF_py_what_addop_stack {s : PMState} (h : StateWF s) (op : PyOp)
    (hop : op ≠ OP_FAKE_INIT) :
    StateWF (py_what_addop_stack s op).2 := by
  unfold py_what_addop_stack
  split
  · exact h
  · rename_i oldstack hm
    split
    rename_i pop s2 heq
    have hp1 : s.opers.length = pop := congrArg Prod.fst heq
    have hs2 : (py_oper_new { s with metastack := s.metastack.dropLast } op).2
        = s2 := congrArg Prod.snd heq
    have h1 : StateWF { s with metastack := s.metastack.dropLast } :=
      StateWF_nonheap h _ _ _ _ _ _ _ _ _ _ h.2.2.1.1
        (fun l hl x hx => h.2.2.1.2.1 l (mem_dropLast hl) x hx)
        h.2.2.1.2.2.1 h.2.2.1.2.2.2 (Nat.le_refl _)
    have h2 : StateWF s2 := by
      rw [← hs2]
      exact StateWF_allocOper h1 _ (fun x hx => absurd hx (List.not_mem_nil x))
    have hpop2 : pop < s2.opers.length := by
      rw [← hs2, ← hp1]
      show s.opers.length < (s.opers ++ [_]).length
      simp
    have hpopop : (getOper s2 pop).op = op := by
      rw [← hs2, ← hp1]
      show (getOper (allocOper { s with metastack := s.metastack.dropLast }
          { op := op, offset := s.offset }).2
          ({ s with metastack := s.metastack.dropLast } : PMState).opers.length).op = op
      rw [getOper_alloc_new]
    have hstk2 : ∀ i ∈ oldstack, okId s2 i := by
      intro i hi
      have hok : okId s i := h.2.2.1.2.1 oldstack (mem_getLast? hm) i hi
      rw [← hs2]
      exact hok
    obtain ⟨h3, hOS, hSOME, ⟨hOL, hOQ⟩, hOK, hST, hMS⟩ :=
      StateWF_stack_top_to_what h2 oldstack hstk2
    split
    · rename_i part1 heq2
      rename_i obj2
      rw [heq2] at h3
      exact StateWF_pyop_free h3 pop
    · rename_i obj oldstack2 s3 heq2
      rw [heq2] at h3 hOS hSOME hOL hOQ hOK hST hMS
      have hs3 : StateWF s3 := h3
      have hobj3 : obj < s3.objs.length ∧ (getObj s3 obj).type = PY_WHAT :=
        hSOME obj rfl
      have hpop3 : pop < s3.opers.length := Nat.lt_of_lt_of_le hpop2 hOL
      have h4 : StateWF (setObj s3 obj { getObj s3 obj with
          py_what := (getObj s3 obj).py_what ++ [pop] }) :=
        StateWF_what_append_pop hs3 obj pop hobj3.1 hpop3
      have hopne : (getOper (setObj s3 obj { getObj s3 obj with
          py_what := (getObj s3 obj).py_what ++ [pop] }) pop).op ≠ OP_FAKE_INIT := by
        show (getOper s3 pop).op ≠ OP_FAKE_INIT
        rw [hOQ pop hpop2, hpopop]
        exact hop
      have h5 : StateWF (setOper (setObj s3 obj { getObj s3 obj with
          py_what := (getObj s3 obj).py_what ++ [pop] }) pop
          { getOper (setObj s3 obj { getObj s3 obj with
              py_what := (getObj s3 obj).py_what ++ [pop] }) pop with
            stack := (setObj s3 obj { getObj s3 obj with
              py_what := (getObj s3 obj).py_what ++ [pop] }).stack }) := by
        refine StateWF_setOper_stack h4 pop _ hopne ?_
        intro x hx
        exact (h4.2.2.1.1 x hx).1
      refine StateWF_nonheap h5 oldstack2 _ _ _ _ _ _ _ _ _ ?_ h5.2.2.1.2.1
        h5.2.2.1.2.2.1 h5.2.2.1.2.2.2 (Nat.le_refl _)
      intro x hx
      have hx3 : okId s3 x := hOS x hx
      have hx4 : okId (setObj s3 obj { getObj s3 obj with
          py_what := (getObj s3 obj).py_what ++ [pop] }) x := by
        refine okId_setObj ?_ x hx3
        rfl
      exact hx4

/-! ### Split pass preservation -/

/-- `add_splits` and its helpers keep the heap skeleton: same object
count, same types, the opers untouched, same generation counter. -/
def splitsOK (s s2 : PMState) : Prop :=
  s2.objs.length = s.objs.length ∧
  (∀ x, (getObj s2 x).type = (getObj s x).type) ∧
  s2.opers = s.opers ∧
  s2.recurse = s.recurse

theorem splitsOK_refl (s : PMState) : splitsOK s s :=
  ⟨rfl, fun _ => rfl, rfl, rfl⟩

theorem splitsOK_trans {s1 s2 s3 : PMState} (h1 : splitsOK s1 s2)
    (h2 : splitsOK s2 s3) : splitsOK s1 s3 :=
  ⟨h2.1.trans h1.1, fun x => (h2.2.1 x).trans (h1.2.1 x),
   h2.2.2.1.trans h1.2.2.1, h2.2.2.2.trans h1.2.2.2⟩

/-- A type-preserving single-object write leaves every type unchanged. -/
theorem getObj_type_setObj {s : PMState} {i : Nat} {o : PyObj}
    (ht : o.type = (getObj s i).type) (x : Nat) :
    (getObj (setObj s i o) x).type = (getObj s x).type := by
  by_cases hix : i = x
  · subst hix
    by_cases hlt : i < s.objs.length
    · rw [getObj_setObj_self o hlt, ht]
    · have he2 : setObj s i o = { s with objs := s.objs } := by
        unfold setObj
        rw [List.set_eq_of_length_le (by omega)]
      rw [he2]
  · rw [getObj_setObj_ne o hix]

theorem noAdjSplit_append_one {objs : List PyObj} {l : List Nat} (sp : Nat)
    (h : noAdjSplit objs l)
    (hlast : ∀ y, l.getLast? = some y → (getO objs y).type ≠ PY_SPLIT) :
    noAdjSplit objs (l ++ [sp]) := by
  induction l with
  | nil => trivial
  | cons a as ih =>
    cases as with
    | nil =>
      exact ⟨fun hcc => hlast a (List.getLast?_singleton a) hcc.1, trivial⟩
    | cons b bs =>
      refine ⟨h.1, ih h.2 ?_⟩
      intro y hy
      exact hlast y (by rw [List.getLast?_cons_cons]; exact hy)

theorem noAdjSplit_dropLast {objs : List PyObj} :
    ∀ {l : List Nat}, noAdjSplit objs l → noAdjSplit objs l.dropLast := by
  intro l
  induction l with
  | nil => intro _; trivial
  | cons a as ih =>
    intro h
    cases as with
    | nil => trivial
    | cons b bs =>
      cases bs with
      | nil => trivial
      | cons d ds => exact ⟨h.1, ih h.2⟩

theorem StateWF_itter_add_split_core {s : PMState} (h : StateWF s)
    (c : Nat) (it : List Nat) (split : Nat)
    (hc : c < s.objs.length) (hsp : split < s.objs.length)
    (hst : (getObj s split).type = PY_SPLIT)
    (hit : ∀ x ∈ it, x < s.objs.length)
    (hcnt : (getObj s c).type = PY_DICT → countKV s.objs it % 2 = 0)
    (hadj : noAdjSplit s.objs it)
    (hlast : ∀ y, it.getLast? = some y → (getO s.objs y).type ≠ PY_SPLIT) :
    StateWF (itter_add_split_core s c it split).2 ∧
    splitsOK s (itter_add_split_core s c it split).2 := by
  have h1 : StateWF (setObj s c { getObj s c with py_iter := it ++ [split] }) := by
    refine StateWF_setObj h c _ hc rfl rfl rfl rfl ?_ ?_ ?_ ?_
    · exact h.2.2.2.2.1 c hc
    · intro x hx
      have hx2 : x ∈ it ++ [split] := hx
      rcases List.mem_append.mp hx2 with h3 | h3
      · exact hit x h3
      · rw [List.mem_singleton.mp h3]; exact hsp
    · intro hd
      show countKV s.objs (it ++ [split]) % 2 = 0
      rw [countKV_append, countKV_split split hst]
      have := hcnt hd
      omega
    · show noAdjSplit s.objs (it ++ [split])
      exact noAdjSplit_append_one split hadj hlast
  have h2 := StateWF_set_refcnt h1 split
    ((getObj (setObj s c { getObj s c with py_iter := it ++ [split] }) split).refcnt + 1)
  refine ⟨h2, ?_, ?_, rfl, rfl⟩
  · show ((setObj (setObj s c { getObj s c with py_iter := it ++ [split] })
      split _).objs).length = s.objs.length
    rw [setObj_objs_length, setObj_objs_length]
  · intro x
    have hb : (getObj (setObj s c { getObj s c with py_iter := it ++ [split] }) x).type
        = (getObj s x).type := by
      refine getObj_type_setObj ?_ x
      rfl
    refine Eq.trans ?_ hb
    refine getObj_type_setObj ?_ x
    rfl

theorem StateWF_itter_add_split {s : PMState} (h : StateWF s)
    (c split : Nat) (hc : c < s.objs.length) (hsp : split < s.objs.length)
    (hst : (getObj s split).type = PY_SPLIT) :
    StateWF (itter_add_split s c split).2 ∧
    splitsOK s (itter_add_split s c split).2 := by
  unfold itter_add_split
  split
  case _ lastid hl =>
    have hlid : lastid < s.objs.length :=
      h.2.2.2.1.1 c hc lastid (mem_getLast? hl)
    by_cases hts : (getObj s lastid).type = PY_SPLIT
    · rw [if_pos hts]
      have hfree : StateWF (py_obj_free s lastid) := StateWF_py_obj_free h lastid
      have hfty : ∀ x, (getObj (py_obj_free s lastid) x).type = (getObj s x).type := by
        intro x
        refine getObj_type_setObj ?_ x
        rfl
      have hflen : (py_obj_free s lastid).objs.length = s.objs.length :=
        setObj_objs_length _ _ _
      obtain ⟨hA, hB⟩ := StateWF_itter_add_split_core hfree c
        (getObj s c).py_iter.dropLast split
        (by rw [hflen]; exact hc) (by rw [hflen]; exact hsp)
        (by rw [hfty]; exact hst)
        (fun x hx => by
          rw [hflen]
          exact h.2.2.2.1.1 c hc x (mem_dropLast hx))
        (fun hd => by
          rw [hfty] at hd
          have he1 : countKV (py_obj_free s lastid).objs
              (getObj s c).py_iter.dropLast
              = countKV s.objs (getObj s c).py_iter.dropLast :=
            countKV_eq _ (fun x _ => hfty x)
          rw [he1, countKV_dropLast_split hl hts]
          exact h.2.1 c hc hd)
        (by
          rw [← noAdjSplit_eq _ (fun x _ => hfty x)]
          exact noAdjSplit_dropLast (h.2.2.2.2.2.2 c hc))
        (fun y hy => by
          rw [show (getO (py_obj_free s lastid).objs y).type
            = (getO s.objs y).type from hfty y]
          have hpair := noAdjSplit_last_two (h.2.2.2.2.2.2 c hc) hl hy
          intro hcc
          exact hpair ⟨hcc, hts⟩)
      refine ⟨hA, splitsOK_trans ?_ hB⟩
      exact ⟨hflen, hfty, rfl, rfl⟩
    · rw [if_neg hts]
      refine StateWF_itter_add_split_core h c _ split hc hsp hst
        (h.2.2.2.1.1 c hc) (fun hd => h.2.1 c hc hd) (h.2.2.2.2.2.2 c hc) ?_
      intro y hy
      rw [hl] at hy
      rw [← Option.some.inj hy]
      exact hts
  case _ hl =>
    refine StateWF_itter_add_split_core h c _ split hc hsp hst
      (h.2.2.2.1.1 c hc) (fun hd => h.2.1 c hc hd) (h.2.2.2.2.2.2 c hc) ?_
    intro y hy
    rw [hl] at hy
    cases hy

theorem StateWF_add_splits : ∀ (fuel : Nat) {s : PMState} {obj split : Nat}
    {r : Bool × PMState},
    StateWF s → obj < s.objs.length → split < s.objs.length →
    (getObj s split).type = PY_SPLIT →
    add_splits fuel s obj split = some r →
    StateWF r.2 ∧ splitsOK s r.2 := by
  intro fuel
  induction fuel with
  | zero =>
    intro s obj split r _ _ _ _ he
    cases he
  | succ fuel ih =>
    have hiter : ∀ (l : List Nat) (s : PMState) (split : Nat)
        (r : Bool × PMState), StateWF s → (∀ x ∈ l, x < s.objs.length) →
        split < s.objs.length → (getObj s split).type = PY_SPLIT →
        split_iter_recures (add_splits fuel) s l split = some r →
        StateWF r.2 ∧ splitsOK s r.2 := by
      intro l
      induction l with
      | nil =>
        intro s split r h _ _ _ he
        have he2 : some ((true : Bool), s) = some r := he
        rw [← Option.some.inj he2]
        exact ⟨h, splitsOK_refl s⟩
      | cons o rest ihl =>
        intro s split r h hl hsp hst he
        have he2 : (match add_splits fuel s o split with
          | none => none
          | some (false, s) => some (false, s)
          | some (true, s) => split_iter_recures (add_splits fuel) s rest split)
          = some r := he
        cases ha : add_splits fuel s o split with
        | none =>
          rw [ha] at he2
          cases he2
        | some p =>
          obtain ⟨b, s2⟩ := p
          rw [ha] at he2
          obtain ⟨h2, hok2⟩ := ih h (hl o (List.mem_cons_self o _)) hsp hst ha
          cases b with
          | false =>
            have he3 : some ((false : Bool), s2) = some r := he2
            rw [← Option.some.inj he3]
            exact ⟨h2, hok2⟩
          | true =>
            have he3 : split_iter_recures (add_splits fuel) s2 rest split
                = some r := he2
            obtain ⟨h3, hok3⟩ := ihl s2 split r h2
              (fun x hx => by
                rw [hok2.1]
                exact hl x (List.mem_cons_of_mem o hx))
              (by rw [hok2.1]; exact hsp)
              (by rw [hok2.2.1 split]; exact hst)
              he3
            exact ⟨h3, splitsOK_trans hok2 hok3⟩
    have hwhat : ∀ (pl : List Nat) (s : PMState) (split : Nat)
        (r : Bool × PMState), StateWF s → (∀ p ∈ pl, p < s.opers.length) →
        split < s.objs.length → (getObj s split).type = PY_SPLIT →
        split_what_recures (add_splits fuel) s pl split = some r →
        StateWF r.2 ∧ splitsOK s r.2 := by
      intro pl
      induction pl with
      | nil =>
        intro s split r h _ _ _ he
        have he2 : some ((true : Bool), s) = some r := he
        rw [← Option.some.inj he2]
        exact ⟨h, splitsOK_refl s⟩
      | cons p rest ihp =>
        intro s split r h hp hsp hst he
        have he2 : (match split_iter_recures (add_splits fuel) s
            (getOper s p).stack split with
          | none => none
          | some (false, s) => some (false, s)
          | some (true, s) => split_what_recures (add_splits fuel) s rest split)
          = some r := he
        cases ha : split_iter_recures (add_splits fuel) s (getOper s p).stack split with
        | none =>
          rw [ha] at he2
          cases he2
        | some q =>
          obtain ⟨b, s2⟩ := q
          rw [ha] at he2
          obtain ⟨h2, hok2⟩ := hiter (getOper s p).stack s split (b, s2) h
            (fun x hx => h.2.2.2.1.2.2 p (hp p (List.mem_cons_self p _)) x hx)
            hsp hst ha
          cases b with
          | false =>
            have he3 : some ((false : Bool), s2) = some r := he2
            rw [← Option.some.inj he3]
            exact ⟨h2, hok2⟩
          | true =>
            have he3 : split_what_recures (add_splits fuel) s2 rest split
                = some r := he2
            obtain ⟨h3, hok3⟩ := ihp s2 split r h2
              (fun x hx => by
                rw [congrArg List.length hok2.2.2.1]
                exact hp x (List.mem_cons_of_mem p hx))
              (by rw [hok2.1]; exact hsp)
              (by rw [hok2.2.1 split]; exact hst)
              he3
            exact ⟨h3, splitsOK_trans hok2 hok3⟩
    have hmarked : ∀ (s : PMState) (obj split : Nat) (r : Bool × PMState),
        StateWF s → obj < s.objs.length → split < s.objs.length →
        (getObj s split).type = PY_SPLIT →
        add_splits_marked (add_splits fuel) s obj split = some r →
        StateWF r.2 ∧ splitsOK s r.2 := by
      intro s obj split r h hobj hsp hst he
      unfold add_splits_marked at he
      have hscal : some ((true : Bool), s) = some r →
          StateWF r.2 ∧ splitsOK s r.2 := by
        intro he2
        rw [← Option.some.inj he2]
        exact ⟨h, splitsOK_refl s⟩
      have hcont : (match split_iter_recures (add_splits fuel) s
            (getObj s obj).py_iter split with
          | none => none
          | some (false, s) => some (false, s)
          | some (true, s) =>
            if (getObj s obj).type = PY_TUPLE then some (true, s)
            else some (itter_add_split s obj split)) = some r →
          StateWF r.2 ∧ splitsOK s r.2 := by
        intro he2
        cases ha : split_iter_recures (add_splits fuel) s (getObj s obj).py_iter split with
        | none =>
          rw [ha] at he2
          cases he2
        | some q =>
          obtain ⟨b, s2⟩ := q
          rw [ha] at he2
          obtain ⟨h2, hok2⟩ := hiter (getObj s obj).py_iter s split (b, s2) h
            (fun x hx => h.2.2.2.1.1 obj hobj x hx) hsp hst ha
          cases b with
          | false =>
            have he3 : some ((false : Bool), s2) = some r := he2
            rw [← Option.some.inj he3]
            exact ⟨h2, hok2⟩
          | true =>
            have heI : (if (getObj s2 obj).type = PY_TUPLE
                then some ((true : Bool), s2)
                else some (itter_add_split s2 obj split)) = some r := he2
            by_cases htup : (getObj s2 obj).type = PY_TUPLE
            · rw [if_pos htup] at heI
              have he3 : some ((true : Bool), s2) = some r := heI
              rw [← Option.some.inj he3]
              exact ⟨h2, hok2⟩
            · rw [if_neg htup] at heI
              have he3 : some (itter_add_split s2 obj split) = some r := heI
              rw [← Option.some.inj he3]
              obtain ⟨h3, hok3⟩ := StateWF_itter_add_split h2 obj split
                (by rw [hok2.1]; exact hobj)
                (by rw [hok2.1]; exact hsp)
                (by rw [hok2.2.1 split]; exact hst)
              exact ⟨h3, splitsOK_trans hok2 hok3⟩
      cases hty : (getObj s obj).type
      case PY_NOT_RIGHT => rw [hty] at he; exact hscal he
      case PY_INT => rw [hty] at he; exact hscal he
      case PY_STR => rw [hty] at he; exact hscal he
      case PY_BOOL => rw [hty] at he; exact hscal he
      case PY_NONE => rw [hty] at he; exact hscal he
      case PY_FLOAT => rw [hty] at he; exact hscal he
      case PY_FUNC => rw [hty] at he; exact hscal he
      case PY_SPLIT => rw [hty] at he; exact hscal he
      case PY_LIST => rw [hty] at he; exact hcont he
      case PY_FROZEN_SET => rw [hty] at he; exact hcont he
      case PY_SET => rw [hty] at he; exact hcont he
      case PY_DICT => rw [hty] at he; exact hcont he
      case PY_TUPLE => rw [hty] at he; exact hcont he
      case PY_WHAT =>
        rw [hty] at he
        exact hwhat (getObj s obj).py_what s split r h
          (fun p hp => h.2.2.2.1.2.1 obj hobj p hp) hsp hst he
    intro s obj split r h hobj hsp hst he
    have he2 : add_splits_body (add_splits fuel) s obj split = some r := he
    unfold add_splits_body at he2
    by_cases hmark : (getObj s obj).recurse = s.recurse
    · rw [if_pos hmark] at he2
      have he3 : some ((true : Bool), s) = some r := he2
      rw [← Option.some.inj he3]
      exact ⟨h, splitsOK_refl s⟩
    · rw [if_neg hmark] at he2
      have h1 : StateWF (setObj s obj { getObj s obj with recurse := s.recurse }) := by
        refine StateWF_setObj h obj _ hobj rfl rfl rfl rfl (Nat.le_refl _) ?_ ?_ ?_
        · exact h.2.2.2.1.1 obj hobj
        · intro hd; exact h.2.1 obj hobj hd
        · exact h.2.2.2.2.2.2 obj hobj
      have hok1 : splitsOK s (setObj s obj { getObj s obj with recurse := s.recurse }) := by
        refine ⟨setObj_objs_length _ _ _, ?_, rfl, rfl⟩
        intro x
        refine getObj_type_setObj ?_ x
        rfl
      obtain ⟨h2, hok2⟩ := hmarked _ obj split r h1
        (by rw [hok1.1]; exact hobj)
        (by rw [hok1.1]; exact hsp)
        (by rw [hok1.2.1 split]; exact hst)
        he2
      exact ⟨h2, splitsOK_trans hok1 hok2⟩

/-- The state `split_reduce` hands to the traversal, in explicit form. -/
def splitReduceState (s : PMState) (pop : Nat) : PMState :=
  let s1 := (allocObj s { type := PY_SPLIT, offset := s.offset, memo_id := UT64MAX }).2
  let s2 := setObj s1 s.objs.length
    { getObj s1 s.objs.length with reduce := some pop }
  let s3 := setOper s2 pop
    { getOper s2 pop with refcnt := (getOper s2 pop).refcnt + 1 }
  { s3 with recurse := s3.recurse + 1 }

theorem StateWF_split_reduce {s : PMState} (h : StateWF s) (pop : Nat)
    {r : Bool × PMState} (he : split_reduce s pop = some r) :
    StateWF r.2 := by
  have h1 : StateWF (allocObj s { type := PY_SPLIT, offset := s.offset, memo_id := UT64MAX }).2 :=
    StateWF_allocObj h _ (by intro hc; cases hc) (by intro hc; cases hc)
      (fun x hx => absurd hx (List.not_mem_nil x)) rfl (Nat.zero_le _)
      rfl rfl trivial
  have hsplt : s.objs.length < (allocObj s { type := PY_SPLIT, offset := s.offset, memo_id := UT64MAX }).2.objs.length := by
    show s.objs.length < (s.objs ++ [_]).length
    simp
  have he2 : (match (getOper s pop).stack.getLast? with
      | none => some ((false : Bool), (allocObj s { type := PY_SPLIT, offset := s.offset, memo_id := UT64MAX }).2)
      | some obj =>
        match add_splits (splitPassFuel (splitReduceState s pop))
            (splitReduceState s pop) obj s.objs.length with
        | none => none
        | some (ret, s2) => some (ret, py_obj_free s2 s.objs.length))
      = some r := he
  cases hl : (getOper s pop).stack.getLast? with
  | none =>
    rw [hl] at he2
    have he3 : some ((false : Bool), (allocObj s { type := PY_SPLIT, offset := s.offset, memo_id := UT64MAX }).2) = some r := he2
    rw [← Option.some.inj he3]
    exact h1
  | some obj =>
    rw [hl] at he2
    have he2b : (match add_splits (splitPassFuel (splitReduceState s pop))
        (splitReduceState s pop) obj s.objs.length with
      | none => none
      | some (ret, s2) => some (ret, py_obj_free s2 s.objs.length)) = some r := he2
    have h2 : StateWF (setObj (allocObj s { type := PY_SPLIT, offset := s.offset, memo_id := UT64MAX }).2 s.objs.length
        { getObj (allocObj s { type := PY_SPLIT, offset := s.offset, memo_id := UT64MAX }).2 s.objs.length with reduce := some pop }) := by
      refine StateWF_setObj h1 s.objs.length _ hsplt rfl rfl rfl rfl ?_ ?_ ?_ ?_
      · exact h1.2.2.2.2.1 _ hsplt
      · exact h1.2.2.2.1.1 _ hsplt
      · intro hd; exact h1.2.1 _ hsplt hd
      · exact h1.2.2.2.2.2.2 _ hsplt
    have h3 := StateWF_setOper_ref h2 pop
      ((getOper (setObj (allocObj s { type := PY_SPLIT, offset := s.offset, memo_id := UT64MAX }).2 s.objs.length
          { getObj (allocObj s { type := PY_SPLIT, offset := s.offset, memo_id := UT64MAX }).2 s.objs.length with
            reduce := some pop }) pop).refcnt + 1)
    have h4 : StateWF (splitReduceState s pop) := by
      refine StateWF_nonheap h3 _ _ _ _ _ _ _ _ _ _ h3.2.2.1.1 h3.2.2.1.2.1
        h3.2.2.1.2.2.1 h3.2.2.1.2.2.2 (Nat.le_succ _)
    have hlt1 : s.objs.length < (allocObj s { type := PY_SPLIT, offset := s.offset, memo_id := UT64MAX }).2.objs.length := hsplt
    have hty4 : (getObj (splitReduceState s pop) s.objs.length).type
        = PY_SPLIT := by
      show (getObj (setObj (allocObj s { type := PY_SPLIT, offset := s.offset, memo_id := UT64MAX }).2 s.objs.length
          { getObj (allocObj s { type := PY_SPLIT, offset := s.offset, memo_id := UT64MAX }).2 s.objs.length with
            reduce := some pop }) s.objs.length).type = PY_SPLIT
      rw [getObj_setObj_self _ hlt1]
      show (getObj (allocObj s { type := PY_SPLIT, offset := s.offset, memo_id := UT64MAX }).2 s.objs.length).type = PY_SPLIT
      rw [getObj_alloc_new]
    have hlen4 : (splitReduceState s pop).objs.length = s.objs.length + 1 := by
      show ((allocObj s { type := PY_SPLIT, offset := s.offset, memo_id := UT64MAX }).2.objs.set s.objs.length _).length = _
      rw [List.length_set]
      show (s.objs ++ [_]).length = _
      simp
    cases ha : add_splits (splitPassFuel (splitReduceState s pop))
        (splitReduceState s pop) obj s.objs.length with
    | none =>
      rw [ha] at he2b
      cases he2b
    | some p =>
      obtain ⟨ret, s5⟩ := p
      rw [ha] at he2b
      have he3 : some (ret, py_obj_free s5 s.objs.length) = some r := he2b
      rw [← Option.some.inj he3]
      have hobj : obj < s.objs.length :=
        h.2.2.2.1.2.2 pop ?_ obj (mem_getLast? hl)
      · obtain ⟨h5, _⟩ := StateWF_add_splits _ h4 (by rw [hlen4]; omega)
          (by rw [hlen4]; omega) hty4 ha
        exact StateWF_py_obj_free h5 _
      · by_cases hql : pop < s.opers.length
        · exact hql
        · exfalso
          rw [getOper_le (by omega)] at hl
          cases hl

theorem list_pop_n_facts {s : PMState} {n : Nat} {args? : Option (List Nat)}
    {s2 : PMState} (h : StateWF s) (he : list_pop_n s n = (args?, s2)) :
    StateWF s2 ∧ s2.objs = s.objs ∧ s2.opers = s.opers ∧
    (∀ args, args? = some args → ∀ x ∈ args, okId s2 x) := by
  unfold list_pop_n at he
  by_cases hlen : s.stack.length > n
  · rw [if_pos hlen] at he
    injection he with ha hb
    subst hb
    refine ⟨?_, rfl, rfl, ?_⟩
    · refine StateWF_nonheap h _ _ _ _ _ _ _ _ _ _ ?_ h.2.2.1.2.1
        h.2.2.1.2.2.1 h.2.2.1.2.2.2 (Nat.le_refl _)
      intro x hx
      exact h.2.2.1.1 x (List.take_subset _ _ hx)
    · intro args hargs x hx
      rw [← ha] at hargs
      have he4 : args = s.stack.drop (s.stack.length - n) :=
        (Option.some.inj hargs).symm
      subst he4
      exact h.2.2.1.1 x (List.drop_subset _ _ hx)
  · rw [if_neg hlen] at he
    injection he with ha hb
    subst hb
    refine ⟨h, rfl, rfl, ?_⟩
    intro args hargs x hx
    rw [← ha] at hargs
    cases hargs

theorem StateWF_py_what_addop {s : PMState} (h : StateWF s) (argc : Nat)
    (op : PyOp) (hop : op ≠ OP_FAKE_INIT) {r : Bool × PMState}
    (he : py_what_addop s argc op = some r) : StateWF r.2 := by
  unfold py_what_addop at he
  by_cases h0 : argc = 0
  · rw [if_pos h0] at he
    have he3 : some ((false : Bool), s) = some r := he
    rw [← Option.some.inj he3]
    exact h
  · rw [if_neg h0] at he
    split at he
    rename_i pop s2 heq1
    split at he
    rename_i args? s3 heq2
    split at he
    rename_i obj? stack2 s4 heq3
    have hp1 : s.opers.length = pop := congrArg Prod.fst heq1
    have hs2 : (py_oper_new s op).2 = s2 := congrArg Prod.snd heq1
    have h2 : StateWF s2 := by
      rw [← hs2]
      exact StateWF_allocOper h _ (fun x hx => absurd hx (List.not_mem_nil x))
    have hpop2 : pop < s2.opers.length := by
      rw [← hs2, ← hp1]
      show s.opers.length < (s.opers ++ [_]).length
      simp
    have hpopop : (getOper s2 pop).op = op := by
      rw [← hs2, ← hp1]
      show (getOper (allocOper s { op := op, offset := s.offset }).2
          s.opers.length).op = op
      rw [getOper_alloc_new]
    obtain ⟨h3, hobjs3, hopers3, hargsok⟩ := list_pop_n_facts h2 heq2
    have hpop3 : pop < s3.opers.length := by rw [hopers3]; exact hpop2
    have hpopop3 : (getOper s3 pop).op = op := by
      show (s3.opers.getD pop default).op = op
      rw [hopers3]
      exact hpopop
    obtain ⟨h4m, hOS, hSOME, hOD, hOK, hST, hMS⟩ :=
      StateWF_stack_top_to_what h3 s3.stack h3.2.2.1.1
    obtain ⟨hOL, hOQ⟩ := hOD
    rw [heq3] at h4m hOS hSOME hOL hOQ hOK hST hMS
    have h4 : StateWF s4 := h4m
    split at he
    · rename_i args obj
      have hA : StateWF { s4 with stack := stack2 } := by
        refine StateWF_nonheap h4 _ _ _ _ _ _ _ _ _ _ ?_ h4.2.2.1.2.1
          h4.2.2.1.2.2.1 h4.2.2.1.2.2.2 (Nat.le_refl _)
        intro x hx
        exact hOS x hx
      have hobj4 := hSOME obj rfl
      have hpop4 : pop < s4.opers.length := Nat.lt_of_lt_of_le hpop3 hOL
      have hpopop4 : (getOper s4 pop).op = op := by
        rw [hOQ pop hpop3]
        exact hpopop3
      have hB : StateWF (setObj { s4 with stack := stack2 } obj
          { getObj { s4 with stack := stack2 } obj with
            py_what := (getObj { s4 with stack := stack2 } obj).py_what ++ [pop] }) :=
        StateWF_what_append_pop hA obj pop hobj4.1 hpop4
      have hopB : (getOper (setObj { s4 with stack := stack2 } obj
          { getObj { s4 with stack := stack2 } obj with
            py_what := (getObj { s4 with stack := stack2 } obj).py_what ++ [pop] })
          pop).op ≠ OP_FAKE_INIT := by
        show (getOper s4 pop).op ≠ OP_FAKE_INIT
        rw [hpopop4]
        exact hop
      have hC : StateWF (setOper (setObj { s4 with stack := stack2 } obj
          { getObj { s4 with stack := stack2 } obj with
            py_what := (getObj { s4 with stack := stack2 } obj).py_what ++ [pop] })
          pop
          { getOper (setObj { s4 with stack := stack2 } obj
              { getObj { s4 with stack := stack2 } obj with
                py_what := (getObj { s4 with stack := stack2 } obj).py_what
                  ++ [pop] }) pop with stack := args }) := by
        refine StateWF_setOper_stack hB pop args hopB ?_
        intro x hx
        have hok3 : okId s3 x := hargsok args rfl x hx
        have hok4 : okId s4 x := hOK x hok3
        have hokB : okId (setObj { s4 with stack := stack2 } obj
            { getObj { s4 with stack := stack2 } obj with
              py_what := (getObj { s4 with stack := stack2 } obj).py_what
                ++ [pop] }) x := by
          refine okId_setObj ?_ x hok4
          rfl
        exact hokB.1
      have heF : (if op = OP_REDUCE
          then split_reduce (setOper (setObj { s4 with stack := stack2 } obj
            { getObj { s4 with stack := stack2 } obj with
              py_what := (getObj { s4 with stack := stack2 } obj).py_what
                ++ [pop] }) pop
            { getOper (setObj { s4 with stack := stack2 } obj
                { getObj { s4 with stack := stack2 } obj with
                  py_what := (getObj { s4 with stack := stack2 } obj).py_what
                    ++ [pop] }) pop with stack := args }) pop
          else some ((true : Bool), setOper (setObj { s4 with stack := stack2 } obj
            { getObj { s4 with stack := stack2 } obj with
              py_what := (getObj { s4 with stack := stack2 } obj).py_what
                ++ [pop] }) pop
            { getOper (setObj { s4 with stack := stack2 } obj
                { getObj { s4 with stack := stack2 } obj with
                  py_what := (getObj { s4 with stack := stack2 } obj).py_what
                    ++ [pop] }) pop with stack := args })) = some r := he
      by_cases hred : op = OP_REDUCE
      · rw [if_pos hred] at heF
        exact StateWF_split_reduce hC pop heF
      · rw [if_neg hred] at heF
        have he3 := Option.some.inj heF
        rw [← he3]
        exact hC
    · rename_i hno
      have hA : StateWF { s4 with stack := stack2 } := by
        refine StateWF_nonheap h4 _ _ _ _ _ _ _ _ _ _ ?_ h4.2.2.1.2.1
          h4.2.2.1.2.2.1 h4.2.2.1.2.2.2 (Nat.le_refl _)
        intro x hx
        exact hOS x hx
      cases hao : args? with
      | some args =>
        rw [hao] at he hargsok
        have he3 : some ((false : Bool),
            pyop_free { s4 with stack := stack2 ++ args } pop) = some r := he
        rw [← Option.some.inj he3]
        refine StateWF_pyop_free ?_ pop
        refine StateWF_nonheap h4 _ _ _ _ _ _ _ _ _ _ ?_ h4.2.2.1.2.1
          h4.2.2.1.2.2.1 h4.2.2.1.2.2.2 (Nat.le_refl _)
        intro x hx
        rcases List.mem_append.mp hx with hx | hx
        · exact hOS x hx
        · exact hOK x (hargsok args rfl x hx)
      | none =>
        rw [hao] at he
        have he3 : some ((false : Bool),
            pyop_free { s4 with stack := stack2 } pop) = some r := he
        rw [← Option.some.inj he3]
        exact StateWF_pyop_free hA pop

/-! ### Global / inst handler preservation -/

theorem allocObj_objs_length (s : PMState) (o : PyObj) :
    (allocObj s o).2.objs.length = s.objs.length + 1 := by
  show (s.objs ++ [o]).length = _
  simp

theorem mem_head? {α : Type} : ∀ {l : List α} {x : α},
    l.head? = some x → x ∈ l := by
  intro l x h
  cases l with
  | nil => cases h
  | cons a as =>
    rw [List.mem_cons]
    exact Or.inl (Option.some.inj h).symm

theorem mem_tail {α : Type} : ∀ {l : List α} {x : α}, x ∈ l.tail → x ∈ l := by
  intro l x h
  cases l with
  | nil => exact h
  | cons a as => exact List.mem_cons_of_mem a h

theorem split_module_str_facts {s : PMState} (h : StateWF s) (op : DecodedOp)
    {mn : Option Nat × Option Nat} {s2 : PMState}
    (he : split_module_str s op = (mn, s2)) :
    StateWF s2 ∧ s.objs.length ≤ s2.objs.length ∧
    (∀ x, okId s x → okId s2 x) := by
  unfold split_module_str at he
  split at he
  · injection he with _ hb
    subst hb
    exact ⟨h, Nat.le_refl _, fun x hx => hx⟩
  · rename_i str hstr
    split at he
    · rename_i m n heqw
      have hA : StateWF (allocObj s { type := PY_STR, offset := s.offset, memo_id := UT64MAX }).2 :=
        StateWF_allocObj h _ (by intro hc; cases hc) (by intro hc; cases hc)
          (fun x hx => absurd hx (List.not_mem_nil x)) rfl (Nat.zero_le _)
          rfl rfl trivial
      have hltA : s.objs.length < (allocObj s { type := PY_STR, offset := s.offset, memo_id := UT64MAX }).2.objs.length := by
        rw [allocObj_objs_length]
        omega
      have hB : StateWF (setObj (allocObj s { type := PY_STR, offset := s.offset, memo_id := UT64MAX }).2 s.objs.length
          { getObj (allocObj s { type := PY_STR, offset := s.offset, memo_id := UT64MAX }).2 s.objs.length with
            py_str := String.mk m }) := by
        refine StateWF_setObj hA s.objs.length _ hltA rfl rfl rfl rfl ?_ ?_ ?_ ?_
        · exact hA.2.2.2.2.1 _ hltA
        · exact hA.2.2.2.1.1 _ hltA
        · intro hd; exact hA.2.1 _ hltA hd
        · exact hA.2.2.2.2.2.2 _ hltA
      have htrB : ∀ x, okId s x → okId (setObj (allocObj s { type := PY_STR, offset := s.offset, memo_id := UT64MAX }).2 s.objs.length
          { getObj (allocObj s { type := PY_STR, offset := s.offset, memo_id := UT64MAX }).2 s.objs.length with
            py_str := String.mk m }) x := by
        intro x hx
        refine okId_setObj ?_ x (okId_allocObj _ x hx)
        rfl
      have hlenB : (setObj (allocObj s { type := PY_STR, offset := s.offset, memo_id := UT64MAX }).2 s.objs.length
          { getObj (allocObj s { type := PY_STR, offset := s.offset, memo_id := UT64MAX }).2 s.objs.length with
            py_str := String.mk m }).objs.length = s.objs.length + 1 := by
        rw [setObj_objs_length, allocObj_objs_length]
      have he2 : (if n.length > 0 then
          ((some s.objs.length, some ((setObj (allocObj s { type := PY_STR, offset := s.offset, memo_id := UT64MAX }).2 s.objs.length { getObj (allocObj s { type := PY_STR, offset := s.offset, memo_id := UT64MAX }).2 s.objs.length with py_str := String.mk m }) : PMState).objs.length),
           setObj (allocObj (setObj (allocObj s { type := PY_STR, offset := s.offset, memo_id := UT64MAX }).2 s.objs.length { getObj (allocObj s { type := PY_STR, offset := s.offset, memo_id := UT64MAX }).2 s.objs.length with py_str := String.mk m }) { type := PY_STR, offset := (setObj (allocObj s { type := PY_STR, offset := s.offset, memo_id := UT64MAX }).2 s.objs.length { getObj (allocObj s { type := PY_STR, offset := s.offset, memo_id := UT64MAX }).2 s.objs.length with py_str := String.mk m } : PMState).offset, memo_id := UT64MAX }).2 ((setObj (allocObj s { type := PY_STR, offset := s.offset, memo_id := UT64MAX }).2 s.objs.length { getObj (allocObj s { type := PY_STR, offset := s.offset, memo_id := UT64MAX }).2 s.objs.length with py_str := String.mk m }) : PMState).objs.length { getObj (allocObj (setObj (allocObj s { type := PY_STR, offset := s.offset, memo_id := UT64MAX }).2 s.objs.length { getObj (allocObj s { type := PY_STR, offset := s.offset, memo_id := UT64MAX }).2 s.objs.length with py_str := String.mk m }) { type := PY_STR, offset := (setObj (allocObj s { type := PY_STR, offset := s.offset, memo_id := UT64MAX }).2 s.objs.length { getObj (allocObj s { type := PY_STR, offset := s.offset, memo_id := UT64MAX }).2 s.objs.length with py_str := String.mk m } : PMState).offset, memo_id := UT64MAX }).2 ((setObj (allocObj s { type := PY_STR, offset := s.offset, memo_id := UT64MAX }).2 s.objs.length { getObj (allocObj s { type := PY_STR, offset := s.offset, memo_id := UT64MAX }).2 s.objs.length with py_str := String.mk m }) : PMState).objs.length with py_str := String.mk n })
        else ((some s.objs.length, none),
          setObj (allocObj s { type := PY_STR, offset := s.offset, memo_id := UT64MAX }).2 s.objs.length { getObj (allocObj s { type := PY_STR, offset := s.offset, memo_id := UT64MAX }).2 s.objs.length with py_str := String.mk m })) = (mn, s2) := he
      by_cases hn : n.length > 0
      · rw [if_pos hn] at he2
        injection he2 with ha2 hb2
        subst hb2
        set SB := setObj (allocObj s { type := PY_STR, offset := s.offset, memo_id := UT64MAX }).2 s.objs.length
          { getObj (allocObj s { type := PY_STR, offset := s.offset, memo_id := UT64MAX }).2 s.objs.length with
            py_str := String.mk m } with hSB
        have hC : StateWF (allocObj SB { type := PY_STR, offset := SB.offset, memo_id := UT64MAX }).2 :=
          StateWF_allocObj hB _ (by intro hc; cases hc) (by intro hc; cases hc)
            (fun x hx => absurd hx (List.not_mem_nil x)) rfl (Nat.zero_le _)
            rfl rfl trivial
        have hltC : SB.objs.length < (allocObj SB { type := PY_STR, offset := SB.offset, memo_id := UT64MAX }).2.objs.length := by
          rw [allocObj_objs_length]
          omega
        have hD : StateWF (setObj (allocObj SB { type := PY_STR, offset := SB.offset, memo_id := UT64MAX }).2 SB.objs.length
            { getObj (allocObj SB { type := PY_STR, offset := SB.offset, memo_id := UT64MAX }).2 SB.objs.length with
              py_str := String.mk n }) := by
          refine StateWF_setObj hC SB.objs.length _ hltC rfl rfl rfl rfl ?_ ?_ ?_ ?_
          · exact hC.2.2.2.2.1 _ hltC
          · exact hC.2.2.2.1.1 _ hltC
          · intro hd; exact hC.2.1 _ hltC hd
          · exact hC.2.2.2.2.2.2 _ hltC
        refine ⟨hD, ?_, ?_⟩
        · rw [setObj_objs_length, allocObj_objs_length, hlenB]
          omega
        · intro x hx
          refine okId_setObj ?_ x (okId_allocObj _ x (htrB x hx))
          rfl
      · rw [if_neg hn] at he2
        injection he2 with ha2 hb2
        subst hb2
        refine ⟨hB, ?_, htrB⟩
        rw [hlenB]
        omega
    · injection he with _ hb
      subst hb
      exact ⟨h, Nat.le_refl _, fun x hx => hx⟩

theorem glob_obj_facts {s : PMState} (h : StateWF s) (op : DecodedOp)
    {c? : Option Nat} {s2 : PMState} (he : glob_obj s op = (c?, s2)) :
    StateWF s2 ∧ (∀ x, okId s x → okId s2 x) ∧
    (∀ c, c? = some c → okId s2 c) := by
  unfold glob_obj at he
  have hA : StateWF (py_obj_new s PY_FUNC).2 :=
    StateWF_allocObj h _ (by intro hc; cases hc) (by intro hc; cases hc)
      (fun x hx => absurd hx (List.not_mem_nil x)) rfl (Nat.zero_le _)
      rfl rfl trivial
  have hokA : okId (py_obj_new s PY_FUNC).2 s.objs.length := by
    refine ⟨?_, ?_⟩
    · show s.objs.length < (allocObj s { type := PY_FUNC, offset := s.offset, memo_id := UT64MAX }).2.objs.length
      rw [allocObj_objs_length]
      omega
    · show (getObj (allocObj s { type := PY_FUNC, offset := s.offset, memo_id := UT64MAX }).2 s.objs.length).type ≠ PY_SPLIT
      rw [getObj_alloc_new]
      intro hc; cases hc
  split at he
  · rename_i m n s3 heq
    obtain ⟨h3, hle3, htr3⟩ := split_module_str_facts hA op heq
    have hok3 : okId s3 s.objs.length := htr3 _ hokA
    injection he with ha hb
    subst ha
    subst hb
    have hlt3 : s.objs.length < s3.objs.length := hok3.1
    refine ⟨?_, ?_, ?_⟩
    · refine StateWF_setObj h3 s.objs.length _ hlt3 rfl rfl rfl rfl ?_ ?_ ?_ ?_
      · exact h3.2.2.2.2.1 _ hlt3
      · exact h3.2.2.2.1.1 _ hlt3
      · intro hd; exact h3.2.1 _ hlt3 hd
      · exact h3.2.2.2.2.2.2 _ hlt3
    · intro x hx
      refine okId_setObj ?_ x (htr3 x (okId_allocObj _ x hx))
      rfl
    · intro c hc
      rw [← Option.some.inj hc]
      refine okId_setObj ?_ _ hok3
      rfl
  · rename_i e1 e2 s3 heq
    obtain ⟨h3, hle3, htr3⟩ := split_module_str_facts hA op heq
    injection he with ha hb
    subst ha
    subst hb
    refine ⟨StateWF_py_obj_free h3 _, ?_, ?_⟩
    · intro x hx
      exact okId_py_obj_free _ x (htr3 x (okId_allocObj _ x hx))
    · intro c hc
      cases hc

theorem StateWF_op_global {s : PMState} (h : StateWF s) (op : DecodedOp) :
    StateWF (op_global s op).2 := by
  unfold op_global
  split
  · rename_i obj s2 heq
    obtain ⟨h2, _, hsome⟩ := glob_obj_facts h op heq
    refine StateWF_nonheap h2 _ _ _ _ _ _ _ _ _ _ ?_ h2.2.2.1.2.1
      h2.2.2.1.2.2.1 h2.2.2.1.2.2.2 (Nat.le_refl _)
    intro x hx
    rcases List.mem_append.mp hx with hx | hx
    · exact h2.2.2.1.1 x hx
    · rw [List.mem_singleton.mp hx]
      exact hsome obj rfl
  · rename_i s2 heq
    exact (glob_obj_facts h op heq).1

theorem StateWF_op_stack_global {s : PMState} (h : StateWF s) :
    StateWF (op_stack_global s).2 := by
  unfold op_stack_global
  have hA : StateWF (py_obj_new s PY_FUNC).2 :=
    StateWF_allocObj h _ (by intro hc; cases hc) (by intro hc; cases hc)
      (fun x hx => absurd hx (List.not_mem_nil x)) rfl (Nat.zero_le _)
      rfl rfl trivial
  have hokA : okId (py_obj_new s PY_FUNC).2 s.objs.length := by
    refine ⟨?_, ?_⟩
    · show s.objs.length < (allocObj s { type := PY_FUNC, offset := s.offset, memo_id := UT64MAX }).2.objs.length
      rw [allocObj_objs_length]
      omega
    · show (getObj (allocObj s { type := PY_FUNC, offset := s.offset, memo_id := UT64MAX }).2 s.objs.length).type ≠ PY_SPLIT
      rw [getObj_alloc_new]
      intro hc; cases hc
  by_cases hlen : s.stack.length ≥ 2
  · rw [if_pos hlen]
    split
    · exact hA
    · rename_i nm hnm
      split
      · refine StateWF_nonheap hA _ _ _ _ _ _ _ _ _ _ ?_ hA.2.2.1.2.1
          hA.2.2.1.2.2.1 hA.2.2.1.2.2.2 (Nat.le_refl _)
        intro x hx
        exact hA.2.2.1.1 x (mem_dropLast hx)
      · rename_i md hmd
        have h2 : StateWF { (py_obj_new s PY_FUNC).2 with
            stack := (py_obj_new s PY_FUNC).2.stack.dropLast.dropLast } := by
          refine StateWF_nonheap hA _ _ _ _ _ _ _ _ _ _ ?_ hA.2.2.1.2.1
            hA.2.2.1.2.2.1 hA.2.2.1.2.2.2 (Nat.le_refl _)
          intro x hx
          exact hA.2.2.1.1 x (mem_dropLast (mem_dropLast hx))
        have hlt2 : s.objs.length < ({ (py_obj_new s PY_FUNC).2 with
            stack := (py_obj_new s PY_FUNC).2.stack.dropLast.dropLast } : PMState).objs.length :=
          hokA.1
        have h3 : StateWF (setObj { (py_obj_new s PY_FUNC).2 with
            stack := (py_obj_new s PY_FUNC).2.stack.dropLast.dropLast }
            (py_obj_new s PY_FUNC).1
            { getObj { (py_obj_new s PY_FUNC).2 with
                stack := (py_obj_new s PY_FUNC).2.stack.dropLast.dropLast }
              (py_obj_new s PY_FUNC).1 with
              func_name := nm, func_module := md }) := by
          refine StateWF_setObj h2 s.objs.length _ hlt2 rfl rfl rfl rfl ?_ ?_ ?_ ?_
          · exact h2.2.2.2.2.1 _ hlt2
          · exact h2.2.2.2.1.1 _ hlt2
          · intro hd; exact h2.2.1 _ hlt2 hd
          · exact h2.2.2.2.2.2.2 _ hlt2
        refine StateWF_nonheap h3 _ _ _ _ _ _ _ _ _ _ ?_ h3.2.2.1.2.1
          h3.2.2.1.2.2.1 h3.2.2.1.2.2.2 (Nat.le_refl _)
        intro x hx
        rcases List.mem_append.mp hx with hx | hx
        · exact h3.2.2.1.1 x hx
        · rw [List.mem_singleton.mp hx]
          refine okId_setObj ?_ _ hokA
          rfl
  · rw [if_neg hlen]
    exact h

theorem StateWF_insantiate {s : PMState} (h : StateWF s) (op : DecodedOp)
    (cls? args? : Option Nat)
    (hc : ∀ c, cls? = some c → okId s c)
    (ha : ∀ a, args? = some a → okId s a)
    {r : Bool × PMState} (he : insantiate s op cls? args? = some r) :
    StateWF r.2 := by
  unfold insantiate at he
  split at he
  · rename_i cls args
    refine StateWF_py_what_addop ?_ 1 _ ?_ he
    · refine StateWF_nonheap h _ _ _ _ _ _ _ _ _ _ ?_ h.2.2.1.2.1
        h.2.2.1.2.2.1 h.2.2.1.2.2.2 (Nat.le_refl _)
      intro x hx
      rcases List.mem_append.mp hx with hx | hx
      · exact h.2.2.1.1 x hx
      · rcases List.mem_cons.mp hx with hx2 | hx2
        · rw [hx2]; exact hc cls rfl
        · rw [List.mem_singleton.mp hx2]; exact ha args rfl
    · show (if op.mnemonic = "obj" then OP_OBJ else OP_INST) ≠ OP_FAKE_INIT
      split
      · decide
      · decide
  · rename_i cls?2 args?2 hno
    cases haa : args? with
    | some a =>
      rw [haa] at he ha
      cases hac : cls? with
      | some c =>
        rw [hac] at he hc
        have he3 : some ((false : Bool),
            py_obj_free (py_obj_free s a) c) = some r := he
        rw [← Option.some.inj he3]
        exact StateWF_py_obj_free (StateWF_py_obj_free h a) c
      | none =>
        rw [hac] at he
        have he3 : some ((false : Bool), py_obj_free s a) = some r := he
        rw [← Option.some.inj he3]
        exact StateWF_py_obj_free h a
    | none =>
      rw [haa] at he
      cases hac : cls? with
      | some c =>
        rw [hac] at he hc
        have he3 : some ((false : Bool), py_obj_free s c) = some r := he
        rw [← Option.some.inj he3]
        exact StateWF_py_obj_free h c
      | none =>
        rw [hac] at he
        have he3 : some ((false : Bool), s) = some r := he
        rw [← Option.some.inj he3]
        exact h

theorem StateWF_op_inst {s : PMState} (h : StateWF s) (op : DecodedOp)
    {r : Bool × PMState} (he : op_inst s op = some r) : StateWF r.2 := by
  unfold op_inst at he
  split at he
  rename_i cls? sA heq1
  split at he
  rename_i args? sB heq2
  obtain ⟨hA, hTA, hCA⟩ := glob_obj_facts h op heq1
  obtain ⟨hB1, hB2, hB3⟩ := StateWF_iter_to_mark hA PY_LIST
    (by intro hcx; cases hcx) (by intro hcx; cases hcx)
  rw [heq2] at hB1 hB2 hB3
  refine StateWF_insantiate hB1 op cls? args? ?_ ?_ he
  · intro c hcx
    exact hB3 c (hCA c hcx)
  · intro a hax
    exact hB2 a hax

theorem StateWF_op_obj {s : PMState} (h : StateWF s) (op : DecodedOp)
    {r : Bool × PMState} (he : op_obj s op = some r) : StateWF r.2 := by
  unfold op_obj at he
  split at he
  · rename_i cls hcls
    split at he
    rename_i args? sB heq2
    have hT : StateWF { s with stack := s.stack.tail } := by
      refine StateWF_nonheap h _ _ _ _ _ _ _ _ _ _ ?_ h.2.2.1.2.1
        h.2.2.1.2.2.1 h.2.2.1.2.2.2 (Nat.le_refl _)
      intro x hx
      exact h.2.2.1.1 x (mem_tail hx)
    obtain ⟨hB1, hB2, hB3⟩ := StateWF_iter_to_mark hT PY_LIST
      (by intro hcx; cases hcx) (by intro hcx; cases hcx)
    rw [heq2] at hB1 hB2 hB3
    refine StateWF_insantiate hB1 op (some cls) args? ?_ ?_ he
    · intro c hcx
      rw [← Option.some.inj hcx]
      exact hB3 cls (h.2.2.1.1 cls (mem_head? hcls))
    · intro a hax
      exact hB2 a hax
  · split at he
    rename_i args? sB heq2
    obtain ⟨hB1, hB2, hB3⟩ := StateWF_iter_to_mark h PY_LIST
      (by intro hcx; cases hcx) (by intro hcx; cases hcx)
    rw [heq2] at hB1 hB2 hB3
    refine StateWF_insantiate hB1 op none args? ?_ ?_ he
    · intro c hcx
      cases hcx
    · intro a hax
      exact hB2 a hax

/-! ### Container mutation handler preservation -/

theorem StateWF_op_append {s : PMState} (h : StateWF s)
    {r : Bool × PMState} (he : op_append s = some r) : StateWF r.2 := by
  unfold op_append at he
  by_cases hl2 : s.stack.length ≥ 2
  · rw [if_pos hl2] at he
    by_cases hty : ¬ stack_n_expected_type s s.stack 1 PY_LIST = true
    · rw [if_pos hty] at he
      exact StateWF_py_what_addop h 1 OP_APPEND (by decide) he
    · rw [if_neg hty] at he
      split at he
      · have he3 : some ((false : Bool), s) = some r := he
        rw [← Option.some.inj he3]
        exact h
      · rename_i obj heql
        have hD : StateWF { s with stack := s.stack.dropLast } := by
          refine StateWF_nonheap h _ _ _ _ _ _ _ _ _ _ ?_ h.2.2.1.2.1
            h.2.2.1.2.2.1 h.2.2.1.2.2.2 (Nat.le_refl _)
          intro x hx
          exact h.2.2.1.1 x (mem_dropLast hx)
        have hokobj := okId_mem_stack h (mem_getLast? heql)
        obtain ⟨hP, hPT⟩ := StateWF_push_to_stack_iter hD PY_LIST obj hokobj
          (by intro hcx; cases hcx)
        split at he
        · rename_i s2 heqp
          rw [heqp] at hP
          have he3 : some ((true : Bool), s2) = some r := he
          rw [← Option.some.inj he3]
          exact hP
        · rename_i s2 heqp
          rw [heqp] at hP hPT
          have he3 : some ((false : Bool),
              { s2 with stack := s2.stack ++ [obj] }) = some r := he
          rw [← Option.some.inj he3]
          refine StateWF_nonheap hP _ _ _ _ _ _ _ _ _ _ ?_ hP.2.2.1.2.1
            hP.2.2.1.2.2.1 hP.2.2.1.2.2.2 (Nat.le_refl _)
          intro x hx
          rcases List.mem_append.mp hx with hx | hx
          · exact hP.2.2.1.1 x hx
          · rw [List.mem_singleton.mp hx]
            exact hPT obj hokobj
  · rw [if_neg hl2] at he
    have he3 : some ((false : Bool), s) = some r := he
    rw [← Option.some.inj he3]
    exact h

theorem StateWF_op_appends {s : PMState} (h : StateWF s) (op : PyOp)
    (t : PyType) (hop : op ≠ OP_FAKE_INIT) {r : Bool × PMState}
    (he : op_appends s op t = some r) : StateWF r.2 := by
  unfold op_appends at he
  split at he
  · have he3 : some ((false : Bool), s) = some r := he
    rw [← Option.some.inj he3]
    exact h
  · rename_i prev hm
    split at he
    · have he3 : some ((false : Bool), s) = some r := he
      rw [← Option.some.inj he3]
      exact h
    · rename_i obj hobjl
      have hok : okId s obj :=
        h.2.2.1.2.1 prev (mem_getLast? hm) obj (mem_getLast? hobjl)
      by_cases hty : (getObj s obj).type ≠ t
      · rw [if_pos hty] at he
        have he3 : some (py_what_addop_stack s op) = some r := he
        rw [← Option.some.inj he3]
        exact StateWF_py_what_addop_stack h op hop
      · rw [if_neg hty] at he
        have he3 : some (py_iter_append_mark s (some obj) t) = some r := he
        rw [← Option.some.inj he3]
        exact (StateWF_py_iter_append_mark h (some obj) t
          (fun o ho => by rw [← Option.some.inj ho]; exact hok.1)).1

theorem StateWF_op_setitem {s : PMState} (h : StateWF s)
    {r : Bool × PMState} (he : op_setitem s = some r) : StateWF r.2 := by
  unfold op_setitem at he
  by_cases hl3 : s.stack.length ≥ 3
  · rw [if_pos hl3] at he
    by_cases hty : ¬ stack_n_expected_type s s.stack 2 PY_DICT = true
    · rw [if_pos hty] at he
      exact StateWF_py_what_addop h 2 OP_SETITEM (by decide) he
    · rw [if_neg hty] at he
      split at he
      · have he3 : some ((false : Bool), s) = some r := he
        rw [← Option.some.inj he3]
        exact h
      · rename_i value hval
        have hokv := okId_mem_stack h (mem_getLast? hval)
        split at he
        · have hD : StateWF { s with stack := s.stack.dropLast } := by
            refine StateWF_nonheap h _ _ _ _ _ _ _ _ _ _ ?_ h.2.2.1.2.1
              h.2.2.1.2.2.1 h.2.2.1.2.2.2 (Nat.le_refl _)
            intro x hx
            exact h.2.2.1.1 x (mem_dropLast hx)
          have he3 : some ((false : Bool),
              py_obj_free { s with stack := s.stack.dropLast } value) = some r := he
          rw [← Option.some.inj he3]
          exact StateWF_py_obj_free hD value
        · rename_i key hkey
          have hokk : okId s key :=
            okId_mem_stack h (mem_dropLast (mem_getLast? hkey))
          have hDD : StateWF { s with stack := s.stack.dropLast.dropLast } := by
            refine StateWF_nonheap h _ _ _ _ _ _ _ _ _ _ ?_ h.2.2.1.2.1
              h.2.2.1.2.2.1 h.2.2.1.2.2.2 (Nat.le_refl _)
            intro x hx
            exact h.2.2.1.1 x (mem_dropLast (mem_dropLast hx))
          split at he
          · have he3 : some ((false : Bool), py_obj_free (py_obj_free
                { s with stack := s.stack.dropLast.dropLast } key) value)
                = some r := he
            rw [← Option.some.inj he3]
            exact StateWF_py_obj_free (StateWF_py_obj_free hDD key) value
          · rename_i obj hobjl
            have hoko : okId s obj :=
              okId_mem_stack h (mem_dropLast (mem_dropLast (mem_getLast? hobjl)))
            by_cases hdict : (getObj s obj).type = PY_DICT
            · rw [if_pos hdict] at he
              have he3 : some ((true : Bool),
                  setObj { s with stack := s.stack.dropLast.dropLast } obj
                    { getObj s obj with
                      py_iter := (getObj s obj).py_iter ++ [key, value] })
                  = some r := he
              rw [← Option.some.inj he3]
              refine StateWF_setObj hDD obj _ hoko.1 rfl rfl rfl rfl ?_ ?_ ?_ ?_
              · exact h.2.2.2.2.1 obj hoko.1
              · intro x hx
                have hx2 : x ∈ (getObj s obj).py_iter ++ [key, value] := hx
                rcases List.mem_append.mp hx2 with hx3 | hx3
                · exact h.2.2.2.1.1 obj hoko.1 x hx3
                · rcases List.mem_cons.mp hx3 with hx4 | hx4
                  · rw [hx4]; exact hokk.1
                  · rw [List.mem_singleton.mp hx4]; exact hokv.1
              · intro hd
                show countKV s.objs ((getObj s obj).py_iter ++ [key, value]) % 2 = 0
                rw [countKV_append]
                have hns : ∀ x ∈ [key, value], (getO s.objs x).type ≠ PY_SPLIT := by
                  intro x hx
                  rcases List.mem_cons.mp hx with hx4 | hx4
                  · rw [hx4]; exact hokk.2
                  · rw [List.mem_singleton.mp hx4]; exact hokv.2
                have hc2 : countKV s.objs [key, value] = 2 := by
                  rw [countKV_all _ hns]
                  rfl
                rw [hc2]
                have := h.2.1 obj hoko.1 hd
                omega
              · show noAdjSplit s.objs ((getObj s obj).py_iter ++ [key, value])
                refine noAdjSplit_append _ _ (h.2.2.2.2.2.2 obj hoko.1) ?_
                intro x hx
                rcases List.mem_cons.mp hx with hx4 | hx4
                · rw [hx4]; exact hokk.2
                · rw [List.mem_singleton.mp hx4]; exact hokv.2
            · rw [if_neg hdict] at he
              have he3 : some ((false : Bool), py_obj_free (py_obj_free
                  { s with stack := s.stack.dropLast.dropLast } key) value)
                  = some r := he
              rw [← Option.some.inj he3]
              exact StateWF_py_obj_free (StateWF_py_obj_free hDD key) value
  · rw [if_neg hl3] at he
    have he3 : some ((false : Bool), s) = some r := he
    rw [← Option.some.inj he3]
    exact h

theorem StateWF_op_setitems {s : PMState} (h : StateWF s)
    {r : Bool × PMState} (he : op_setitems s = some r) : StateWF r.2 := by
  unfold op_setitems at he
  split at he
  · have he3 : some ((false : Bool), s) = some r := he
    rw [← Option.some.inj he3]
    exact h
  · rename_i prev hm
    split at he
    · have he3 : some ((false : Bool), s) = some r := he
      rw [← Option.some.inj he3]
      exact h
    · rename_i obj hobjl
      have hok : okId s obj :=
        h.2.2.1.2.1 prev (mem_getLast? hm) obj (mem_getLast? hobjl)
      by_cases hdict : (getObj s obj).type = PY_DICT
      · rw [if_pos hdict] at he
        have he3 : some (py_iter_append_mark s (some obj) PY_DICT) = some r := he
        rw [← Option.some.inj he3]
        exact (StateWF_py_iter_append_mark h (some obj) PY_DICT
          (fun o ho => by rw [← Option.some.inj ho]; exact hok.1)).1
      · rw [if_neg hdict] at he
        have he3 : some (py_what_addop_stack s OP_SETITEMS) = some r := he
        rw [← Option.some.inj he3]
        exact StateWF_py_what_addop_stack h OP_SETITEMS (by decide)

theorem StateWF_op_iter_0 {s : PMState} (h : StateWF s) (t : PyType)
    (ht : t ≠ PY_WHAT) (hsp : t ≠ PY_SPLIT) :
    StateWF (op_iter_n s 0 t).2 := by
  unfold op_iter_n
  rw [if_neg (by omega : ¬ 0 > 3)]
  split
  · rename_i s2 heq
    have hw := StateWF_py_iter_new h t ht
    rw [heq] at hw
    exact hw
  · rename_i obj s2 heq
    have hw := StateWF_py_iter_new h t ht
    rw [heq] at hw
    have hw2 : StateWF s2 := hw
    obtain ⟨hb, hg⟩ := py_iter_new_bound heq
    refine StateWF_nonheap hw2 _ _ _ _ _ _ _ _ _ _ ?_ hw2.2.2.1.2.1
      hw2.2.2.1.2.2.1 hw2.2.2.1.2.2.2 (Nat.le_refl _)
    intro x hx
    rcases List.mem_append.mp hx with hx | hx
    · exact hw2.2.2.1.1 x hx
    · rw [List.mem_singleton.mp hx]
      exact ⟨hb, by rw [hg]; exact hsp⟩

theorem StateWF_exec_op {s : PMState} (h : StateWF s) (op : DecodedOp)
    {r : Bool × PMState} (he : exec_op s op = some r) : StateWF r.2 := by
  unfold exec_op at he
  by_cases c1 : op.code = OP_PROTO
  · rw [if_pos c1] at he
    by_cases cp : s.start ≠ s.offset
    · rw [if_pos cp] at he
      rw [← Option.some.inj he]
      exact h
    · rw [if_neg cp] at he
      rw [← Option.some.inj he]
      exact StateWF_nonheap h _ _ _ _ _ _ _ _ _ _ h.2.2.1.1 h.2.2.1.2.1
        h.2.2.1.2.2.1 h.2.2.1.2.2.2 (Nat.le_refl _)
  rw [if_neg c1] at he
  by_cases c2 : op.code = OP_FRAME
  · rw [if_pos c2] at he
    rw [← Option.some.inj he]
    exact h
  rw [if_neg c2] at he
  by_cases c3 : op.code = OP_STOP
  · rw [if_pos c3] at he
    rw [← Option.some.inj he]
    exact h
  rw [if_neg c3] at he
  by_cases c4 : op.code = OP_MARK
  · rw [if_pos c4] at he
    rw [← Option.some.inj he]
    exact StateWF_op_mark h
  rw [if_neg c4] at he
  by_cases c5 : op.code = OP_POP
  · rw [if_pos c5] at he
    rw [← Option.some.inj he]
    exact StateWF_op_pop h
  rw [if_neg c5] at he
  by_cases c6 : op.code = OP_POP_MARK
  · rw [if_pos c6] at he
    rw [← Option.some.inj he]
    exact StateWF_op_pop_mark h
  rw [if_neg c6] at he
  by_cases c7 : op.code = OP_NONE
  · rw [if_pos c7] at he
    rw [← Option.some.inj he]
    exact StateWF_op_none h
  rw [if_neg c7] at he
  by_cases c8 : op.code = OP_BININT ∨ op.code = OP_BININT1 ∨ op.code = OP_BININT2
      ∨ op.code = OP_LONG1 ∨ op.code = OP_LONG4
  · rw [if_pos c8] at he
    rw [← Option.some.inj he]
    exact StateWF_push_int_type h op
  rw [if_neg c8] at he
  by_cases c9 : op.code = OP_FLOAT
  · rw [if_pos c9] at he
    rw [← Option.some.inj he]
    exact StateWF_op_float h op
  rw [if_neg c9] at he
  by_cases c10 : op.code = OP_BINFLOAT
  · rw [if_pos c10] at he
    rw [← Option.some.inj he]
    exact StateWF_op_float h op
  rw [if_neg c10] at he
  by_cases c11 : op.code = OP_STRING ∨ op.code = OP_UNICODE ∨ op.code = OP_BINUNICODE8
      ∨ op.code = OP_BINBYTES8 ∨ op.code = OP_BYTEARRAY8 ∨ op.code = OP_BINSTRING
      ∨ op.code = OP_BINUNICODE ∨ op.code = OP_BINBYTES ∨ op.code = OP_SHORT_BINBYTES
      ∨ op.code = OP_SHORT_BINSTRING ∨ op.code = OP_SHORT_BINUNICODE
  · rw [if_pos c11] at he
    rw [← Option.some.inj he]
    exact StateWF_push_str h op
  rw [if_neg c11] at he
  by_cases c12 : op.code = OP_OBJ
  · rw [if_pos c12] at he
    exact StateWF_op_obj h op he
  rw [if_neg c12] at he
  by_cases c13 : op.code = OP_INST
  · rw [if_pos c13] at he
    exact StateWF_op_inst h op he
  rw [if_neg c13] at he
  by_cases c14 : op.code = OP_GLOBAL
  · rw [if_pos c14] at he
    rw [← Option.some.inj he]
    exact StateWF_op_global h op
  rw [if_neg c14] at he
  by_cases c15 : op.code = OP_STACK_GLOBAL
  · rw [if_pos c15] at he
    rw [← Option.some.inj he]
    exact StateWF_op_stack_global h
  rw [if_neg c15] at he
  by_cases c16 : op.code = OP_NEWOBJ ∨ op.code = OP_BUILD ∨ op.code = OP_REDUCE
  · rw [if_pos c16] at he
    refine StateWF_py_what_addop h 1 op.code ?_ he
    rcases c16 with cx | cx | cx <;> rw [cx] <;> decide
  rw [if_neg c16] at he
  by_cases c17 : op.code = OP_TUPLE
  · rw [if_pos c17] at he
    rw [← Option.some.inj he]
    exact StateWF_op_type_create_append h PY_TUPLE (by intro hcx; cases hcx) (by intro hcx; cases hcx)
  rw [if_neg c17] at he
  by_cases c18 : op.code = OP_EMPTY_TUPLE
  · rw [if_pos c18] at he
    rw [← Option.some.inj he]
    exact StateWF_op_iter_n h 0 PY_TUPLE (by intro hcx; cases hcx) (by intro hcx; cases hcx) (by intro hcx; cases hcx)
  rw [if_neg c18] at he
  by_cases c19 : op.code = OP_TUPLE1
  · rw [if_pos c19] at he
    rw [← Option.some.inj he]
    exact StateWF_op_iter_n h 1 PY_TUPLE (by intro hcx; cases hcx) (by intro hcx; cases hcx) (by intro hcx; cases hcx)
  rw [if_neg c19] at he
  by_cases c20 : op.code = OP_TUPLE2
  · rw [if_pos c20] at he
    rw [← Option.some.inj he]
    exact StateWF_op_iter_n h 2 PY_TUPLE (by intro hcx; cases hcx) (by intro hcx; cases hcx) (by intro hcx; cases hcx)
  rw [if_neg c20] at he
  by_cases c21 : op.code = OP_TUPLE3
  · rw [if_pos c21] at he
    rw [← Option.some.inj he]
    exact StateWF_op_iter_n h 3 PY_TUPLE (by intro hcx; cases hcx) (by intro hcx; cases hcx) (by intro hcx; cases hcx)
  rw [if_neg c21] at he
  by_cases c22 : op.code = OP_EMPTY_LIST
  · rw [if_pos c22] at he
    rw [← Option.some.inj he]
    exact StateWF_op_iter_n h 0 PY_LIST (by intro hcx; cases hcx) (by intro hcx; cases hcx) (by intro hcx; cases hcx)
  rw [if_neg c22] at he
  by_cases c23 : op.code = OP_APPEND
  · rw [if_pos c23] at he
    exact StateWF_op_append h he
  rw [if_neg c23] at he
  by_cases c24 : op.code = OP_APPENDS
  · rw [if_pos c24] at he
    exact StateWF_op_appends h OP_APPEND PY_LIST (by decide) he
  rw [if_neg c24] at he
  by_cases c25 : op.code = OP_LIST
  · rw [if_pos c25] at he
    rw [← Option.some.inj he]
    exact StateWF_op_type_create_append h PY_LIST (by intro hcx; cases hcx) (by intro hcx; cases hcx)
  rw [if_neg c25] at he
  by_cases c26 : op.code = OP_EMPTY_DICT
  · rw [if_pos c26] at he
    rw [← Option.some.inj he]
    exact StateWF_op_iter_0 h PY_DICT (by intro hcx; cases hcx) (by intro hcx; cases hcx)
  rw [if_neg c26] at he
  by_cases c27 : op.code = OP_SETITEM
  · rw [if_pos c27] at he
    exact StateWF_op_setitem h he
  rw [if_neg c27] at he
  by_cases c28 : op.code = OP_SETITEMS
  · rw [if_pos c28] at he
    exact StateWF_op_setitems h he
  rw [if_neg c28] at he
  by_cases c29 : op.code = OP_DICT
  · rw [if_pos c29] at he
    rw [← Option.some.inj he]
    exact StateWF_op_type_create_append h PY_DICT (by intro hcx; cases hcx) (by intro hcx; cases hcx)
  rw [if_neg c29] at he
  by_cases c30 : op.code = OP_NEWTRUE
  · rw [if_pos c30] at he
    rw [← Option.some.inj he]
    exact StateWF_op_newbool h true
  rw [if_neg c30] at he
  by_cases c31 : op.code = OP_NEWFALSE
  · rw [if_pos c31] at he
    rw [← Option.some.inj he]
    exact StateWF_op_newbool h false
  rw [if_neg c31] at he
  by_cases c32 : op.code = OP_FROZENSET
  · rw [if_pos c32] at he
    rw [← Option.some.inj he]
    exact StateWF_op_type_create_append h PY_FROZEN_SET (by intro hcx; cases hcx) (by intro hcx; cases hcx)
  rw [if_neg c32] at he
  by_cases c33 : op.code = OP_EMPTY_SET
  · rw [if_pos c33] at he
    rw [← Option.some.inj he]
    exact StateWF_op_iter_n h 0 PY_SET (by intro hcx; cases hcx) (by intro hcx; cases hcx) (by intro hcx; cases hcx)
  rw [if_neg c33] at he
  by_cases c34 : op.code = OP_ADDITEMS
  · rw [if_pos c34] at he
    exact StateWF_op_appends h OP_ADDITEMS PY_SET (by decide) he
  rw [if_neg c34] at he
  by_cases c35 : op.code = OP_MEMOIZE
  · rw [if_pos c35] at he
    rw [← Option.some.inj he]
    exact StateWF_op_memorize h
  rw [if_neg c35] at he
  by_cases c36 : op.code = OP_LONG_BINPUT ∨ op.code = OP_BINPUT
  · rw [if_pos c36] at he
    rw [← Option.some.inj he]
    exact StateWF_memo_put h op.val
  rw [if_neg c36] at he
  by_cases c37 : op.code = OP_LONG_BINGET ∨ op.code = OP_BINGET
  · rw [if_pos c37] at he
    rw [← Option.some.inj he]
    exact StateWF_memo_get h op.val
  rw [if_neg c37] at he
  by_cases c38 : op.code = OP_DUP
  · rw [if_pos c38] at he
    rw [← Option.some.inj he]
    exact StateWF_op_dup h
  rw [if_neg c38] at he
  rw [← Option.some.inj he]
  exact h

theorem StateWF_run_pvm : ∀ (ops : List DecodedOp) (s : PMState),
    StateWF s → ∀ {r : Bool × PMState}, run_pvm ops s = some r →
    StateWF r.2 := by
  intro ops
  induction ops with
  | nil =>
    intro s h r he
    have he2 : some ((true : Bool), empty_memo s) = some r := he
    rw [← Option.some.inj he2]
    exact StateWF_empty_memo h
  | cons op rest ih =>
    intro s h r he
    have he2 : (if s.break_on_stop ∧ op.code = OP_STOP
        then some ((true : Bool), empty_memo s)
        else match exec_op s op with
          | none => none
          | some (false, s) => some (false, s)
          | some (true, s) => run_pvm rest { s with offset := s.offset + op.size })
        = some r := he
    by_cases hstop : s.break_on_stop = true ∧ op.code = OP_STOP
    · rw [if_pos hstop] at he2
      rw [← Option.some.inj he2]
      exact StateWF_empty_memo h
    · rw [if_neg hstop] at he2
      cases ha : exec_op s op with
      | none =>
        rw [ha] at he2
        cases he2
      | some p =>
        obtain ⟨b, s2⟩ := p
        rw [ha] at he2
        have h2 : StateWF s2 := StateWF_exec_op h op ha
        cases b with
        | false =>
          have he3 : some ((false : Bool), s2) = some r := he2
          rw [← Option.some.inj he3]
          exact h2
        | true =>
          have he3 : run_pvm rest { s2 with offset := s2.offset + op.size }
              = some r := he2
          refine ih _ ?_ he3
          exact StateWF_nonheap h2 _ _ _ _ _ _ _ _ _ _ h2.2.2.1.1
            h2.2.2.1.2.1 h2.2.2.1.2.2.1 h2.2.2.1.2.2.2 (Nat.le_refl _)

theorem StateWF_init_state (v : Bool) : StateWF (init_state v) := by
  refine ⟨?_, ?_, ⟨?_, ?_, ?_, ?_⟩, ⟨?_, ?_, ?_⟩, ?_, ?_, ?_⟩
  · intro i hi
    simp [init_state, getObj, getO] at hi
  · intro i hi
    simp [init_state, getObj, getO] at hi
  · intro i hi
    exact absurd hi (List.not_mem_nil i)
  · intro l hl
    exact absurd hl (List.not_mem_nil l)
  · intro i hi
    exact absurd hi (List.not_mem_nil i)
  · intro kv hkv
    exact absurd hkv (List.not_mem_nil kv)
  · intro j hj
    simp [init_state, getObj, getO] at hj
  · intro j hj
    simp [init_state, getObj, getO] at hj
  · intro q hq
    simp [init_state, getObj, getO] at hq
  · intro i hi
    simp [init_state, getObj, getO] at hi
  · intro i hi
    simp [init_state, getObj, getO] at hi
  · intro j hj
    simp [init_state, getObj, getO] at hj

theorem StateWF_interp (ops : List DecodedOp) {r : Bool × PMState}
    (he : interp ops = some r) : StateWF r.2 := by
  refine StateWF_run_pvm ops _ ?_ he
  have h0 := StateWF_init_state false
  exact StateWF_nonheap h0 _ _ _ _ _ _ _ _ _ _ h0.2.2.1.1 h0.2.2.1.2.1
    h0.2.2.1.2.2.1 h0.2.2.1.2.2.2 (Nat.le_refl _)

/-! ## Claim C6 -/

/-- A small program whose run upgrades an object into a `What` (NONE is
REDUCEd), exercising the invariant. -/
def c6ops : List DecodedOp :=
  [ { code := OP_NONE }, { code := OP_MARK },
    { code := OP_UNICODE, mnemonic := "unicode \"x\"" },
    { code := OP_TUPLE }, { code := OP_REDUCE, mnemonic := "reduce" },
    { code := OP_STOP } ]

def c6res : Bool × PMState := (interp c6ops).getD default

/-- C6: for every object of variant `What`, at every point of execution
(after any handler step from a well-formed state, and at the end of any
successful run), its first operation record is `FAKE_INIT` and that
record's argument stack holds exactly one object: `whatInv` asserts, for
every `What` in the heap, a non-empty history whose head oper is a valid
`OP_FAKE_INIT` with a one-element stack. -/
theorem claim_C6_what_fake_init :
    (∀ (s : PMState) (op : DecodedOp) (r : Bool × PMState), StateWF s →
      exec_op s op = some r → whatInv r.2) ∧
    (∀ (ops : List DecodedOp) (r : Bool × PMState), interp ops = some r →
      whatInv r.2) :=
  ⟨fun _ op _ h he => (StateWF_exec_op h op he).1,
   fun ops _ he => (StateWF_interp ops he).1⟩

theorem claim_C6_witness :
    interp c6ops = some c6res ∧ whatInv c6res.2 :=
  ⟨by decide, claim_C6_what_fake_init.2 c6ops c6res (by decide)⟩

/-! ## Claim C7 (amended) -/

/-- A run that fills a dict through SETITEM. -/
def c7wops : List DecodedOp :=
  [ { code := OP_EMPTY_DICT }, { code := OP_NONE }, { code := OP_NONE },
    { code := OP_SETITEM }, { code := OP_STOP } ]

def c7wres : Bool × PMState := (interp c7wops).getD default

/-- C7 (amended): every dict's flat iterable holds an even number of
non-`Split` key/value entries at every point of execution (`dictInv`,
preserved by every handler step from a well-formed state and holding at
the end of every successful run); appending the mark segment into a dict
when that segment has odd length fails in `py_iter_append_mark` and
leaves the state untouched; and a successful `SETITEM` extends its
dict's iterable by exactly one key/value pair. -/
theorem claim_C7_dict_even :
    (∀ (ops : List DecodedOp) (r : Bool × PMState), interp ops = some r →
      dictInv r.2) ∧
    (∀ (s : PMState) (op : DecodedOp) (r : Bool × PMState), StateWF s →
      exec_op s op = some r → dictInv r.2) ∧
    (∀ (s : PMState) (obj : Nat), (getObj s obj).type = PY_DICT →
      s.stack.length % 2 = 1 →
      py_iter_append_mark s (some obj) PY_DICT = (false, s)) ∧
    (∀ (s : PMState) (r : Bool × PMState), op_setitem s = some r →
      r.1 = true → stack_n_expected_type s s.stack 2 PY_DICT = true →
      ∃ obj key value, (getObj s obj).type = PY_DICT ∧
        r.2 = setObj { s with stack := s.stack.dropLast.dropLast } obj
          { getObj s obj with
            py_iter := (getObj s obj).py_iter ++ [key, value] }) := by
  refine ⟨fun ops _ he => (StateWF_interp ops he).2.1,
    fun _ op _ h he => (StateWF_exec_op h op he).2.1, ?_, ?_⟩
  · intro s obj hd hodd
    show (if (getObj s obj).type = PY_DICT then
        if PY_DICT = PY_DICT ∧ s.stack.length % 2 = 1 then (false, s)
        else
          match s.metastack.getLast? with
          | none => (false, s)
          | some prev =>
            let s1 := { s with metastack := s.metastack.dropLast }
            let s2 := setObj s1 obj
              { getObj s1 obj with
                py_iter := (getObj s1 obj).py_iter ++ s1.stack }
            (true, { s2 with stack := prev })
      else (false, s)) = (false, s)
    rw [if_pos hd, if_pos ⟨rfl, hodd⟩]
  · intro s r he hb hdp
    unfold op_setitem at he
    by_cases hl3 : s.stack.length ≥ 3
    · rw [if_pos hl3] at he
      by_cases hty : ¬ stack_n_expected_type s s.stack 2 PY_DICT = true
      · exact absurd hdp hty
      · rw [if_neg hty] at he
        split at he
        · rw [← Option.some.inj he] at hb
          exact Bool.noConfusion hb
        · rename_i value hval
          split at he
          · rw [← Option.some.inj he] at hb
            exact Bool.noConfusion hb
          · rename_i key hkey
            split at he
            · rw [← Option.some.inj he] at hb
              exact Bool.noConfusion hb
            · rename_i obj hobjl
              by_cases hdict : (getObj s obj).type = PY_DICT
              · rw [if_pos hdict] at he
                refine ⟨obj, key, value, hdict, ?_⟩
                rw [← Option.some.inj he]
              · rw [if_neg hdict] at he
                rw [← Option.some.inj he] at hb
                exact Bool.noConfusion hb
    · rw [if_neg hl3] at he
      rw [← Option.some.inj he] at hb
      exact Bool.noConfusion hb

theorem claim_C7_witness :
    interp c7wops = some c7wres ∧ dictInv c7wres.2 :=
  ⟨by decide, claim_C7_dict_even.1 c7wops c7wres (by decide)⟩

/-! ## Claim C3: the shape of a rendered REDUCE record -/

/-- The chunks of the current buffer (empty when the buffer is NULL). -/
def obuf (st : RSt) : List Chunk := st.nfo.out.getD []

/-- The frame every `dump_obj` call respects: the buffer stack and the
`first`/`ret` flags are preserved, and a successful inline dump only
extends the current buffer. -/
def dumpFrame (st : RSt) (b : Bool) (st2 : RSt) : Prop :=
  st2.nfo.outstack = st.nfo.outstack ∧
  st2.nfo.first = st.nfo.first ∧
  st2.nfo.ret = st.nfo.ret ∧
  (st.nfo.first = false → st.nfo.ret = false → b = true →
    ∃ ext, st2.nfo.out = some (obuf st ++ ext))

theorem obuf_eq_of_out {st : RSt} {l : List Chunk} (h : st.nfo.out = some l) :
    obuf st = l := by
  unfold obuf
  rw [h]
  rfl

theorem printer_append_outstack (st : RSt) (c : Chunk) :
    (printer_append st c).nfo.outstack = st.nfo.outstack := by
  unfold printer_append printer_getout
  cases st.nfo.out <;> rfl

theorem printer_append_out (st : RSt) (c : Chunk) :
    (printer_append st c).nfo.out = some (obuf st ++ [c]) := by
  unfold printer_append printer_getout obuf
  cases st.nfo.out <;> rfl

theorem obuf_printer_append (st : RSt) (c : Chunk) :
    obuf (printer_append st c) = obuf st ++ [c] := by
  unfold obuf
  rw [printer_append_out]
  rfl

theorem printer_appends_objs : ∀ (cs : List Chunk) (st : RSt),
    (printer_appends st cs).objs = st.objs := by
  intro cs
  induction cs with
  | nil => intro st; rfl
  | cons c cs ih =>
    intro st
    show (printer_appends (printer_append st c) cs).objs = st.objs
    rw [ih, printer_append_objs]

theorem printer_appends_outstack : ∀ (cs : List Chunk) (st : RSt),
    (printer_appends st cs).nfo.outstack = st.nfo.outstack := by
  intro cs
  induction cs with
  | nil => intro st; rfl
  | cons c cs ih =>
    intro st
    show (printer_appends (printer_append st c) cs).nfo.outstack
      = st.nfo.outstack
    rw [ih, printer_append_outstack]

theorem printer_appends_first : ∀ (cs : List Chunk) (st : RSt),
    (printer_appends st cs).nfo.first = st.nfo.first := by
  intro cs
  induction cs with
  | nil => intro st; rfl
  | cons c cs ih =>
    intro st
    show (printer_appends (printer_append st c) cs).nfo.first = st.nfo.first
    rw [ih, printer_append_first]

theorem printer_appends_ret : ∀ (cs : List Chunk) (st : RSt),
    (printer_appends st cs).nfo.ret = st.nfo.ret := by
  intro cs
  induction cs with
  | nil => intro st; rfl
  | cons c cs ih =>
    intro st
    show (printer_appends (printer_append st c) cs).nfo.ret = st.nfo.ret
    rw [ih, printer_append_ret]

theorem printer_appends_out_cons : ∀ (cs : List Chunk) (c : Chunk) (st : RSt),
    (printer_appends st (c :: cs)).nfo.out = some (obuf st ++ c :: cs) := by
  intro cs
  induction cs with
  | nil => intro c st; exact printer_append_out st c
  | cons c2 cs ih =>
    intro c st
    show (printer_appends (printer_append st c) (c2 :: cs)).nfo.out
      = some (obuf st ++ c :: c2 :: cs)
    rw [ih c2 (printer_append st c), obuf_printer_append, List.append_assoc]
    rfl

theorem getRO_printer_appends (cs : List Chunk) (st : RSt) (i : Nat) :
    getRO (printer_appends st cs) i = getRO st i := by
  unfold getRO
  rw [printer_appends_objs]

theorem printer_getout_facts (st : RSt) :
    (printer_getout st).2.nfo.outstack = st.nfo.outstack ∧
    (printer_getout st).2.nfo.first = st.nfo.first ∧
    (printer_getout st).2.nfo.ret = st.nfo.ret := by
  unfold printer_getout
  cases st.nfo.out <;> exact ⟨rfl, rfl, rfl⟩

theorem printer_drain_outstack (st : RSt) :
    (printer_drain st).nfo.outstack = st.nfo.outstack := by
  unfold printer_drain
  split
  · rfl
  · split <;> rfl

theorem printer_drain_free_outstack (st : RSt) :
    (printer_drain_free st).nfo.outstack = st.nfo.outstack := by
  show ({ printer_drain st with nfo :=
    { (printer_drain st).nfo with out := none } } : RSt).nfo.outstack
    = st.nfo.outstack
  rw [show ({ printer_drain st with nfo :=
    { (printer_drain st).nfo with out := none } } : RSt).nfo.outstack
    = (printer_drain st).nfo.outstack from rfl]
  exact printer_drain_outstack st

theorem obj_varname_facts (st : RSt) (i : Nat) :
    (obj_varname st i).2.nfo.outstack = st.nfo.outstack ∧
    (obj_varname st i).2.nfo.first = st.nfo.first ∧
    (obj_varname st i).2.nfo.ret = st.nfo.ret ∧
    (obj_varname st i).2.nfo.out = st.nfo.out := by
  cases hv : (getRO st i).varname with
  | some v =>
    have he : obj_varname st i = (v, st) := by
      unfold obj_varname
      rw [hv]
    rw [he]
    exact ⟨rfl, rfl, rfl, rfl⟩
  | none =>
    by_cases hm : (getRO st i).memo_id ≠ 0
    · have he : obj_varname st i = ("var_" ++ hexStr (getRO st i).memo_id,
        setRO st i { getRO st i with varname := some ("var_" ++ hexStr (getRO st i).memo_id) }) := by
        unfold obj_varname
        rw [hv, if_pos hm]
      rw [he]
      exact ⟨rfl, rfl, rfl, rfl⟩
    · have he : obj_varname st i = ("var_" ++ hexStr st.nfo.varid,
        setRO { st with nfo := { st.nfo with varid := st.nfo.varid + 1 } } i { getRO { st with nfo := { st.nfo with varid := st.nfo.varid + 1 } } i with varname := some ("var_" ++ hexStr st.nfo.varid) }) := by
        unfold obj_varname
        rw [hv, if_neg hm]
      rw [he]
      exact ⟨rfl, rfl, rfl, rfl⟩

theorem newlineIf_flags (st : RSt) :
    (newlineIf st).nfo.outstack = st.nfo.outstack ∧
    (newlineIf st).nfo.first = st.nfo.first ∧
    (newlineIf st).nfo.ret = st.nfo.ret := by
  unfold newlineIf
  split
  · exact ⟨printer_append_outstack st _, printer_append_first st _,
      printer_append_ret st _⟩
  · exact ⟨rfl, rfl, rfl⟩

theorem newlineIf_inline (st : RSt) (hf : st.nfo.first = false)
    (hr : st.nfo.ret = false) : newlineIf st = st := by
  unfold newlineIf
  rw [if_neg]
  rw [hf, hr]
  simp

theorem var_pre_print_inline (st : RSt) (i : Nat) (hf : st.nfo.first = false)
    (hr : st.nfo.ret = false) :
    var_pre_print st i =
      (match (getRO st i).varname with
       | some v => (1, printer_append st (refC v))
       | none => (0, st)) := by
  have h1 : ¬ (st.nfo.ret = true) := by rw [hr]; exact Bool.false_ne_true
  have h2 : ¬ (st.nfo.first = true) := by rw [hf]; exact Bool.false_ne_true
  unfold var_pre_print
  rw [if_neg h1, if_neg h2]

theorem var_pre_print_ret_eq (st : RSt) (i : Nat) (hr : st.nfo.ret = true) :
    var_pre_print st i =
      (match (getRO (printer_append st (textC "return ")) i).varname with
       | some v => (1, printer_appends (printer_append st (textC "return ")) [refC v, textC "\n"])
       | none => (0, printer_append st (textC "return "))) := by
  unfold var_pre_print
  rw [if_pos hr]

theorem var_pre_print_first_eq (st : RSt) (i : Nat) (hr : ¬ st.nfo.ret = true)
    (hf : st.nfo.first = true) :
    var_pre_print st i =
      (match (getRO st i).varname with
       | some v =>
         if st.nfo.verbose = true then
           (1, printer_append st (textC ("# " ++ v ++ " previously declared\n")))
         else (1, st)
       | none =>
         match obj_varname st i with
         | (v, stv) => ((0 : Int), printer_append stv (assignC v))) := by
  unfold var_pre_print
  rw [if_neg hr, if_pos hf]

theorem var_pre_print_flags (st : RSt) (i : Nat) :
    (var_pre_print st i).2.nfo.outstack = st.nfo.outstack ∧
    (var_pre_print st i).2.nfo.first = st.nfo.first ∧
    (var_pre_print st i).2.nfo.ret = st.nfo.ret := by
  by_cases hr : st.nfo.ret = true
  · rw [var_pre_print_ret_eq st i hr]
    cases hv : (getRO (printer_append st (textC "return ")) i).varname with
    | some v =>
      refine ⟨?_, ?_, ?_⟩
      · show (printer_appends (printer_append st (textC "return "))
          [refC v, textC "\n"]).nfo.outstack = st.nfo.outstack
        rw [printer_appends_outstack, printer_append_outstack]
      · show (printer_appends (printer_append st (textC "return "))
          [refC v, textC "\n"]).nfo.first = st.nfo.first
        rw [printer_appends_first, printer_append_first]
      · show (printer_appends (printer_append st (textC "return "))
          [refC v, textC "\n"]).nfo.ret = st.nfo.ret
        rw [printer_appends_ret, printer_append_ret]
    | none =>
      exact ⟨printer_append_outstack st _, printer_append_first st _,
        printer_append_ret st _⟩
  · by_cases hf : st.nfo.first = true
    · cases hv : (getRO st i).varname with
      | some v =>
        have hred : var_pre_print st i = (if st.nfo.verbose = true then
            ((1 : Int), printer_append st
              (textC ("# " ++ v ++ " previously declared\n")))
          else (1, st)) := by
          rw [var_pre_print_first_eq st i hr hf, hv]
        rw [hred]
        by_cases hvb : st.nfo.verbose = true
        · rw [if_pos hvb]
          exact ⟨printer_append_outstack st _, printer_append_first st _,
            printer_append_ret st _⟩
        · rw [if_neg hvb]
          exact ⟨rfl, rfl, rfl⟩
      | none =>
        have ho := obj_varname_facts st i
        cases hov : obj_varname st i with
        | mk v stv =>
          rw [hov] at ho
          have hred : var_pre_print st i
              = ((0 : Int), printer_append stv (assignC v)) := by
            rw [var_pre_print_first_eq st i hr hf, hv, hov]
          rw [hred]
          refine ⟨?_, ?_, ?_⟩
          · show (printer_append stv (assignC v)).nfo.outstack
              = st.nfo.outstack
            rw [printer_append_outstack]
            exact ho.1
          · show (printer_append stv (assignC v)).nfo.first = st.nfo.first
            rw [printer_append_first]
            exact ho.2.1
          · show (printer_append stv (assignC v)).nfo.ret = st.nfo.ret
            rw [printer_append_ret]
            exact ho.2.2.1
    · rw [var_pre_print_inline st i (by revert hf; cases st.nfo.first <;> simp)
        (by revert hr; cases st.nfo.ret <;> simp)]
      cases hv : (getRO st i).varname with
      | some v =>
        exact ⟨printer_append_outstack st _, printer_append_first st _,
          printer_append_ret st _⟩
      | none => exact ⟨rfl, rfl, rfl⟩

/-- The common body of the six scalar dumps (`dump_bool` … `dump_func`):
`var_pre_print`, then the value text and a statement newline. -/
def dump_value (mk : RSt → Chunk) (st : RSt) (i : Nat) :
    Option (Bool × RSt) :=
  let (o, st) := var_pre_print st i
  if o < 0 then some (false, st)
  else if o ≠ 0 then some (true, st)
  else
    let st := printer_append st (mk st)
    some (true, newlineIf st)

theorem dump_value_frame (mk : RSt → Chunk) (st : RSt) (i : Nat)
    (b : Bool) (st2 : RSt) (he : dump_value mk st i = some (b, st2)) :
    dumpFrame st b st2 := by
  have hflags := var_pre_print_flags st i
  cases hv : var_pre_print st i with
  | mk o stv =>
    rw [hv] at hflags
    have heM : (match var_pre_print st i with
        | (oo, sv) => if oo < 0 then some (false, sv)
          else if oo ≠ 0 then some (true, sv)
          else some (true, newlineIf (printer_append sv (mk sv))))
        = some (b, st2) := he
    rw [hv] at heM
    have he2 : (if o < 0 then some (false, stv)
        else if o ≠ 0 then some (true, stv)
        else some (true, newlineIf (printer_append stv (mk stv))))
        = some (b, st2) := heM
    split at he2
    · injection he2 with hp
      injection hp with hb hst
      subst hb
      subst hst
      refine ⟨hflags.1, hflags.2.1, hflags.2.2, ?_⟩
      intro _ _ hb
      exact Bool.noConfusion hb
    · split at he2
      · rename_i hlt hne
        injection he2 with hp
        injection hp with hb hst
        subst hb
        subst hst
        refine ⟨hflags.1, hflags.2.1, hflags.2.2, ?_⟩
        intro hf hr _
        have hvi := var_pre_print_inline st i hf hr
        rw [hv] at hvi
        cases hw : (getRO st i).varname with
        | some v =>
          rw [hw] at hvi
          injection hvi with ho hst
          rw [hst, printer_append_out]
          exact ⟨[refC v], rfl⟩
        | none =>
          rw [hw] at hvi
          injection hvi with ho hst
          exact absurd ho hne
      · rename_i hlt h0
        injection he2 with hp
        injection hp with hb hst
        subst hb
        have hpa := printer_append_outstack stv (mk stv)
        have hpf := printer_append_first stv (mk stv)
        have hpr := printer_append_ret stv (mk stv)
        have hnl := newlineIf_flags (printer_append stv (mk stv))
        refine ⟨?_, ?_, ?_, ?_⟩
        · rw [← hst, hnl.1, hpa]
          exact hflags.1
        · rw [← hst, hnl.2.1, hpf]
          exact hflags.2.1
        · rw [← hst, hnl.2.2, hpr]
          exact hflags.2.2
        · intro hf hr _
          have hvi := var_pre_print_inline st i hf hr
          rw [hv] at hvi
          cases hw : (getRO st i).varname with
          | some v =>
            rw [hw] at hvi
            injection hvi with ho hstv
            exfalso
            rw [ho] at h0
            exact h0 (by decide)
          | none =>
            rw [hw] at hvi
            injection hvi with ho hstv
            rw [← hst, hstv]
            rw [newlineIf_inline (printer_append st (mk st))
              (by rw [printer_append_first]; exact hf)
              (by rw [printer_append_ret]; exact hr)]
            rw [printer_append_out]
            exact ⟨[mk st], rfl⟩

theorem dump_bool_frame (st : RSt) (i : Nat) (b : Bool) (st2 : RSt)
    (he : dump_bool st i = some (b, st2)) : dumpFrame st b st2 :=
  dump_value_frame (fun stx => textC (boolText (getRO stx i).py_bool))
    st i b st2 he

theorem dump_int_frame (st : RSt) (i : Nat) (b : Bool) (st2 : RSt)
    (he : dump_int st i = some (b, st2)) : dumpFrame st b st2 :=
  dump_value_frame (fun stx => textC (intText (getRO stx i).py_int))
    st i b st2 he

theorem dump_str_frame (st : RSt) (i : Nat) (b : Bool) (st2 : RSt)
    (he : dump_str st i = some (b, st2)) : dumpFrame st b st2 :=
  dump_value_frame (fun stx => textC (getRO stx i).py_str) st i b st2 he

theorem dump_float_frame (st : RSt) (i : Nat) (b : Bool) (st2 : RSt)
    (he : dump_float st i = some (b, st2)) : dumpFrame st b st2 :=
  dump_value_frame (fun stx => textC (floatText (getRO stx i).py_float))
    st i b st2 he

theorem dump_none_frame (st : RSt) (i : Nat) (b : Bool) (st2 : RSt)
    (he : dump_none st i = some (b, st2)) : dumpFrame st b st2 :=
  dump_value_frame (fun _ => textC "None") st i b st2 he

theorem dump_func_frame (st : RSt) (i : Nat) (b : Bool) (st2 : RSt)
    (he : dump_func st i = some (b, st2)) : dumpFrame st b st2 :=
  dump_value_frame (fun stx => textC (dump_func_text stx i)) st i b st2 he

theorem dump_iter_loop_frame (f : DumpF)
    (Hf : ∀ st i b st2, f st i = some (b, st2) → dumpFrame st b st2) :
    ∀ (l : List Nat) (st : RSt) (b : Bool) (st2 : RSt),
      dump_iter_loop f st l = some (b, st2) →
      st2.nfo.outstack = st.nfo.outstack ∧
      st2.nfo.first = st.nfo.first ∧
      st2.nfo.ret = st.nfo.ret ∧
      (st.nfo.first = false → st.nfo.ret = false → b = true →
        st2 = st ∨ ∃ ext, st2.nfo.out = some (obuf st ++ ext)) := by
  intro l
  induction l with
  | nil =>
    intro st b st2 he
    injection he with hp
    injection hp with hb hst
    subst hst
    exact ⟨rfl, rfl, rfl, fun _ _ _ => Or.inl rfl⟩
  | cons x rest ih =>
    intro st b st2 he
    cases rest with
    | nil =>
      have h := Hf st x b st2 he
      exact ⟨h.1, h.2.1, h.2.2.1,
        fun hf hr hb => Or.inr (h.2.2.2 hf hr hb)⟩
    | cons y rest2 =>
      have heM : (match f st x with
          | none => none
          | some (false, sx) => some (false, sx)
          | some (true, sx) =>
            dump_iter_loop f (printer_append sx (textC ", ")) (y :: rest2))
          = some (b, st2) := he
      cases hfx : f st x with
      | none =>
        rw [hfx] at heM
        exact Option.noConfusion heM
      | some r =>
        cases r with
        | mk bx stx =>
          rw [hfx] at heM
          cases bx with
          | false =>
            have heq : some (false, stx) = some (b, st2) := heM
            injection heq with hp
            injection hp with hb hst
            subst hb
            have h := Hf st x false stx hfx
            rw [← hst]
            exact ⟨h.1, h.2.1, h.2.2.1, fun _ _ hb => Bool.noConfusion hb⟩
          | true =>
            have heR : dump_iter_loop f (printer_append stx (textC ", "))
                (y :: rest2) = some (b, st2) := heM
            have h1 := Hf st x true stx hfx
            have h2 := ih (printer_append stx (textC ", ")) b st2 heR
            refine ⟨?_, ?_, ?_, ?_⟩
            · rw [h2.1, printer_append_outstack]
              exact h1.1
            · rw [h2.2.1, printer_append_first]
              exact h1.2.1
            · rw [h2.2.2.1, printer_append_ret]
              exact h1.2.2.1
            · intro hf hr hb
              obtain ⟨ext0, hout0⟩ := h1.2.2.2 hf hr rfl
              have hbuf : obuf stx = obuf st ++ ext0 := obuf_eq_of_out hout0
              have hfx2 : (printer_append stx (textC ", ")).nfo.first
                  = false := by
                rw [printer_append_first, h1.2.1]
                exact hf
              have hrx2 : (printer_append stx (textC ", ")).nfo.ret
                  = false := by
                rw [printer_append_ret, h1.2.2.1]
                exact hr
              have hout1 : (printer_append stx (textC ", ")).nfo.out
                  = some (obuf st ++ (ext0 ++ [textC ", "])) := by
                rw [printer_append_out, hbuf, List.append_assoc]
              rcases h2.2.2.2 hfx2 hrx2 hb with heq | ⟨ext, hout⟩
              · refine Or.inr ⟨ext0 ++ [textC ", "], ?_⟩
                rw [heq]
                exact hout1
              · refine Or.inr ⟨ext0 ++ [textC ", "] ++ ext, ?_⟩
                rw [hout, obuf_eq_of_out hout1]
                rw [List.append_assoc]

theorem dump_iter_frame (f : DumpF)
    (Hf : ∀ st i b st2, f st i = some (b, st2) → dumpFrame st b st2)
    (st : RSt) (i : Nat) (b : Bool) (st2 : RSt)
    (he : dump_iter f st i = some (b, st2)) :
    st2.nfo.outstack = st.nfo.outstack ∧
    st2.nfo.first = st.nfo.first ∧
    st2.nfo.ret = st.nfo.ret ∧
    (b = true → st2.nfo.out = st.nfo.out ∨
      ∃ ext, st2.nfo.out = some (obuf st ++ ext)) := by
  have heM : (match dump_iter_loop f
      { st with nfo := { st.nfo with first := false, ret := false } }
      ((getRO { st with nfo := { st.nfo with first := false, ret := false } }
        i).py_iter) with
    | none => (none : Option (Bool × RSt))
    | some (bb, stc) => some (bb, { stc with nfo :=
        { stc.nfo with first := st.nfo.first, ret := st.nfo.ret } }))
      = some (b, st2) := he
  cases hL : dump_iter_loop f
      { st with nfo := { st.nfo with first := false, ret := false } }
      ((getRO { st with nfo := { st.nfo with first := false, ret := false } }
        i).py_iter) with
  | none =>
    rw [hL] at heM
    exact Option.noConfusion heM
  | some r =>
    cases r with
    | mk bL stC =>
      rw [hL] at heM
      have heq : some (bL, ({ stC with nfo :=
          { stC.nfo with first := st.nfo.first, ret := st.nfo.ret } } : RSt))
          = some (b, st2) := heM
      injection heq with hp
      injection hp with hb hst
      subst hb
      have h2 := dump_iter_loop_frame f Hf _ _ _ _ hL
      refine ⟨?_, ?_, ?_, ?_⟩
      · rw [← hst]
        exact h2.1
      · rw [← hst]
      · rw [← hst]
      · intro hb
        rcases h2.2.2.2 rfl rfl hb with heqs | ⟨ext, hout⟩
        · refine Or.inl ?_
          rw [← hst, heqs]
        · refine Or.inr ⟨ext, ?_⟩
          rw [← hst]
          exact hout

theorem dict_sep_facts (onkey : Bool) (rest : List Nat) (st : RSt) :
    (if onkey = true then printer_append st (textC ": ")
     else if rest ≠ [] then printer_append st (textC ", ")
     else st).nfo.outstack = st.nfo.outstack ∧
    (if onkey = true then printer_append st (textC ": ")
     else if rest ≠ [] then printer_append st (textC ", ")
     else st).nfo.first = st.nfo.first ∧
    (if onkey = true then printer_append st (textC ": ")
     else if rest ≠ [] then printer_append st (textC ", ")
     else st).nfo.ret = st.nfo.ret ∧
    ((if onkey = true then printer_append st (textC ": ")
      else if rest ≠ [] then printer_append st (textC ", ")
      else st).nfo.out = st.nfo.out ∨
     ∃ c, (if onkey = true then printer_append st (textC ": ")
      else if rest ≠ [] then printer_append st (textC ", ")
      else st).nfo.out = some (obuf st ++ [c])) := by
  by_cases hk : onkey = true
  · rw [if_pos hk]
    exact ⟨printer_append_outstack st _, printer_append_first st _,
      printer_append_ret st _,
      Or.inr ⟨textC ": ", printer_append_out st _⟩⟩
  · rw [if_neg hk]
    by_cases hrest : rest ≠ []
    · rw [if_pos hrest]
      exact ⟨printer_append_outstack st _, printer_append_first st _,
        printer_append_ret st _,
        Or.inr ⟨textC ", ", printer_append_out st _⟩⟩
    · rw [if_neg hrest]
      exact ⟨rfl, rfl, rfl, Or.inl rfl⟩

theorem dump_iter_dict_loop_frame (f : DumpF)
    (Hf : ∀ st i b st2, f st i = some (b, st2) → dumpFrame st b st2) :
    ∀ (l : List Nat) (onkey : Bool) (st : RSt) (b : Bool) (st2 : RSt),
      dump_iter_dict_loop f st onkey l = some (b, st2) →
      st2.nfo.outstack = st.nfo.outstack ∧
      st2.nfo.first = st.nfo.first ∧
      st2.nfo.ret = st.nfo.ret ∧
      (st.nfo.first = false → st.nfo.ret = false → b = true →
        st2 = st ∨ ∃ ext, st2.nfo.out = some (obuf st ++ ext)) := by
  intro l
  induction l with
  | nil =>
    intro onkey st b st2 he
    injection he with hp
    injection hp with hb hst
    subst hst
    exact ⟨rfl, rfl, rfl, fun _ _ _ => Or.inl rfl⟩
  | cons x rest ih =>
    intro onkey st b st2 he
    have heM : (match f st x with
        | none => none
        | some (false, sx) => some (false, sx)
        | some (true, sx) =>
          dump_iter_dict_loop f
            (if onkey = true then printer_append sx (textC ": ")
             else if rest ≠ [] then printer_append sx (textC ", ")
             else sx) (!onkey) rest)
        = some (b, st2) := he
    cases hfx : f st x with
    | none =>
      rw [hfx] at heM
      exact Option.noConfusion heM
    | some r =>
      cases r with
      | mk bx stx =>
        rw [hfx] at heM
        cases bx with
        | false =>
          have heq : some (false, stx) = some (b, st2) := heM
          injection heq with hp
          injection hp with hb hst
          subst hb
          have h := Hf st x false stx hfx
          rw [← hst]
          exact ⟨h.1, h.2.1, h.2.2.1, fun _ _ hb => Bool.noConfusion hb⟩
        | true =>
          have heR : dump_iter_dict_loop f
              (if onkey = true then printer_append stx (textC ": ")
               else if rest ≠ [] then printer_append stx (textC ", ")
               else stx) (!onkey) rest = some (b, st2) := heM
          have h1 := Hf st x true stx hfx
          have hsep := dict_sep_facts onkey rest stx
          have h2 := ih (!onkey) _ b st2 heR
          refine ⟨?_, ?_, ?_, ?_⟩
          · rw [h2.1, hsep.1]
            exact h1.1
          · rw [h2.2.1, hsep.2.1]
            exact h1.2.1
          · rw [h2.2.2.1, hsep.2.2.1]
            exact h1.2.2.1
          · intro hf hr hb
            obtain ⟨ext0, hout0⟩ := h1.2.2.2 hf hr rfl
            have hbuf : obuf stx = obuf st ++ ext0 := obuf_eq_of_out hout0
            have hsf : (if onkey = true then printer_append stx (textC ": ")
                else if rest ≠ [] then printer_append stx (textC ", ")
                else stx).nfo.first = false := by
              rw [hsep.2.1, h1.2.1]
              exact hf
            have hsr : (if onkey = true then printer_append stx (textC ": ")
                else if rest ≠ [] then printer_append stx (textC ", ")
                else stx).nfo.ret = false := by
              rw [hsep.2.2.1, h1.2.2.1]
              exact hr
            have hsout : ∃ ext1,
                (if onkey = true then printer_append stx (textC ": ")
                 else if rest ≠ [] then printer_append stx (textC ", ")
                 else stx).nfo.out = some (obuf st ++ ext1) := by
              rcases hsep.2.2.2 with hid | ⟨c, hc⟩
              · exact ⟨ext0, by rw [hid]; exact hout0⟩
              · refine ⟨ext0 ++ [c], ?_⟩
                rw [hc, hbuf, List.append_assoc]
            obtain ⟨ext1, hout1⟩ := hsout
            rcases h2.2.2.2 hsf hsr hb with heq | ⟨ext, hout⟩
            · refine Or.inr ⟨ext1, ?_⟩
              rw [heq]
              exact hout1
            · refine Or.inr ⟨ext1 ++ ext, ?_⟩
              rw [hout, obuf_eq_of_out hout1, List.append_assoc]

theorem dump_iter_dict_frame (f : DumpF)
    (Hf : ∀ st i b st2, f st i = some (b, st2) → dumpFrame st b st2)
    (st : RSt) (i : Nat) (b : Bool) (st2 : RSt)
    (he : dump_iter_dict f st i = some (b, st2)) :
    st2.nfo.outstack = st.nfo.outstack ∧
    st2.nfo.first = st.nfo.first ∧
    st2.nfo.ret = st.nfo.ret ∧
    (b = true → st2.nfo.out = st.nfo.out ∨
      ∃ ext, st2.nfo.out = some (obuf st ++ ext)) := by
  have heM : (match dump_iter_dict_loop f
      { st with nfo := { st.nfo with first := false, ret := false } } true
      ((getRO { st with nfo := { st.nfo with first := false, ret := false } }
        i).py_iter) with
    | none => (none : Option (Bool × RSt))
    | some (bb, stc) => some (bb, { stc with nfo :=
        { stc.nfo with first := st.nfo.first, ret := st.nfo.ret } }))
      = some (b, st2) := he
  cases hL : dump_iter_dict_loop f
      { st with nfo := { st.nfo with first := false, ret := false } } true
      ((getRO { st with nfo := { st.nfo with first := false, ret := false } }
        i).py_iter) with
  | none =>
    rw [hL] at heM
    exact Option.noConfusion heM
  | some r =>
    cases r with
    | mk bL stC =>
      rw [hL] at heM
      have heq : some (bL, ({ stC with nfo :=
          { stC.nfo with first := st.nfo.first, ret := st.nfo.ret } } : RSt))
          = some (b, st2) := heM
      injection heq with hp
      injection hp with hb hst
      subst hb
      have h2 := dump_iter_dict_loop_frame f Hf _ _ _ _ _ hL
      refine ⟨?_, ?_, ?_, ?_⟩
      · rw [← hst]
        exact h2.1
      · rw [← hst]
      · rw [← hst]
      · intro hb
        rcases h2.2.2.2 rfl rfl hb with heqs | ⟨ext, hout⟩
        · refine Or.inl ?_
          rw [← hst, heqs]
        · refine Or.inr ⟨ext, ?_⟩
          rw [← hst]
          exact hout

theorem dump_container_frame (g : RSt → Nat → Option (Bool × RSt))
    (Hg : ∀ st i b st2, g st i = some (b, st2) →
      st2.nfo.outstack = st.nfo.outstack ∧ st2.nfo.first = st.nfo.first ∧
      st2.nfo.ret = st.nfo.ret ∧ (b = true → st2.nfo.out = st.nfo.out ∨
        ∃ ext, st2.nfo.out = some (obuf st ++ ext)))
    (copen cclose : Chunk) (st : RSt) (i : Nat) (b : Bool) (st2 : RSt)
    (he : (match var_pre_print st i with
      | (o, sv) => if o < 0 then some (false, sv)
        else if o ≠ 0 then some (true, sv)
        else match g (printer_append sv copen) i with
          | none => none
          | some (bb, sc) => some (bb, newlineIf (printer_append sc cclose)))
      = some (b, st2)) :
    dumpFrame st b st2 := by
  have hflags := var_pre_print_flags st i
  cases hv : var_pre_print st i with
  | mk o stv =>
    rw [hv] at hflags
    rw [hv] at he
    have he2 : (if o < 0 then some (false, stv)
        else if o ≠ 0 then some (true, stv)
        else match g (printer_append stv copen) i with
          | none => none
          | some (bb, sc) => some (bb, newlineIf (printer_append sc cclose)))
        = some (b, st2) := he
    split at he2
    · injection he2 with hp
      injection hp with hb hst
      subst hb
      rw [← hst]
      refine ⟨hflags.1, hflags.2.1, hflags.2.2, ?_⟩
      intro _ _ hb
      exact Bool.noConfusion hb
    · split at he2
      · rename_i hlt hne
        injection he2 with hp
        injection hp with hb hst
        subst hb
        rw [← hst]
        refine ⟨hflags.1, hflags.2.1, hflags.2.2, ?_⟩
        intro hf hr _
        have hvi := var_pre_print_inline st i hf hr
        rw [hv] at hvi
        cases hw : (getRO st i).varname with
        | some v =>
          rw [hw] at hvi
          injection hvi with ho hsv
          rw [hsv, printer_append_out]
          exact ⟨[refC v], rfl⟩
        | none =>
          rw [hw] at hvi
          injection hvi with ho hsv
          exact absurd ho hne
      · rename_i hlt h0
        cases hg : g (printer_append stv copen) i with
        | none =>
          rw [hg] at he2
          exact Option.noConfusion he2
        | some r =>
          cases r with
          | mk bI stI =>
            rw [hg] at he2
            have heq : some (bI, newlineIf (printer_append stI cclose))
                = some (b, st2) := he2
            injection heq with hp
            injection hp with hb hst
            subst hb
            have hG := Hg _ i _ _ hg
            have hpo := printer_append_outstack stv copen
            have hpf := printer_append_first stv copen
            have hpr := printer_append_ret stv copen
            have hco := printer_append_outstack stI cclose
            have hcf := printer_append_first stI cclose
            have hcr := printer_append_ret stI cclose
            have hnl := newlineIf_flags (printer_append stI cclose)
            refine ⟨?_, ?_, ?_, ?_⟩
            · rw [← hst, hnl.1, hco, hG.1, hpo]
              exact hflags.1
            · rw [← hst, hnl.2.1, hcf, hG.2.1, hpf]
              exact hflags.2.1
            · rw [← hst, hnl.2.2, hcr, hG.2.2.1, hpr]
              exact hflags.2.2
            · intro hf hr hb
              have hvi := var_pre_print_inline st i hf hr
              rw [hv] at hvi
              cases hw : (getRO st i).varname with
              | some v =>
                rw [hw] at hvi
                injection hvi with ho hsv
                exfalso
                rw [ho] at h0
                exact h0 (by decide)
              | none =>
                rw [hw] at hvi
                injection hvi with ho hsv
                rw [hsv] at hg hG hpo hpf hpr
                have hAout : (printer_append st copen).nfo.out
                    = some (obuf st ++ [copen]) := printer_append_out st copen
                have hinner : ∃ inner, stI.nfo.out
                    = some (obuf st ++ [copen] ++ inner) := by
                  rcases hG.2.2.2 hb with hid | ⟨ext, hext⟩
                  · refine ⟨[], ?_⟩
                    rw [hid, hAout, List.append_nil]
                  · refine ⟨ext, ?_⟩
                    rw [hext, obuf_eq_of_out hAout]
                obtain ⟨inner, hIout⟩ := hinner
                have hfI : (printer_append stI cclose).nfo.first = false := by
                  rw [hcf, hG.2.1, hpf]
                  exact hf
                have hrI : (printer_append stI cclose).nfo.ret = false := by
                  rw [hcr, hG.2.2.1, hpr]
                  exact hr
                rw [← hst, newlineIf_inline _ hfI hrI, printer_append_out]
                refine ⟨[copen] ++ inner ++ [cclose], ?_⟩
                rw [obuf_eq_of_out hIout]
                simp only [List.append_assoc]

theorem dump_tuple_frame (f : DumpF)
    (Hf : ∀ st i b st2, f st i = some (b, st2) → dumpFrame st b st2)
    (st : RSt) (i : Nat) (b : Bool) (st2 : RSt)
    (he : dump_tuple f st i = some (b, st2)) : dumpFrame st b st2 :=
  dump_container_frame (dump_iter f)
    (fun stx ix bx stx2 hx => dump_iter_frame f Hf stx ix bx stx2 hx)
    (textC "(") (textC ")") st i b st2 he

theorem dump_list_frame (f : DumpF)
    (Hf : ∀ st i b st2, f st i = some (b, st2) → dumpFrame st b st2)
    (st : RSt) (i : Nat) (b : Bool) (st2 : RSt)
    (he : dump_list f st i = some (b, st2)) : dumpFrame st b st2 :=
  dump_container_frame (dump_iter f)
    (fun stx ix bx stx2 hx => dump_iter_frame f Hf stx ix bx stx2 hx)
    (textC "[") (textC "]") st i b st2 he

theorem dump_dict_frame (f : DumpF)
    (Hf : ∀ st i b st2, f st i = some (b, st2) → dumpFrame st b st2)
    (st : RSt) (i : Nat) (b : Bool) (st2 : RSt)
    (he : dump_dict f st i = some (b, st2)) : dumpFrame st b st2 :=
  dump_container_frame (dump_iter_dict f)
    (fun stx ix bx stx2 hx => dump_iter_dict_frame f Hf stx ix bx stx2 hx)
    (textC "\x7b") (textC "\x7d") st i b st2 he

theorem dump_oper_init_frame (f : DumpF)
    (Hf : ∀ st i b st2, f st i = some (b, st2) → dumpFrame st b st2)
    (st : RSt) (p : Nat) (vn : String) (b : Bool) (st2 : RSt)
    (he : dump_oper_init f st p vn = some (b, st2)) :
    st2.nfo.outstack = st.nfo.outstack ∧ st2.nfo.first = st.nfo.first ∧
    st2.nfo.ret = st.nfo.ret := by
  have heM : (match (getROper (printer_append st (assignC vn)) p).stack.getLast? with
    | none => (none : Option (Bool × RSt))
    | some arg =>
      match f (printer_append st (assignC vn)) arg with
      | none => none
      | some (false, sx) => some (false, sx)
      | some (true, sx) => some (true, printer_append sx (textC "\n")))
      = some (b, st2) := he
  cases hlast : (getROper (printer_append st (assignC vn)) p).stack.getLast? with
  | none =>
    rw [hlast] at heM
    exact Option.noConfusion heM
  | some arg =>
    rw [hlast] at heM
    have heM2 : (match f (printer_append st (assignC vn)) arg with
      | none => (none : Option (Bool × RSt))
      | some (false, sx) => some (false, sx)
      | some (true, sx) => some (true, printer_append sx (textC "\n")))
        = some (b, st2) := heM
    cases hf2 : f (printer_append st (assignC vn)) arg with
    | none =>
      rw [hf2] at heM2
      exact Option.noConfusion heM2
    | some r =>
      cases r with
      | mk bf stf =>
        rw [hf2] at heM2
        have hF := Hf _ arg _ _ hf2
        cases bf with
        | false =>
          have heq : some (false, stf) = some (b, st2) := heM2
          injection heq with hp
          injection hp with hb hst
          rw [← hst]
          refine ⟨?_, ?_, ?_⟩
          · rw [hF.1, printer_append_outstack]
          · rw [hF.2.1, printer_append_first]
          · rw [hF.2.2.1, printer_append_ret]
        | true =>
          have heq : some (true, printer_append stf (textC "\n"))
              = some (b, st2) := heM2
          injection heq with hp
          injection hp with hb hst
          rw [← hst]
          refine ⟨?_, ?_, ?_⟩
          · rw [printer_append_outstack, hF.1, printer_append_outstack]
          · rw [printer_append_first, hF.2.1, printer_append_first]
          · rw [printer_append_ret, hF.2.2.1, printer_append_ret]

theorem dump_oper_reduce_frame (f : DumpF)
    (Hf : ∀ st i b st2, f st i = some (b, st2) → dumpFrame st b st2)
    (st : RSt) (p : Nat) (vn : String) (b : Bool) (st2 : RSt)
    (he : dump_oper_reduce f st p vn = some (b, st2)) :
    st2.nfo.outstack = st.nfo.outstack ∧ st2.nfo.first = st.nfo.first ∧
    st2.nfo.ret = st.nfo.ret := by
  unfold dump_oper_reduce at he
  cases hlast : (getROper st p).stack.getLast? with
  | none =>
    rw [hlast] at he
    exact Option.noConfusion he
  | some args =>
    rw [hlast] at he
    have he2 : (if (getRO st args).type ≠ PY_TUPLE then some (true, st)
      else match f (printer_appends st [assignC vn, refC vn]) args with
        | none => (none : Option (Bool × RSt))
        | some (false, sx) => some (false, sx)
        | some (true, sx) => some (true, printer_append sx (textC "\n")))
        = some (b, st2) := he
    by_cases hty : (getRO st args).type ≠ PY_TUPLE
    · rw [if_pos hty] at he2
      injection he2 with hp
      injection hp with hb hst
      rw [← hst]
      exact ⟨rfl, rfl, rfl⟩
    · rw [if_neg hty] at he2
      have heM : (match f (printer_appends st [assignC vn, refC vn]) args with
        | none => (none : Option (Bool × RSt))
        | some (false, sx) => some (false, sx)
        | some (true, sx) => some (true, printer_append sx (textC "\n")))
          = some (b, st2) := he2
      cases hf2 : f (printer_appends st [assignC vn, refC vn]) args with
      | none =>
        rw [hf2] at heM
        exact Option.noConfusion heM
      | some r =>
        cases r with
        | mk bf stf =>
          rw [hf2] at heM
          have hF := Hf _ args _ _ hf2
          cases bf with
          | false =>
            have heq : some (false, stf) = some (b, st2) := heM
            injection heq with hp
            injection hp with hb hst
            rw [← hst]
            refine ⟨?_, ?_, ?_⟩
            · rw [hF.1, printer_appends_outstack]
            · rw [hF.2.1, printer_appends_first]
            · rw [hF.2.2.1, printer_appends_ret]
          | true =>
            have heq : some (true, printer_append stf (textC "\n"))
                = some (b, st2) := heM
            injection heq with hp
            injection hp with hb hst
            rw [← hst]
            refine ⟨?_, ?_, ?_⟩
            · rw [printer_append_outstack, hF.1, printer_appends_outstack]
            · rw [printer_append_first, hF.2.1, printer_appends_first]
            · rw [printer_append_ret, hF.2.2.1, printer_appends_ret]

theorem dump_oper_newobj_frame (f : DumpF)
    (Hf : ∀ st i b st2, f st i = some (b, st2) → dumpFrame st b st2)
    (st : RSt) (p : Nat) (vn : String) (b : Bool) (st2 : RSt)
    (he : dump_oper_newobj f st p vn = some (b, st2)) :
    st2.nfo.outstack = st.nfo.outstack ∧ st2.nfo.first = st.nfo.first ∧
    st2.nfo.ret = st.nfo.ret := by
  unfold dump_oper_newobj at he
  cases hlast : (getROper st p).stack.getLast? with
  | none =>
    rw [hlast] at he
    exact Option.noConfusion he
  | some args =>
    rw [hlast] at he
    have he2 : (if (getRO st args).type ≠ PY_TUPLE then some (true, st)
      else match f (printer_appends st
          [assignC vn, refC vn, textC ".__new__(", refC vn, textC ", *"])
          args with
        | none => (none : Option (Bool × RSt))
        | some (false, sx) => some (false, sx)
        | some (true, sx) => some (true, printer_append sx (textC ")\n")))
        = some (b, st2) := he
    by_cases hty : (getRO st args).type ≠ PY_TUPLE
    · rw [if_pos hty] at he2
      injection he2 with hp
      injection hp with hb hst
      rw [← hst]
      exact ⟨rfl, rfl, rfl⟩
    · rw [if_neg hty] at he2
      have heM : (match f (printer_appends st
          [assignC vn, refC vn, textC ".__new__(", refC vn, textC ", *"])
          args with
        | none => (none : Option (Bool × RSt))
        | some (false, sx) => some (false, sx)
        | some (true, sx) => some (true, printer_append sx (textC ")\n")))
          = some (b, st2) := he2
      cases hf2 : f (printer_appends st
          [assignC vn, refC vn, textC ".__new__(", refC vn, textC ", *"])
          args with
      | none =>
        rw [hf2] at heM
        exact Option.noConfusion heM
      | some r =>
        cases r with
        | mk bf stf =>
          rw [hf2] at heM
          have hF := Hf _ args _ _ hf2
          cases bf with
          | false =>
            have heq : some (false, stf) = some (b, st2) := heM
            injection heq with hp
            injection hp with hb hst
            rw [← hst]
            refine ⟨?_, ?_, ?_⟩
            · rw [hF.1, printer_appends_outstack]
            · rw [hF.2.1, printer_appends_first]
            · rw [hF.2.2.1, printer_appends_ret]
          | true =>
            have heq : some (true, printer_append stf (textC ")\n"))
                = some (b, st2) := heM
            injection heq with hp
            injection hp with hb hst
            rw [← hst]
            refine ⟨?_, ?_, ?_⟩
            · rw [printer_append_outstack, hF.1, printer_appends_outstack]
            · rw [printer_append_first, hF.2.1, printer_appends_first]
            · rw [printer_append_ret, hF.2.2.1, printer_appends_ret]

theorem dump_oper_frame (f : DumpF)
    (Hf : ∀ st i b st2, f st i = some (b, st2) → dumpFrame st b st2)
    (st : RSt) (p : Nat) (vn : String) (b : Bool) (st2 : RSt)
    (he : dump_oper f st p vn = some (b, st2)) :
    st2.nfo.outstack = st.nfo.outstack ∧ st2.nfo.first = st.nfo.first ∧
    st2.nfo.ret = st.nfo.ret := by
  unfold dump_oper at he
  by_cases h1 : (getROper st p).op = OP_FAKE_INIT
  · rw [if_pos h1] at he
    exact dump_oper_init_frame f Hf st p vn b st2 he
  · rw [if_neg h1] at he
    by_cases h2 : (getROper st p).op = OP_REDUCE
    · rw [if_pos h2] at he
      exact dump_oper_reduce_frame f Hf st p vn b st2 he
    · rw [if_neg h2] at he
      by_cases h3 : (getROper st p).op = OP_NEWOBJ
      · rw [if_pos h3] at he
        exact dump_oper_newobj_frame f Hf st p vn b st2 he
      · rw [if_neg h3] at he
        injection he with hp
        injection hp with hb hst
        rw [← hst]
        exact ⟨rfl, rfl, rfl⟩

theorem dump_opers_loop_frame (f : DumpF)
    (Hf : ∀ st i b st2, f st i = some (b, st2) → dumpFrame st b st2)
    (vn : String) :
    ∀ (l : List Nat) (st : RSt) (b : Bool) (st2 : RSt),
      dump_opers_loop f st vn l = some (b, st2) →
      st2.nfo.outstack = st.nfo.outstack ∧ st2.nfo.first = st.nfo.first ∧
      st2.nfo.ret = st.nfo.ret := by
  intro l
  induction l with
  | nil =>
    intro st b st2 he
    injection he with hp
    injection hp with hb hst
    rw [← hst]
    exact ⟨rfl, rfl, rfl⟩
  | cons p rest ih =>
    intro st b st2 he
    have heM : (match dump_oper f st p vn with
      | none => (none : Option (Bool × RSt))
      | some (false, sx) => some (false, sx)
      | some (true, sx) => dump_opers_loop f sx vn rest)
        = some (b, st2) := he
    cases ho : dump_oper f st p vn with
    | none =>
      rw [ho] at heM
      exact Option.noConfusion heM
    | some r =>
      cases r with
      | mk bo sto =>
        rw [ho] at heM
        have hO := dump_oper_frame f Hf st p vn bo sto ho
        cases bo with
        | false =>
          have heq : some (false, sto) = some (b, st2) := heM
          injection heq with hp2
          injection hp2 with hb hst
          rw [← hst]
          exact hO
        | true =>
          have heR : dump_opers_loop f sto vn rest = some (b, st2) := heM
          have h2 := ih sto b st2 heR
          exact ⟨by rw [h2.1, hO.1], by rw [h2.2.1, hO.2.1],
            by rw [h2.2.2, hO.2.2]⟩

/-- The restore step of `prepend_obj` after the hoisted statement. -/
def prepend_restore (rr : Bool) (stm : RSt) : RSt :=
  { printer_drain_free stm with nfo := { (printer_drain_free stm).nfo with out := ((printer_drain_free stm).nfo.outstack.getLast?).getD none, outstack := (printer_drain_free stm).nfo.outstack.dropLast, first := false, ret := rr } }

theorem prepend_restore_facts (rr : Bool) (stm : RSt) :
    (prepend_restore rr stm).nfo.outstack = stm.nfo.outstack.dropLast ∧
    (prepend_restore rr stm).nfo.first = false ∧
    (prepend_restore rr stm).nfo.ret = rr ∧
    (prepend_restore rr stm).nfo.out
      = (stm.nfo.outstack.getLast?).getD none := by
  refine ⟨?_, rfl, rfl, ?_⟩
  · show (printer_drain_free stm).nfo.outstack.dropLast
      = stm.nfo.outstack.dropLast
    rw [printer_drain_free_outstack]
  · show ((printer_drain_free stm).nfo.outstack.getLast?).getD none
      = (stm.nfo.outstack.getLast?).getD none
    rw [printer_drain_free_outstack]

theorem prepend_obj_frame (f : DumpF)
    (Hf : ∀ st i b st2, f st i = some (b, st2) → dumpFrame st b st2)
    (st : RSt) (i : Nat) (b : Bool) (st2 : RSt)
    (he : prepend_obj f st i = some (b, st2)) : dumpFrame st b st2 := by
  unfold prepend_obj at he
  by_cases hfst : st.nfo.first = true
  · rw [if_pos hfst] at he
    injection he with hp
    injection hp with hb hst
    subst hb
    rw [← hst]
    refine ⟨rfl, rfl, rfl, ?_⟩
    intro hf _ _
    rw [hfst] at hf
    exact Bool.noConfusion hf
  · rw [if_neg hfst] at he
    have hf0 : st.nfo.first = false := by
      revert hfst
      cases st.nfo.first <;> simp
    have he2 : (match f { st with nfo := { st.nfo with outstack := st.nfo.outstack ++ [st.nfo.out], first := true, ret := false, out := none } } i with
      | none => (none : Option (Bool × RSt))
      | some (bb, stm) =>
        if bb then
          match (getRO (prepend_restore st.nfo.ret stm) i).varname with
          | some v =>
            some (true, printer_append (prepend_restore st.nfo.ret stm)
              (refC v))
          | none => none
        else some (false, prepend_restore st.nfo.ret stm))
        = some (b, st2) := he
    cases hfm : f { st with nfo := { st.nfo with outstack := st.nfo.outstack ++ [st.nfo.out], first := true, ret := false, out := none } } i with
    | none =>
      rw [hfm] at he2
      exact Option.noConfusion he2
    | some r =>
      cases r with
      | mk bb stm =>
        rw [hfm] at he2
        have he3 : (if bb = true then
            match (getRO (prepend_restore st.nfo.ret stm) i).varname with
            | some v =>
              some (true, printer_append (prepend_restore st.nfo.ret stm)
                (refC v))
            | none => (none : Option (Bool × RSt))
          else some (false, prepend_restore st.nfo.ret stm))
            = some (b, st2) := he2
        have hF := Hf _ i _ _ hfm
        have hstk : stm.nfo.outstack
            = st.nfo.outstack ++ [st.nfo.out] := hF.1
        have hrst := prepend_restore_facts st.nfo.ret stm
        have hrstk : (prepend_restore st.nfo.ret stm).nfo.outstack
            = st.nfo.outstack := by
          rw [hrst.1, hstk]
          exact List.dropLast_concat
        have hrout : (prepend_restore st.nfo.ret stm).nfo.out
            = st.nfo.out := by
          rw [hrst.2.2.2, hstk, List.getLast?_concat]
          rfl
        cases bb with
        | false =>
          rw [if_neg (by decide)] at he3
          injection he3 with hp
          injection hp with hb hst
          subst hb
          rw [← hst]
          refine ⟨hrstk, ?_, hrst.2.2.1, ?_⟩
          · rw [hrst.2.1, hf0]
          · intro _ _ hbb
            exact Bool.noConfusion hbb
        | true =>
          rw [if_pos rfl] at he3
          cases hvn : (getRO (prepend_restore st.nfo.ret stm) i).varname with
          | none =>
            rw [hvn] at he3
            exact Option.noConfusion he3
          | some v =>
            rw [hvn] at he3
            injection he3 with hp
            injection hp with hb hst
            subst hb
            rw [← hst]
            refine ⟨?_, ?_, ?_, ?_⟩
            · rw [printer_append_outstack, hrstk]
            · rw [printer_append_first, hrst.2.1, hf0]
            · rw [printer_append_ret, hrst.2.2.1]
            · intro _ _ _
              refine ⟨[refC v], ?_⟩
              have hob : obuf (prepend_restore st.nfo.ret stm)
                  = obuf st := by
                unfold obuf
                rw [hrout]
              rw [printer_append_out, hob]

/-- The final buffer glue of `dump_what_glue`. -/
def glue_out (pre : List Chunk) (st : RSt) : Option (Bool × RSt) :=
  match st.nfo.out with
  | some b =>
    if chunksLen b > 0 then
      some (true, { st with nfo := { st.nfo with out := some (pre ++ b) } })
    else some (true, st)
  | none => some (true, st)

theorem glue_out_facts (pre : List Chunk) (st : RSt) (b : Bool) (st2 : RSt)
    (he : glue_out pre st = some (b, st2)) :
    st2.nfo.outstack = st.nfo.outstack ∧ st2.nfo.first = st.nfo.first ∧
    st2.nfo.ret = st.nfo.ret := by
  unfold glue_out at he
  split at he
  · split at he
    · injection he with hp
      injection hp with hb hst
      rw [← hst]
      exact ⟨rfl, rfl, rfl⟩
    · injection he with hp
      injection hp with hb hst
      rw [← hst]
      exact ⟨rfl, rfl, rfl⟩
  · injection he with hp
    injection hp with hb hst
    rw [← hst]
    exact ⟨rfl, rfl, rfl⟩

theorem dump_what_glue_frame (pre : List Chunk) (vn : String)
    (rr retb : Bool) (st : RSt) (b : Bool) (st2 : RSt)
    (he : dump_what_glue pre vn rr retb st = some (b, st2)) :
    st2.nfo.outstack = st.nfo.outstack ∧ st2.nfo.first = true ∧
    st2.nfo.ret = rr := by
  cases retb with
  | false =>
    have he2 : some (false, ({ st with nfo :=
        { st.nfo with first := true, ret := rr } } : RSt))
        = some (b, st2) := he
    injection he2 with hp
    injection hp with hb hst
    rw [← hst]
    exact ⟨rfl, rfl, rfl⟩
  | true =>
    have he2 : glue_out pre (if rr = true then
        printer_appends { st with nfo := { st.nfo with first := true, ret := rr } } [textC "return ", refC vn, textC "\n"]
      else { st with nfo := { st.nfo with first := true, ret := rr } })
        = some (b, st2) := he
    have hg := glue_out_facts pre _ b st2 he2
    by_cases hrr : rr = true
    · rw [if_pos hrr] at hg
      refine ⟨?_, ?_, ?_⟩
      · rw [hg.1, printer_appends_outstack]
      · rw [hg.2.1, printer_appends_first]
      · rw [hg.2.2, printer_appends_ret]
    · rw [if_neg hrr] at hg
      exact ⟨hg.1, hg.2.1, hg.2.2⟩

theorem dump_what_main_frame (f : DumpF)
    (Hf : ∀ st i b st2, f st i = some (b, st2) → dumpFrame st b st2)
    (st : RSt) (i : Nat) (b : Bool) (st2 : RSt)
    (he : dump_what_main f st i = some (b, st2)) :
    st2.nfo.outstack = st.nfo.outstack ∧ st2.nfo.first = true ∧
    st2.nfo.ret = st.nfo.ret := by
  unfold dump_what_main at he
  have hvf := obj_varname_facts st i
  cases hov : obj_varname st i with
  | mk vn st0 =>
    rw [hov] at he hvf
    have hgf := printer_getout_facts st0
    have he2 : (match printer_getout st0 with
      | (pre, st1) =>
        match dump_opers_loop f { st1 with nfo := { st1.nfo with out := none, ret := false, first := false } } vn (getRO { st1 with nfo := { st1.nfo with out := none, ret := false, first := false } } i).py_what with
        | none => (none : Option (Bool × RSt))
        | some (retb, stL) => dump_what_glue pre vn st1.nfo.ret retb stL)
        = some (b, st2) := he
    cases hgo : printer_getout st0 with
    | mk pre st1 =>
      rw [hgo] at he2 hgf
      have he3 : (match dump_opers_loop f { st1 with nfo := { st1.nfo with out := none, ret := false, first := false } } vn (getRO { st1 with nfo := { st1.nfo with out := none, ret := false, first := false } } i).py_what with
        | none => (none : Option (Bool × RSt))
        | some (retb, stL) => dump_what_glue pre vn st1.nfo.ret retb stL)
          = some (b, st2) := he2
      cases hLp : dump_opers_loop f { st1 with nfo := { st1.nfo with out := none, ret := false, first := false } } vn (getRO { st1 with nfo := { st1.nfo with out := none, ret := false, first := false } } i).py_what with
      | none =>
        rw [hLp] at he3
        exact Option.noConfusion he3
      | some r =>
        cases r with
        | mk retb stL =>
          rw [hLp] at he3
          have he4 : dump_what_glue pre vn st1.nfo.ret retb stL
              = some (b, st2) := he3
          have hglue := dump_what_glue_frame pre vn _ retb stL b st2 he4
          have hL := dump_opers_loop_frame f Hf vn _ _ _ _ hLp
          have hstk : stL.nfo.outstack = st1.nfo.outstack := hL.1
          refine ⟨?_, hglue.2.1, ?_⟩
          · rw [hglue.1, hstk, hgf.1, hvf.1]
          · rw [hglue.2.2, hgf.2.2, hvf.2.2.1]

theorem dump_what_frame (f : DumpF)
    (Hf : ∀ st i b st2, f st i = some (b, st2) → dumpFrame st b st2)
    (st : RSt) (i : Nat) (b : Bool) (st2 : RSt)
    (he : dump_what f st i = some (b, st2)) : dumpFrame st b st2 := by
  unfold dump_what at he
  by_cases hfst : st.nfo.first = true
  · rw [if_neg (not_not_intro hfst)] at he
    cases hvn : (getRO st i).varname with
    | some v =>
      rw [hvn] at he
      have heS : (if st.nfo.ret = true then
          some (true, printer_appends (printer_append st (textC "return "))
            [textC "return ", refC v, textC "\n"])
        else dump_what_main f st i) = some (b, st2) := he
      by_cases hrr : st.nfo.ret = true
      · rw [if_pos hrr] at heS
        have he2 : some (true, printer_appends
            (printer_append st (textC "return "))
            [textC "return ", refC v, textC "\n"]) = some (b, st2) := heS
        injection he2 with hp
        injection hp with hb hst
        subst hb
        rw [← hst]
        refine ⟨?_, ?_, ?_, ?_⟩
        · rw [printer_appends_outstack, printer_append_outstack]
        · rw [printer_appends_first, printer_append_first]
        · rw [printer_appends_ret, printer_append_ret]
        · intro hf _ _
          rw [hfst] at hf
          exact Bool.noConfusion hf
      · rw [if_neg hrr] at heS
        have hm := dump_what_main_frame f Hf st i b st2 heS
        refine ⟨hm.1, by rw [hm.2.1, hfst], hm.2.2, ?_⟩
        intro hf _ _
        rw [hfst] at hf
        exact Bool.noConfusion hf
    | none =>
      rw [hvn] at he
      have hm := dump_what_main_frame f Hf st i b st2 he
      refine ⟨hm.1, by rw [hm.2.1, hfst], hm.2.2, ?_⟩
      intro hf _ _
      rw [hfst] at hf
      exact Bool.noConfusion hf
  · rw [if_pos hfst] at he
    cases hvn : (getRO st i).varname with
    | some v =>
      rw [hvn] at he
      injection he with hp
      injection hp with hb hst
      subst hb
      rw [← hst]
      refine ⟨?_, ?_, ?_, ?_⟩
      · rw [printer_append_outstack]
      · rw [printer_append_first]
      · rw [printer_append_ret]
      · intro _ _ _
        refine ⟨[refC v], ?_⟩
        rw [printer_append_out]
    | none =>
      rw [hvn] at he
      exact prepend_obj_frame f Hf st i b st2 he

/-- The master frame property of the renderer: `dump_obj` preserves the
buffer stack and the mode flags, and a successful inline dump only ever
extends the current buffer. -/
theorem dump_obj_frame : ∀ (fuel : Nat) (st : RSt) (i : Nat) (b : Bool)
    (st2 : RSt), dump_obj fuel st i = some (b, st2) → dumpFrame st b st2 := by
  intro fuel
  induction fuel with
  | zero =>
    intro st i b st2 he
    exact Option.noConfusion he
  | succ n ih =>
    intro st i b st2 he
    have he2 : dump_obj_body (dump_obj n) st i = some (b, st2) := he
    unfold dump_obj_body at he2
    split at he2
    · exact dump_bool_frame st i b st2 he2
    · exact dump_int_frame st i b st2 he2
    · exact dump_str_frame st i b st2 he2
    · exact dump_float_frame st i b st2 he2
    · exact dump_none_frame st i b st2 he2
    · exact dump_tuple_frame (dump_obj n) ih st i b st2 he2
    · exact dump_list_frame (dump_obj n) ih st i b st2 he2
    · exact dump_dict_frame (dump_obj n) ih st i b st2 he2
    · exact dump_func_frame st i b st2 he2
    · exact dump_what_frame (dump_obj n) ih st i b st2 he2
    · injection he2 with hp
      injection hp with hb hst
      subst hb
      rw [← hst]
      exact ⟨rfl, rfl, rfl, fun _ _ hb => Bool.noConfusion hb⟩

/-- An inline dump of an unnamed tuple emits exactly an open parenthesis,
the element renderings, and a close parenthesis, appended to the current
buffer. -/
theorem dump_obj_tuple_inline (fuel : Nat) (st : RSt) (i : Nat) (b : Bool)
    (st2 : RSt) (hf : st.nfo.first = false) (hr : st.nfo.ret = false)
    (hty : (getRO st i).type = PY_TUPLE) (hvn : (getRO st i).varname = none)
    (he : dump_obj fuel st i = some (b, st2)) (hb : b = true) :
    ∃ inner, st2.nfo.out
      = some (obuf st ++ [textC "("] ++ inner ++ [textC ")"]) := by
  subst hb
  cases fuel with
  | zero => exact Option.noConfusion he
  | succ n =>
    have he2 : dump_obj_body (dump_obj n) st i = some (true, st2) := he
    simp only [dump_obj_body, hty] at he2
    have hpre : var_pre_print st i = (0, st) := by
      rw [var_pre_print_inline st i hf hr, hvn]
    have he3 : (match var_pre_print st i with
      | (o, sv) => if o < 0 then some (false, sv)
        else if o ≠ 0 then some (true, sv)
        else match dump_iter (dump_obj n) (printer_append sv (textC "(")) i
            with
          | none => (none : Option (Bool × RSt))
          | some (bb, sc) =>
            some (bb, newlineIf (printer_append sc (textC ")"))))
        = some (true, st2) := he2
    rw [hpre] at he3
    have he4 : (match dump_iter (dump_obj n)
        (printer_append st (textC "(")) i with
      | none => (none : Option (Bool × RSt))
      | some (bb, sc) =>
        some (bb, newlineIf (printer_append sc (textC ")"))))
        = some (true, st2) := he3
    cases hd : dump_iter (dump_obj n) (printer_append st (textC "(")) i with
    | none =>
      rw [hd] at he4
      exact Option.noConfusion he4
    | some r =>
      cases r with
      | mk bI stI =>
        rw [hd] at he4
        have he5 : some (bI, newlineIf (printer_append stI (textC ")")))
            = some (true, st2) := he4
        injection he5 with hp
        injection hp with hbI hst
        have hIter := dump_iter_frame (dump_obj n)
          (fun sx ix bx sx2 hx => dump_obj_frame n sx ix bx sx2 hx)
          (printer_append st (textC "(")) i bI stI hd
        have hAout : (printer_append st (textC "(")).nfo.out
            = some (obuf st ++ [textC "("]) := printer_append_out st _
        have hinner : ∃ inner, stI.nfo.out
            = some (obuf st ++ [textC "("] ++ inner) := by
          rcases hIter.2.2.2 hbI with hid | ⟨ext, hout⟩
          · refine ⟨[], ?_⟩
            rw [hid, hAout, List.append_nil]
          · refine ⟨ext, ?_⟩
            rw [hout, obuf_eq_of_out hAout]
        obtain ⟨inner, hIout⟩ := hinner
        have hfI : (printer_append stI (textC ")")).nfo.first = false := by
          rw [printer_append_first, hIter.2.1, printer_append_first]
          exact hf
        have hrI : (printer_append stI (textC ")")).nfo.ret = false := by
          rw [printer_append_ret, hIter.2.2.1, printer_append_ret]
          exact hr
        refine ⟨inner, ?_⟩
        rw [← hst, newlineIf_inline _ hfI hrI, printer_append_out,
          obuf_eq_of_out hIout]

/-- C3 (amended): a REDUCE record in a What's history renders as
`<name> = <name>` followed directly by the inline rendering of its last
argument and a newline — when the argument is an unnamed tuple this gives
`<name> = <name>(<args...>)`, the tuple's own parentheses serving as the
call's, and no `(*` is inserted by the REDUCE case itself; when the
argument is not a tuple, the record emits nothing and still reports
success. -/
theorem claim_C3_reduce_shape (fuel : Nat) (st : RSt) (p : Nat) (vn : String)
    (st2 : RSt) :
    (∀ arg, (getROper st p).stack.getLast? = some arg →
      (getRO st arg).type ≠ PY_TUPLE →
      dump_oper_reduce (dump_obj fuel) st p vn = some (true, st)) ∧
    (st.nfo.first = false → st.nfo.ret = false →
      dump_oper_reduce (dump_obj fuel) st p vn = some (true, st2) →
      ∀ arg, (getROper st p).stack.getLast? = some arg →
      (getRO st arg).type = PY_TUPLE →
      ∃ mid, st2.nfo.out = some (obuf st ++ [assignC vn, refC vn] ++ mid
        ++ [textC "\n"])) ∧
    (st.nfo.first = false → st.nfo.ret = false →
      dump_oper_reduce (dump_obj fuel) st p vn = some (true, st2) →
      ∀ arg, (getROper st p).stack.getLast? = some arg →
      (getRO st arg).type = PY_TUPLE → (getRO st arg).varname = none →
      ∃ inner, st2.nfo.out = some (obuf st
        ++ [assignC vn, refC vn, textC "("] ++ inner
        ++ [textC ")", textC "\n"])) := by
  refine ⟨?_, ?_, ?_⟩
  · intro arg hlast hnt
    have hred : dump_oper_reduce (dump_obj fuel) st p vn
        = (if (getRO st arg).type ≠ PY_TUPLE then some (true, st)
           else match dump_obj fuel
               (printer_appends st [assignC vn, refC vn]) arg with
             | none => none
             | some (false, sx) => some (false, sx)
             | some (true, sx) =>
               some (true, printer_append sx (textC "\n"))) := by
      unfold dump_oper_reduce
      rw [hlast]
    rw [hred, if_pos hnt]
  · intro hf hr he arg hlast hty
    have hred : dump_oper_reduce (dump_obj fuel) st p vn
        = (if (getRO st arg).type ≠ PY_TUPLE then some (true, st)
           else match dump_obj fuel
               (printer_appends st [assignC vn, refC vn]) arg with
             | none => none
             | some (false, sx) => some (false, sx)
             | some (true, sx) =>
               some (true, printer_append sx (textC "\n"))) := by
      unfold dump_oper_reduce
      rw [hlast]
    rw [hred, if_neg (not_not_intro hty)] at he
    have hAppOut : (printer_appends st [assignC vn, refC vn]).nfo.out
        = some (obuf st ++ [assignC vn, refC vn]) :=
      printer_appends_out_cons [refC vn] (assignC vn) st
    cases hF : dump_obj fuel (printer_appends st [assignC vn, refC vn])
        arg with
    | none =>
      rw [hF] at he
      exact Option.noConfusion he
    | some r =>
      cases r with
      | mk bF stF =>
        rw [hF] at he
        cases bF with
        | false =>
          have heq : some (false, stF) = some (true, st2) := he
          injection heq with hp
          injection hp with hb hst
          exact Bool.noConfusion hb
        | true =>
          have heq : some (true, printer_append stF (textC "\n"))
              = some (true, st2) := he
          injection heq with hp
          injection hp with hb hst
          have hFr := dump_obj_frame fuel _ arg _ _ hF
          obtain ⟨ext, hFout⟩ := hFr.2.2.2
            (by rw [printer_appends_first]; exact hf)
            (by rw [printer_appends_ret]; exact hr) rfl
          refine ⟨ext, ?_⟩
          rw [← hst, printer_append_out, obuf_eq_of_out hFout,
            obuf_eq_of_out hAppOut]
  · intro hf hr he arg hlast hty hvn
    have hred : dump_oper_reduce (dump_obj fuel) st p vn
        = (if (getRO st arg).type ≠ PY_TUPLE then some (true, st)
           else match dump_obj fuel
               (printer_appends st [assignC vn, refC vn]) arg with
             | none => none
             | some (false, sx) => some (false, sx)
             | some (true, sx) =>
               some (true, printer_append sx (textC "\n"))) := by
      unfold dump_oper_reduce
      rw [hlast]
    rw [hred, if_neg (not_not_intro hty)] at he
    have hAppOut : (printer_appends st [assignC vn, refC vn]).nfo.out
        = some (obuf st ++ [assignC vn, refC vn]) :=
      printer_appends_out_cons [refC vn] (assignC vn) st
    cases hF : dump_obj fuel (printer_appends st [assignC vn, refC vn])
        arg with
    | none =>
      rw [hF] at he
      exact Option.noConfusion he
    | some r =>
      cases r with
      | mk bF stF =>
        rw [hF] at he
        cases bF with
        | false =>
          have heq : some (false, stF) = some (true, st2) := he
          injection heq with hp
          injection hp with hb hst
          exact Bool.noConfusion hb
        | true =>
          have heq : some (true, printer_append stF (textC "\n"))
              = some (true, st2) := he
          injection heq with hp
          injection hp with hb hst
          obtain ⟨inner, hFout⟩ := dump_obj_tuple_inline fuel _ arg true stF
            (by rw [printer_appends_first]; exact hf)
            (by rw [printer_appends_ret]; exact hr)
            (by rw [getRO_printer_appends]; exact hty)
            (by rw [getRO_printer_appends]; exact hvn) hF rfl
          refine ⟨inner, ?_⟩
          rw [← hst, printer_append_out, obuf_eq_of_out hFout,
            obuf_eq_of_out hAppOut]
          simp only [List.append_assoc, List.cons_append, List.nil_append]

/-- A one-oper render state: object 0 is an empty unnamed tuple and oper
0 a REDUCE record whose stack holds it. -/
def c3wSt : RSt :=
  { objs := [{ type := PY_TUPLE }], opers := [{ op := OP_REDUCE, stack := [0] }], nfo := {}, console := [] }

def c3wRes : RSt := ((dump_oper_reduce (dump_obj 2) c3wSt 0 "v").getD default).2

theorem claim_C3_witness :
    c3wSt.nfo.first = false ∧ c3wSt.nfo.ret = false ∧
    dump_oper_reduce (dump_obj 2) c3wSt 0 "v" = some (true, c3wRes) ∧
    (∃ inner, c3wRes.nfo.out = some (obuf c3wSt
      ++ [assignC "v", refC "v", textC "("] ++ inner
      ++ [textC ")", textC "\n"])) :=
  ⟨rfl, rfl, by decide,
   (claim_C3_reduce_shape 2 c3wSt 0 "v" c3wRes).2.2 rfl rfl (by decide) 0
     rfl rfl rfl⟩

/-! ## Claim C8: the split pass postcondition -/

/-- The mutable container types, the ones `add_splits` terminates with a
split marker (tuples are traversed but never receive one). -/
def splitTarget (t : PyType) : Prop :=
  t = PY_LIST ∨ t = PY_SET ∨ t = PY_FROZEN_SET ∨ t = PY_DICT

instance (t : PyType) : Decidable (splitTarget t) := by
  unfold splitTarget
  infer_instance

/-- What one `add_splits` call may do to the heap: nothing but marking
generations, adjusting refcounts and appending/replacing trailing splits
— counts, types, What histories, reduce links, the generation counter,
and the iterables of already-marked objects and of tuples all survive. -/
def splitPassFrame (s s2 : PMState) : Prop :=
  s2.recurse = s.recurse ∧
  s2.objs.length = s.objs.length ∧
  (∀ x, (getObj s2 x).type = (getObj s x).type) ∧
  (∀ x, (getObj s2 x).py_what = (getObj s x).py_what) ∧
  (∀ x, (getObj s2 x).reduce = (getObj s x).reduce) ∧
  (∀ x, (getObj s x).recurse = s.recurse →
     (getObj s2 x).recurse = s.recurse ∧
     (getObj s2 x).py_iter = (getObj s x).py_iter) ∧
  (∀ x, (getObj s x).type = PY_TUPLE →
     (getObj s2 x).py_iter = (getObj s x).py_iter)

/-- Every object the call newly marked and whose type is a mutable
container ends the call with a trailing `split`. -/
def splitPassMarked (s s2 : PMState) (split : Nat) : Prop :=
  ∀ x, (getObj s2 x).recurse = s.recurse →
    (getObj s x).recurse ≠ s.recurse →
    splitTarget (getObj s x).type →
    ∃ it, (getObj s2 x).py_iter = it ++ [split]

theorem splitPassFrame_refl (s : PMState) : splitPassFrame s s :=
  ⟨rfl, rfl, fun _ => rfl, fun _ => rfl, fun _ => rfl,
   fun _ hx => ⟨hx, rfl⟩, fun _ _ => rfl⟩

theorem splitPassFrame_trans {s s1 s2 : PMState}
    (h1 : splitPassFrame s s1) (h2 : splitPassFrame s1 s2) :
    splitPassFrame s s2 := by
  refine ⟨h2.1.trans h1.1, h2.2.1.trans h1.2.1,
    fun x => (h2.2.2.1 x).trans (h1.2.2.1 x),
    fun x => (h2.2.2.2.1 x).trans (h1.2.2.2.1 x),
    fun x => (h2.2.2.2.2.1 x).trans (h1.2.2.2.2.1 x), ?_, ?_⟩
  · intro x hx
    obtain ⟨hm1, hp1⟩ := h1.2.2.2.2.2.1 x hx
    obtain ⟨hm2, hp2⟩ := h2.2.2.2.2.2.1 x (by rw [h1.1]; exact hm1)
    exact ⟨by rw [← h1.1]; exact hm2, hp2.trans hp1⟩
  · intro x hx
    have hx1 : (getObj s1 x).type = PY_TUPLE := by
      rw [h1.2.2.1 x]
      exact hx
    exact (h2.2.2.2.2.2.2 x hx1).trans (h1.2.2.2.2.2.2 x hx)

theorem splitPassMarked_none {s s2 : PMState} {split : Nat}
    (h : s2 = s) : splitPassMarked s s2 split := by
  subst h
  intro x h1 h2 _
  exact absurd h1 h2

theorem splitPassMarked_comp {s s1 s2 : PMState} {split : Nat}
    (hf1 : splitPassFrame s s1) (hf2 : splitPassFrame s1 s2)
    (hm1 : splitPassMarked s s1 split) (hm2 : splitPassMarked s1 s2 split) :
    splitPassMarked s s2 split := by
  intro x hx2 hxu hmut
  by_cases hx1 : (getObj s1 x).recurse = s.recurse
  · obtain ⟨it, hit⟩ := hm1 x hx1 hxu hmut
    have hp := hf2.2.2.2.2.2.1 x (by rw [hf1.1]; exact hx1)
    exact ⟨it, by rw [hp.2]; exact hit⟩
  · have hx2b : (getObj s2 x).recurse = s1.recurse := by
      rw [hf1.1]
      exact hx2
    have hxu1 : (getObj s1 x).recurse ≠ s1.recurse := by
      rw [hf1.1]
      exact hx1
    have hmut1 : splitTarget (getObj s1 x).type := by
      unfold splitTarget
      rw [hf1.2.2.1 x]
      exact hmut
    exact hm2 x hx2b hxu1 hmut1

/-- A single-object write that keeps a projection keeps it on the whole
heap. -/
theorem getObj_fun_setObj {α : Type} {s : PMState} {i : Nat} {o : PyObj}
    (f : PyObj → α) (hf : f o = f (getObj s i)) (x : Nat) :
    f (getObj (setObj s i o) x) = f (getObj s x) := by
  by_cases hix : i = x
  · subst hix
    by_cases hlt : i < s.objs.length
    · rw [getObj_setObj_self o hlt, hf]
    · have he2 : setObj s i o = { s with objs := s.objs } := by
        unfold setObj
        rw [List.set_eq_of_length_le (by omega)]
      rw [he2]
  · rw [getObj_setObj_ne o hix]

theorem mark_facts (s : PMState) (obj : Nat) :
    splitPassFrame s (setObj s obj { getObj s obj with recurse := s.recurse }) ∧
    (∀ x, x ≠ obj →
      getObj (setObj s obj { getObj s obj with recurse := s.recurse }) x
        = getObj s x) ∧
    (∀ x, (getObj (setObj s obj { getObj s obj with recurse := s.recurse }) x).type = (getObj s x).type) ∧
    (∀ x, (getObj (setObj s obj { getObj s obj with recurse := s.recurse }) x).py_iter = (getObj s x).py_iter) := by
  have hne : ∀ x, x ≠ obj →
      getObj (setObj s obj { getObj s obj with recurse := s.recurse }) x
        = getObj s x := by
    intro x hx
    exact getObj_setObj_ne _ (fun h => hx h.symm)
  have hty : ∀ x, (getObj (setObj s obj { getObj s obj with recurse := s.recurse }) x).type = (getObj s x).type :=
    getObj_fun_setObj (fun o => o.type) rfl
  have hit : ∀ x, (getObj (setObj s obj { getObj s obj with recurse := s.recurse }) x).py_iter = (getObj s x).py_iter :=
    getObj_fun_setObj (fun o => o.py_iter) rfl
  refine ⟨⟨rfl, ?_, hty, getObj_fun_setObj (fun o => o.py_what) rfl,
    getObj_fun_setObj (fun o => o.reduce) rfl, ?_, fun x _ => hit x⟩,
    hne, hty, hit⟩
  · show (s.objs.set obj _).length = s.objs.length
    exact List.length_set s.objs obj _
  · intro x hx
    refine ⟨?_, hit x⟩
    by_cases hxo : x = obj
    · subst hxo
      by_cases hlt : x < s.objs.length
      · rw [getObj_setObj_self _ hlt]
      · have he2 : setObj s x { getObj s x with recurse := s.recurse }
            = { s with objs := s.objs } := by
          unfold setObj
          rw [List.set_eq_of_length_le (by omega)]
        rw [he2]
        exact hx
    · rw [hne x hxo]
      exact hx

theorem mark_marked (s : PMState) (obj : Nat) (split : Nat)
    (hnm : ¬ splitTarget (getObj s obj).type) :
    splitPassMarked s
      (setObj s obj { getObj s obj with recurse := s.recurse }) split := by
  intro x hx2 hxu hmut
  by_cases hxo : x = obj
  · subst hxo
    exact absurd hmut hnm
  · rw [(mark_facts s obj).2.1 x hxo] at hx2
    exact absurd hx2 hxu

theorem itter_add_split_core_facts (s : PMState) (c : Nat) (it : List Nat)
    (split : Nat) (hc : c < s.objs.length) :
    (itter_add_split_core s c it split).1 = true ∧
    (itter_add_split_core s c it split).2.recurse = s.recurse ∧
    (itter_add_split_core s c it split).2.objs.length = s.objs.length ∧
    (∀ x, (getObj (itter_add_split_core s c it split).2 x).type
      = (getObj s x).type) ∧
    (∀ x, (getObj (itter_add_split_core s c it split).2 x).py_what
      = (getObj s x).py_what) ∧
    (∀ x, (getObj (itter_add_split_core s c it split).2 x).reduce
      = (getObj s x).reduce) ∧
    (∀ x, (getObj (itter_add_split_core s c it split).2 x).recurse
      = (getObj s x).recurse) ∧
    (∀ x, x ≠ c → (getObj (itter_add_split_core s c it split).2 x).py_iter
      = (getObj s x).py_iter) ∧
    (getObj (itter_add_split_core s c it split).2 c).py_iter
      = it ++ [split] := by
  have hpi2 : ∀ x,
      (getObj (itter_add_split_core s c it split).2 x).py_iter
      = (getObj (setObj s c { getObj s c with py_iter := it ++ [split] })
          x).py_iter :=
    getObj_fun_setObj (fun o => o.py_iter) rfl
  refine ⟨rfl, rfl, ?_, ?_, ?_, ?_, ?_, ?_, ?_⟩
  · show ((s.objs.set c _).set split _).length = s.objs.length
    rw [List.length_set, List.length_set]
  · intro x
    have h1 : (getObj (itter_add_split_core s c it split).2 x).type
        = (getObj (setObj s c { getObj s c with py_iter := it ++ [split] })
            x).type := by
      refine getObj_fun_setObj (fun o => o.type) ?_ x
      rfl
    have h2 : (getObj (setObj s c { getObj s c with py_iter := it ++ [split] })
        x).type = (getObj s x).type := by
      refine getObj_fun_setObj (fun o => o.type) ?_ x
      rfl
    exact h1.trans h2
  · intro x
    have h1 : (getObj (itter_add_split_core s c it split).2 x).py_what
        = (getObj (setObj s c { getObj s c with py_iter := it ++ [split] })
            x).py_what := by
      refine getObj_fun_setObj (fun o => o.py_what) ?_ x
      rfl
    have h2 : (getObj (setObj s c { getObj s c with py_iter := it ++ [split] })
        x).py_what = (getObj s x).py_what := by
      refine getObj_fun_setObj (fun o => o.py_what) ?_ x
      rfl
    exact h1.trans h2
  · intro x
    have h1 : (getObj (itter_add_split_core s c it split).2 x).reduce
        = (getObj (setObj s c { getObj s c with py_iter := it ++ [split] })
            x).reduce := by
      refine getObj_fun_setObj (fun o => o.reduce) ?_ x
      rfl
    have h2 : (getObj (setObj s c { getObj s c with py_iter := it ++ [split] })
        x).reduce = (getObj s x).reduce := by
      refine getObj_fun_setObj (fun o => o.reduce) ?_ x
      rfl
    exact h1.trans h2
  · intro x
    have h1 : (getObj (itter_add_split_core s c it split).2 x).recurse
        = (getObj (setObj s c { getObj s c with py_iter := it ++ [split] })
            x).recurse := by
      refine getObj_fun_setObj (fun o => o.recurse) ?_ x
      rfl
    have h2 : (getObj (setObj s c { getObj s c with py_iter := it ++ [split] })
        x).recurse = (getObj s x).recurse := by
      refine getObj_fun_setObj (fun o => o.recurse) ?_ x
      rfl
    exact h1.trans h2
  · intro x hx
    rw [hpi2 x, getObj_setObj_ne _ (fun h => hx h.symm)]
  · rw [hpi2 c, getObj_setObj_self _ hc]

theorem py_obj_free_facts (s : PMState) (i : Nat) :
    (py_obj_free s i).recurse = s.recurse ∧
    (py_obj_free s i).objs.length = s.objs.length ∧
    (∀ x, (getObj (py_obj_free s i) x).type = (getObj s x).type) ∧
    (∀ x, (getObj (py_obj_free s i) x).py_what = (getObj s x).py_what) ∧
    (∀ x, (getObj (py_obj_free s i) x).reduce = (getObj s x).reduce) ∧
    (∀ x, (getObj (py_obj_free s i) x).recurse = (getObj s x).recurse) ∧
    (∀ x, (getObj (py_obj_free s i) x).py_iter = (getObj s x).py_iter) :=
  ⟨rfl, List.length_set s.objs i _,
   getObj_fun_setObj (fun o => o.type) rfl,
   getObj_fun_setObj (fun o => o.py_what) rfl,
   getObj_fun_setObj (fun o => o.reduce) rfl,
   getObj_fun_setObj (fun o => o.recurse) rfl,
   getObj_fun_setObj (fun o => o.py_iter) rfl⟩

theorem itter_add_split_facts (s : PMState) (c split : Nat)
    (hc : c < s.objs.length) :
    (itter_add_split s c split).1 = true ∧
    (itter_add_split s c split).2.recurse = s.recurse ∧
    (itter_add_split s c split).2.objs.length = s.objs.length ∧
    (∀ x, (getObj (itter_add_split s c split).2 x).type
      = (getObj s x).type) ∧
    (∀ x, (getObj (itter_add_split s c split).2 x).py_what
      = (getObj s x).py_what) ∧
    (∀ x, (getObj (itter_add_split s c split).2 x).reduce
      = (getObj s x).reduce) ∧
    (∀ x, (getObj (itter_add_split s c split).2 x).recurse
      = (getObj s x).recurse) ∧
    (∀ x, x ≠ c → (getObj (itter_add_split s c split).2 x).py_iter
      = (getObj s x).py_iter) ∧
    (∃ it, (getObj (itter_add_split s c split).2 c).py_iter
      = it ++ [split]) ∧
    (∀ lastid, (getObj s c).py_iter.getLast? = some lastid →
      (getObj s lastid).type = PY_SPLIT →
      (getObj (itter_add_split s c split).2 c).py_iter
        = (getObj s c).py_iter.dropLast ++ [split]) ∧
    (∀ lastid, (getObj s c).py_iter.getLast? = some lastid →
      (getObj s lastid).type ≠ PY_SPLIT →
      (getObj (itter_add_split s c split).2 c).py_iter
        = (getObj s c).py_iter ++ [split]) ∧
    ((getObj s c).py_iter.getLast? = none →
      (getObj (itter_add_split s c split).2 c).py_iter
        = (getObj s c).py_iter ++ [split]) := by
  cases hl : (getObj s c).py_iter.getLast? with
  | none =>
    have hred : itter_add_split s c split
        = itter_add_split_core s c (getObj s c).py_iter split := by
      unfold itter_add_split
      rw [hl]
    rw [hred]
    have hcf := itter_add_split_core_facts s c (getObj s c).py_iter split hc
    refine ⟨hcf.1, hcf.2.1, hcf.2.2.1, hcf.2.2.2.1, hcf.2.2.2.2.1,
      hcf.2.2.2.2.2.1, hcf.2.2.2.2.2.2.1, hcf.2.2.2.2.2.2.2.1,
      ⟨(getObj s c).py_iter, hcf.2.2.2.2.2.2.2.2⟩, ?_, ?_, ?_⟩
    · intro lastid hlast _
      exact Option.noConfusion hlast
    · intro lastid hlast _
      exact Option.noConfusion hlast
    · intro _
      exact hcf.2.2.2.2.2.2.2.2
  | some lastid =>
    by_cases hts : (getObj s lastid).type = PY_SPLIT
    · have hred : itter_add_split s c split
          = itter_add_split_core (py_obj_free s lastid) c
              (getObj s c).py_iter.dropLast split := by
        unfold itter_add_split
        rw [hl]
        show (if (getObj s lastid).type = PY_SPLIT then
            itter_add_split_core (py_obj_free s lastid) c
              (getObj s c).py_iter.dropLast split
          else itter_add_split_core s c (getObj s c).py_iter split)
          = itter_add_split_core (py_obj_free s lastid) c
              (getObj s c).py_iter.dropLast split
        rw [if_pos hts]
      rw [hred]
      have hff := py_obj_free_facts s lastid
      have hcf := itter_add_split_core_facts (py_obj_free s lastid) c
        (getObj s c).py_iter.dropLast split (by rw [hff.2.1]; exact hc)
      refine ⟨hcf.1, hcf.2.1.trans hff.1, hcf.2.2.1.trans hff.2.1,
        fun x => (hcf.2.2.2.1 x).trans (hff.2.2.1 x),
        fun x => (hcf.2.2.2.2.1 x).trans (hff.2.2.2.1 x),
        fun x => (hcf.2.2.2.2.2.1 x).trans (hff.2.2.2.2.1 x),
        fun x => (hcf.2.2.2.2.2.2.1 x).trans (hff.2.2.2.2.2.1 x),
        fun x hx => (hcf.2.2.2.2.2.2.2.1 x hx).trans (hff.2.2.2.2.2.2 x),
        ⟨(getObj s c).py_iter.dropLast, hcf.2.2.2.2.2.2.2.2⟩, ?_, ?_, ?_⟩
      · intro l2 hlast _
        exact hcf.2.2.2.2.2.2.2.2
      · intro l2 hlast hns
        rw [← Option.some.inj hlast] at hns
        exact absurd hts hns
      · intro hnone
        exact Option.noConfusion hnone
    · have hred : itter_add_split s c split
          = itter_add_split_core s c (getObj s c).py_iter split := by
        unfold itter_add_split
        rw [hl]
        show (if (getObj s lastid).type = PY_SPLIT then
            itter_add_split_core (py_obj_free s lastid) c
              (getObj s c).py_iter.dropLast split
          else itter_add_split_core s c (getObj s c).py_iter split)
          = itter_add_split_core s c (getObj s c).py_iter split
        rw [if_neg hts]
      rw [hred]
      have hcf := itter_add_split_core_facts s c (getObj s c).py_iter split hc
      refine ⟨hcf.1, hcf.2.1, hcf.2.2.1, hcf.2.2.2.1, hcf.2.2.2.2.1,
        hcf.2.2.2.2.2.1, hcf.2.2.2.2.2.2.1, hcf.2.2.2.2.2.2.2.1,
        ⟨(getObj s c).py_iter, hcf.2.2.2.2.2.2.2.2⟩, ?_, ?_, ?_⟩
      · intro l2 hlast hsp
        rw [← Option.some.inj hlast] at hsp
        exact absurd hsp hts
      · intro l2 hlast _
        exact hcf.2.2.2.2.2.2.2.2
      · intro hnone
        exact Option.noConfusion hnone

theorem split_iter_recures_post
    (f : PMState → Nat → Nat → Option (Bool × PMState)) (split : Nat)
    (Hf : ∀ s o b s2, f s o split = some (b, s2) →
      splitPassFrame s s2 ∧ (b = true → splitPassMarked s s2 split)) :
    ∀ (l : List Nat) (s : PMState) (b : Bool) (s2 : PMState),
      split_iter_recures f s l split = some (b, s2) →
      splitPassFrame s s2 ∧ (b = true → splitPassMarked s s2 split) := by
  intro l
  induction l with
  | nil =>
    intro s b s2 he
    injection he with hp
    injection hp with hb hst
    rw [← hst]
    exact ⟨splitPassFrame_refl s, fun _ => splitPassMarked_none rfl⟩
  | cons o rest ih =>
    intro s b s2 he
    have heM : (match f s o split with
      | none => (none : Option (Bool × PMState))
      | some (false, sx) => some (false, sx)
      | some (true, sx) => split_iter_recures f sx rest split)
        = some (b, s2) := he
    cases hfo : f s o split with
    | none =>
      rw [hfo] at heM
      exact Option.noConfusion heM
    | some r =>
      cases r with
      | mk bo so =>
        rw [hfo] at heM
        have hO := Hf s o bo so hfo
        cases bo with
        | false =>
          have heq : some (false, so) = some (b, s2) := heM
          injection heq with hp
          injection hp with hb hst
          rw [← hst]
          refine ⟨hO.1, ?_⟩
          intro hbt
          rw [← hb] at hbt
          exact Bool.noConfusion hbt
        | true =>
          have heR : split_iter_recures f so rest split = some (b, s2) := heM
          have h2 := ih so b s2 heR
          refine ⟨splitPassFrame_trans hO.1 h2.1, ?_⟩
          intro hbt
          exact splitPassMarked_comp hO.1 h2.1 (hO.2 rfl) (h2.2 hbt)

theorem split_what_recures_post
    (f : PMState → Nat → Nat → Option (Bool × PMState)) (split : Nat)
    (Hf : ∀ s o b s2, f s o split = some (b, s2) →
      splitPassFrame s s2 ∧ (b = true → splitPassMarked s s2 split)) :
    ∀ (pops : List Nat) (s : PMState) (b : Bool) (s2 : PMState),
      split_what_recures f s pops split = some (b, s2) →
      splitPassFrame s s2 ∧ (b = true → splitPassMarked s s2 split) := by
  intro pops
  induction pops with
  | nil =>
    intro s b s2 he
    injection he with hp
    injection hp with hb hst
    rw [← hst]
    exact ⟨splitPassFrame_refl s, fun _ => splitPassMarked_none rfl⟩
  | cons p rest ih =>
    intro s b s2 he
    have heM : (match split_iter_recures f s (getOper s p).stack split with
      | none => (none : Option (Bool × PMState))
      | some (false, sx) => some (false, sx)
      | some (true, sx) => split_what_recures f sx rest split)
        = some (b, s2) := he
    cases hfo : split_iter_recures f s (getOper s p).stack split with
    | none =>
      rw [hfo] at heM
      exact Option.noConfusion heM
    | some r =>
      cases r with
      | mk bo so =>
        rw [hfo] at heM
        have hO := split_iter_recures_post f split Hf _ s bo so hfo
        cases bo with
        | false =>
          have heq : some (false, so) = some (b, s2) := heM
          injection heq with hp
          injection hp with hb hst
          rw [← hst]
          refine ⟨hO.1, ?_⟩
          intro hbt
          rw [← hb] at hbt
          exact Bool.noConfusion hbt
        | true =>
          have heR : split_what_recures f so rest split = some (b, s2) := heM
          have h2 := ih so b s2 heR
          refine ⟨splitPassFrame_trans hO.1 h2.1, ?_⟩
          intro hbt
          exact splitPassMarked_comp hO.1 h2.1 (hO.2 rfl) (h2.2 hbt)

theorem add_splits_cont_case
    (f : PMState → Nat → Nat → Option (Bool × PMState)) (split : Nat)
    (Hf : ∀ s o b s2, f s o split = some (b, s2) →
      splitPassFrame s s2 ∧ (b = true → splitPassMarked s s2 split))
    (s : PMState) (obj : Nat) (b : Bool) (s2 : PMState)
    (hmk : (getObj s obj).recurse ≠ s.recurse)
    (hT5 : (getObj s obj).type = PY_LIST
      ∨ (getObj s obj).type = PY_FROZEN_SET
      ∨ (getObj s obj).type = PY_SET ∨ (getObj s obj).type = PY_DICT
      ∨ (getObj s obj).type = PY_TUPLE)
    (he : (match split_iter_recures f
        (setObj s obj { getObj s obj with recurse := s.recurse })
        (getObj (setObj s obj { getObj s obj with recurse := s.recurse })
          obj).py_iter split with
      | none => (none : Option (Bool × PMState))
      | some (false, sx) => some (false, sx)
      | some (true, sx) =>
        if (getObj sx obj).type = PY_TUPLE then some (true, sx)
        else some (itter_add_split sx obj split)) = some (b, s2)) :
    splitPassFrame s s2 ∧ (b = true → splitPassMarked s s2 split) := by
  have hmf := mark_facts s obj
  cases hL : split_iter_recures f
      (setObj s obj { getObj s obj with recurse := s.recurse })
      (getObj (setObj s obj { getObj s obj with recurse := s.recurse })
        obj).py_iter split with
  | none =>
    rw [hL] at he
    exact Option.noConfusion he
  | some r =>
    cases r with
    | mk bR sR =>
      rw [hL] at he
      have hLoop := split_iter_recures_post f split Hf _ _ bR sR hL
      cases bR with
      | false =>
        have heq : some (false, sR) = some (b, s2) := he
        injection heq with hp
        injection hp with hb hst
        rw [← hst]
        refine ⟨splitPassFrame_trans hmf.1 hLoop.1, ?_⟩
        intro hbt
        rw [← hb] at hbt
        exact Bool.noConfusion hbt
      | true =>
        have htyR : (getObj sR obj).type = (getObj s obj).type := by
          rw [hLoop.1.2.2.1 obj, hmf.2.2.1 obj]
        have he2 : (if (getObj sR obj).type = PY_TUPLE then some (true, sR)
            else some (itter_add_split sR obj split)) = some (b, s2) := he
        by_cases htup : (getObj s obj).type = PY_TUPLE
        · rw [if_pos (htyR.trans htup)] at he2
          injection he2 with hp
          injection hp with hb hst
          rw [← hst]
          refine ⟨splitPassFrame_trans hmf.1 hLoop.1, ?_⟩
          intro _
          refine splitPassMarked_comp hmf.1 hLoop.1 ?_ (hLoop.2 rfl)
          refine mark_marked s obj split ?_
          rw [htup]
          decide
        · rw [if_neg (fun hcc => htup (htyR.symm.trans hcc))] at he2
          injection he2 with hp
          have hb : (itter_add_split sR obj split).1 = b :=
            congrArg Prod.fst hp
          have hst : (itter_add_split sR obj split).2 = s2 :=
            congrArg Prod.snd hp
          have hobj : obj < sR.objs.length := by
            by_contra hno
            have hdef : getObj sR obj = default := getObj_le (by omega)
            rw [hdef] at htyR
            rcases hT5 with h|h|h|h|h <;> rw [h] at htyR <;>
              exact absurd htyR (by decide)
          have hIT := itter_add_split_facts sR obj split hobj
          have hMS := splitPassFrame_trans hmf.1 hLoop.1
          have hframe : splitPassFrame s s2 := by
            refine ⟨?_, ?_, ?_, ?_, ?_, ?_, ?_⟩
            · rw [← hst, hIT.2.1, hMS.1]
            · rw [← hst, hIT.2.2.1, hMS.2.1]
            · intro x
              rw [← hst, hIT.2.2.2.1 x, hMS.2.2.1 x]
            · intro x
              rw [← hst, hIT.2.2.2.2.1 x, hMS.2.2.2.1 x]
            · intro x
              rw [← hst, hIT.2.2.2.2.2.1 x, hMS.2.2.2.2.1 x]
            · intro x hx
              have hxo : x ≠ obj := by
                intro hh
                rw [hh] at hx
                exact hmk hx
              obtain ⟨hm2, hp2⟩ := hMS.2.2.2.2.2.1 x hx
              refine ⟨?_, ?_⟩
              · rw [← hst, hIT.2.2.2.2.2.2.1 x]
                exact hm2
              · rw [← hst, hIT.2.2.2.2.2.2.2.1 x hxo]
                exact hp2
            · intro x hx
              have hxo : x ≠ obj := by
                intro hh
                rw [hh] at hx
                exact htup hx
              rw [← hst, hIT.2.2.2.2.2.2.2.1 x hxo]
              exact hMS.2.2.2.2.2.2 x hx
          refine ⟨hframe, ?_⟩
          intro _
          intro x hx2 hxu hmutx
          by_cases hxo : x = obj
          · subst hxo
            obtain ⟨it, hit⟩ := hIT.2.2.2.2.2.2.2.2.1
            refine ⟨it, ?_⟩
            rw [← hst]
            exact hit
          · have hx2R : (getObj sR x).recurse = s.recurse := by
              rw [← hst] at hx2
              rw [hIT.2.2.2.2.2.2.1 x] at hx2
              exact hx2
            have hx2M : (getObj sR x).recurse
                = (setObj s obj { getObj s obj with recurse := s.recurse }).recurse := hx2R
            have hxuM : (getObj (setObj s obj { getObj s obj with recurse := s.recurse }) x).recurse
                ≠ (setObj s obj { getObj s obj with recurse := s.recurse }).recurse := by
              rw [hmf.2.1 x hxo]
              exact hxu
            have hmutM : splitTarget (getObj (setObj s obj { getObj s obj with recurse := s.recurse }) x).type := by
              unfold splitTarget
              rw [hmf.2.2.1 x]
              exact hmutx
            obtain ⟨it, hit⟩ := hLoop.2 rfl x hx2M hxuM hmutM
            refine ⟨it, ?_⟩
            rw [← hst, hIT.2.2.2.2.2.2.2.1 x hxo]
            exact hit


theorem add_splits_post : ∀ (fuel : Nat) (s : PMState) (obj split : Nat)
    (b : Bool) (s2 : PMState),
    add_splits fuel s obj split = some (b, s2) →
    splitPassFrame s s2 ∧ (b = true → splitPassMarked s s2 split) := by
  intro fuel
  induction fuel with
  | zero =>
    intro s obj split b s2 he
    exact Option.noConfusion he
  | succ n ih =>
    intro s obj split b s2 he
    have he2 : add_splits_body (add_splits n) s obj split = some (b, s2) := he
    unfold add_splits_body at he2
    by_cases hmk : (getObj s obj).recurse = s.recurse
    · rw [if_pos hmk] at he2
      injection he2 with hp
      injection hp with hb hst
      rw [← hst]
      exact ⟨splitPassFrame_refl s, fun _ => splitPassMarked_none rfl⟩
    · rw [if_neg hmk] at he2
      have hHf : ∀ sx ox bx sx2, add_splits n sx ox split = some (bx, sx2) →
          splitPassFrame sx sx2 ∧
          (bx = true → splitPassMarked sx sx2 split) :=
        fun sx ox bx sx2 hx => ih sx ox split bx sx2 hx
      unfold add_splits_marked at he2
      cases hty : (getObj (setObj s obj
          { getObj s obj with recurse := s.recurse }) obj).type with
      | PY_NOT_RIGHT =>
        rw [hty] at he2
        have he3 : some (true,
            setObj s obj { getObj s obj with recurse := s.recurse })
            = some (b, s2) := he2
        injection he3 with hp
        injection hp with hb hst
        rw [← hst]
        refine ⟨(mark_facts s obj).1, ?_⟩
        intro _
        refine mark_marked s obj split ?_
        have hmt := ((mark_facts s obj).2.2.1 obj).symm.trans hty
        rw [hmt]
        decide
      | PY_NONE =>
        rw [hty] at he2
        have he3 : some (true,
            setObj s obj { getObj s obj with recurse := s.recurse })
            = some (b, s2) := he2
        injection he3 with hp
        injection hp with hb hst
        rw [← hst]
        refine ⟨(mark_facts s obj).1, ?_⟩
        intro _
        refine mark_marked s obj split ?_
        have hmt := ((mark_facts s obj).2.2.1 obj).symm.trans hty
        rw [hmt]
        decide
      | PY_BOOL =>
        rw [hty] at he2
        have he3 : some (true,
            setObj s obj { getObj s obj with recurse := s.recurse })
            = some (b, s2) := he2
        injection he3 with hp
        injection hp with hb hst
        rw [← hst]
        refine ⟨(mark_facts s obj).1, ?_⟩
        intro _
        refine mark_marked s obj split ?_
        have hmt := ((mark_facts s obj).2.2.1 obj).symm.trans hty
        rw [hmt]
        decide
      | PY_INT =>
        rw [hty] at he2
        have he3 : some (true,
            setObj s obj { getObj s obj with recurse := s.recurse })
            = some (b, s2) := he2
        injection he3 with hp
        injection hp with hb hst
        rw [← hst]
        refine ⟨(mark_facts s obj).1, ?_⟩
        intro _
        refine mark_marked s obj split ?_
        have hmt := ((mark_facts s obj).2.2.1 obj).symm.trans hty
        rw [hmt]
        decide
      | PY_FLOAT =>
        rw [hty] at he2
        have he3 : some (true,
            setObj s obj { getObj s obj with recurse := s.recurse })
            = some (b, s2) := he2
        injection he3 with hp
        injection hp with hb hst
        rw [← hst]
        refine ⟨(mark_facts s obj).1, ?_⟩
        intro _
        refine mark_marked s obj split ?_
        have hmt := ((mark_facts s obj).2.2.1 obj).symm.trans hty
        rw [hmt]
        decide
      | PY_STR =>
        rw [hty] at he2
        have he3 : some (true,
            setObj s obj { getObj s obj with recurse := s.recurse })
            = some (b, s2) := he2
        injection he3 with hp
        injection hp with hb hst
        rw [← hst]
        refine ⟨(mark_facts s obj).1, ?_⟩
        intro _
        refine mark_marked s obj split ?_
        have hmt := ((mark_facts s obj).2.2.1 obj).symm.trans hty
        rw [hmt]
        decide
      | PY_FUNC =>
        rw [hty] at he2
        have he3 : some (true,
            setObj s obj { getObj s obj with recurse := s.recurse })
            = some (b, s2) := he2
        injection he3 with hp
        injection hp with hb hst
        rw [← hst]
        refine ⟨(mark_facts s obj).1, ?_⟩
        intro _
        refine mark_marked s obj split ?_
        have hmt := ((mark_facts s obj).2.2.1 obj).symm.trans hty
        rw [hmt]
        decide
      | PY_SPLIT =>
        rw [hty] at he2
        have he3 : some (true,
            setObj s obj { getObj s obj with recurse := s.recurse })
            = some (b, s2) := he2
        injection he3 with hp
        injection hp with hb hst
        rw [← hst]
        refine ⟨(mark_facts s obj).1, ?_⟩
        intro _
        refine mark_marked s obj split ?_
        have hmt := ((mark_facts s obj).2.2.1 obj).symm.trans hty
        rw [hmt]
        decide
      | PY_TUPLE =>
        rw [hty] at he2
        have hts := ((mark_facts s obj).2.2.1 obj).symm.trans hty
        have he3 : (match split_iter_recures (add_splits n)
            (setObj s obj { getObj s obj with recurse := s.recurse })
            (getObj (setObj s obj { getObj s obj with recurse := s.recurse })
              obj).py_iter split with
          | none => (none : Option (Bool × PMState))
          | some (false, sx) => some (false, sx)
          | some (true, sx) =>
            if (getObj sx obj).type = PY_TUPLE then some (true, sx)
            else some (itter_add_split sx obj split)) = some (b, s2) := he2
        exact add_splits_cont_case (add_splits n) split hHf s obj b s2 hmk
          (Or.inr (Or.inr (Or.inr (Or.inr hts)))) he3
      | PY_LIST =>
        rw [hty] at he2
        have hts := ((mark_facts s obj).2.2.1 obj).symm.trans hty
        have he3 : (match split_iter_recures (add_splits n)
            (setObj s obj { getObj s obj with recurse := s.recurse })
            (getObj (setObj s obj { getObj s obj with recurse := s.recurse })
              obj).py_iter split with
          | none => (none : Option (Bool × PMState))
          | some (false, sx) => some (false, sx)
          | some (true, sx) =>
            if (getObj sx obj).type = PY_TUPLE then some (true, sx)
            else some (itter_add_split sx obj split)) = some (b, s2) := he2
        exact add_splits_cont_case (add_splits n) split hHf s obj b s2 hmk
          (Or.inl hts) he3
      | PY_SET =>
        rw [hty] at he2
        have hts := ((mark_facts s obj).2.2.1 obj).symm.trans hty
        have he3 : (match split_iter_recures (add_splits n)
            (setObj s obj { getObj s obj with recurse := s.recurse })
            (getObj (setObj s obj { getObj s obj with recurse := s.recurse })
              obj).py_iter split with
          | none => (none : Option (Bool × PMState))
          | some (false, sx) => some (false, sx)
          | some (true, sx) =>
            if (getObj sx obj).type = PY_TUPLE then some (true, sx)
            else some (itter_add_split sx obj split)) = some (b, s2) := he2
        exact add_splits_cont_case (add_splits n) split hHf s obj b s2 hmk
          (Or.inr (Or.inr (Or.inl hts))) he3
      | PY_FROZEN_SET =>
        rw [hty] at he2
        have hts := ((mark_facts s obj).2.2.1 obj).symm.trans hty
        have he3 : (match split_iter_recures (add_splits n)
            (setObj s obj { getObj s obj with recurse := s.recurse })
            (getObj (setObj s obj { getObj s obj with recurse := s.recurse })
              obj).py_iter split with
          | none => (none : Option (Bool × PMState))
          | some (false, sx) => some (false, sx)
          | some (true, sx) =>
            if (getObj sx obj).type = PY_TUPLE then some (true, sx)
            else some (itter_add_split sx obj split)) = some (b, s2) := he2
        exact add_splits_cont_case (add_splits n) split hHf s obj b s2 hmk
          (Or.inr (Or.inl hts)) he3
      | PY_DICT =>
        rw [hty] at he2
        have hts := ((mark_facts s obj).2.2.1 obj).symm.trans hty
        have he3 : (match split_iter_recures (add_splits n)
            (setObj s obj { getObj s obj with recurse := s.recurse })
            (getObj (setObj s obj { getObj s obj with recurse := s.recurse })
              obj).py_iter split with
          | none => (none : Option (Bool × PMState))
          | some (false, sx) => some (false, sx)
          | some (true, sx) =>
            if (getObj sx obj).type = PY_TUPLE then some (true, sx)
            else some (itter_add_split sx obj split)) = some (b, s2) := he2
        exact add_splits_cont_case (add_splits n) split hHf s obj b s2 hmk
          (Or.inr (Or.inr (Or.inr (Or.inl hts)))) he3
      | PY_WHAT =>
        rw [hty] at he2
        have hts := ((mark_facts s obj).2.2.1 obj).symm.trans hty
        have he3 : split_what_recures (add_splits n)
            (setObj s obj { getObj s obj with recurse := s.recurse })
            (getObj (setObj s obj { getObj s obj with recurse := s.recurse })
              obj).py_what split = some (b, s2) := he2
        have hpost := split_what_recures_post (add_splits n) split hHf _ _
          b s2 he3
        refine ⟨splitPassFrame_trans (mark_facts s obj).1 hpost.1, ?_⟩
        intro hbt
        refine splitPassMarked_comp (mark_facts s obj).1 hpost.1 ?_
          (hpost.2 hbt)
        refine mark_marked s obj split ?_
        rw [hts]
        decide


/-- C8 (amended): the split pass marks each visited object with the
current generation and skips an already-marked one, so it never descends
twice into the same object of a cyclic graph; `itter_add_split` gives a
container exactly one trailing split, replacing a trailing duplicate
rather than stacking a second one; a pass only marks generations,
adjusts refcounts and appends/replaces trailing splits — object count,
types, What histories, reduce links and the iterables of tuples and of
already-visited objects all survive — and every newly visited mutable
container (list, set, frozenset, dict) ends a successful pass with the
split at its end; `split_reduce` threads the fresh split, whose `reduce`
field names the new REDUCE oper, through everything reachable from the
last argument in exactly that way. -/
theorem claim_C8_split_pass :
    (∀ (fuel : Nat) (s : PMState) (obj split : Nat),
      (getObj s obj).recurse = s.recurse →
      add_splits (fuel + 1) s obj split = some (true, s)) ∧
    (∀ (s : PMState) (c split : Nat), c < s.objs.length →
      (itter_add_split s c split).1 = true ∧
      (∀ lastid, (getObj s c).py_iter.getLast? = some lastid →
        (getObj s lastid).type = PY_SPLIT →
        (getObj (itter_add_split s c split).2 c).py_iter
          = (getObj s c).py_iter.dropLast ++ [split]) ∧
      (∀ lastid, (getObj s c).py_iter.getLast? = some lastid →
        (getObj s lastid).type ≠ PY_SPLIT →
        (getObj (itter_add_split s c split).2 c).py_iter
          = (getObj s c).py_iter ++ [split]) ∧
      ((getObj s c).py_iter.getLast? = none →
        (getObj (itter_add_split s c split).2 c).py_iter
          = (getObj s c).py_iter ++ [split])) ∧
    (∀ (fuel : Nat) (s : PMState) (obj split : Nat) (b : Bool)
      (s2 : PMState), add_splits fuel s obj split = some (b, s2) →
      splitPassFrame s s2 ∧ (b = true → splitPassMarked s s2 split)) ∧
    (∀ (s : PMState) (pop : Nat) (b : Bool) (s2 : PMState),
      split_reduce s pop = some (b, s2) → b = true →
      (getObj s2 s.objs.length).reduce = some pop ∧
      (∀ x, x < s.objs.length →
        (getObj s2 x).recurse = s.recurse + 1 →
        (getObj s x).recurse ≠ s.recurse + 1 →
        splitTarget (getObj s x).type →
        ∃ it, (getObj s2 x).py_iter = it ++ [s.objs.length])) := by
  refine ⟨?_, ?_, ?_, ?_⟩
  · intro fuel s obj split h
    show add_splits_body (add_splits fuel) s obj split = some (true, s)
    unfold add_splits_body
    rw [if_pos h]
  · intro s c split hc
    have hIT := itter_add_split_facts s c split hc
    exact ⟨hIT.1, hIT.2.2.2.2.2.2.2.2.2.1, hIT.2.2.2.2.2.2.2.2.2.2.1,
      hIT.2.2.2.2.2.2.2.2.2.2.2⟩
  · intro fuel s obj split b s2 he
    exact add_splits_post fuel s obj split b s2 he
  · intro s pop b s2 he hb
    subst hb
    have he2 : (match (getOper s pop).stack.getLast? with
        | none => some ((false : Bool), (allocObj s { type := PY_SPLIT, offset := s.offset, memo_id := UT64MAX }).2)
        | some obj =>
          match add_splits (splitPassFuel (splitReduceState s pop))
              (splitReduceState s pop) obj s.objs.length with
          | none => none
          | some (ret, sx) => some (ret, py_obj_free sx s.objs.length))
        = some (true, s2) := he
    cases hl : (getOper s pop).stack.getLast? with
    | none =>
      rw [hl] at he2
      have he3 : some ((false : Bool), (allocObj s { type := PY_SPLIT, offset := s.offset, memo_id := UT64MAX }).2)
          = some (true, s2) := he2
      injection he3 with hp
      injection hp with hb2 hst
      exact Bool.noConfusion hb2
    | some obj =>
      rw [hl] at he2
      have he2b : (match add_splits (splitPassFuel (splitReduceState s pop))
          (splitReduceState s pop) obj s.objs.length with
        | none => (none : Option (Bool × PMState))
        | some (ret, sx) => some (ret, py_obj_free sx s.objs.length))
          = some (true, s2) := he2
      cases ha : add_splits (splitPassFuel (splitReduceState s pop))
          (splitReduceState s pop) obj s.objs.length with
      | none =>
        rw [ha] at he2b
        exact Option.noConfusion he2b
      | some p =>
        cases p with
        | mk ret sF =>
          rw [ha] at he2b
          have he3 : some (ret, py_obj_free sF s.objs.length)
              = some (true, s2) := he2b
          injection he3 with hp
          injection hp with hbr hst
          subst hbr
          have hpost := add_splits_post _ _ obj s.objs.length true sF ha
          have hrec : (splitReduceState s pop).recurse = s.recurse + 1 := rfl
          have hsplt : s.objs.length
              < (allocObj s { type := PY_SPLIT, offset := s.offset, memo_id := UT64MAX }).2.objs.length := by
            show s.objs.length < (s.objs ++ [_]).length
            simp
          have hgx : ∀ x, x < s.objs.length →
              getObj (splitReduceState s pop) x = getObj s x := by
            intro x hx
            show getObj (setObj (allocObj s { type := PY_SPLIT, offset := s.offset, memo_id := UT64MAX }).2 s.objs.length
              { getObj (allocObj s { type := PY_SPLIT, offset := s.offset, memo_id := UT64MAX }).2 s.objs.length with
                reduce := some pop }) x = getObj s x
            rw [getObj_setObj_ne _ (by omega)]
            show (s.objs ++ [_]).getD x default = s.objs.getD x default
            exact getD_append_left _ _ _ _ hx
          have hred : (getObj (splitReduceState s pop) s.objs.length).reduce
              = some pop := by
            show (getObj (setObj (allocObj s { type := PY_SPLIT, offset := s.offset, memo_id := UT64MAX }).2 s.objs.length
              { getObj (allocObj s { type := PY_SPLIT, offset := s.offset, memo_id := UT64MAX }).2 s.objs.length with
                reduce := some pop }) s.objs.length).reduce = some pop
            rw [getObj_setObj_self _ hsplt]
          have hff := py_obj_free_facts sF s.objs.length
          refine ⟨?_, ?_⟩
          · rw [← hst, hff.2.2.2.2.1 s.objs.length,
              hpost.1.2.2.2.2.1 s.objs.length, hred]
          · intro x hx hmkd hunm hmut
            rw [← hst, hff.2.2.2.2.2.1 x] at hmkd
            have hmkdA : (getObj sF x).recurse
                = (splitReduceState s pop).recurse := by
              rw [hrec]
              exact hmkd
            have hunmA : (getObj (splitReduceState s pop) x).recurse
                ≠ (splitReduceState s pop).recurse := by
              rw [hgx x hx, hrec]
              exact hunm
            have hmutA : splitTarget
                (getObj (splitReduceState s pop) x).type := by
              rw [hgx x hx]
              exact hmut
            obtain ⟨it, hit⟩ := hpost.2 rfl x hmkdA hunmA hmutA
            refine ⟨it, ?_⟩
            rw [← hst, hff.2.2.2.2.2.2 x]
            exact hit

/-- A one-object heap whose list is already marked with the current
generation. -/
def c8wM : PMState := { objs := [{ type := PY_LIST }], recurse := 0 }

/-- A REDUCE oper over a single empty list, ready for `split_reduce`. -/
def c8rS : PMState := { objs := [{ type := PY_LIST }], opers := [{ op := OP_REDUCE, stack := [0] }], recurse := 0 }

def c8rRes : PMState := ((split_reduce c8rS 0).getD default).2

theorem claim_C8_witness :
    (getObj c8wM 0).recurse = c8wM.recurse ∧
    add_splits 1 c8wM 0 1 = some (true, c8wM) ∧
    split_reduce c8rS 0 = some (true, c8rRes) ∧
    (getObj c8rRes 1).reduce = some 0 ∧
    (0 < c8rS.objs.length ∧ (getObj c8rRes 0).recurse = c8rS.recurse + 1 ∧
     (getObj c8rS 0).recurse ≠ c8rS.recurse + 1 ∧
     splitTarget (getObj c8rS 0).type) ∧
    (∃ it, (getObj c8rRes 0).py_iter = it ++ [c8rS.objs.length]) :=
  ⟨rfl, claim_C8_split_pass.1 0 c8wM 0 1 rfl, by decide,
   (claim_C8_split_pass.2.2.2 c8rS 0 true c8rRes (by decide) rfl).1,
   ⟨by decide, by decide, by decide, by decide⟩,
   (claim_C8_split_pass.2.2.2 c8rS 0 true c8rRes (by decide) rfl).2 0
     (by decide) (by decide) (by decide) (by decide)⟩

/-! ## Claim C5: declarations precede references -/

/-- The single variable name the code can produce: `memo_put` never
writes `memo_id`, so every object keeps the `UT64_MAX` sentinel and
`obj_varname`'s truthiness test names them all `var_ffffffffffffffff`. -/
def theName : String := "var_" ++ hexStr UT64MAX

/-- The names declared by one chunk. -/
def chunkAsg (c : Chunk) : List String :=
  match c.tag with
  | Tag.assign n => [n]
  | _ => []

/-- The names declared by a chunk list. -/
def asgNames : List Chunk → List String
  | [] => []
  | c :: rest => chunkAsg c ++ asgNames rest

/-- Scanning check: every reference is to a name already seen, either in
`seen` or as an earlier assignment of the list. -/
def coveredB (seen : List String) : List Chunk → Bool
  | [] => true
  | c :: rest =>
    (match c.tag with
     | Tag.ref n => seen.contains n
     | _ => true) &&
    coveredB (chunkAsg c ++ seen) rest

theorem band_mp {a b : Bool} (h : (a && b) = true) :
    a = true ∧ b = true := by
  simp only [Bool.and_eq_true] at h
  exact h

theorem band_mpr {a b : Bool} (h : a = true ∧ b = true) :
    (a && b) = true := by
  simp only [Bool.and_eq_true]
  exact h

theorem contains_mp {l : List String} {n : String}
    (h : l.contains n = true) : n ∈ l := by
  simpa using h

theorem contains_mpr {l : List String} {n : String} (h : n ∈ l) :
    l.contains n = true := by
  simpa using h

theorem asgNames_append : ∀ (A B : List Chunk),
    asgNames (A ++ B) = asgNames A ++ asgNames B := by
  intro A
  induction A with
  | nil => intro B; rfl
  | cons c rest ih =>
    intro B
    show chunkAsg c ++ asgNames (rest ++ B) = (chunkAsg c ++ asgNames rest) ++ asgNames B
    rw [ih, List.append_assoc]

theorem coveredB_mono : ∀ (l : List Chunk) (seen seen' : List String),
    (∀ n, n ∈ seen → n ∈ seen') →
    coveredB seen l = true → coveredB seen' l = true := by
  intro l
  induction l with
  | nil => intro seen seen' _ _; rfl
  | cons c rest ih =>
    intro seen seen' hsub h
    have h2 := band_mp h
    refine band_mpr ⟨?_, ?_⟩
    · cases hc : c.tag with
      | ref n =>
        rw [hc] at h2
        have hm := contains_mp h2.1
        exact contains_mpr (hsub n hm)
      | assign n => rfl
      | text => rfl
    · refine ih (chunkAsg c ++ seen) (chunkAsg c ++ seen') ?_ h2.2
      intro n hn
      rcases List.mem_append.mp hn with hn | hn
      · exact List.mem_append.mpr (Or.inl hn)
      · exact List.mem_append.mpr (Or.inr (hsub n hn))

theorem coveredB_append_iff : ∀ (A : List Chunk) (seen : List String)
    (B : List Chunk),
    coveredB seen (A ++ B) = true ↔
      (coveredB seen A = true ∧ coveredB (asgNames A ++ seen) B = true) := by
  intro A
  induction A with
  | nil =>
    intro seen B
    exact ⟨fun h => ⟨rfl, h⟩, fun h => h.2⟩
  | cons c rest ih =>
    intro seen B
    constructor
    · intro h
      have h2 := band_mp h
      have h3 := (ih (chunkAsg c ++ seen) B).mp h2.2
      refine ⟨band_mpr ⟨h2.1, h3.1⟩, ?_⟩
      refine coveredB_mono B (asgNames rest ++ (chunkAsg c ++ seen))
        (asgNames (c :: rest) ++ seen) ?_ h3.2
      intro n hn
      show n ∈ (chunkAsg c ++ asgNames rest) ++ seen
      rcases List.mem_append.mp hn with hn | hn
      · exact List.mem_append.mpr (Or.inl (List.mem_append.mpr (Or.inr hn)))
      · rcases List.mem_append.mp hn with hn | hn
        · exact List.mem_append.mpr (Or.inl (List.mem_append.mpr (Or.inl hn)))
        · exact List.mem_append.mpr (Or.inr hn)
    · intro h
      have h2 := band_mp h.1
      refine band_mpr ⟨h2.1, ?_⟩
      refine (ih (chunkAsg c ++ seen) B).mpr ⟨h2.2, ?_⟩
      refine coveredB_mono B (asgNames (c :: rest) ++ seen)
        (asgNames rest ++ (chunkAsg c ++ seen)) ?_ h.2
      intro n hn
      have hn2 : n ∈ (chunkAsg c ++ asgNames rest) ++ seen := hn
      rcases List.mem_append.mp hn2 with hn3 | hn3
      · rcases List.mem_append.mp hn3 with hn4 | hn4
        · exact List.mem_append.mpr
            (Or.inr (List.mem_append.mpr (Or.inl hn4)))
        · exact List.mem_append.mpr (Or.inl hn4)
      · exact List.mem_append.mpr (Or.inr (List.mem_append.mpr (Or.inr hn3)))

theorem coveredB_prefix {A B : List Chunk} {seen : List String}
    (h : coveredB seen (A ++ B) = true) : coveredB seen A = true :=
  ((coveredB_append_iff A seen B).mp h).1

theorem coveredB_insert {A B Q : List Chunk}
    (hq : coveredB [] (A ++ Q) = true) (hb : coveredB [] (A ++ B) = true) :
    coveredB [] (A ++ B ++ Q) = true := by
  have h1 := (coveredB_append_iff A [] Q).mp hq
  have h2 := (coveredB_append_iff A [] B).mp hb
  rw [List.append_assoc]
  refine (coveredB_append_iff A [] (B ++ Q)).mpr ⟨h1.1, ?_⟩
  refine (coveredB_append_iff B (asgNames A ++ []) Q).mpr ⟨h2.2, ?_⟩
  refine coveredB_mono Q (asgNames A ++ []) _ ?_ h1.2
  intro n hn
  exact List.mem_append.mpr (Or.inr hn)

theorem coveredB_push {l : List Chunk} {c : Chunk} {seen : List String}
    (h : coveredB seen l = true)
    (hc : ∀ n, c.tag = Tag.ref n → n ∈ seen ∨ n ∈ asgNames l) :
    coveredB seen (l ++ [c]) = true := by
  refine (coveredB_append_iff l seen [c]).mpr ⟨h, ?_⟩
  show ((match c.tag with
    | Tag.ref n => (asgNames l ++ seen).contains n
    | _ => true) && true) = true
  refine band_mpr ⟨?_, rfl⟩
  cases ht : c.tag with
  | ref n =>
    refine contains_mpr ?_
    rcases hc n ht with hn | hn
    · exact List.mem_append.mpr (Or.inr hn)
    · exact List.mem_append.mpr (Or.inl hn)
  | assign n => rfl
  | text => rfl

/-- The heap facts the coverage proof rides on: every (live) object still
has the `UT64_MAX` memo sentinel, every cached name is the uniform
`theName`, and every What's history starts with a FAKE_INIT record. -/
def heapOK (st : RSt) : Prop :=
  (∀ x, x < st.objs.length → (getRO st x).memo_id = UT64MAX) ∧
  (∀ x, (getRO st x).varname = none ∨ (getRO st x).varname = some theName) ∧
  (∀ x, (getRO st x).type = PY_WHAT →
    ∃ p rest, (getRO st x).py_what = p :: rest ∧
      (getROper st p).op = OP_FAKE_INIT)

/-- Coverage invariant: the console followed by the open buffer is
reference-covered, and so is the console followed by any suspended
buffer. -/
def rcovOK (st : RSt) : Prop :=
  coveredB [] (st.console ++ obuf st) = true ∧
  ∀ q ∈ st.nfo.outstack, coveredB [] (st.console ++ q.getD []) = true

/-- An assignment of the (uniform) name has already been written to the
console or to the open buffer. -/
def nameVis (st : RSt) : Prop :=
  assignC theName ∈ st.console ∨ assignC theName ∈ obuf st

theorem mem_asgNames_of_mem : ∀ {l : List Chunk} {n : String},
    assignC n ∈ l → n ∈ asgNames l := by
  intro l
  induction l with
  | nil => intro n h; cases h
  | cons c rest ih =>
    intro n h
    rcases List.mem_cons.mp h with h | h
    · rw [← h]
      show n ∈ chunkAsg (assignC n) ++ asgNames rest
      exact List.mem_append.mpr (Or.inl (List.mem_singleton.mpr rfl))
    · show n ∈ chunkAsg c ++ asgNames rest
      exact List.mem_append.mpr (Or.inr (ih h))

/-- If anything is named, its declaration is visible. -/
def namedSeen (st : RSt) : Prop :=
  (∃ x, (getRO st x).varname = some theName) → nameVis st

def consoleExt (st st2 : RSt) : Prop := ∃ d, st2.console = st.console ++ d

theorem consoleExt_refl (st : RSt) : consoleExt st st :=
  ⟨[], (List.append_nil _).symm⟩

theorem consoleExt_trans {s1 s2 s3 : RSt} (h1 : consoleExt s1 s2)
    (h2 : consoleExt s2 s3) : consoleExt s1 s3 := by
  obtain ⟨d1, hd1⟩ := h1
  obtain ⟨d2, hd2⟩ := h2
  exact ⟨d1 ++ d2, by rw [hd2, hd1, List.append_assoc]⟩

theorem printer_append_console (st : RSt) (c : Chunk) :
    (printer_append st c).console = st.console := by
  unfold printer_append printer_getout
  cases st.nfo.out <;> rfl

theorem printer_append_opers (st : RSt) (c : Chunk) :
    (printer_append st c).opers = st.opers := by
  unfold printer_append printer_getout
  cases st.nfo.out <;> rfl

theorem printer_appends_console : ∀ (cs : List Chunk) (st : RSt),
    (printer_appends st cs).console = st.console := by
  intro cs
  induction cs with
  | nil => intro st; rfl
  | cons c cs ih =>
    intro st
    show (printer_appends (printer_append st c) cs).console = st.console
    rw [ih, printer_append_console]

theorem printer_appends_opers : ∀ (cs : List Chunk) (st : RSt),
    (printer_appends st cs).opers = st.opers := by
  intro cs
  induction cs with
  | nil => intro st; rfl
  | cons c cs ih =>
    intro st
    show (printer_appends (printer_append st c) cs).opers = st.opers
    rw [ih, printer_append_opers]

theorem heapOK_printer_append {st : RSt} (h : heapOK st) (c : Chunk) :
    heapOK (printer_append st c) := by
  have hobjs : (printer_append st c).objs = st.objs :=
    printer_append_objs st c
  have hops : (printer_append st c).opers = st.opers :=
    printer_append_opers st c
  refine ⟨?_, ?_, ?_⟩
  · intro x hx
    rw [getRO_printer_append]
    refine h.1 x ?_
    rw [← hobjs]
    exact hx
  · intro x
    rw [getRO_printer_append]
    exact h.2.1 x
  · intro x hx
    rw [getRO_printer_append] at hx
    obtain ⟨p, rest, hpw, hop⟩ := h.2.2 x hx
    refine ⟨p, rest, ?_, ?_⟩
    · rw [getRO_printer_append]
      exact hpw
    · show ((printer_append st c).opers.getD p default).op = OP_FAKE_INIT
      rw [hops]
      exact hop

theorem heapOK_printer_appends {st : RSt} (h : heapOK st)
    (cs : List Chunk) : heapOK (printer_appends st cs) := by
  induction cs generalizing st with
  | nil => exact h
  | cons c cs ih => exact ih (heapOK_printer_append h c)

theorem rcovOK_printer_append {st : RSt} (h : rcovOK st) (c : Chunk)
    (hc : ∀ n, c.tag = Tag.ref n →
      n ∈ asgNames st.console ∨ n ∈ asgNames (obuf st)) :
    rcovOK (printer_append st c) := by
  refine ⟨?_, ?_⟩
  · rw [printer_append_console, obuf_printer_append,
      ← List.append_assoc]
    refine coveredB_push h.1 ?_
    intro n hn
    refine Or.inr ?_
    rw [asgNames_append]
    rcases hc n hn with hx | hx
    · exact List.mem_append.mpr (Or.inl hx)
    · exact List.mem_append.mpr (Or.inr hx)
  · intro q hq
    rw [printer_append_console]
    refine h.2 q ?_
    rw [← printer_append_outstack st c]
    exact hq

theorem nameVis_printer_append {st : RSt} (h : nameVis st) (c : Chunk) :
    nameVis (printer_append st c) := by
  rcases h with h | h
  · exact Or.inl (by rw [printer_append_console]; exact h)
  · refine Or.inr ?_
    rw [obuf_printer_append]
    exact List.mem_append.mpr (Or.inl h)

theorem nameVis_assign (st : RSt) :
    nameVis (printer_append st (assignC theName)) := by
  refine Or.inr ?_
  rw [obuf_printer_append]
  exact List.mem_append.mpr (Or.inr (List.mem_singleton.mpr rfl))

theorem namedSeen_printer_append {st : RSt} (h : namedSeen st) (c : Chunk) :
    namedSeen (printer_append st c) := by
  intro hex
  obtain ⟨x, hx⟩ := hex
  rw [getRO_printer_append] at hx
  exact nameVis_printer_append (h ⟨x, hx⟩) c

theorem printer_drain_console_obuf (st : RSt) :
    (printer_drain st).console ++ obuf (printer_drain st)
      = st.console ++ obuf st ∧
    (printer_drain st).nfo.outstack = st.nfo.outstack ∧
    consoleExt st (printer_drain st) ∧
    (printer_drain st).objs = st.objs ∧
    (printer_drain st).opers = st.opers ∧
    (∃ d, st.console ++ obuf st = (printer_drain st).console ++ d) := by
  cases hout : st.nfo.out with
  | none =>
    have hred : printer_drain st = st := by
      unfold printer_drain
      rw [hout]
    rw [hred]
    exact ⟨rfl, rfl, consoleExt_refl st, rfl, rfl, ⟨obuf st, rfl⟩⟩
  | some b =>
    by_cases hlen : chunksLen b > 0
    · have hred : printer_drain st = { st with console := st.console ++ b, nfo := { st.nfo with out := some [] } } := by
        unfold printer_drain
        rw [hout]
        show (if chunksLen b > 0 then { st with console := st.console ++ b, nfo := { st.nfo with out := some [] } } else st) = _
        rw [if_pos hlen]
      rw [hred]
      refine ⟨?_, rfl, ⟨b, rfl⟩, rfl, rfl, ?_⟩
      · show (st.console ++ b) ++ ([] : List Chunk) = st.console ++ obuf st
        rw [obuf_eq_of_out hout, List.append_nil]
      · refine ⟨[], ?_⟩
        rw [obuf_eq_of_out hout, List.append_nil]
    · have hred : printer_drain st = st := by
        unfold printer_drain
        rw [hout]
        show (if chunksLen b > 0 then { st with console := st.console ++ b, nfo := { st.nfo with out := some [] } } else st) = st
        rw [if_neg hlen]
      rw [hred]
      exact ⟨rfl, rfl, consoleExt_refl st, rfl, rfl, ⟨obuf st, rfl⟩⟩

theorem rcovOK_printer_drain {st : RSt} (h : rcovOK st) :
    rcovOK (printer_drain st) := by
  have hd := printer_drain_console_obuf st
  obtain ⟨d, hdd⟩ := hd.2.2.1
  refine ⟨?_, ?_⟩
  · rw [hd.1]
    exact h.1
  · intro q hq
    rw [hd.2.1] at hq
    rw [hdd]
    have hcd : coveredB [] (st.console ++ d) = true := by
      have h1 := h.1
      obtain ⟨d2, hd2⟩ := hd.2.2.2.2.2
      rw [hdd] at hd2
      rw [hd2] at h1
      exact coveredB_prefix h1
    exact coveredB_insert (h.2 q hq) hcd

theorem nameVis_printer_drain {st : RSt} (h : nameVis st) :
    nameVis (printer_drain st) := by
  have hd := printer_drain_console_obuf st
  have hmem : assignC theName ∈ (printer_drain st).console
      ++ obuf (printer_drain st) := by
    rw [hd.1]
    rcases h with h | h
    · exact List.mem_append.mpr (Or.inl h)
    · exact List.mem_append.mpr (Or.inr h)
  rcases List.mem_append.mp hmem with h2 | h2
  · exact Or.inl h2
  · exact Or.inr h2

theorem heapOK_printer_drain {st : RSt} (h : heapOK st) :
    heapOK (printer_drain st) := by
  have hd := printer_drain_console_obuf st
  have hg : ∀ x, getRO (printer_drain st) x = getRO st x := by
    intro x
    show (printer_drain st).objs.getD x default = st.objs.getD x default
    rw [hd.2.2.2.1]
  have hgo : ∀ p, getROper (printer_drain st) p = getROper st p := by
    intro p
    show (printer_drain st).opers.getD p default = st.opers.getD p default
    rw [hd.2.2.2.2.1]
  refine ⟨?_, ?_, ?_⟩
  · intro x hx
    rw [hg x]
    refine h.1 x ?_
    rw [← hd.2.2.2.1]
    exact hx
  · intro x
    rw [hg x]
    exact h.2.1 x
  · intro x hx
    rw [hg x] at hx
    obtain ⟨p, rest, hpw, hop⟩ := h.2.2 x hx
    refine ⟨p, rest, ?_, ?_⟩
    · rw [hg x]
      exact hpw
    · rw [hgo p]
      exact hop

theorem chunksLen_pos_of_mem {b : List Chunk}
    (h : assignC theName ∈ b) : chunksLen b > 0 := by
  induction b with
  | nil => cases h
  | cons c rest ih =>
    show (c.s.length :: (rest.map (fun x => x.s.length))).sum > 0
    rcases List.mem_cons.mp h with h | h
    · rw [← h]
      have : (assignC theName).s.length > 0 := by decide
      simp only [List.sum_cons]
      omega
    · have := ih h
      have h2 : (rest.map (fun x => x.s.length)).sum > 0 := this
      simp only [List.sum_cons]
      omega

theorem printer_drain_free_facts (st : RSt) :
    (printer_drain_free st).console = (printer_drain st).console ∧
    (printer_drain_free st).nfo.out = none ∧
    (printer_drain_free st).nfo.outstack = st.nfo.outstack ∧
    (printer_drain_free st).objs = st.objs ∧
    (printer_drain_free st).opers = st.opers ∧
    consoleExt st (printer_drain_free st) := by
  refine ⟨rfl, rfl, ?_, ?_, ?_, ?_⟩
  · show (printer_drain st).nfo.outstack = st.nfo.outstack
    exact (printer_drain_console_obuf st).2.1
  · show (printer_drain st).objs = st.objs
    exact (printer_drain_console_obuf st).2.2.2.1
  · show (printer_drain st).opers = st.opers
    exact (printer_drain_console_obuf st).2.2.2.2.1
  · obtain ⟨d, hd⟩ := (printer_drain_console_obuf st).2.2.1
    exact ⟨d, hd⟩

theorem rcovOK_printer_drain_free {st : RSt} (h : rcovOK st) :
    rcovOK (printer_drain_free st) := by
  have h2 := rcovOK_printer_drain h
  refine ⟨?_, ?_⟩
  · show coveredB [] ((printer_drain st).console ++ obuf (printer_drain_free st)) = true
    have hob : obuf (printer_drain_free st) = [] := rfl
    rw [hob, List.append_nil]
    exact coveredB_prefix h2.1
  · intro q hq
    show coveredB [] ((printer_drain st).console ++ q.getD []) = true
    refine h2.2 q ?_
    show q ∈ (printer_drain st).nfo.outstack
    rw [(printer_drain_console_obuf st).2.1]
    rw [← (printer_drain_free_facts st).2.2.1]
    exact hq

theorem heapOK_printer_drain_free {st : RSt} (h : heapOK st) :
    heapOK (printer_drain_free st) := by
  have hf := printer_drain_free_facts st
  have hg : ∀ x, getRO (printer_drain_free st) x = getRO st x := by
    intro x
    show (printer_drain_free st).objs.getD x default = st.objs.getD x default
    rw [hf.2.2.2.1]
  have hgo : ∀ p, getROper (printer_drain_free st) p = getROper st p := by
    intro p
    show (printer_drain_free st).opers.getD p default = st.opers.getD p default
    rw [hf.2.2.2.2.1]
  refine ⟨?_, ?_, ?_⟩
  · intro x hx
    rw [hg x]
    refine h.1 x ?_
    rw [← hf.2.2.2.1]
    exact hx
  · intro x
    rw [hg x]
    exact h.2.1 x
  · intro x hx
    rw [hg x] at hx
    obtain ⟨p, rest, hpw, hop⟩ := h.2.2 x hx
    refine ⟨p, rest, ?_, ?_⟩
    · rw [hg x]
      exact hpw
    · rw [hgo p]
      exact hop

/-- Draining a buffer that holds the uniform declaration puts it on the
console. -/
theorem nameVis_console_drain_free {st : RSt}
    (h : assignC theName ∈ obuf st) :
    assignC theName ∈ (printer_drain_free st).console := by
  have hpos : chunksLen (obuf st) > 0 := chunksLen_pos_of_mem h
  cases hout : st.nfo.out with
  | none =>
    exfalso
    have : obuf st = [] := by
      unfold obuf
      rw [hout]
      rfl
    rw [this] at h
    cases h
  | some b =>
    have hb : obuf st = b := obuf_eq_of_out hout
    have hred : printer_drain st = { st with console := st.console ++ b, nfo := { st.nfo with out := some [] } } := by
      unfold printer_drain
      rw [hout]
      show (if chunksLen b > 0 then { st with console := st.console ++ b, nfo := { st.nfo with out := some [] } } else st) = _
      rw [if_pos (by rw [← hb]; exact hpos)]
    show assignC theName ∈ (printer_drain st).console
    rw [hred]
    show assignC theName ∈ st.console ++ b
    refine List.mem_append.mpr (Or.inr ?_)
    rw [← hb]
    exact h

theorem printer_getout_more (st : RSt) :
    (printer_getout st).2.console = st.console ∧
    obuf (printer_getout st).2 = obuf st ∧
    (printer_getout st).2.nfo.outstack = st.nfo.outstack ∧
    (printer_getout st).2.objs = st.objs ∧
    (printer_getout st).2.opers = st.opers ∧
    (printer_getout st).1 = obuf st := by
  cases hout : st.nfo.out with
  | none =>
    have he : printer_getout st = ([], { st with nfo := { st.nfo with out := some [] } }) := by
      unfold printer_getout
      rw [hout]
    rw [he]
    refine ⟨rfl, ?_, rfl, rfl, rfl, ?_⟩
    · show ([] : List Chunk) = st.nfo.out.getD []
      rw [hout]
      rfl
    · show ([] : List Chunk) = st.nfo.out.getD []
      rw [hout]
      rfl
  | some b =>
    have he : printer_getout st = (b, st) := by
      unfold printer_getout
      rw [hout]
    rw [he]
    refine ⟨rfl, rfl, rfl, rfl, rfl, ?_⟩
    show b = st.nfo.out.getD []
    rw [hout]
    rfl

/-- A non-degenerate type means the id is in bounds. -/
theorem getRO_lt_of_type {st : RSt} {i : Nat}
    (h : (getRO st i).type ≠ PY_NOT_RIGHT) : i < st.objs.length := by
  by_contra hn
  have : getRO st i = default := getD_of_le _ _ _ (by omega)
  rw [this] at h
  exact h rfl

theorem heapOK_setRO_name {st : RSt} (h : heapOK st) (i : Nat) :
    heapOK (setRO st i { getRO st i with varname := some theName }) := by
  have hlen : (setRO st i { getRO st i with varname := some theName }).objs.length = st.objs.length := by
    show (st.objs.set i _).length = st.objs.length
    exact List.length_set st.objs i _
  have hops : (setRO st i { getRO st i with varname := some theName }).opers = st.opers := rfl
  refine ⟨?_, ?_, ?_⟩
  · intro x hx
    rw [hlen] at hx
    by_cases hix : i = x
    · subst hix
      by_cases hlt : i < st.objs.length
      · show ((st.objs.set i _).getD i default).memo_id = UT64MAX
        rw [getD_set_self _ _ _ _ hlt]
        exact h.1 i hlt
      · exact absurd hx hlt
    · show ((st.objs.set i _).getD x default).memo_id = UT64MAX
      rw [getD_set_ne _ _ _ _ _ hix]
      exact h.1 x hx
  · intro x
    by_cases hix : i = x
    · subst hix
      by_cases hlt : i < st.objs.length
      · show ((st.objs.set i _).getD i default).varname = none ∨
          ((st.objs.set i _).getD i default).varname = some theName
        rw [getD_set_self _ _ _ _ hlt]
        exact Or.inr rfl
      · show ((st.objs.set i _).getD i default).varname = none ∨
          ((st.objs.set i _).getD i default).varname = some theName
        rw [List.set_eq_of_length_le (by omega)]
        exact h.2.1 i
    · show ((st.objs.set i _).getD x default).varname = none ∨
        ((st.objs.set i _).getD x default).varname = some theName
      rw [getD_set_ne _ _ _ _ _ hix]
      exact h.2.1 x
  · intro x hx
    have hty : (getRO st x).type = PY_WHAT := by
      by_cases hix : i = x
      · subst hix
        by_cases hlt : i < st.objs.length
        · have : getRO (setRO st i { getRO st i with varname := some theName }) i = { getRO st i with varname := some theName } := by
            show ((st.objs.set i _).getD i default) = _
            rw [getD_set_self _ _ _ _ hlt]
          rw [this] at hx
          exact hx
        · have : setRO st i { getRO st i with varname := some theName } = { st with objs := st.objs } := by
            unfold setRO
            rw [List.set_eq_of_length_le (by omega)]
          rw [this] at hx
          exact hx
      · have : getRO (setRO st i { getRO st i with varname := some theName }) x = getRO st x := by
          show ((st.objs.set i _).getD x default) = st.objs.getD x default
          rw [getD_set_ne _ _ _ _ _ hix]
        rw [this] at hx
        exact hx
    obtain ⟨p, rest, hpw, hop⟩ := h.2.2 x hty
    refine ⟨p, rest, ?_, hop⟩
    by_cases hix : i = x
    · subst hix
      by_cases hlt : i < st.objs.length
      · show ((st.objs.set i _).getD i default).py_what = p :: rest
        rw [getD_set_self _ _ _ _ hlt]
        exact hpw
      · show ((st.objs.set i _).getD i default).py_what = p :: rest
        rw [List.set_eq_of_length_le (by omega)]
        exact hpw
    · show ((st.objs.set i _).getD x default).py_what = p :: rest
      rw [getD_set_ne _ _ _ _ _ hix]
      exact hpw

/-- Under `heapOK` the name handed out for an in-bounds object is always
the uniform one, and the write only caches it. -/
theorem obj_varname_cov {st : RSt} (h : heapOK st) (i : Nat)
    (hin : i < st.objs.length) :
    (obj_varname st i).1 = theName ∧
    heapOK (obj_varname st i).2 ∧
    (obj_varname st i).2.console = st.console ∧
    (obj_varname st i).2.nfo.out = st.nfo.out ∧
    (obj_varname st i).2.nfo.outstack = st.nfo.outstack ∧
    (obj_varname st i).2.opers = st.opers ∧
    (obj_varname st i).2.objs.length = st.objs.length ∧
    (∀ x, (getRO (obj_varname st i).2 x).type = (getRO st x).type ∧
      (getRO (obj_varname st i).2 x).py_what = (getRO st x).py_what) := by
  cases hv : (getRO st i).varname with
  | some v =>
    have hveq : v = theName := by
      rcases h.2.1 i with hn | hn
      · rw [hv] at hn
        exact Option.noConfusion hn
      · rw [hv] at hn
        exact Option.some.inj hn
    have he : obj_varname st i = (v, st) := by
      unfold obj_varname
      rw [hv]
    rw [he]
    exact ⟨hveq, h, rfl, rfl, rfl, rfl, rfl, fun x => ⟨rfl, rfl⟩⟩
  | none =>
    have hm : (getRO st i).memo_id = UT64MAX := h.1 i hin
    have hmne : (getRO st i).memo_id ≠ 0 := by
      rw [hm]
      decide
    have he : obj_varname st i = ("var_" ++ hexStr (getRO st i).memo_id,
        setRO st i { getRO st i with varname := some ("var_" ++ hexStr (getRO st i).memo_id) }) := by
      unfold obj_varname
      rw [hv, if_pos hmne]
    have hname : "var_" ++ hexStr (getRO st i).memo_id = theName := by
      rw [hm]
      rfl
    rw [he, hname]
    refine ⟨rfl, heapOK_setRO_name h i, rfl, rfl, rfl, rfl, ?_, ?_⟩
    · show (st.objs.set i _).length = st.objs.length
      exact List.length_set st.objs i _
    · intro x
      by_cases hix : i = x
      · subst hix
        constructor
        · show ((st.objs.set i _).getD i default).type
            = (st.objs.getD i default).type
          rw [getD_set_self _ _ _ _ hin]
          rfl
        · show ((st.objs.set i _).getD i default).py_what
            = (st.objs.getD i default).py_what
          rw [getD_set_self _ _ _ _ hin]
          rfl
      · constructor
        · show ((st.objs.set i _).getD x default).type
            = (st.objs.getD x default).type
          rw [getD_set_ne _ _ _ _ _ hix]
        · show ((st.objs.set i _).getD x default).py_what
            = (st.objs.getD x default).py_what
          rw [getD_set_ne _ _ _ _ _ hix]

/-- The coverage postcondition every renderer call satisfies: the heap
facts and the reference-coverage invariant persist, the console only
grows, and a successful call preserves name visibility. -/
def covPost (st : RSt) (b : Bool) (st2 : RSt) : Prop :=
  heapOK st2 ∧ rcovOK st2 ∧ consoleExt st st2 ∧
  (b = true → (namedSeen st → namedSeen st2) ∧ (nameVis st → nameVis st2))

theorem heapOK_congr {st st2 : RSt} (hobjs : st2.objs = st.objs)
    (hopers : st2.opers = st.opers) (h : heapOK st) : heapOK st2 := by
  have hg : ∀ x, getRO st2 x = getRO st x := by
    intro x
    show st2.objs.getD x default = st.objs.getD x default
    rw [hobjs]
  have hgo : ∀ p, getROper st2 p = getROper st p := by
    intro p
    show st2.opers.getD p default = st.opers.getD p default
    rw [hopers]
  refine ⟨?_, ?_, ?_⟩
  · intro x hx
    rw [hg x]
    refine h.1 x ?_
    rw [← hobjs]
    exact hx
  · intro x
    rw [hg x]
    exact h.2.1 x
  · intro x hx
    rw [hg x] at hx
    obtain ⟨p, rest, hpw, hop⟩ := h.2.2 x hx
    refine ⟨p, rest, ?_, ?_⟩
    · rw [hg x]
      exact hpw
    · rw [hgo p]
      exact hop

theorem rcovOK_congr {st st2 : RSt} (hc : st2.console = st.console)
    (ho : st2.nfo.out = st.nfo.out) (hos : st2.nfo.outstack = st.nfo.outstack)
    (h : rcovOK st) : rcovOK st2 := by
  have hob : obuf st2 = obuf st := by
    unfold obuf
    rw [ho]
  refine ⟨?_, ?_⟩
  · rw [hc, hob]
    exact h.1
  · intro q hq
    rw [hc]
    refine h.2 q ?_
    rw [← hos]
    exact hq

theorem nameVis_congr {st st2 : RSt} (hc : st2.console = st.console)
    (ho : st2.nfo.out = st.nfo.out) (h : nameVis st) : nameVis st2 := by
  have hob : obuf st2 = obuf st := by
    unfold obuf
    rw [ho]
  rcases h with h | h
  · exact Or.inl (by rw [hc]; exact h)
  · exact Or.inr (by rw [hob]; exact h)

theorem namedSeen_congr {st st2 : RSt} (hobjs : st2.objs = st.objs)
    (hc : st2.console = st.console) (ho : st2.nfo.out = st.nfo.out)
    (h : namedSeen st) : namedSeen st2 := by
  intro hex
  obtain ⟨x, hx⟩ := hex
  have hg : getRO st2 x = getRO st x := by
    show st2.objs.getD x default = st.objs.getD x default
    rw [hobjs]
  rw [hg] at hx
  exact nameVis_congr hc ho (h ⟨x, hx⟩)

theorem covPost_self {st : RSt} (h1 : heapOK st) (h2 : rcovOK st) (b : Bool) :
    covPost st b st :=
  ⟨h1, h2, consoleExt_refl st, fun _ => ⟨id, id⟩⟩

theorem covPost_trans {st mid st2 : RSt} {b : Bool}
    (h1 : covPost st true mid) (h2 : covPost mid b st2) : covPost st b st2 := by
  refine ⟨h2.1, h2.2.1, consoleExt_trans h1.2.2.1 h2.2.2.1, ?_⟩
  intro hb
  have c1 := h1.2.2.2 rfl
  have c2 := h2.2.2.2 hb
  exact ⟨fun hn => c2.1 (c1.1 hn), fun hn => c2.2 (c1.2 hn)⟩

/-- Appending a chunk that is not a reference. -/
theorem covPost_append_nonref {st : RSt} (h1 : heapOK st) (h2 : rcovOK st)
    (c : Chunk) (hc : ∀ n, ¬ c.tag = Tag.ref n) (b : Bool) :
    covPost st b (printer_append st c) := by
  refine ⟨heapOK_printer_append h1 c,
    rcovOK_printer_append h2 c (fun n hn => absurd hn (hc n)), ?_, ?_⟩
  · exact ⟨[], by rw [printer_append_console, List.append_nil]⟩
  · intro _
    exact ⟨fun hn => namedSeen_printer_append hn c,
      fun hn => nameVis_printer_append hn c⟩

/-- Appending the uniform reference once its declaration is visible. -/
theorem covPost_append_ref {st : RSt} (h1 : heapOK st) (h2 : rcovOK st)
    (hv : nameVis st) (b : Bool) :
    covPost st b (printer_append st (refC theName)) := by
  refine ⟨heapOK_printer_append h1 _, ?_, ?_, ?_⟩
  · refine rcovOK_printer_append h2 _ ?_
    intro n hn
    have hn2 : n = theName := by
      have h3 : Tag.ref theName = Tag.ref n := hn
      injection h3 with h4
      exact h4.symm
    subst hn2
    rcases hv with h | h
    · exact Or.inl (mem_asgNames_of_mem h)
    · exact Or.inr (mem_asgNames_of_mem h)
  · exact ⟨[], by rw [printer_append_console, List.append_nil]⟩
  · intro _
    exact ⟨fun hn => namedSeen_printer_append hn _,
      fun hn => nameVis_printer_append hn _⟩

theorem covPost_newlineIf {st : RSt} (h1 : heapOK st) (h2 : rcovOK st) :
    covPost st true (newlineIf st) := by
  unfold newlineIf
  split
  · exact covPost_append_nonref h1 h2 _ (fun n h => Tag.noConfusion h) true
  · exact covPost_self h1 h2 true

/-- `var_pre_print` keeps the coverage invariant; when it tells the
caller to go on (0) every named object's declaration is visible, so the
value may be rendered inline. -/
theorem var_pre_print_cov (st : RSt) (i : Nat)
    (h1 : heapOK st) (h2 : rcovOK st)
    (hin : i < st.objs.length)
    (hmode : st.nfo.first = false ∨ st.nfo.ret = true → namedSeen st) :
    covPost st true (var_pre_print st i).2 ∧
    ((var_pre_print st i).1 = 0 → namedSeen (var_pre_print st i).2) := by
  by_cases hr : st.nfo.ret = true
  · have hns : namedSeen st := hmode (Or.inr hr)
    have c1 : covPost st true (printer_append st (textC "return ")) :=
      covPost_append_nonref h1 h2 _ (fun n h => Tag.noConfusion h) true
    cases hv : (getRO st i).varname with
    | some v =>
      have hva : (getRO (printer_append st (textC "return ")) i).varname
          = some v := by
        rw [getRO_printer_append]
        exact hv
      have heq : var_pre_print st i = (1, printer_appends
          (printer_append st (textC "return ")) [refC v, textC "\n"]) := by
        rw [var_pre_print_ret_eq st i hr, hva]
      have hveq : v = theName := by
        rcases h1.2.1 i with hn | hn
        · rw [hv] at hn
          exact Option.noConfusion hn
        · rw [hv] at hn
          exact Option.some.inj hn
      subst hveq
      have hnamed : (getRO st i).varname = some theName := hv
      have hvis : nameVis (printer_append st (textC "return ")) :=
        (c1.2.2.2 rfl).2 (hns ⟨i, hnamed⟩)
      have c2 : covPost (printer_append st (textC "return ")) true
          (printer_append (printer_append st (textC "return "))
            (refC theName)) :=
        covPost_append_ref c1.1 c1.2.1 hvis true
      have c3 : covPost (printer_append (printer_append st
          (textC "return ")) (refC theName)) true
          (printer_append (printer_append (printer_append st
            (textC "return ")) (refC theName)) (textC "\n")) :=
        covPost_append_nonref c2.1 c2.2.1 _ (fun n h => Tag.noConfusion h) true
      rw [heq]
      refine ⟨covPost_trans c1 (covPost_trans c2 c3), ?_⟩
      intro h0
      have h0' : (1 : Int) = 0 := h0
      omega
    | none =>
      have hva : (getRO (printer_append st (textC "return ")) i).varname
          = none := by
        rw [getRO_printer_append]
        exact hv
      have heq : var_pre_print st i
          = (0, printer_append st (textC "return ")) := by
        rw [var_pre_print_ret_eq st i hr, hva]
      rw [heq]
      exact ⟨c1, fun _ => (c1.2.2.2 rfl).1 hns⟩
  · by_cases hf : st.nfo.first = true
    · cases hv : (getRO st i).varname with
      | some v =>
        have heq : var_pre_print st i = (if st.nfo.verbose = true then
            ((1 : Int), printer_append st
              (textC ("# " ++ v ++ " previously declared\n")))
          else (1, st)) := by
          rw [var_pre_print_first_eq st i hr hf, hv]
        by_cases hvb : st.nfo.verbose = true
        · rw [heq, if_pos hvb]
          refine ⟨covPost_append_nonref h1 h2 _
            (fun n h => Tag.noConfusion h) true, ?_⟩
          intro h0
          have h0' : (1 : Int) = 0 := h0
          omega
        · rw [heq, if_neg hvb]
          refine ⟨covPost_self h1 h2 true, ?_⟩
          intro h0
          have h0' : (1 : Int) = 0 := h0
          omega
      | none =>
        cases hov : obj_varname st i with
        | mk v stv =>
          have heq : var_pre_print st i
              = ((0 : Int), printer_append stv (assignC v)) := by
            rw [var_pre_print_first_eq st i hr hf, hv, hov]
          have hoc := obj_varname_cov h1 i hin
          rw [hov] at hoc
          have hveq : v = theName := hoc.1
          subst hveq
          have h1v : heapOK stv := hoc.2.1
          have h2v : rcovOK stv :=
            rcovOK_congr hoc.2.2.1 hoc.2.2.2.1 hoc.2.2.2.2.1 h2
          rw [heq]
          refine ⟨⟨heapOK_printer_append h1v _, ?_, ?_, ?_⟩, ?_⟩
          · exact rcovOK_printer_append h2v _
              (fun n h => absurd h (fun hh => Tag.noConfusion hh))
          · refine ⟨[], ?_⟩
            rw [printer_append_console, hoc.2.2.1, List.append_nil]
          · intro _
            exact ⟨fun _ _ => nameVis_assign stv, fun _ => nameVis_assign stv⟩
          · intro _ _
            exact nameVis_assign stv
    · have hf2 : st.nfo.first = false := by
        revert hf
        cases st.nfo.first <;> simp
      have hr2 : st.nfo.ret = false := by
        revert hr
        cases st.nfo.ret <;> simp
      have hns : namedSeen st := hmode (Or.inl hf2)
      cases hv : (getRO st i).varname with
      | some v =>
        have heq : var_pre_print st i = (1, printer_append st (refC v)) := by
          rw [var_pre_print_inline st i hf2 hr2, hv]
        have hveq : v = theName := by
          rcases h1.2.1 i with hn | hn
          · rw [hv] at hn
            exact Option.noConfusion hn
          · rw [hv] at hn
            exact Option.some.inj hn
        subst hveq
        have hvis : nameVis st := hns ⟨i, hv⟩
        rw [heq]
        refine ⟨covPost_append_ref h1 h2 hvis true, ?_⟩
        intro h0
        have h0' : (1 : Int) = 0 := h0
        omega
      | none =>
        have heq : var_pre_print st i = (0, st) := by
          rw [var_pre_print_inline st i hf2 hr2, hv]
        rw [heq]
        exact ⟨covPost_self h1 h2 true, fun _ => hns⟩

theorem dump_value_cov (mk : RSt → Chunk)
    (hmk : ∀ s n, ¬ (mk s).tag = Tag.ref n)
    (st : RSt) (i : Nat) (b : Bool) (st2 : RSt)
    (h1 : heapOK st) (h2 : rcovOK st) (hin : i < st.objs.length)
    (hmode : st.nfo.first = false ∨ st.nfo.ret = true → namedSeen st)
    (he : dump_value mk st i = some (b, st2)) :
    covPost st b st2 := by
  have hc := var_pre_print_cov st i h1 h2 hin hmode
  cases hvp : var_pre_print st i with
  | mk o stv =>
    rw [hvp] at hc
    have heM : (match var_pre_print st i with
        | (oo, sv) => if oo < 0 then some (false, sv)
          else if oo ≠ 0 then some (true, sv)
          else some (true, newlineIf (printer_append sv (mk sv))))
        = some (b, st2) := he
    rw [hvp] at heM
    have he2 : (if o < 0 then some (false, stv)
        else if o ≠ 0 then some (true, stv)
        else some (true, newlineIf (printer_append stv (mk stv))))
        = some (b, st2) := heM
    split at he2
    · injection he2 with hp
      injection hp with hb hst
      subst hb
      subst hst
      exact ⟨hc.1.1, hc.1.2.1, hc.1.2.2.1, fun hbt => Bool.noConfusion hbt⟩
    · split at he2
      · injection he2 with hp
        injection hp with hb hst
        subst hb
        subst hst
        exact hc.1
      · injection he2 with hp
        injection hp with hb hst
        subst hb
        have c2 : covPost stv true (printer_append stv (mk stv)) :=
          covPost_append_nonref hc.1.1 hc.1.2.1 (mk stv) (hmk stv) true
        have c3 : covPost (printer_append stv (mk stv)) true
            (newlineIf (printer_append stv (mk stv))) :=
          covPost_newlineIf c2.1 c2.2.1
        rw [← hst]
        exact covPost_trans hc.1 (covPost_trans c2 c3)

theorem dump_bool_cov (st : RSt) (i : Nat) (b : Bool) (st2 : RSt)
    (h1 : heapOK st) (h2 : rcovOK st) (hin : i < st.objs.length)
    (hmode : st.nfo.first = false ∨ st.nfo.ret = true → namedSeen st)
    (he : dump_bool st i = some (b, st2)) : covPost st b st2 :=
  dump_value_cov (fun stx => textC (boolText (getRO stx i).py_bool))
    (fun _ n h => Tag.noConfusion h) st i b st2 h1 h2 hin hmode he

theorem dump_int_cov (st : RSt) (i : Nat) (b : Bool) (st2 : RSt)
    (h1 : heapOK st) (h2 : rcovOK st) (hin : i < st.objs.length)
    (hmode : st.nfo.first = false ∨ st.nfo.ret = true → namedSeen st)
    (he : dump_int st i = some (b, st2)) : covPost st b st2 :=
  dump_value_cov (fun stx => textC (intText (getRO stx i).py_int))
    (fun _ n h => Tag.noConfusion h) st i b st2 h1 h2 hin hmode he

theorem dump_str_cov (st : RSt) (i : Nat) (b : Bool) (st2 : RSt)
    (h1 : heapOK st) (h2 : rcovOK st) (hin : i < st.objs.length)
    (hmode : st.nfo.first = false ∨ st.nfo.ret = true → namedSeen st)
    (he : dump_str st i = some (b, st2)) : covPost st b st2 :=
  dump_value_cov (fun stx => textC (getRO stx i).py_str)
    (fun _ n h => Tag.noConfusion h) st i b st2 h1 h2 hin hmode he

theorem dump_float_cov (st : RSt) (i : Nat) (b : Bool) (st2 : RSt)
    (h1 : heapOK st) (h2 : rcovOK st) (hin : i < st.objs.length)
    (hmode : st.nfo.first = false ∨ st.nfo.ret = true → namedSeen st)
    (he : dump_float st i = some (b, st2)) : covPost st b st2 :=
  dump_value_cov (fun stx => textC (floatText (getRO stx i).py_float))
    (fun _ n h => Tag.noConfusion h) st i b st2 h1 h2 hin hmode he

theorem dump_none_cov (st : RSt) (i : Nat) (b : Bool) (st2 : RSt)
    (h1 : heapOK st) (h2 : rcovOK st) (hin : i < st.objs.length)
    (hmode : st.nfo.first = false ∨ st.nfo.ret = true → namedSeen st)
    (he : dump_none st i = some (b, st2)) : covPost st b st2 :=
  dump_value_cov (fun _ => textC "None")
    (fun _ n h => Tag.noConfusion h) st i b st2 h1 h2 hin hmode he

theorem dump_func_cov (st : RSt) (i : Nat) (b : Bool) (st2 : RSt)
    (h1 : heapOK st) (h2 : rcovOK st) (hin : i < st.objs.length)
    (hmode : st.nfo.first = false ∨ st.nfo.ret = true → namedSeen st)
    (he : dump_func st i = some (b, st2)) : covPost st b st2 :=
  dump_value_cov (fun stx => textC (dump_func_text stx i))
    (fun _ n h => Tag.noConfusion h) st i b st2 h1 h2 hin hmode he

/-- The coverage property of the recursive call threaded through the
renderer bodies. -/
def FCov (f : DumpF) : Prop :=
  ∀ st i b st2, heapOK st → rcovOK st →
    (st.nfo.first = false ∨ st.nfo.ret = true → namedSeen st) →
    f st i = some (b, st2) →
    covPost st b st2 ∧
    (b = true → st.nfo.first = true → st.nfo.ret = false →
      (getRO st i).type = PY_WHAT → nameVis st2)

theorem covPost_trans2 {st mid st2 : RSt} {b : Bool}
    (h1 : covPost st b mid) (h2 : covPost mid true st2) : covPost st b st2 := by
  refine ⟨h2.1, h2.2.1, consoleExt_trans h1.2.2.1 h2.2.2.1, ?_⟩
  intro hb
  have c1 := h1.2.2.2 hb
  have c2 := h2.2.2.2 rfl
  exact ⟨fun hn => c2.1 (c1.1 hn), fun hn => c2.2 (c1.2 hn)⟩

theorem covPost_dict_sep {st : RSt} (h1 : heapOK st) (h2 : rcovOK st)
    (onkey : Bool) (rest : List Nat) :
    covPost st true (if onkey = true then printer_append st (textC ": ")
      else if rest ≠ [] then printer_append st (textC ", ") else st) := by
  by_cases hk : onkey = true
  · rw [if_pos hk]
    exact covPost_append_nonref h1 h2 _ (fun n h => Tag.noConfusion h) true
  · rw [if_neg hk]
    by_cases hrest : rest ≠ []
    · rw [if_pos hrest]
      exact covPost_append_nonref h1 h2 _ (fun n h => Tag.noConfusion h) true
    · rw [if_neg hrest]
      exact covPost_self h1 h2 true

theorem dump_iter_loop_cov (f : DumpF)
    (Hff : ∀ st i b st2, f st i = some (b, st2) → dumpFrame st b st2)
    (Hf : FCov f) :
    ∀ (l : List Nat) (st : RSt) (b : Bool) (st2 : RSt),
      heapOK st → rcovOK st → st.nfo.first = false → st.nfo.ret = false →
      namedSeen st →
      dump_iter_loop f st l = some (b, st2) →
      covPost st b st2 := by
  intro l
  induction l with
  | nil =>
    intro st b st2 h1 h2 hf hr hns he
    injection he with hp
    injection hp with hb hst
    subst hst
    exact covPost_self h1 h2 b
  | cons x rest ih =>
    intro st b st2 h1 h2 hf hr hns he
    cases rest with
    | nil =>
      exact (Hf st x b st2 h1 h2 (fun _ => hns) he).1
    | cons y rest2 =>
      have heM : (match f st x with
          | none => none
          | some (false, sx) => some (false, sx)
          | some (true, sx) =>
            dump_iter_loop f (printer_append sx (textC ", ")) (y :: rest2))
          = some (b, st2) := he
      cases hfx : f st x with
      | none =>
        rw [hfx] at heM
        exact Option.noConfusion heM
      | some r =>
        cases r with
        | mk bx stx =>
          rw [hfx] at heM
          cases bx with
          | false =>
            have heq : some (false, stx) = some (b, st2) := heM
            injection heq with hp
            injection hp with hb hst
            subst hb
            rw [← hst]
            exact (Hf st x false stx h1 h2 (fun _ => hns) hfx).1
          | true =>
            have heR : dump_iter_loop f (printer_append stx (textC ", "))
                (y :: rest2) = some (b, st2) := heM
            have hcx := (Hf st x true stx h1 h2 (fun _ => hns) hfx).1
            have hfr := Hff st x true stx hfx
            have c2 : covPost stx true (printer_append stx (textC ", ")) :=
              covPost_append_nonref hcx.1 hcx.2.1 _
                (fun n h => Tag.noConfusion h) true
            have hnsx : namedSeen stx := (hcx.2.2.2 rfl).1 hns
            have hns2 : namedSeen (printer_append stx (textC ", ")) :=
              namedSeen_printer_append hnsx _
            have hf2 : (printer_append stx (textC ", ")).nfo.first = false := by
              rw [printer_append_first, hfr.2.1]
              exact hf
            have hr2 : (printer_append stx (textC ", ")).nfo.ret = false := by
              rw [printer_append_ret, hfr.2.2.1]
              exact hr
            have hrest := ih (printer_append stx (textC ", ")) b st2
              c2.1 c2.2.1 hf2 hr2 hns2 heR
            exact covPost_trans (covPost_trans hcx c2) hrest

theorem dump_iter_cov (f : DumpF)
    (Hff : ∀ st i b st2, f st i = some (b, st2) → dumpFrame st b st2)
    (Hf : FCov f)
    (st : RSt) (i : Nat) (b : Bool) (st2 : RSt)
    (h1 : heapOK st) (h2 : rcovOK st) (hns : namedSeen st)
    (he : dump_iter f st i = some (b, st2)) :
    covPost st b st2 := by
  have heM : (match dump_iter_loop f
      { st with nfo := { st.nfo with first := false, ret := false } }
      ((getRO { st with nfo := { st.nfo with first := false, ret := false } }
        i).py_iter) with
    | none => (none : Option (Bool × RSt))
    | some (bb, stc) => some (bb, { stc with nfo :=
        { stc.nfo with first := st.nfo.first, ret := st.nfo.ret } }))
      = some (b, st2) := he
  cases hL : dump_iter_loop f
      { st with nfo := { st.nfo with first := false, ret := false } }
      ((getRO { st with nfo := { st.nfo with first := false, ret := false } }
        i).py_iter) with
  | none =>
    rw [hL] at heM
    exact Option.noConfusion heM
  | some r =>
    cases r with
    | mk bL stC =>
      rw [hL] at heM
      have heq : some (bL, ({ stC with nfo :=
          { stC.nfo with first := st.nfo.first, ret := st.nfo.ret } } : RSt))
          = some (b, st2) := heM
      injection heq with hp
      injection hp with hb hst
      subst hb
      have h1I : heapOK { st with nfo :=
          { st.nfo with first := false, ret := false } } :=
        heapOK_congr rfl rfl h1
      have h2I : rcovOK { st with nfo :=
          { st.nfo with first := false, ret := false } } :=
        rcovOK_congr rfl rfl rfl h2
      have hnsI : namedSeen { st with nfo :=
          { st.nfo with first := false, ret := false } } :=
        namedSeen_congr rfl rfl rfl hns
      have hcL := dump_iter_loop_cov f Hff Hf _ _ bL stC
        h1I h2I rfl rfl hnsI hL
      have hobjs2 : st2.objs = stC.objs := by rw [← hst]
      have hopers2 : st2.opers = stC.opers := by rw [← hst]
      have hcons2 : st2.console = stC.console := by rw [← hst]
      have hout2 : st2.nfo.out = stC.nfo.out := by rw [← hst]
      have hos2 : st2.nfo.outstack = stC.nfo.outstack := by rw [← hst]
      refine ⟨heapOK_congr hobjs2 hopers2 hcL.1,
        rcovOK_congr hcons2 hout2 hos2 hcL.2.1, ?_, ?_⟩
      · obtain ⟨d, hd⟩ := hcL.2.2.1
        refine ⟨d, ?_⟩
        rw [hcons2]
        exact hd
      · intro hb
        have hcc := hcL.2.2.2 hb
        constructor
        · intro hn
          refine namedSeen_congr hobjs2 hcons2 hout2 ?_
          exact hcc.1 (namedSeen_congr rfl rfl rfl hn)
        · intro hn
          refine nameVis_congr hcons2 hout2 ?_
          exact hcc.2 (nameVis_congr rfl rfl hn)

theorem dump_iter_dict_loop_cov (f : DumpF)
    (Hff : ∀ st i b st2, f st i = some (b, st2) → dumpFrame st b st2)
    (Hf : FCov f) :
    ∀ (l : List Nat) (onkey : Bool) (st : RSt) (b : Bool) (st2 : RSt),
      heapOK st → rcovOK st → st.nfo.first = false → st.nfo.ret = false →
      namedSeen st →
      dump_iter_dict_loop f st onkey l = some (b, st2) →
      covPost st b st2 := by
  intro l
  induction l with
  | nil =>
    intro onkey st b st2 h1 h2 hf hr hns he
    injection he with hp
    injection hp with hb hst
    subst hst
    exact covPost_self h1 h2 b
  | cons x rest ih =>
    intro onkey st b st2 h1 h2 hf hr hns he
    have heM : (match f st x with
        | none => none
        | some (false, sx) => some (false, sx)
        | some (true, sx) =>
          dump_iter_dict_loop f
            (if onkey = true then printer_append sx (textC ": ")
             else if rest ≠ [] then printer_append sx (textC ", ")
             else sx) (!onkey) rest)
        = some (b, st2) := he
    cases hfx : f st x with
    | none =>
      rw [hfx] at heM
      exact Option.noConfusion heM
    | some r =>
      cases r with
      | mk bx stx =>
        rw [hfx] at heM
        cases bx with
        | false =>
          have heq : some (false, stx) = some (b, st2) := heM
          injection heq with hp
          injection hp with hb hst
          subst hb
          rw [← hst]
          exact (Hf st x false stx h1 h2 (fun _ => hns) hfx).1
        | true =>
          have heR : dump_iter_dict_loop f
              (if onkey = true then printer_append stx (textC ": ")
               else if rest ≠ [] then printer_append stx (textC ", ")
               else stx) (!onkey) rest = some (b, st2) := heM
          have hcx := (Hf st x true stx h1 h2 (fun _ => hns) hfx).1
          have hfr := Hff st x true stx hfx
          have hsep := dict_sep_facts onkey rest stx
          have csep : covPost stx true
              (if onkey = true then printer_append stx (textC ": ")
               else if rest ≠ [] then printer_append stx (textC ", ")
               else stx) :=
            covPost_dict_sep hcx.1 hcx.2.1 onkey rest
          have hnsx : namedSeen stx := (hcx.2.2.2 rfl).1 hns
          have hnss : namedSeen
              (if onkey = true then printer_append stx (textC ": ")
               else if rest ≠ [] then printer_append stx (textC ", ")
               else stx) := by
            by_cases hk : onkey = true
            · rw [if_pos hk]
              exact namedSeen_printer_append hnsx _
            · rw [if_neg hk]
              by_cases hrest : rest ≠ []
              · rw [if_pos hrest]
                exact namedSeen_printer_append hnsx _
              · rw [if_neg hrest]
                exact hnsx
          have hf2 : (if onkey = true then printer_append stx (textC ": ")
              else if rest ≠ [] then printer_append stx (textC ", ")
              else stx).nfo.first = false := by
            rw [hsep.2.1, hfr.2.1]
            exact hf
          have hr2 : (if onkey = true then printer_append stx (textC ": ")
              else if rest ≠ [] then printer_append stx (textC ", ")
              else stx).nfo.ret = false := by
            rw [hsep.2.2.1, hfr.2.2.1]
            exact hr
          have hrest2 := ih (!onkey) _ b st2 csep.1 csep.2.1 hf2 hr2 hnss heR
          exact covPost_trans (covPost_trans hcx csep) hrest2

theorem dump_iter_dict_cov (f : DumpF)
    (Hff : ∀ st i b st2, f st i = some (b, st2) → dumpFrame st b st2)
    (Hf : FCov f)
    (st : RSt) (i : Nat) (b : Bool) (st2 : RSt)
    (h1 : heapOK st) (h2 : rcovOK st) (hns : namedSeen st)
    (he : dump_iter_dict f st i = some (b, st2)) :
    covPost st b st2 := by
  have heM : (match dump_iter_dict_loop f
      { st with nfo := { st.nfo with first := false, ret := false } } true
      ((getRO { st with nfo := { st.nfo with first := false, ret := false } }
        i).py_iter) with
    | none => (none : Option (Bool × RSt))
    | some (bb, stc) => some (bb, { stc with nfo :=
        { stc.nfo with first := st.nfo.first, ret := st.nfo.ret } }))
      = some (b, st2) := he
  cases hL : dump_iter_dict_loop f
      { st with nfo := { st.nfo with first := false, ret := false } } true
      ((getRO { st with nfo := { st.nfo with first := false, ret := false } }
        i).py_iter) with
  | none =>
    rw [hL] at heM
    exact Option.noConfusion heM
  | some r =>
    cases r with
    | mk bL stC =>
      rw [hL] at heM
      have heq : some (bL, ({ stC with nfo :=
          { stC.nfo with first := st.nfo.first, ret := st.nfo.ret } } : RSt))
          = some (b, st2) := heM
      injection heq with hp
      injection hp with hb hst
      subst hb
      have h1I : heapOK { st with nfo :=
          { st.nfo with first := false, ret := false } } :=
        heapOK_congr rfl rfl h1
      have h2I : rcovOK { st with nfo :=
          { st.nfo with first := false, ret := false } } :=
        rcovOK_congr rfl rfl rfl h2
      have hnsI : namedSeen { st with nfo :=
          { st.nfo with first := false, ret := false } } :=
        namedSeen_congr rfl rfl rfl hns
      have hcL := dump_iter_dict_loop_cov f Hff Hf _ true _ bL stC
        h1I h2I rfl rfl hnsI hL
      have hobjs2 : st2.objs = stC.objs := by rw [← hst]
      have hopers2 : st2.opers = stC.opers := by rw [← hst]
      have hcons2 : st2.console = stC.console := by rw [← hst]
      have hout2 : st2.nfo.out = stC.nfo.out := by rw [← hst]
      have hos2 : st2.nfo.outstack = stC.nfo.outstack := by rw [← hst]
      refine ⟨heapOK_congr hobjs2 hopers2 hcL.1,
        rcovOK_congr hcons2 hout2 hos2 hcL.2.1, ?_, ?_⟩
      · obtain ⟨d, hd⟩ := hcL.2.2.1
        refine ⟨d, ?_⟩
        rw [hcons2]
        exact hd
      · intro hb
        have hcc := hcL.2.2.2 hb
        constructor
        · intro hn
          refine namedSeen_congr hobjs2 hcons2 hout2 ?_
          exact hcc.1 (namedSeen_congr rfl rfl rfl hn)
        · intro hn
          refine nameVis_congr hcons2 hout2 ?_
          exact hcc.2 (nameVis_congr rfl rfl hn)

theorem dump_container_cov (g : RSt → Nat → Option (Bool × RSt))
    (Hgc : ∀ st i b st2, heapOK st → rcovOK st → namedSeen st →
      g st i = some (b, st2) → covPost st b st2)
    (copen cclose : Chunk)
    (hcopen : ∀ n, ¬ copen.tag = Tag.ref n)
    (hcclose : ∀ n, ¬ cclose.tag = Tag.ref n)
    (st : RSt) (i : Nat) (b : Bool) (st2 : RSt)
    (h1 : heapOK st) (h2 : rcovOK st) (hin : i < st.objs.length)
    (hmode : st.nfo.first = false ∨ st.nfo.ret = true → namedSeen st)
    (he : (match var_pre_print st i with
      | (o, sv) => if o < 0 then some (false, sv)
        else if o ≠ 0 then some (true, sv)
        else match g (printer_append sv copen) i with
          | none => none
          | some (bb, sc) => some (bb, newlineIf (printer_append sc cclose)))
      = some (b, st2)) :
    covPost st b st2 := by
  have hc := var_pre_print_cov st i h1 h2 hin hmode
  cases hv : var_pre_print st i with
  | mk o stv =>
    rw [hv] at hc he
    have he2 : (if o < 0 then some (false, stv)
        else if o ≠ 0 then some (true, stv)
        else match g (printer_append stv copen) i with
          | none => none
          | some (bb, sc) => some (bb, newlineIf (printer_append sc cclose)))
        = some (b, st2) := he
    split at he2
    · injection he2 with hp
      injection hp with hb hst
      subst hb
      rw [← hst]
      exact ⟨hc.1.1, hc.1.2.1, hc.1.2.2.1, fun hbt => Bool.noConfusion hbt⟩
    · split at he2
      · injection he2 with hp
        injection hp with hb hst
        subst hb
        rw [← hst]
        exact hc.1
      · rename_i hlt h0
        cases hg : g (printer_append stv copen) i with
        | none =>
          rw [hg] at he2
          exact Option.noConfusion he2
        | some r =>
          cases r with
          | mk bI stI =>
            rw [hg] at he2
            have heq : some (bI, newlineIf (printer_append stI cclose))
                = some (b, st2) := he2
            injection heq with hp
            injection hp with hb hst
            subst hb
            have ho : o = 0 := not_not.mp h0
            have hnsv : namedSeen stv := hc.2 ho
            have c2 : covPost stv true (printer_append stv copen) :=
              covPost_append_nonref hc.1.1 hc.1.2.1 copen hcopen true
            have hnsA : namedSeen (printer_append stv copen) :=
              namedSeen_printer_append hnsv _
            have hcI := Hgc _ i bI stI c2.1 c2.2.1 hnsA hg
            have c3 : covPost stI true (printer_append stI cclose) :=
              covPost_append_nonref hcI.1 hcI.2.1 cclose hcclose true
            have c4 : covPost (printer_append stI cclose) true
                (newlineIf (printer_append stI cclose)) :=
              covPost_newlineIf c3.1 c3.2.1
            rw [← hst]
            exact covPost_trans hc.1 (covPost_trans c2
              (covPost_trans2 hcI (covPost_trans c3 c4)))

theorem dump_tuple_cov (f : DumpF)
    (Hff : ∀ st i b st2, f st i = some (b, st2) → dumpFrame st b st2)
    (Hf : FCov f)
    (st : RSt) (i : Nat) (b : Bool) (st2 : RSt)
    (h1 : heapOK st) (h2 : rcovOK st) (hin : i < st.objs.length)
    (hmode : st.nfo.first = false ∨ st.nfo.ret = true → namedSeen st)
    (he : dump_tuple f st i = some (b, st2)) : covPost st b st2 :=
  dump_container_cov (dump_iter f)
    (fun stx ix bx stx2 hh1 hh2 hhns hx =>
      dump_iter_cov f Hff Hf stx ix bx stx2 hh1 hh2 hhns hx)
    (textC "(") (textC ")") (fun n h => Tag.noConfusion h)
    (fun n h => Tag.noConfusion h) st i b st2 h1 h2 hin hmode he

theorem dump_list_cov (f : DumpF)
    (Hff : ∀ st i b st2, f st i = some (b, st2) → dumpFrame st b st2)
    (Hf : FCov f)
    (st : RSt) (i : Nat) (b : Bool) (st2 : RSt)
    (h1 : heapOK st) (h2 : rcovOK st) (hin : i < st.objs.length)
    (hmode : st.nfo.first = false ∨ st.nfo.ret = true → namedSeen st)
    (he : dump_list f st i = some (b, st2)) : covPost st b st2 :=
  dump_container_cov (dump_iter f)
    (fun stx ix bx stx2 hh1 hh2 hhns hx =>
      dump_iter_cov f Hff Hf stx ix bx stx2 hh1 hh2 hhns hx)
    (textC "[") (textC "]") (fun n h => Tag.noConfusion h)
    (fun n h => Tag.noConfusion h) st i b st2 h1 h2 hin hmode he

theorem dump_dict_cov (f : DumpF)
    (Hff : ∀ st i b st2, f st i = some (b, st2) → dumpFrame st b st2)
    (Hf : FCov f)
    (st : RSt) (i : Nat) (b : Bool) (st2 : RSt)
    (h1 : heapOK st) (h2 : rcovOK st) (hin : i < st.objs.length)
    (hmode : st.nfo.first = false ∨ st.nfo.ret = true → namedSeen st)
    (he : dump_dict f st i = some (b, st2)) : covPost st b st2 :=
  dump_container_cov (dump_iter_dict f)
    (fun stx ix bx stx2 hh1 hh2 hhns hx =>
      dump_iter_dict_cov f Hff Hf stx ix bx stx2 hh1 hh2 hhns hx)
    (textC "\x7b") (textC "\x7d") (fun n h => Tag.noConfusion h)
    (fun n h => Tag.noConfusion h) st i b st2 h1 h2 hin hmode he

theorem namedSeen_of_nameVis {st : RSt} (h : nameVis st) : namedSeen st :=
  fun _ => h

theorem covPost_appends_refsafe : ∀ (cs : List Chunk) (st : RSt),
    heapOK st → rcovOK st → nameVis st →
    (∀ c ∈ cs, c.tag = Tag.ref theName ∨ ∀ n, ¬ c.tag = Tag.ref n) →
    covPost st true (printer_appends st cs) ∧
    nameVis (printer_appends st cs) := by
  intro cs
  induction cs with
  | nil =>
    intro st h1 h2 hv _
    exact ⟨covPost_self h1 h2 true, hv⟩
  | cons c rest ih =>
    intro st h1 h2 hv hcs
    have hstep : covPost st true (printer_append st c) := by
      rcases hcs c (List.mem_cons_self c rest) with hc | hc
      · refine ⟨heapOK_printer_append h1 c, ?_,
          ⟨[], by rw [printer_append_console, List.append_nil]⟩,
          fun _ => ⟨fun hn => namedSeen_printer_append hn c,
            fun hn => nameVis_printer_append hn c⟩⟩
        refine rcovOK_printer_append h2 c ?_
        intro n hn
        have hn2 : n = theName := by
          rw [hc] at hn
          injection hn with h4
          exact h4.symm
        subst hn2
        rcases hv with h | h
        · exact Or.inl (mem_asgNames_of_mem h)
        · exact Or.inr (mem_asgNames_of_mem h)
      · exact covPost_append_nonref h1 h2 c hc true
    have hv2 : nameVis (printer_append st c) := nameVis_printer_append hv c
    have hrec := ih (printer_append st c) hstep.1 hstep.2.1 hv2
      (fun cc hm => hcs cc (List.mem_cons_of_mem c hm))
    exact ⟨covPost_trans hstep hrec.1, hrec.2⟩

/-- Every statement a `dump_oper` case emits starts with the assignment
of the (uniform) name, so its own references are covered and the name
becomes visible. -/
theorem covPost_assign_then (st : RSt) (h1 : heapOK st) (h2 : rcovOK st)
    (cs : List Chunk)
    (hcs : ∀ c ∈ cs, c.tag = Tag.ref theName ∨ ∀ n, ¬ c.tag = Tag.ref n) :
    covPost st true (printer_appends st (assignC theName :: cs)) ∧
    nameVis (printer_appends st (assignC theName :: cs)) := by
  have c1 : covPost st true (printer_append st (assignC theName)) :=
    covPost_append_nonref h1 h2 _ (fun n h => Tag.noConfusion h) true
  have hv1 : nameVis (printer_append st (assignC theName)) := nameVis_assign st
  have hrec := covPost_appends_refsafe cs (printer_append st (assignC theName))
    c1.1 c1.2.1 hv1 hcs
  exact ⟨covPost_trans c1 hrec.1, hrec.2⟩

theorem dump_oper_init_cov (f : DumpF)
    (Hff : ∀ st i b st2, f st i = some (b, st2) → dumpFrame st b st2)
    (Hf : FCov f)
    (st : RSt) (p : Nat) (vn : String) (b : Bool) (st2 : RSt)
    (h1 : heapOK st) (h2 : rcovOK st) (hvn : vn = theName)
    (he : dump_oper_init f st p vn = some (b, st2)) :
    covPost st b st2 ∧ (b = true → nameVis st2) := by
  subst hvn
  have c1 : covPost st true (printer_append st (assignC theName)) :=
    covPost_append_nonref h1 h2 _ (fun n h => Tag.noConfusion h) true
  have hv1 : nameVis (printer_append st (assignC theName)) := nameVis_assign st
  have heM : (match (getROper (printer_append st (assignC theName))
      p).stack.getLast? with
    | none => (none : Option (Bool × RSt))
    | some arg =>
      match f (printer_append st (assignC theName)) arg with
      | none => none
      | some (false, sx) => some (false, sx)
      | some (true, sx) => some (true, printer_append sx (textC "\n")))
      = some (b, st2) := he
  cases hlast : (getROper (printer_append st (assignC theName))
      p).stack.getLast? with
  | none =>
    rw [hlast] at heM
    exact Option.noConfusion heM
  | some arg =>
    rw [hlast] at heM
    have heM2 : (match f (printer_append st (assignC theName)) arg with
      | none => (none : Option (Bool × RSt))
      | some (false, sx) => some (false, sx)
      | some (true, sx) => some (true, printer_append sx (textC "\n")))
        = some (b, st2) := heM
    cases hf2 : f (printer_append st (assignC theName)) arg with
    | none =>
      rw [hf2] at heM2
      exact Option.noConfusion heM2
    | some r =>
      cases r with
      | mk bf stf =>
        rw [hf2] at heM2
        have hcF := (Hf _ arg bf stf c1.1 c1.2.1
          (fun _ => namedSeen_of_nameVis hv1) hf2).1
        cases bf with
        | false =>
          have heq : some (false, stf) = some (b, st2) := heM2
          injection heq with hp
          injection hp with hb hst
          subst hb
          rw [← hst]
          exact ⟨covPost_trans c1 hcF, fun hbt => Bool.noConfusion hbt⟩
        | true =>
          have heq : some (true, printer_append stf (textC "\n"))
              = some (b, st2) := heM2
          injection heq with hp
          injection hp with hb hst
          subst hb
          rw [← hst]
          have cnl : covPost stf true (printer_append stf (textC "\n")) :=
            covPost_append_nonref hcF.1 hcF.2.1 _
              (fun n h => Tag.noConfusion h) true
          refine ⟨covPost_trans c1 (covPost_trans hcF cnl), ?_⟩
          intro _
          have hvf : nameVis stf := (hcF.2.2.2 rfl).2 hv1
          exact nameVis_printer_append hvf _

theorem dump_oper_reduce_cov (f : DumpF)
    (Hff : ∀ st i b st2, f st i = some (b, st2) → dumpFrame st b st2)
    (Hf : FCov f)
    (st : RSt) (p : Nat) (vn : String) (b : Bool) (st2 : RSt)
    (h1 : heapOK st) (h2 : rcovOK st) (hvn : vn = theName)
    (he : dump_oper_reduce f st p vn = some (b, st2)) :
    covPost st b st2 := by
  subst hvn
  unfold dump_oper_reduce at he
  cases hlast : (getROper st p).stack.getLast? with
  | none =>
    rw [hlast] at he
    exact Option.noConfusion he
  | some args =>
    rw [hlast] at he
    have he2 : (if (getRO st args).type ≠ PY_TUPLE then some (true, st)
      else match f (printer_appends st [assignC theName, refC theName])
          args with
        | none => (none : Option (Bool × RSt))
        | some (false, sx) => some (false, sx)
        | some (true, sx) => some (true, printer_append sx (textC "\n")))
        = some (b, st2) := he
    by_cases hty : (getRO st args).type ≠ PY_TUPLE
    · rw [if_pos hty] at he2
      injection he2 with hp
      injection hp with hb hst
      subst hb
      rw [← hst]
      exact covPost_self h1 h2 true
    · rw [if_neg hty] at he2
      have hemit := covPost_assign_then st h1 h2 [refC theName]
        (fun c hm => Or.inl (by rw [List.mem_singleton.mp hm]; rfl))
      have heM : (match f (printer_appends st [assignC theName, refC theName])
          args with
        | none => (none : Option (Bool × RSt))
        | some (false, sx) => some (false, sx)
        | some (true, sx) => some (true, printer_append sx (textC "\n")))
          = some (b, st2) := he2
      cases hf2 : f (printer_appends st [assignC theName, refC theName])
          args with
      | none =>
        rw [hf2] at heM
        exact Option.noConfusion heM
      | some r =>
        cases r with
        | mk bf stf =>
          rw [hf2] at heM
          have hcF := (Hf _ args bf stf hemit.1.1 hemit.1.2.1
            (fun _ => namedSeen_of_nameVis hemit.2) hf2).1
          cases bf with
          | false =>
            have heq : some (false, stf) = some (b, st2) := heM
            injection heq with hp
            injection hp with hb hst
            subst hb
            rw [← hst]
            exact covPost_trans hemit.1 hcF
          | true =>
            have heq : some (true, printer_append stf (textC "\n"))
                = some (b, st2) := heM
            injection heq with hp
            injection hp with hb hst
            subst hb
            rw [← hst]
            have cnl : covPost stf true (printer_append stf (textC "\n")) :=
              covPost_append_nonref hcF.1 hcF.2.1 _
                (fun n h => Tag.noConfusion h) true
            exact covPost_trans hemit.1 (covPost_trans hcF cnl)

theorem dump_oper_newobj_cov (f : DumpF)
    (Hff : ∀ st i b st2, f st i = some (b, st2) → dumpFrame st b st2)
    (Hf : FCov f)
    (st : RSt) (p : Nat) (vn : String) (b : Bool) (st2 : RSt)
    (h1 : heapOK st) (h2 : rcovOK st) (hvn : vn = theName)
    (he : dump_oper_newobj f st p vn = some (b, st2)) :
    covPost st b st2 := by
  subst hvn
  unfold dump_oper_newobj at he
  cases hlast : (getROper st p).stack.getLast? with
  | none =>
    rw [hlast] at he
    exact Option.noConfusion he
  | some args =>
    rw [hlast] at he
    have he2 : (if (getRO st args).type ≠ PY_TUPLE then some (true, st)
      else match f (printer_appends st
          [assignC theName, refC theName, textC ".__new__(", refC theName,
            textC ", *"]) args with
        | none => (none : Option (Bool × RSt))
        | some (false, sx) => some (false, sx)
        | some (true, sx) => some (true, printer_append sx (textC ")\n")))
        = some (b, st2) := he
    by_cases hty : (getRO st args).type ≠ PY_TUPLE
    · rw [if_pos hty] at he2
      injection he2 with hp
      injection hp with hb hst
      subst hb
      rw [← hst]
      exact covPost_self h1 h2 true
    · rw [if_neg hty] at he2
      have hemit := covPost_assign_then st h1 h2
        [refC theName, textC ".__new__(", refC theName, textC ", *"]
        (by
          intro c hm
          fin_cases hm
          · exact Or.inl rfl
          · exact Or.inr (fun n h => Tag.noConfusion h)
          · exact Or.inl rfl
          · exact Or.inr (fun n h => Tag.noConfusion h))
      have heM : (match f (printer_appends st
          [assignC theName, refC theName, textC ".__new__(", refC theName,
            textC ", *"]) args with
        | none => (none : Option (Bool × RSt))
        | some (false, sx) => some (false, sx)
        | some (true, sx) => some (true, printer_append sx (textC ")\n")))
          = some (b, st2) := he2
      cases hf2 : f (printer_appends st
          [assignC theName, refC theName, textC ".__new__(", refC theName,
            textC ", *"]) args with
      | none =>
        rw [hf2] at heM
        exact Option.noConfusion heM
      | some r =>
        cases r with
        | mk bf stf =>
          rw [hf2] at heM
          have hcF := (Hf _ args bf stf hemit.1.1 hemit.1.2.1
            (fun _ => namedSeen_of_nameVis hemit.2) hf2).1
          cases bf with
          | false =>
            have heq : some (false, stf) = some (b, st2) := heM
            injection heq with hp
            injection hp with hb hst
            subst hb
            rw [← hst]
            exact covPost_trans hemit.1 hcF
          | true =>
            have heq : some (true, printer_append stf (textC ")\n"))
                = some (b, st2) := heM
            injection heq with hp
            injection hp with hb hst
            subst hb
            rw [← hst]
            have cnl : covPost stf true (printer_append stf (textC ")\n")) :=
              covPost_append_nonref hcF.1 hcF.2.1 _
                (fun n h => Tag.noConfusion h) true
            exact covPost_trans hemit.1 (covPost_trans hcF cnl)

theorem dump_oper_cov (f : DumpF)
    (Hff : ∀ st i b st2, f st i = some (b, st2) → dumpFrame st b st2)
    (Hf : FCov f)
    (st : RSt) (p : Nat) (vn : String) (b : Bool) (st2 : RSt)
    (h1 : heapOK st) (h2 : rcovOK st) (hvn : vn = theName)
    (he : dump_oper f st p vn = some (b, st2)) :
    covPost st b st2 ∧
    (b = true → (getROper st p).op = OP_FAKE_INIT → nameVis st2) := by
  unfold dump_oper at he
  by_cases hop1 : (getROper st p).op = OP_FAKE_INIT
  · rw [if_pos hop1] at he
    have h := dump_oper_init_cov f Hff Hf st p vn b st2 h1 h2 hvn he
    exact ⟨h.1, fun hb _ => h.2 hb⟩
  · rw [if_neg hop1] at he
    by_cases hop2 : (getROper st p).op = OP_REDUCE
    · rw [if_pos hop2] at he
      exact ⟨dump_oper_reduce_cov f Hff Hf st p vn b st2 h1 h2 hvn he,
        fun _ hop => absurd hop hop1⟩
    · rw [if_neg hop2] at he
      by_cases hop3 : (getROper st p).op = OP_NEWOBJ
      · rw [if_pos hop3] at he
        exact ⟨dump_oper_newobj_cov f Hff Hf st p vn b st2 h1 h2 hvn he,
          fun _ hop => absurd hop hop1⟩
      · rw [if_neg hop3] at he
        injection he with hp
        injection hp with hb hst
        subst hb
        rw [← hst]
        exact ⟨⟨h1, h2, consoleExt_refl st, fun hbt => Bool.noConfusion hbt⟩,
          fun hbt => Bool.noConfusion hbt⟩

theorem rcovOK_congr_obuf {st st2 : RSt} (hc : st2.console = st.console)
    (hob : obuf st2 = obuf st) (hos : st2.nfo.outstack = st.nfo.outstack)
    (h : rcovOK st) : rcovOK st2 := by
  refine ⟨?_, ?_⟩
  · rw [hc, hob]
    exact h.1
  · intro q hq
    rw [hc]
    refine h.2 q ?_
    rw [← hos]
    exact hq

theorem mem_of_mem_dropLast {α : Type} : ∀ {l : List α} {a : α},
    a ∈ l.dropLast → a ∈ l := by
  intro l
  induction l with
  | nil =>
    intro a h
    cases h
  | cons x rest ih =>
    intro a h
    cases rest with
    | nil => cases h
    | cons y rest2 =>
      have h2 : a ∈ x :: (y :: rest2).dropLast := h
      rcases List.mem_cons.mp h2 with h3 | h3
      · exact List.mem_cons.mpr (Or.inl h3)
      · exact List.mem_cons.mpr (Or.inr (ih h3))

theorem dump_opers_loop_cov (f : DumpF)
    (Hff : ∀ st i b st2, f st i = some (b, st2) → dumpFrame st b st2)
    (Hf : FCov f) (vn : String) (hvn : vn = theName) :
    ∀ (l : List Nat) (st : RSt) (b : Bool) (st2 : RSt),
      heapOK st → rcovOK st → nameVis st →
      dump_opers_loop f st vn l = some (b, st2) →
      covPost st b st2 ∧ (b = true → nameVis st2) := by
  intro l
  induction l with
  | nil =>
    intro st b st2 h1 h2 hv he
    injection he with hp
    injection hp with hb hst
    subst hst
    exact ⟨covPost_self h1 h2 b, fun _ => hv⟩
  | cons p rest ih =>
    intro st b st2 h1 h2 hv he
    have heM : (match dump_oper f st p vn with
      | none => (none : Option (Bool × RSt))
      | some (false, sx) => some (false, sx)
      | some (true, sx) => dump_opers_loop f sx vn rest)
        = some (b, st2) := he
    cases ho : dump_oper f st p vn with
    | none =>
      rw [ho] at heM
      exact Option.noConfusion heM
    | some r =>
      cases r with
      | mk bo sto =>
        rw [ho] at heM
        have hO := dump_oper_cov f Hff Hf st p vn bo sto h1 h2 hvn ho
        cases bo with
        | false =>
          have heq : some (false, sto) = some (b, st2) := heM
          injection heq with hp2
          injection hp2 with hb hst
          subst hb
          rw [← hst]
          exact ⟨hO.1, fun hbt => Bool.noConfusion hbt⟩
        | true =>
          have heR : dump_opers_loop f sto vn rest = some (b, st2) := heM
          have hvO : nameVis sto := (hO.1.2.2.2 rfl).2 hv
          have hrec := ih sto b st2 hO.1.1 hO.1.2.1 hvO heR
          exact ⟨covPost_trans hO.1 hrec.1, hrec.2⟩

theorem dump_what_glue_cov (pre : List Chunk) (vn : String) (rr retb : Bool)
    (stL : RSt) (b : Bool) (st2 : RSt)
    (h1 : heapOK stL) (h2 : rcovOK stL) (hvn : vn = theName)
    (hvis : retb = true → nameVis stL)
    (hpre : coveredB [] (stL.console ++ pre) = true)
    (he : dump_what_glue pre vn rr retb stL = some (b, st2)) :
    heapOK st2 ∧ rcovOK st2 ∧ st2.console = stL.console ∧
    (b = true → nameVis st2) := by
  subst hvn
  cases retb with
  | false =>
    have he2 : some (false, ({ stL with nfo :=
        { stL.nfo with first := true, ret := rr } } : RSt))
        = some (b, st2) := he
    injection he2 with hp
    injection hp with hb hst
    subst hb
    rw [← hst]
    exact ⟨heapOK_congr rfl rfl h1, rcovOK_congr rfl rfl rfl h2, rfl,
      fun hbt => Bool.noConfusion hbt⟩
  | true =>
    have hvL : nameVis stL := hvis rfl
    have he2 : glue_out pre (if rr = true then
        printer_appends { stL with nfo := { stL.nfo with first := true, ret := rr } } [textC "return ", refC theName, textC "\n"]
      else { stL with nfo := { stL.nfo with first := true, ret := rr } })
        = some (b, st2) := he
    have h1F : heapOK ({ stL with nfo :=
        { stL.nfo with first := true, ret := rr } } : RSt) :=
      heapOK_congr rfl rfl h1
    have h2F : rcovOK ({ stL with nfo :=
        { stL.nfo with first := true, ret := rr } } : RSt) :=
      rcovOK_congr rfl rfl rfl h2
    have hvF : nameVis ({ stL with nfo :=
        { stL.nfo with first := true, ret := rr } } : RSt) :=
      nameVis_congr rfl rfl hvL
    by_cases hrr : rr = true
    · rw [if_pos hrr] at he2
      have hem := covPost_appends_refsafe
        [textC "return ", refC theName, textC "\n"]
        ({ stL with nfo := { stL.nfo with first := true, ret := rr } } : RSt)
        h1F h2F hvF
        (by
          intro c hm
          fin_cases hm
          · exact Or.inr (fun n h => Tag.noConfusion h)
          · exact Or.inl rfl
          · exact Or.inr (fun n h => Tag.noConfusion h))
      have hAcons : (printer_appends { stL with nfo :=
          { stL.nfo with first := true, ret := rr } }
          [textC "return ", refC theName, textC "\n"]).console
          = stL.console := printer_appends_console _ _
      have hA1 := hem.1.1
      have hA2 := hem.1.2.1
      have hAv := hem.2
      cases hgout : (printer_appends { stL with nfo :=
          { stL.nfo with first := true, ret := rr } }
          [textC "return ", refC theName, textC "\n"]).nfo.out with
      | none =>
        have he3 : some (true, printer_appends { stL with nfo :=
            { stL.nfo with first := true, ret := rr } }
            [textC "return ", refC theName, textC "\n"]) = some (b, st2) := by
          rw [← he2]
          unfold glue_out
          rw [hgout]
        injection he3 with hp
        injection hp with hb hst
        subst hb
        rw [← hst]
        exact ⟨hA1, hA2, hAcons, fun _ => hAv⟩
      | some buf =>
        have hob : obuf (printer_appends { stL with nfo :=
            { stL.nfo with first := true, ret := rr } }
            [textC "return ", refC theName, textC "\n"]) = buf :=
          obuf_eq_of_out hgout
        by_cases hlen : chunksLen buf > 0
        · have he3 : some (true, ({ (printer_appends { stL with nfo := { stL.nfo with first := true, ret := rr } } [textC "return ", refC theName, textC "\n"]) with nfo := { (printer_appends { stL with nfo := { stL.nfo with first := true, ret := rr } } [textC "return ", refC theName, textC "\n"]).nfo with out := some (pre ++ buf) } } : RSt)) = some (b, st2) := by
            rw [← he2]
            unfold glue_out
            rw [hgout]
            show some (true, _) = (if chunksLen buf > 0 then some (true, _) else some (true, _))
            rw [if_pos hlen]
          injection he3 with hp
          injection hp with hb hst
          subst hb
          rw [← hst]
          refine ⟨heapOK_congr rfl rfl hA1, ?_, hAcons, ?_⟩
          · refine ⟨?_, ?_⟩
            · show coveredB [] ((printer_appends { stL with nfo := { stL.nfo with first := true, ret := rr } } [textC "return ", refC theName, textC "\n"]).console ++ (some (pre ++ buf)).getD []) = true
              have hcb : coveredB [] ((printer_appends { stL with nfo := { stL.nfo with first := true, ret := rr } } [textC "return ", refC theName, textC "\n"]).console ++ buf) = true := by
                have hx := hA2.1
                rw [hob] at hx
                exact hx
              have hcp : coveredB [] ((printer_appends { stL with nfo := { stL.nfo with first := true, ret := rr } } [textC "return ", refC theName, textC "\n"]).console ++ pre) = true := by
                rw [hAcons]
                exact hpre
              have hins := coveredB_insert hcb hcp
              show coveredB [] (_ ++ (pre ++ buf)) = true
              rw [← List.append_assoc]
              exact hins
            · intro q hq
              exact hA2.2 q hq
          · intro _
            rcases hAv with h | h
            · exact Or.inl h
            · refine Or.inr ?_
              show assignC theName ∈ (some (pre ++ buf)).getD []
              show assignC theName ∈ pre ++ buf
              refine List.mem_append.mpr (Or.inr ?_)
              rw [hob] at h
              exact h
        · have he3 : some (true, printer_appends { stL with nfo :=
              { stL.nfo with first := true, ret := rr } }
              [textC "return ", refC theName, textC "\n"]) = some (b, st2) := by
            rw [← he2]
            unfold glue_out
            rw [hgout]
            show some (true, _) = (if chunksLen buf > 0 then some (true, _) else some (true, _))
            rw [if_neg hlen]
          injection he3 with hp
          injection hp with hb hst
          subst hb
          rw [← hst]
          exact ⟨hA1, hA2, hAcons, fun _ => hAv⟩
    · rw [if_neg hrr] at he2
      cases hgout : ({ stL with nfo :=
          { stL.nfo with first := true, ret := rr } } : RSt).nfo.out with
      | none =>
        have he3 : some (true, ({ stL with nfo :=
            { stL.nfo with first := true, ret := rr } } : RSt))
            = some (b, st2) := by
          rw [← he2]
          unfold glue_out
          rw [hgout]
        injection he3 with hp
        injection hp with hb hst
        subst hb
        rw [← hst]
        exact ⟨h1F, h2F, rfl, fun _ => hvF⟩
      | some buf =>
        have hob : obuf ({ stL with nfo :=
            { stL.nfo with first := true, ret := rr } } : RSt) = buf :=
          obuf_eq_of_out hgout
        by_cases hlen : chunksLen buf > 0
        · have he3 : some (true, ({ ({ stL with nfo := { stL.nfo with first := true, ret := rr } } : RSt) with nfo := { ({ stL with nfo := { stL.nfo with first := true, ret := rr } } : RSt).nfo with out := some (pre ++ buf) } } : RSt)) = some (b, st2) := by
            rw [← he2]
            unfold glue_out
            rw [hgout]
            show some (true, _) = (if chunksLen buf > 0 then some (true, _) else some (true, _))
            rw [if_pos hlen]
          injection he3 with hp
          injection hp with hb hst
          subst hb
          rw [← hst]
          refine ⟨heapOK_congr rfl rfl h1F, ?_, rfl, ?_⟩
          · refine ⟨?_, ?_⟩
            · show coveredB [] (stL.console ++ (some (pre ++ buf)).getD []) = true
              have hcb : coveredB [] (stL.console ++ buf) = true := by
                have hx := h2F.1
                rw [hob] at hx
                exact hx
              have hins := coveredB_insert hcb hpre
              show coveredB [] (_ ++ (pre ++ buf)) = true
              rw [← List.append_assoc]
              exact hins
            · intro q hq
              exact h2F.2 q hq
          · intro _
            rcases hvF with h | h
            · exact Or.inl h
            · refine Or.inr ?_
              show assignC theName ∈ (some (pre ++ buf)).getD []
              show assignC theName ∈ pre ++ buf
              refine List.mem_append.mpr (Or.inr ?_)
              rw [hob] at h
              exact h
        · have he3 : some (true, ({ stL with nfo :=
              { stL.nfo with first := true, ret := rr } } : RSt))
              = some (b, st2) := by
            rw [← he2]
            unfold glue_out
            rw [hgout]
            show some (true, _) = (if chunksLen buf > 0 then some (true, _) else some (true, _))
            rw [if_neg hlen]
          injection he3 with hp
          injection hp with hb hst
          subst hb
          rw [← hst]
          exact ⟨h1F, h2F, rfl, fun _ => hvF⟩

/-- The statement path of `dump_what`: the history is emitted into a
fresh buffer whose first statement (the FAKE_INIT of the What) opens
with the assignment of the uniform name, so on success the declaration
is visible and the glued buffer stays covered. -/
theorem dump_what_main_cov (f : DumpF)
    (Hff : ∀ st i b st2, f st i = some (b, st2) → dumpFrame st b st2)
    (Hf : FCov f)
    (st : RSt) (i : Nat) (b : Bool) (st2 : RSt)
    (h1 : heapOK st) (h2 : rcovOK st)
    (hty : (getRO st i).type = PY_WHAT)
    (he : dump_what_main f st i = some (b, st2)) :
    covPost st b st2 ∧ (b = true → nameVis st2) := by
  have hin : i < st.objs.length := by
    refine getRO_lt_of_type ?_
    rw [hty]
    intro hq
    exact PyType.noConfusion hq
  unfold dump_what_main at he
  cases hov : obj_varname st i with
  | mk vn st0 =>
    rw [hov] at he
    have hoc := obj_varname_cov h1 i hin
    rw [hov] at hoc
    have hvn : vn = theName := hoc.1
    have h10 : heapOK st0 := hoc.2.1
    have h20 : rcovOK st0 :=
      rcovOK_congr hoc.2.2.1 hoc.2.2.2.1 hoc.2.2.2.2.1 h2
    have hty0 : (getRO st0 i).type = PY_WHAT := by
      rw [(hoc.2.2.2.2.2.2.2 i).1]
      exact hty
    have he2 : (match printer_getout st0 with
      | (pre, st1) =>
        match dump_opers_loop f { st1 with nfo := { st1.nfo with out := none, ret := false, first := false } } vn (getRO { st1 with nfo := { st1.nfo with out := none, ret := false, first := false } } i).py_what with
        | none => (none : Option (Bool × RSt))
        | some (retb, stL) => dump_what_glue pre vn st1.nfo.ret retb stL)
        = some (b, st2) := he
    cases hgo : printer_getout st0 with
    | mk pre st1 =>
      rw [hgo] at he2
      have hpg := printer_getout_more st0
      rw [hgo] at hpg
      have hcons1 : st1.console = st0.console := hpg.1
      have hob1 : obuf st1 = obuf st0 := hpg.2.1
      have hos1 : st1.nfo.outstack = st0.nfo.outstack := hpg.2.2.1
      have hobjs1 : st1.objs = st0.objs := hpg.2.2.2.1
      have hopers1 : st1.opers = st0.opers := hpg.2.2.2.2.1
      have hpre0 : pre = obuf st0 := hpg.2.2.2.2.2
      have h11 : heapOK st1 := heapOK_congr hobjs1 hopers1 h10
      have h21 : rcovOK st1 := rcovOK_congr_obuf hcons1 hob1 hos1 h20
      have hty1 : (getRO st1 i).type = PY_WHAT := by
        have hg : getRO st1 i = getRO st0 i := by
          show st1.objs.getD i default = st0.objs.getD i default
          rw [hobjs1]
        rw [hg]
        exact hty0
      have he3 : (match dump_opers_loop f { st1 with nfo := { st1.nfo with out := none, ret := false, first := false } } vn (getRO { st1 with nfo := { st1.nfo with out := none, ret := false, first := false } } i).py_what with
        | none => (none : Option (Bool × RSt))
        | some (retb, stL) => dump_what_glue pre vn st1.nfo.ret retb stL)
          = some (b, st2) := he2
      have h1I : heapOK ({ st1 with nfo := { st1.nfo with out := none, ret := false, first := false } } : RSt) :=
        heapOK_congr rfl rfl h11
      have h2I : rcovOK ({ st1 with nfo := { st1.nfo with out := none, ret := false, first := false } } : RSt) := by
        refine ⟨?_, ?_⟩
        · show coveredB [] (st1.console ++ ([] : List Chunk)) = true
          rw [List.append_nil]
          exact coveredB_prefix h21.1
        · intro q hq
          exact h21.2 q hq
      have htyI : (getRO ({ st1 with nfo := { st1.nfo with out := none, ret := false, first := false } } : RSt) i).type = PY_WHAT := hty1
      obtain ⟨p, prest, hpwI, hop⟩ := h1I.2.2 i htyI
      cases hLp : dump_opers_loop f { st1 with nfo := { st1.nfo with out := none, ret := false, first := false } } vn (getRO { st1 with nfo := { st1.nfo with out := none, ret := false, first := false } } i).py_what with
      | none =>
        rw [hLp] at he3
        exact Option.noConfusion he3
      | some r =>
        cases r with
        | mk retb stL =>
          rw [hLp] at he3
          have he4 : dump_what_glue pre vn st1.nfo.ret retb stL
              = some (b, st2) := he3
          rw [hpwI] at hLp
          have hLp2 : (match dump_oper f { st1 with nfo := { st1.nfo with out := none, ret := false, first := false } } p vn with
            | none => (none : Option (Bool × RSt))
            | some (false, sx) => some (false, sx)
            | some (true, sx) => dump_opers_loop f sx vn prest)
              = some (retb, stL) := hLp
          have hcL : covPost ({ st1 with nfo := { st1.nfo with out := none, ret := false, first := false } } : RSt) retb stL ∧ (retb = true → nameVis stL) := by
            cases hO : dump_oper f { st1 with nfo := { st1.nfo with out := none, ret := false, first := false } } p vn with
            | none =>
              rw [hO] at hLp2
              exact Option.noConfusion hLp2
            | some r2 =>
              cases r2 with
              | mk bo sto =>
                rw [hO] at hLp2
                have hOc := dump_oper_cov f Hff Hf _ p vn bo sto h1I h2I hvn hO
                cases bo with
                | false =>
                  have heq2 : some (false, sto) = some (retb, stL) := hLp2
                  injection heq2 with hp2
                  injection hp2 with hb2 hst2
                  rw [← hb2, ← hst2]
                  exact ⟨hOc.1, fun hbt => Bool.noConfusion hbt⟩
                | true =>
                  have heR : dump_opers_loop f sto vn prest
                      = some (retb, stL) := hLp2
                  have hvO : nameVis sto := hOc.2 rfl hop
                  have hrec := dump_opers_loop_cov f Hff Hf vn hvn prest sto
                    retb stL hOc.1.1 hOc.1.2.1 hvO heR
                  exact ⟨covPost_trans hOc.1 hrec.1, hrec.2⟩
          have hpre1 : coveredB [] (st1.console ++ pre) = true := by
            rw [hcons1, hpre0]
            exact h20.1
          obtain ⟨d, hdcons⟩ := hcL.1.2.2.1
          have hpreL : coveredB [] (stL.console ++ pre) = true := by
            have hcd : coveredB [] (st1.console ++ d) = true := by
              have hx := hcL.1.2.1.1
              rw [hdcons] at hx
              exact coveredB_prefix hx
            have hins := coveredB_insert hpre1 hcd
            rw [hdcons]
            exact hins
          have hglue := dump_what_glue_cov pre vn st1.nfo.ret retb stL b st2
            hcL.1.1 hcL.1.2.1 hvn hcL.2 hpreL he4
          refine ⟨⟨hglue.1, hglue.2.1, ?_, ?_⟩, hglue.2.2.2⟩
          · refine ⟨d, ?_⟩
            rw [hglue.2.2.1, hdcons, hcons1, hoc.2.2.1]
          · intro hb
            constructor
            · intro _
              exact namedSeen_of_nameVis (hglue.2.2.2 hb)
            · intro _
              exact hglue.2.2.2 hb

/-- `prepend_obj` hoists an unnamed inline What into its own statement:
the statement buffer is drained to the console (carrying the
declaration emitted by the What's FAKE_INIT), so the name reference then
appended inline is covered by the console. -/
theorem prepend_obj_cov (f : DumpF)
    (Hff : ∀ st i b st2, f st i = some (b, st2) → dumpFrame st b st2)
    (Hf : FCov f)
    (st : RSt) (i : Nat) (b : Bool) (st2 : RSt)
    (h1 : heapOK st) (h2 : rcovOK st)
    (hty : (getRO st i).type = PY_WHAT)
    (he : prepend_obj f st i = some (b, st2)) :
    covPost st b st2 := by
  unfold prepend_obj at he
  by_cases hfst : st.nfo.first = true
  · rw [if_pos hfst] at he
    injection he with hp
    injection hp with hb hst
    subst hb
    rw [← hst]
    exact covPost_self h1 h2 false
  · rw [if_neg hfst] at he
    have he2 : (match f { st with nfo := { st.nfo with outstack := st.nfo.outstack ++ [st.nfo.out], first := true, ret := false, out := none } } i with
      | none => (none : Option (Bool × RSt))
      | some (bb, stm) =>
        if bb then
          match (getRO (prepend_restore st.nfo.ret stm) i).varname with
          | some v =>
            some (true, printer_append (prepend_restore st.nfo.ret stm)
              (refC v))
          | none => none
        else some (false, prepend_restore st.nfo.ret stm))
        = some (b, st2) := he
    have h1P : heapOK ({ st with nfo := { st.nfo with outstack := st.nfo.outstack ++ [st.nfo.out], first := true, ret := false, out := none } } : RSt) :=
      heapOK_congr rfl rfl h1
    have h2P : rcovOK ({ st with nfo := { st.nfo with outstack := st.nfo.outstack ++ [st.nfo.out], first := true, ret := false, out := none } } : RSt) := by
      refine ⟨?_, ?_⟩
      · show coveredB [] (st.console ++ ([] : List Chunk)) = true
        rw [List.append_nil]
        exact coveredB_prefix h2.1
      · intro q hq
        have hq2 : q ∈ st.nfo.outstack ++ [st.nfo.out] := hq
        show coveredB [] (st.console ++ q.getD []) = true
        rcases List.mem_append.mp hq2 with hm | hm
        · exact h2.2 q hm
        · have hqe : q = st.nfo.out := List.mem_singleton.mp hm
          rw [hqe]
          exact h2.1
    have hmode : ({ st with nfo := { st.nfo with outstack := st.nfo.outstack ++ [st.nfo.out], first := true, ret := false, out := none } } : RSt).nfo.first = false ∨ ({ st with nfo := { st.nfo with outstack := st.nfo.outstack ++ [st.nfo.out], first := true, ret := false, out := none } } : RSt).nfo.ret = true → namedSeen ({ st with nfo := { st.nfo with outstack := st.nfo.outstack ++ [st.nfo.out], first := true, ret := false, out := none } } : RSt) := by
      intro hor
      rcases hor with hx | hx
      · exact Bool.noConfusion hx
      · exact Bool.noConfusion hx
    cases hfm : f { st with nfo := { st.nfo with outstack := st.nfo.outstack ++ [st.nfo.out], first := true, ret := false, out := none } } i with
    | none =>
      rw [hfm] at he2
      exact Option.noConfusion he2
    | some r =>
      cases r with
      | mk bb stm =>
        rw [hfm] at he2
        have he3 : (if bb = true then
            match (getRO (prepend_restore st.nfo.ret stm) i).varname with
            | some v =>
              some (true, printer_append (prepend_restore st.nfo.ret stm)
                (refC v))
            | none => (none : Option (Bool × RSt))
          else some (false, prepend_restore st.nfo.ret stm))
            = some (b, st2) := he2
        have hFcPair := Hf _ i bb stm h1P h2P hmode hfm
        have hFc := hFcPair.1
        have hF := Hff _ i bb stm hfm
        have hstk : stm.nfo.outstack
            = st.nfo.outstack ++ [st.nfo.out] := hF.1
        have hrst := prepend_restore_facts st.nfo.ret stm
        have hrout : (prepend_restore st.nfo.ret stm).nfo.out
            = st.nfo.out := by
          rw [hrst.2.2.2, hstk, List.getLast?_concat]
          rfl
        have hdf := printer_drain_free_facts stm
        have h1D : heapOK (printer_drain_free stm) :=
          heapOK_printer_drain_free hFc.1
        have h2D : rcovOK (printer_drain_free stm) :=
          rcovOK_printer_drain_free hFc.2.1
        have h1R : heapOK (prepend_restore st.nfo.ret stm) :=
          heapOK_congr rfl rfl h1D
        have h2R : rcovOK (prepend_restore st.nfo.ret stm) := by
          refine ⟨?_, ?_⟩
          · have hobR : obuf (prepend_restore st.nfo.ret stm)
                = st.nfo.out.getD [] := by
              unfold obuf
              rw [hrout]
            show coveredB [] ((prepend_restore st.nfo.ret stm).console
              ++ obuf (prepend_restore st.nfo.ret stm)) = true
            rw [hobR]
            have hqin : (st.nfo.out : Option (List Chunk))
                ∈ (printer_drain_free stm).nfo.outstack := by
              rw [hdf.2.2.1, hstk]
              exact List.mem_append.mpr (Or.inr (List.mem_singleton.mpr rfl))
            exact h2D.2 st.nfo.out hqin
          · intro q hq
            have hq2 : q ∈ (printer_drain_free stm).nfo.outstack :=
              mem_of_mem_dropLast hq
            exact h2D.2 q hq2
        have hext1 : consoleExt st stm := hFc.2.2.1
        have hext2 : consoleExt stm (prepend_restore st.nfo.ret stm) :=
          hdf.2.2.2.2.2
        have hextR : consoleExt st (prepend_restore st.nfo.ret stm) :=
          consoleExt_trans hext1 hext2
        cases bb with
        | false =>
          rw [if_neg (by decide)] at he3
          injection he3 with hp
          injection hp with hb hst
          subst hb
          rw [← hst]
          exact ⟨h1R, h2R, hextR, fun hbt => Bool.noConfusion hbt⟩
        | true =>
          rw [if_pos rfl] at he3
          have hvm : nameVis stm := hFcPair.2 rfl rfl rfl hty
          have hvD : assignC theName ∈ (printer_drain_free stm).console := by
            rcases hvm with hx | hx
            · obtain ⟨d2, hd2⟩ := hdf.2.2.2.2.2
              rw [hd2]
              exact List.mem_append.mpr (Or.inl hx)
            · exact nameVis_console_drain_free hx
          cases hvnm : (getRO (prepend_restore st.nfo.ret stm) i).varname with
          | none =>
            rw [hvnm] at he3
            exact Option.noConfusion he3
          | some v =>
            rw [hvnm] at he3
            injection he3 with hp
            injection hp with hb hst
            subst hb
            rw [← hst]
            have hveq : v = theName := by
              rcases h1R.2.1 i with hn | hn
              · rw [hvnm] at hn
                exact Option.noConfusion hn
              · rw [hvnm] at hn
                exact Option.some.inj hn
            subst hveq
            have hvDR : assignC theName
                ∈ (prepend_restore st.nfo.ret stm).console := hvD
            have hvfinal : nameVis (printer_append
                (prepend_restore st.nfo.ret stm) (refC theName)) := by
              refine Or.inl ?_
              rw [printer_append_console]
              exact hvDR
            refine ⟨heapOK_printer_append h1R _, ?_, ?_, ?_⟩
            · refine rcovOK_printer_append h2R _ ?_
              intro n hn
              have hn2 : n = theName := by
                have h3 : Tag.ref theName = Tag.ref n := hn
                injection h3 with h4
                exact h4.symm
              subst hn2
              exact Or.inl (mem_asgNames_of_mem hvDR)
            · obtain ⟨dE, hdE⟩ := hextR
              refine ⟨dE, ?_⟩
              rw [printer_append_console]
              exact hdE
            · intro _
              exact ⟨fun _ => namedSeen_of_nameVis hvfinal, fun _ => hvfinal⟩

theorem dump_what_cov (f : DumpF)
    (Hff : ∀ st i b st2, f st i = some (b, st2) → dumpFrame st b st2)
    (Hf : FCov f)
    (st : RSt) (i : Nat) (b : Bool) (st2 : RSt)
    (h1 : heapOK st) (h2 : rcovOK st)
    (hty : (getRO st i).type = PY_WHAT)
    (hmode : st.nfo.first = false ∨ st.nfo.ret = true → namedSeen st)
    (he : dump_what f st i = some (b, st2)) :
    covPost st b st2 ∧
    (b = true → st.nfo.first = true → st.nfo.ret = false → nameVis st2) := by
  unfold dump_what at he
  by_cases hfst : st.nfo.first = true
  · rw [if_neg (not_not_intro hfst)] at he
    cases hvn : (getRO st i).varname with
    | some v =>
      rw [hvn] at he
      have heS : (if st.nfo.ret = true then
          some (true, printer_appends (printer_append st (textC "return "))
            [textC "return ", refC v, textC "\n"])
        else dump_what_main f st i) = some (b, st2) := he
      by_cases hrr : st.nfo.ret = true
      · rw [if_pos hrr] at heS
        have hveq : v = theName := by
          rcases h1.2.1 i with hn | hn
          · rw [hvn] at hn
            exact Option.noConfusion hn
          · rw [hvn] at hn
            exact Option.some.inj hn
        subst hveq
        have hns : namedSeen st := hmode (Or.inr hrr)
        have hvis : nameVis st := hns ⟨i, hvn⟩
        injection heS with hp
        injection hp with hb hst
        subst hb
        rw [← hst]
        have c1 : covPost st true (printer_append st (textC "return ")) :=
          covPost_append_nonref h1 h2 _ (fun n h => Tag.noConfusion h) true
        have hv1 : nameVis (printer_append st (textC "return ")) :=
          nameVis_printer_append hvis _
        have hem := covPost_appends_refsafe
          [textC "return ", refC theName, textC "\n"]
          (printer_append st (textC "return ")) c1.1 c1.2.1 hv1
          (by
            intro c hm
            fin_cases hm
            · exact Or.inr (fun n h => Tag.noConfusion h)
            · exact Or.inl rfl
            · exact Or.inr (fun n h => Tag.noConfusion h))
        refine ⟨covPost_trans c1 hem.1, ?_⟩
        intro _ _ hr0
        rw [hrr] at hr0
        exact Bool.noConfusion hr0
      · rw [if_neg hrr] at heS
        have hm := dump_what_main_cov f Hff Hf st i b st2 h1 h2 hty heS
        exact ⟨hm.1, fun hb _ _ => hm.2 hb⟩
    | none =>
      rw [hvn] at he
      have hm := dump_what_main_cov f Hff Hf st i b st2 h1 h2 hty he
      exact ⟨hm.1, fun hb _ _ => hm.2 hb⟩
  · rw [if_pos hfst] at he
    have hf0 : st.nfo.first = false := by
      revert hfst
      cases st.nfo.first <;> simp
    cases hvn : (getRO st i).varname with
    | some v =>
      rw [hvn] at he
      injection he with hp
      injection hp with hb hst
      subst hb
      rw [← hst]
      have hveq : v = theName := by
        rcases h1.2.1 i with hn | hn
        · rw [hvn] at hn
          exact Option.noConfusion hn
        · rw [hvn] at hn
          exact Option.some.inj hn
      subst hveq
      have hns : namedSeen st := hmode (Or.inl hf0)
      have hvis : nameVis st := hns ⟨i, hvn⟩
      refine ⟨covPost_append_ref h1 h2 hvis true, ?_⟩
      intro _ hfx _
      rw [hf0] at hfx
      exact Bool.noConfusion hfx
    | none =>
      rw [hvn] at he
      refine ⟨prepend_obj_cov f Hff Hf st i b st2 h1 h2 hty he, ?_⟩
      intro _ hfx _
      rw [hf0] at hfx
      exact Bool.noConfusion hfx

/-- The master coverage property of the renderer: `dump_obj` preserves
the heap facts, the reference-coverage invariant and the console prefix,
keeps the declaration visible, and after a successful statement-level
dump of a What the declaration is visible. -/
theorem dump_obj_cov : ∀ (fuel : Nat), FCov (dump_obj fuel) := by
  intro fuel
  induction fuel with
  | zero =>
    intro st i b st2 _ _ _ he
    exact Option.noConfusion he
  | succ n ih =>
    intro st i b st2 h1 h2 hmode he
    have he2 : dump_obj_body (dump_obj n) st i = some (b, st2) := he
    have Hff := dump_obj_frame n
    unfold dump_obj_body at he2
    split at he2
    · rename_i hty
      have hin : i < st.objs.length := by
        refine getRO_lt_of_type ?_
        rw [hty]
        intro hq
        exact PyType.noConfusion hq
      refine ⟨dump_bool_cov st i b st2 h1 h2 hin hmode he2, ?_⟩
      intro _ _ _ htyW
      rw [hty] at htyW
      exact PyType.noConfusion htyW
    · rename_i hty
      have hin : i < st.objs.length := by
        refine getRO_lt_of_type ?_
        rw [hty]
        intro hq
        exact PyType.noConfusion hq
      refine ⟨dump_int_cov st i b st2 h1 h2 hin hmode he2, ?_⟩
      intro _ _ _ htyW
      rw [hty] at htyW
      exact PyType.noConfusion htyW
    · rename_i hty
      have hin : i < st.objs.length := by
        refine getRO_lt_of_type ?_
        rw [hty]
        intro hq
        exact PyType.noConfusion hq
      refine ⟨dump_str_cov st i b st2 h1 h2 hin hmode he2, ?_⟩
      intro _ _ _ htyW
      rw [hty] at htyW
      exact PyType.noConfusion htyW
    · rename_i hty
      have hin : i < st.objs.length := by
        refine getRO_lt_of_type ?_
        rw [hty]
        intro hq
        exact PyType.noConfusion hq
      refine ⟨dump_float_cov st i b st2 h1 h2 hin hmode he2, ?_⟩
      intro _ _ _ htyW
      rw [hty] at htyW
      exact PyType.noConfusion htyW
    · rename_i hty
      have hin : i < st.objs.length := by
        refine getRO_lt_of_type ?_
        rw [hty]
        intro hq
        exact PyType.noConfusion hq
      refine ⟨dump_none_cov st i b st2 h1 h2 hin hmode he2, ?_⟩
      intro _ _ _ htyW
      rw [hty] at htyW
      exact PyType.noConfusion htyW
    · rename_i hty
      have hin : i < st.objs.length := by
        refine getRO_lt_of_type ?_
        rw [hty]
        intro hq
        exact PyType.noConfusion hq
      refine ⟨dump_tuple_cov (dump_obj n) Hff ih st i b st2 h1 h2 hin
        hmode he2, ?_⟩
      intro _ _ _ htyW
      rw [hty] at htyW
      exact PyType.noConfusion htyW
    · rename_i hty
      have hin : i < st.objs.length := by
        refine getRO_lt_of_type ?_
        rw [hty]
        intro hq
        exact PyType.noConfusion hq
      refine ⟨dump_list_cov (dump_obj n) Hff ih st i b st2 h1 h2 hin
        hmode he2, ?_⟩
      intro _ _ _ htyW
      rw [hty] at htyW
      exact PyType.noConfusion htyW
    · rename_i hty
      have hin : i < st.objs.length := by
        refine getRO_lt_of_type ?_
        rw [hty]
        intro hq
        exact PyType.noConfusion hq
      refine ⟨dump_dict_cov (dump_obj n) Hff ih st i b st2 h1 h2 hin
        hmode he2, ?_⟩
      intro _ _ _ htyW
      rw [hty] at htyW
      exact PyType.noConfusion htyW
    · rename_i hty
      have hin : i < st.objs.length := by
        refine getRO_lt_of_type ?_
        rw [hty]
        intro hq
        exact PyType.noConfusion hq
      refine ⟨dump_func_cov st i b st2 h1 h2 hin hmode he2, ?_⟩
      intro _ _ _ htyW
      rw [hty] at htyW
      exact PyType.noConfusion htyW
    · rename_i hty
      have hW := dump_what_cov (dump_obj n) Hff ih st i b st2 h1 h2 hty
        hmode he2
      exact ⟨hW.1, fun hb hf hr _ => hW.2 hb hf hr⟩
    · injection he2 with hp
      injection hp with hb hst
      subst hb
      rw [← hst]
      exact ⟨⟨h1, h2, consoleExt_refl st, fun hbt => Bool.noConfusion hbt⟩,
        fun hbt => Bool.noConfusion hbt⟩

theorem namedSeen_printer_drain {st : RSt} (h : namedSeen st) :
    namedSeen (printer_drain st) := by
  intro hex
  obtain ⟨x, hx⟩ := hex
  have hg : getRO (printer_drain st) x = getRO st x := by
    show (printer_drain st).objs.getD x default = st.objs.getD x default
    rw [(printer_drain_console_obuf st).2.2.2.1]
  rw [hg] at hx
  exact nameVis_printer_drain (h ⟨x, hx⟩)

theorem stackElemState_cov (st : RSt) (n : String) (len : Nat)
    (h1 : heapOK st) (h2 : rcovOK st) (hns : namedSeen st) :
    heapOK (stackElemState st n len) ∧ rcovOK (stackElemState st n len) ∧
    namedSeen (stackElemState st n len) ∧
    consoleExt st (stackElemState st n len) := by
  have hA1 := heapOK_printer_append h1 (textC ("## " ++ n ++ "["
    ++ toString len ++ "] " ++ (if len = 0 then "TOP" else "") ++ "\n"))
  have hA2 := rcovOK_printer_append h2 (textC ("## " ++ n ++ "["
    ++ toString len ++ "] " ++ (if len = 0 then "TOP" else "") ++ "\n"))
    (fun m hm => absurd hm (fun hh => Tag.noConfusion hh))
  have hA3 := namedSeen_printer_append hns (textC ("## " ++ n ++ "["
    ++ toString len ++ "] " ++ (if len = 0 then "TOP" else "") ++ "\n"))
  have hB1 := heapOK_printer_drain hA1
  have hB2 := rcovOK_printer_drain hA2
  have hB3 := namedSeen_printer_drain hA3
  refine ⟨heapOK_congr rfl rfl hB1, rcovOK_congr rfl rfl rfl hB2,
    namedSeen_congr rfl rfl rfl hB3, ?_⟩
  obtain ⟨d, hd⟩ := (printer_drain_console_obuf (printer_append st
    (textC ("## " ++ n ++ "[" ++ toString len ++ "] "
      ++ (if len = 0 then "TOP" else "") ++ "\n")))).2.2.1
  refine ⟨d, ?_⟩
  show (printer_drain (printer_append st
    (textC ("## " ++ n ++ "[" ++ toString len ++ "] "
      ++ (if len = 0 then "TOP" else "") ++ "\n")))).console
    = st.console ++ d
  rw [hd, printer_append_console]

theorem dump_stack_loop_cov (fuel : Nat) (n : String) :
    ∀ (l : List Nat) (len : Nat) (st : RSt) (b : Bool) (st2 : RSt),
      heapOK st → rcovOK st → namedSeen st →
      dump_stack_loop fuel st n l len = some (b, st2) →
      heapOK st2 ∧ rcovOK st2 ∧ consoleExt st st2 ∧
      (b = true → namedSeen st2) := by
  intro l
  induction l with
  | nil =>
    intro len st b st2 h1 h2 hns he
    injection he with hp
    injection hp with hb hst
    subst hst
    exact ⟨h1, h2, consoleExt_refl st, fun _ => hns⟩
  | cons i rest ih =>
    intro len st b st2 h1 h2 hns he
    have he2 : (match dump_obj fuel (stackElemState st n (len - 1)) i with
        | none => (none : Option (Bool × RSt))
        | some (false, sx) => some (false, sx)
        | some (true, sx) =>
          dump_stack_loop fuel (printer_drain sx) n rest (len - 1))
        = some (b, st2) := he
    have hC := stackElemState_cov st n (len - 1) h1 h2 hns
    cases hfx : dump_obj fuel (stackElemState st n (len - 1)) i with
    | none =>
      rw [hfx] at he2
      exact Option.noConfusion he2
    | some r =>
      cases r with
      | mk bD stD =>
        rw [hfx] at he2
        have hD := (dump_obj_cov fuel (stackElemState st n (len - 1)) i bD stD
          hC.1 hC.2.1 (fun _ => hC.2.2.1) hfx).1
        cases bD with
        | false =>
          have heq : some (false, stD) = some (b, st2) := he2
          injection heq with hp
          injection hp with hb hst
          subst hb
          rw [← hst]
          exact ⟨hD.1, hD.2.1,
            consoleExt_trans hC.2.2.2 hD.2.2.1,
            fun hbt => Bool.noConfusion hbt⟩
        | true =>
          have heR : dump_stack_loop fuel (printer_drain stD) n rest (len - 1)
              = some (b, st2) := he2
          have hnsD : namedSeen stD := (hD.2.2.2 rfl).1 hC.2.2.1
          have hD1 := heapOK_printer_drain hD.1
          have hD2 := rcovOK_printer_drain hD.2.1
          have hnsD2 := namedSeen_printer_drain hnsD
          have hrec := ih (len - 1) (printer_drain stD) b st2 hD1 hD2 hnsD2 heR
          refine ⟨hrec.1, hrec.2.1, ?_, hrec.2.2.2⟩
          refine consoleExt_trans (consoleExt_trans
            (consoleExt_trans hC.2.2.2 hD.2.2.1)
            (printer_drain_console_obuf stD).2.2.1) hrec.2.2.1

theorem dump_stack_cov (fuel : Nat) (st : RSt) (stack : List Nat) (n : String)
    (b : Bool) (st2 : RSt)
    (h1 : heapOK st) (h2 : rcovOK st) (hns : namedSeen st)
    (he : dump_stack fuel st stack n = some (b, st2)) :
    heapOK st2 ∧ rcovOK st2 ∧ consoleExt st st2 := by
  have he2 : dump_stack_loop fuel
      (printer_append (if stack.length = 0 then
          printer_append st (textC ("## stack " ++ n ++ " empty\n"))
        else st)
        (textC ("## Stack " ++ n ++ " start, len "
          ++ toString stack.length ++ "\n")))
      n stack stack.length = some (b, st2) := he
  by_cases hl : stack.length = 0
  · rw [if_pos hl] at he2
    have hA1 := heapOK_printer_append h1
      (textC ("## stack " ++ n ++ " empty\n"))
    have hA2 := rcovOK_printer_append h2
      (textC ("## stack " ++ n ++ " empty\n"))
      (fun m hm => absurd hm (fun hh => Tag.noConfusion hh))
    have hA3 := namedSeen_printer_append hns
      (textC ("## stack " ++ n ++ " empty\n"))
    have hB1 := heapOK_printer_append hA1
      (textC ("## Stack " ++ n ++ " start, len "
        ++ toString stack.length ++ "\n"))
    have hB2 := rcovOK_printer_append hA2
      (textC ("## Stack " ++ n ++ " start, len "
        ++ toString stack.length ++ "\n"))
      (fun m hm => absurd hm (fun hh => Tag.noConfusion hh))
    have hB3 := namedSeen_printer_append hA3
      (textC ("## Stack " ++ n ++ " start, len "
        ++ toString stack.length ++ "\n"))
    have hrec := dump_stack_loop_cov fuel n stack stack.length _ b st2
      hB1 hB2 hB3 he2
    refine ⟨hrec.1, hrec.2.1, ?_⟩
    obtain ⟨d, hd⟩ := hrec.2.2.1
    refine ⟨d, ?_⟩
    rw [hd, printer_append_console, printer_append_console]
  · rw [if_neg hl] at he2
    have hB1 := heapOK_printer_append h1
      (textC ("## Stack " ++ n ++ " start, len "
        ++ toString stack.length ++ "\n"))
    have hB2 := rcovOK_printer_append h2
      (textC ("## Stack " ++ n ++ " start, len "
        ++ toString stack.length ++ "\n"))
      (fun m hm => absurd hm (fun hh => Tag.noConfusion hh))
    have hB3 := namedSeen_printer_append hns
      (textC ("## Stack " ++ n ++ " start, len "
        ++ toString stack.length ++ "\n"))
    have hrec := dump_stack_loop_cov fuel n stack stack.length _ b st2
      hB1 hB2 hB3 he2
    refine ⟨hrec.1, hrec.2.1, ?_⟩
    obtain ⟨d, hd⟩ := hrec.2.2.1
    refine ⟨d, ?_⟩
    rw [hd, printer_append_console]

/-- The render state `dump_machine` starts from. -/
def machineRSt (pvm : PMState) (nfo : PrintInfo) : RSt :=
  { objs := pvm.objs, opers := pvm.opers, nfo := { nfo with verbose := true, outstack := [] }, console := [] }

/-- The machine-level coverage fact, under the heap facts the
interpreter guarantees. -/
theorem dump_machine_cov (fuel : Nat) (pvm : PMState) (nfo : PrintInfo)
    (b : Bool) (st : RSt)
    (hmemo : ∀ x, x < pvm.objs.length → (getObj pvm x).memo_id = UT64MAX)
    (hvn : ∀ x, x < pvm.objs.length → (getObj pvm x).varname = none)
    (hwhat : ∀ x, x < pvm.objs.length → (getObj pvm x).type = PY_WHAT →
      ∃ p rest, (getObj pvm x).py_what = p :: rest ∧
        (getOper pvm p).op = OP_FAKE_INIT)
    (hout : nfo.out = none)
    (he : dump_machine fuel pvm nfo = some (b, st)) :
    coveredB [] st.console = true := by
  have h10 : heapOK (machineRSt pvm nfo) := by
    refine ⟨?_, ?_, ?_⟩
    · intro x hx
      exact hmemo x hx
    · intro x
      by_cases hx : x < pvm.objs.length
      · exact Or.inl (hvn x hx)
      · have hd : getO pvm.objs x = default := getD_of_le _ _ _ (by omega)
        refine Or.inl ?_
        show (getO pvm.objs x).varname = none
        rw [hd]
        rfl
    · intro x hty
      by_cases hx : x < pvm.objs.length
      · exact hwhat x hx hty
      · exfalso
        have hd : getO pvm.objs x = default := getD_of_le _ _ _ (by omega)
        have hty2 : (getO pvm.objs x).type = PY_WHAT := hty
        rw [hd] at hty2
        exact PyType.noConfusion hty2
  have h20 : rcovOK (machineRSt pvm nfo) := by
    refine ⟨?_, ?_⟩
    · show coveredB [] (([] : List Chunk) ++ nfo.out.getD []) = true
      rw [hout]
      rfl
    · intro q hq
      cases hq
  have hns0 : namedSeen (machineRSt pvm nfo) := by
    intro hex
    obtain ⟨x, hx⟩ := hex
    exfalso
    by_cases hxl : x < pvm.objs.length
    · have hn := hvn x hxl
      have hx2 : (getObj pvm x).varname = some theName := hx
      rw [hn] at hx2
      exact Option.noConfusion hx2
    · have hd : getO pvm.objs x = default := getD_of_le _ _ _ (by omega)
      have hx2 : (getO pvm.objs x).varname = some theName := hx
      rw [hd] at hx2
      exact Option.noConfusion hx2
  have he2 : (if nfo.stack = true then
      match dump_stack fuel (machineRSt pvm nfo) pvm.stack "VM" with
      | none => (none : Option (Bool × RSt))
      | some (bb, sx) => some (bb, printer_drain_free sx)
    else some (true, printer_drain_free (machineRSt pvm nfo)))
      = some (b, st) := he
  by_cases hstk : nfo.stack = true
  · rw [if_pos hstk] at he2
    cases hds : dump_stack fuel (machineRSt pvm nfo) pvm.stack "VM" with
    | none =>
      rw [hds] at he2
      exact Option.noConfusion he2
    | some r =>
      cases r with
      | mk bb sx =>
        rw [hds] at he2
        injection he2 with hp
        injection hp with hb hst
        have hsc := dump_stack_cov fuel _ pvm.stack "VM" bb sx h10 h20 hns0 hds
        rw [← hst]
        exact coveredB_prefix (rcovOK_printer_drain_free hsc.2.1).1
  · rw [if_neg hstk] at he2
    injection he2 with hp
    injection hp with hb hst
    rw [← hst]
    exact coveredB_prefix (rcovOK_printer_drain_free h20).1

/-- C5: in every pseudocode output the renderer produces from an
interpreter run, every variable-name reference chunk on the console is
preceded (textually earlier on the console) by an assignment chunk
`<name> = ` declaring that same name. -/
theorem claim_C5_refs_covered (fuel : Nat) (ops : List DecodedOp)
    (verbose : Bool) (b : Bool) (st : RSt)
    (he : renderRun fuel ops verbose = some (b, st)) :
    coveredB [] st.console = true := by
  unfold renderRun at he
  cases hi : interp ops with
  | none =>
    rw [hi] at he
    exact Option.noConfusion he
  | some r =>
    rw [hi] at he
    have hwf := StateWF_interp ops hi
    cases r with
    | mk rb rs =>
      have he3 : dump_machine fuel { rs with recurse := rs.recurse + 1 }
          (print_info_init verbose) = some (b, st) := he
      have hfresh : freshInv rs := hwf.2.2.2.2.2.1
      refine dump_machine_cov fuel { rs with recurse := rs.recurse + 1 }
        (print_info_init verbose) b st ?_ ?_ ?_ rfl he3
      · intro x hx
        exact (hfresh x hx).2
      · intro x hx
        exact (hfresh x hx).1
      · intro x hx hty
        have hw := hwf.1 x hx hty
        cases hpw : (getObj rs x).py_what with
        | nil => exact absurd hpw hw.1
        | cons p rest =>
          refine ⟨p, rest, hpw, ?_⟩
          have hwh : whatHead rs x = p := by
            unfold whatHead
            rw [hpw]
            rfl
          have hop := hw.2.2.1
          rw [hwh] at hop
          exact hop

def c5wR : Bool × RSt := (renderRun 100 c3ops false).getD default

/-- Witness: the REDUCE example renders to a console that contains name
references, and the scan confirms each one is preceded by its
declaration. -/
theorem claim_C5_witness :
    refC theName ∈ c5wR.2.console ∧ coveredB [] c5wR.2.console = true :=
  ⟨by decide, claim_C5_refs_covered 100 c3ops false c5wR.1 c5wR.2 rfl⟩
